import Mathlib

/-!
# 3D_Hospital: procedural mesh generators

A shallow embedding of the mesh generation routines of the repository
(`src/bezier.h`, `src/cylindertree.h`, `src/half_sphere.h`, `src/curved_pipe.h`,
`src/projectHospital/*.h`) and theorems about them.

Conventions of the embedding

* `float` / `double` values live in an arbitrary linearly ordered field `α`
  (exact arithmetic); the trigonometric functions and the value of
  `glm::pi<float>()` are parameters of the builders, the decimal constants
  `PI` / `pi` of the sources are the rationals the sources spell out.
* `int` values are `Int`, loop counters that only run upwards from `0` are `Nat`.
* `std::vector` is `List`; `push_back` appends at the end.
* A `for (i = 0; i < n; ++i)` loop is `forLoop n body s`, the body receiving the counter
  and the state of the mutable variables.
* Reading an array out of range is undefined in C++; such reads return `none`.
-/

namespace Hospital

/-! ## Loops -/

/-- The loop `for (i = 0; i < n; ++i) s = body i s`. -/
def forLoop {σ : Type} (n : Nat) (body : Nat → σ → σ) (s : σ) : σ :=
  (List.range n).foldl (fun acc i => body i acc) s

/-- The loop `for (i = 0; i < n; ++i)` whose body may fail (an out-of-range read). -/
def forLoopM {σ : Type} (n : Nat) (body : Nat → σ → Option σ) (s : σ) : Option σ :=
  (List.range n).foldlM (fun acc i => body i acc) s

/-- C integer division: truncation towards zero. -/
def cdiv (a b : Int) : Int := Int.tdiv a b

/-! ## Binomial coefficient (`BezierCurve::nCr`, `Bezier::nCr`, `Bezier3::nCr`) -/

/-- The symmetry step of `nCr`: `if (r > n / 2) r = n - r;`. -/
def nCrReduce (n r : Int) : Int :=
  if r > cdiv n 2 then n - r else r

/-- One iteration of the loop of `nCr`, for the counter value `i`:
`ans *= n - r + i; ans /= i;`. -/
def nCrStep (n r : Int) (i : Int) (ans : Int) : Int :=
  cdiv (ans * (n - r + i)) i

/-- The value of `ans` after the first `k` iterations (`i = 1 .. k`) of the loop of `nCr`,
where `r` is the already reduced value. -/
def nCrLoop (n r : Int) (k : Nat) : Int :=
  forLoop k (fun j ans => nCrStep n r ((j : Int) + 1) ans) 1

/-- The function `long long nCr(int n, int r)` over unbounded integers:
```
if (r > n / 2) r = n - r;
long long ans = 1;
for (i = 1; i <= r; i++) { ans *= n - r + i; ans /= i; }
return ans;
```
The three copies in the repository are textually the same. -/
def nCr (n r : Int) : Int :=
  let r := nCrReduce n r
  nCrLoop n r r.toNat

/-! ### `nCr` with `long long` arithmetic -/

/-- The value of a `long long` after an arithmetic result `x` wraps modulo `2^64` (two's
complement). -/
def wrap64 (x : Int) : Int := (x + 2 ^ 63) % 2 ^ 64 - 2 ^ 63

/-- One iteration of the loop of `nCr` with `long long` arithmetic, for the counter value `i`:
`ans *= n - r + i; ans /= i;`, the product wrapping modulo `2^64`. -/
def nCr64Step (n r : Int) (i : Int) (ans : Int) : Int :=
  cdiv (wrap64 (ans * (n - r + i))) i

/-- The value of `ans` after the first `k` iterations of the loop of `nCr` with `long long`
arithmetic, where `r` is the already reduced value. -/
def nCr64Loop (n r : Int) (k : Nat) : Int :=
  forLoop k (fun j ans => nCr64Step n r ((j : Int) + 1) ans) 1

/-- The function `long long nCr(int n, int r)` with its `long long` arithmetic wrapping modulo
`2^64`: the value a caller of `nCr` receives. -/
def nCr64 (n r : Int) : Int :=
  let r := nCrReduce n r
  nCr64Loop n r r.toNat

/-! ## Mesh buffers -/

/-- The `std::vector` members a builder fills: the attribute arrays `coordinates`, `normals`,
`texCoords`, the index buffer `indices` and the interleaved buffer `vertices`.  A class that has
no `texCoords` (or no `coordinates` / `normals`) member leaves that field empty.  Every object is
built once, by its constructor, from empty vectors. -/
structure Mesh (α : Type) where
  coordinates : List α := []
  normals : List α := []
  texCoords : List α := []
  indices : List Int := []
  vertices : List α := []

/-- A `glm::vec3`. -/
structure Vec3 (α : Type) where
  x : α
  y : α
  z : α

/-- The conversion of an `unsigned int` value (`0 ≤ u < 2^32`) to `int`. -/
def toInt32 (u : Nat) : Int :=
  if u < 2 ^ 31 then (u : Int) else (u : Int) - 2 ^ 32

/-! ## Bernstein evaluator -/

section Evaluator
variable {α : Type} [LinearOrderedField α]

/-- The function `BezierCurve::BezierCurveFN(double t, float xy[2], GLfloat ctrlpoints[], int L)`
of `src/bezier.h`; the result is the pair written to `xy`.
```
double y = 0; double x = 0;
t = t > 1.0 ? 1.0 : t;
for (int i = 0; i < L + 1; i++) {
    long long ncr = nCr(L, i);
    double oneMinusTpow = pow(1 - t, double(L - i));
    double tPow = pow(t, double(i));
    double coef = oneMinusTpow * tPow * ncr;
    x += coef * ctrlpoints[i * 3];
    y += coef * ctrlpoints[(i * 3) + 1];
}
xy[0] = float(x); xy[1] = float(y);
```
`pow` with a non-negative integral exponent is the monoid power (`pow(0, 0) = 1`); `ncr` is the
`long long` that `nCr` returns (`nCr64`), converted to `double` in the product. -/
def BezierCurve.BezierCurveFN (t : α) (ctrlpoints : List α) (L : Int) : Option (α × α) :=
  let t := if t > 1 then 1 else t
  forLoopM (L + 1).toNat (fun i (xy : α × α) => do
    let ncr := nCr64 L i
    let oneMinusTpow := (1 - t) ^ (L - i).toNat
    let tPow := t ^ i
    let coef := oneMinusTpow * tPow * (ncr : α)
    let px ← ctrlpoints[i * 3]?
    let py ← ctrlpoints[i * 3 + 1]?
    pure (xy.1 + coef * px, xy.2 + coef * py)) (0, 0)

/-- The function `Bezier::BezierCurve` of `src/projectHospital/bezier.h` (same text as
`BezierCurve::BezierCurveFN`). -/
def Bezier.BezierCurve (t : α) (ctrlpoints : List α) (L : Int) : Option (α × α) :=
  let t := if t > 1 then 1 else t
  forLoopM (L + 1).toNat (fun i (xy : α × α) => do
    let ncr := nCr64 L i
    let oneMinusTpow := (1 - t) ^ (L - i).toNat
    let tPow := t ^ i
    let coef := oneMinusTpow * tPow * (ncr : α)
    let px ← ctrlpoints[i * 3]?
    let py ← ctrlpoints[i * 3 + 1]?
    pure (xy.1 + coef * px, xy.2 + coef * py)) (0, 0)

/-- The function `Bezier3::BezierCurve` (both `src/projectHospital/bezier.h` and
`src/projectHospital/bezier3..h`; same text as `BezierCurve::BezierCurveFN`). -/
def Bezier3.BezierCurve (t : α) (ctrlpoints : List α) (L : Int) : Option (α × α) :=
  let t := if t > 1 then 1 else t
  forLoopM (L + 1).toNat (fun i (xy : α × α) => do
    let ncr := nCr64 L i
    let oneMinusTpow := (1 - t) ^ (L - i).toNat
    let tPow := t ^ i
    let coef := oneMinusTpow * tPow * (ncr : α)
    let px ← ctrlpoints[i * 3]?
    let py ← ctrlpoints[i * 3 + 1]?
    pure (xy.1 + coef * px, xy.2 + coef * py)) (0, 0)

end Evaluator

/-! ## Surface-of-revolution builders -/

section Revolution
variable {α : Type} [LinearOrderedField α]

/-- The member `const double pi = 3.14159265389;` of the three Bezier classes. -/
def bezierPi : α := 314159265389 / 100000000000

/-- The member `const int nt = 40;` of the three Bezier classes. -/
def bezierNt : Nat := 40

/-- The member `const int ntheta = 20;` of the three Bezier classes. -/
def bezierNtheta : Nat := 20

/-! ### `BezierCurve` (`src/bezier.h`) -/

/-- Body of the sector loop `for (j = 0; j <= ntheta; ++j)` of `BezierCurve::hollowBezier`; the
state is `theta` and the vectors.
```
double cosa = cos(theta); double sina = sin(theta);
z = r * cosa; x = r * sina;
coordinates.push_back(x); coordinates.push_back(y); coordinates.push_back(z);
nx = (x - 0) * lengthInv; ny = (y - y) * lengthInv; nz = (z - 0) * lengthInv;
normals.push_back(nx); normals.push_back(ny); normals.push_back(nz);
s = (float)j / ntheta; t1 = (float)i / nt;
texCoords.push_back(s); texCoords.push_back(t1);
theta += dtheta;
``` -/
def BezierCurve.sectorBody (sin cos : α → α) (nt ntheta : Nat) (dtheta r y lengthInv : α)
    (i j : Nat) (st : α × Mesh α) : α × Mesh α :=
  let theta := st.1
  let m := st.2
  let cosa := cos theta
  let sina := sin theta
  let z := r * cosa
  let x := r * sina
  let m := { m with coordinates := m.coordinates ++ [x, y, z] }
  let nx := (x - 0) * lengthInv
  let ny := (y - y) * lengthInv
  let nz := (z - 0) * lengthInv
  let m := { m with normals := m.normals ++ [nx, ny, nz] }
  let s := (j : α) / (ntheta : α)
  let t1 := (i : α) / (nt : α)
  let m := { m with texCoords := m.texCoords ++ [s, t1] }
  (theta + dtheta, m)

/-- Body of the ring loop `for (i = 0; i <= nt; ++i)` of `BezierCurve::hollowBezier`; the state
is `t` and the vectors.
```
BezierCurveFN(t, xy, ctrlpoints, L);
r = xy[0]; y = xy[1]; theta = 0; t += dt; lengthInv = 1.0 / r;
for (j = 0; j <= ntheta; ++j) { ... }
``` -/
def BezierCurve.ringBody (sin cos : α → α) (nt ntheta : Nat) (ctrlpoints : List α) (L : Int)
    (dtheta dt : α) (i : Nat) (st : α × Mesh α) : Option (α × Mesh α) := do
  let t := st.1
  let m := st.2
  let xy ← BezierCurve.BezierCurveFN t ctrlpoints L
  let r := xy.1
  let y := xy.2
  let theta : α := 0
  let t := t + dt
  let lengthInv := 1 / r
  let st := forLoop (ntheta + 1)
    (BezierCurve.sectorBody sin cos nt ntheta dtheta r y lengthInv i) (theta, m)
  pure (t, st.2)

/-- Body of `for (int j = 0; j < ntheta; ++j, ++k1, ++k2)` in `BezierCurve::hollowBezier`; the
state is `k1`, `k2` and the vectors.
```
indices.push_back(k1); indices.push_back(k2); indices.push_back(k1 + 1);
indices.push_back(k1 + 1); indices.push_back(k2); indices.push_back(k2 + 1);
``` -/
def BezierCurve.indexInner (_j : Nat) (st : Int × Int × Mesh α) : Int × Int × Mesh α :=
  let k1 := st.1
  let k2 := st.2.1
  let m := st.2.2
  let m := { m with indices := m.indices ++ [k1, k2, k1 + 1] }
  let m := { m with indices := m.indices ++ [k1 + 1, k2, k2 + 1] }
  (k1 + 1, k2 + 1, m)

/-- Body of `for (int i = 0; i < nt; ++i)` in `BezierCurve::hollowBezier`:
`k1 = i * (ntheta + 1); k2 = k1 + ntheta + 1;` followed by the loop over `j`. -/
def BezierCurve.indexOuter (ntheta : Nat) (i : Nat) (m : Mesh α) : Mesh α :=
  let k1 : Int := (i : Int) * ((ntheta : Int) + 1)
  let k2 : Int := k1 + (ntheta : Int) + 1
  (forLoop ntheta BezierCurve.indexInner (k1, k2, m)).2.2

/-- Body of the interleaving loop `for (int i = 0; i < count; i += 3)` of
`BezierCurve::hollowBezier`, for its `k`-th iteration (`i = 3 * k`).
```
vertices.push_back(coordinates[i]); ... coordinates[i + 1] ... coordinates[i + 2]
vertices.push_back(normals[i]); ... normals[i + 1] ... normals[i + 2]
size_t texIndex = i / 3 * 2;
vertices.push_back(texCoords[texIndex]); vertices.push_back(texCoords[texIndex + 1]);
``` -/
def BezierCurve.interleaveBody (k : Nat) (m : Mesh α) : Option (Mesh α) := do
  let i := 3 * k
  let c0 ← m.coordinates[i]?
  let c1 ← m.coordinates[i + 1]?
  let c2 ← m.coordinates[i + 2]?
  let n0 ← m.normals[i]?
  let n1 ← m.normals[i + 1]?
  let n2 ← m.normals[i + 2]?
  let texIndex := i / 3 * 2
  let t0 ← m.texCoords[texIndex]?
  let t1 ← m.texCoords[texIndex + 1]?
  pure { m with vertices := m.vertices ++ [c0, c1, c2, n0, n1, n2, t0, t1] }

/-- The function `BezierCurve::hollowBezier(GLfloat ctrlpoints[], int L)` of `src/bezier.h`, up to
the filling of `vertices` (the OpenGL calls that follow do not touch the vectors).  The members
`nt`, `ntheta` are parameters; the class fixes them to `40` and `20`
(`BezierCurve.construct`).
```
const float dtheta = 2 * pi / ntheta;
float t = 0; float dt = 1.0 / nt;
for (i = 0; i <= nt; ++i) { ... }
for (int i = 0; i < nt; ++i) { ... }
size_t count = coordinates.size();
for (int i = 0; i < count; i += 3) { ... }
``` -/
def BezierCurve.hollowBezier (sin cos : α → α) (nt ntheta : Nat) (ctrlpoints : List α) (L : Int) :
    Option (Mesh α) := do
  let dtheta : α := 2 * bezierPi / (ntheta : α)
  let dt : α := 1 / (nt : α)
  let st ← forLoopM (nt + 1) (BezierCurve.ringBody sin cos nt ntheta ctrlpoints L dtheta dt)
    ((0 : α), ({} : Mesh α))
  let m := forLoop nt (BezierCurve.indexOuter ntheta) st.2
  let count := m.coordinates.length
  forLoopM ((count + 2) / 3) BezierCurve.interleaveBody m

/-- The degree the constructor of `BezierCurve` passes to `hollowBezier`:
`((unsigned int)cntrlPoints.size() / 3) - 1`, an `unsigned int` converted to the `int`
parameter `L`. -/
def BezierCurve.degree (size : Nat) : Int :=
  toInt32 (((size % 2 ^ 32) / 3 + (2 ^ 32 - 1)) % 2 ^ 32)

/-- The constructor of `BezierCurve`, as far as the mesh is concerned: the control points are
copied to `cntrlPoints` and `hollowBezier(cntrlPoints.data(), degree)` is run with the members
`nt = 40`, `ntheta = 20`. -/
def BezierCurve.construct (sin cos : α → α) (cntrlPoints : List α) : Option (Mesh α) :=
  BezierCurve.hollowBezier sin cos bezierNt bezierNtheta cntrlPoints
    (BezierCurve.degree cntrlPoints.length)

/-! ### `Bezier` (`src/projectHospital/bezier.h`) -/

/-- Body of the sector loop of `Bezier::hollowBezier` (no texture coordinates).
```
double cosa = cos(theta); double sina = sin(theta);
z = r * cosa; x = r * sina;
coordinates.push_back(x); coordinates.push_back(y); coordinates.push_back(z);
nx = (x - 0) * lengthInv; ny = (y - y) * lengthInv; nz = (z - 0) * lengthInv;
normals.push_back(nx); normals.push_back(ny); normals.push_back(nz);
theta += dtheta;
``` -/
def Bezier.sectorBody (sin cos : α → α) (dtheta r y lengthInv : α)
    (_j : Nat) (st : α × Mesh α) : α × Mesh α :=
  let theta := st.1
  let m := st.2
  let cosa := cos theta
  let sina := sin theta
  let z := r * cosa
  let x := r * sina
  let m := { m with coordinates := m.coordinates ++ [x, y, z] }
  let nx := (x - 0) * lengthInv
  let ny := (y - y) * lengthInv
  let nz := (z - 0) * lengthInv
  let m := { m with normals := m.normals ++ [nx, ny, nz] }
  (theta + dtheta, m)

/-- Body of the ring loop `for (i = 0; i <= nt; ++i)` of `Bezier::hollowBezier`. -/
def Bezier.ringBody (sin cos : α → α) (ntheta : Nat) (ctrlpoints : List α) (L : Int)
    (dtheta dt : α) (_i : Nat) (st : α × Mesh α) : Option (α × Mesh α) := do
  let t := st.1
  let m := st.2
  let xy ← Bezier.BezierCurve t ctrlpoints L
  let r := xy.1
  let y := xy.2
  let theta : α := 0
  let t := t + dt
  let lengthInv := 1 / r
  let st := forLoop (ntheta + 1) (Bezier.sectorBody sin cos dtheta r y lengthInv) (theta, m)
  pure (t, st.2)

/-- Body of `for (int j = 0; j < ntheta; ++j, ++k1, ++k2)` in `Bezier::hollowBezier`. -/
def Bezier.indexInner (_j : Nat) (st : Int × Int × Mesh α) : Int × Int × Mesh α :=
  let k1 := st.1
  let k2 := st.2.1
  let m := st.2.2
  let m := { m with indices := m.indices ++ [k1, k2, k1 + 1] }
  let m := { m with indices := m.indices ++ [k1 + 1, k2, k2 + 1] }
  (k1 + 1, k2 + 1, m)

/-- Body of `for (int i = 0; i < nt; ++i)` in `Bezier::hollowBezier`. -/
def Bezier.indexOuter (ntheta : Nat) (i : Nat) (m : Mesh α) : Mesh α :=
  let k1 : Int := (i : Int) * ((ntheta : Int) + 1)
  let k2 : Int := k1 + (ntheta : Int) + 1
  (forLoop ntheta Bezier.indexInner (k1, k2, m)).2.2

/-- Body of the interleaving loop `for (int i = 0; i < count; i += 3)` of `Bezier::hollowBezier`,
for its `k`-th iteration (`i = 3 * k`): three coordinates, then three normals. -/
def Bezier.interleaveBody (k : Nat) (m : Mesh α) : Option (Mesh α) := do
  let i := 3 * k
  let c0 ← m.coordinates[i]?
  let c1 ← m.coordinates[i + 1]?
  let c2 ← m.coordinates[i + 2]?
  let n0 ← m.normals[i]?
  let n1 ← m.normals[i + 1]?
  let n2 ← m.normals[i + 2]?
  pure { m with vertices := m.vertices ++ [c0, c1, c2, n0, n1, n2] }

/-- The function `Bezier::hollowBezier(GLfloat ctrlpoints[], int L)` of
`src/projectHospital/bezier.h`, up to the filling of `vertices`. -/
def Bezier.hollowBezier (sin cos : α → α) (nt ntheta : Nat) (ctrlpoints : List α) (L : Int) :
    Option (Mesh α) := do
  let dtheta : α := 2 * bezierPi / (ntheta : α)
  let dt : α := 1 / (nt : α)
  let st ← forLoopM (nt + 1) (Bezier.ringBody sin cos ntheta ctrlpoints L dtheta dt)
    ((0 : α), ({} : Mesh α))
  let m := forLoop nt (Bezier.indexOuter ntheta) st.2
  let count := m.coordinates.length
  forLoopM ((count + 2) / 3) Bezier.interleaveBody m

/-- The degree passed by the constructor of `Bezier`:
`((unsigned int)cntrlPoints.size() / 3) - 1`. -/
def Bezier.degree (size : Nat) : Int :=
  toInt32 (((size % 2 ^ 32) / 3 + (2 ^ 32 - 1)) % 2 ^ 32)

/-- The constructor of `Bezier`, as far as the mesh is concerned. -/
def Bezier.construct (sin cos : α → α) (cntrlPoints : List α) : Option (Mesh α) :=
  Bezier.hollowBezier sin cos bezierNt bezierNtheta cntrlPoints
    (Bezier.degree cntrlPoints.length)

/-! ### `Bezier3` (`src/projectHospital/bezier.h` and `src/projectHospital/bezier3..h`)

The two copies of the class differ in the constructor's default arguments only; the bodies of
`generateFan` are the same text. -/

/-- Body of the sector loop of `Bezier3::generateFan`. -/
def Bezier3.sectorBody (sin cos : α → α) (dtheta r y lengthInv : α)
    (_j : Nat) (st : α × Mesh α) : α × Mesh α :=
  let theta := st.1
  let m := st.2
  let cosa := cos theta
  let sina := sin theta
  let z := r * cosa
  let x := r * sina
  let m := { m with coordinates := m.coordinates ++ [x, y, z] }
  let nx := (x - 0) * lengthInv
  let ny := (y - y) * lengthInv
  let nz := (z - 0) * lengthInv
  let m := { m with normals := m.normals ++ [nx, ny, nz] }
  (theta + dtheta, m)

/-- Body of the ring loop `for (i = 0; i <= nt; ++i)` of `Bezier3::generateFan`. -/
def Bezier3.ringBody (sin cos : α → α) (ntheta : Nat) (ctrlpoints : List α) (L : Int)
    (dtheta dt : α) (_i : Nat) (st : α × Mesh α) : Option (α × Mesh α) := do
  let t := st.1
  let m := st.2
  let xy ← Bezier3.BezierCurve t ctrlpoints L
  let r := xy.1
  let y := xy.2
  let theta : α := 0
  let t := t + dt
  let lengthInv := 1 / r
  let st := forLoop (ntheta + 1) (Bezier3.sectorBody sin cos dtheta r y lengthInv) (theta, m)
  pure (t, st.2)

/-- Body of `for (int j = 0; j < ntheta; ++j, ++k1, ++k2)` in `Bezier3::generateFan`. -/
def Bezier3.indexInner (_j : Nat) (st : Int × Int × Mesh α) : Int × Int × Mesh α :=
  let k1 := st.1
  let k2 := st.2.1
  let m := st.2.2
  let m := { m with indices := m.indices ++ [k1, k2, k1 + 1] }
  let m := { m with indices := m.indices ++ [k1 + 1, k2, k2 + 1] }
  (k1 + 1, k2 + 1, m)

/-- Body of `for (int i = 0; i < nt; ++i)` in `Bezier3::generateFan`. -/
def Bezier3.indexOuter (ntheta : Nat) (i : Nat) (m : Mesh α) : Mesh α :=
  let k1 : Int := (i : Int) * ((ntheta : Int) + 1)
  let k2 : Int := k1 + (ntheta : Int) + 1
  (forLoop ntheta Bezier3.indexInner (k1, k2, m)).2.2

/-- Body of the interleaving loop of `Bezier3::generateFan`, for its `k`-th iteration
(`i = 3 * k`). -/
def Bezier3.interleaveBody (k : Nat) (m : Mesh α) : Option (Mesh α) := do
  let i := 3 * k
  let c0 ← m.coordinates[i]?
  let c1 ← m.coordinates[i + 1]?
  let c2 ← m.coordinates[i + 2]?
  let n0 ← m.normals[i]?
  let n1 ← m.normals[i + 1]?
  let n2 ← m.normals[i + 2]?
  pure { m with vertices := m.vertices ++ [c0, c1, c2, n0, n1, n2] }

/-- The function `Bezier3::generateFan(GLfloat ctrlpoints[], int L)`, up to the filling of
`vertices`. -/
def Bezier3.generateFan (sin cos : α → α) (nt ntheta : Nat) (ctrlpoints : List α) (L : Int) :
    Option (Mesh α) := do
  let dtheta : α := 2 * bezierPi / (ntheta : α)
  let dt : α := 1 / (nt : α)
  let st ← forLoopM (nt + 1) (Bezier3.ringBody sin cos ntheta ctrlpoints L dtheta dt)
    ((0 : α), ({} : Mesh α))
  let m := forLoop nt (Bezier3.indexOuter ntheta) st.2
  let count := m.coordinates.length
  forLoopM ((count + 2) / 3) Bezier3.interleaveBody m

/-- The degree passed by the constructor of `Bezier3`:
`(unsigned int)(cntrlPoints.size() / 3) - 1`. -/
def Bezier3.degree (size : Nat) : Int :=
  toInt32 (((size / 3) % 2 ^ 32 + (2 ^ 32 - 1)) % 2 ^ 32)

/-- The constructor of `Bezier3`, as far as the mesh is concerned. -/
def Bezier3.construct (sin cos : α → α) (cntrlPoints : List α) : Option (Mesh α) :=
  Bezier3.generateFan sin cos bezierNt bezierNtheta cntrlPoints
    (Bezier3.degree cntrlPoints.length)

end Revolution

/-! ## Parametric solids -/

section Solids
variable {α : Type} [LinearOrderedField α]

/-! ### `HalfSphere` (`src/half_sphere.h`) -/

/-- Body of `for (int j = 0; j <= sectorCount; ++j)` in
`HalfSphere::setUpHalfSphereVertexDataAndConfigureVertexAttribute`; `pi` is `glm::pi<float>()`.
```
float sectorAngle = j * 2 * glm::pi<float>() / sectorCount;
float x = radius * cos(sectorAngle); float z = radius * sin(sectorAngle);
vertices.push_back(x); vertices.push_back(y); vertices.push_back(z);
vertices.push_back(x); vertices.push_back(y); vertices.push_back(z);
float u = (float)j / sectorCount; float v = (float)i / stackCount;
vertices.push_back(u); vertices.push_back(v);
``` -/
def HalfSphere.sectorBody (sin cos : α → α) (pi : α) (sectorCount stackCount : Nat)
    (radius y : α) (i j : Nat) (m : Mesh α) : Mesh α :=
  let sectorAngle := ((j * 2 : Nat) : α) * pi / (sectorCount : α)
  let x := radius * cos sectorAngle
  let z := radius * sin sectorAngle
  let u := (j : α) / (sectorCount : α)
  let v := (i : α) / (stackCount : α)
  { m with vertices := m.vertices ++ [x, y, z, x, y, z, u, v] }

/-- Body of `for (int i = 0; i <= stackCount; ++i)` in the builder of `HalfSphere`.
```
float stackAngle = glm::pi<float>() / 2 - i * glm::pi<float>() / (2 * stackCount);
float radius = cos(stackAngle); float y = sin(stackAngle);
for (int j = 0; j <= sectorCount; ++j) { ... }
``` -/
def HalfSphere.stackBody (sin cos : α → α) (pi : α) (sectorCount stackCount : Nat)
    (i : Nat) (m : Mesh α) : Mesh α :=
  let stackAngle := pi / 2 - (i : α) * pi / ((2 * stackCount : Nat) : α)
  let radius := cos stackAngle
  let y := sin stackAngle
  forLoop (sectorCount + 1) (HalfSphere.sectorBody sin cos pi sectorCount stackCount radius y i) m

/-- Body of the inner index loop `for (int j = 0; j < sectorCount; ++j)` of `HalfSphere`.
```
int first = i * (sectorCount + 1) + j; int second = first + sectorCount + 1;
indices.push_back(first); indices.push_back(second); indices.push_back(first + 1);
indices.push_back(second); indices.push_back(second + 1); indices.push_back(first + 1);
``` -/
def HalfSphere.indexBody (sectorCount : Nat) (i j : Nat) (m : Mesh α) : Mesh α :=
  let first : Int := (i : Int) * ((sectorCount : Int) + 1) + (j : Int)
  let second : Int := first + (sectorCount : Int) + 1
  { m with indices := m.indices ++ [first, second, first + 1, second, second + 1, first + 1] }

/-- The vertex and index loops of `HalfSphere::setUpHalfSphereVertexDataAndConfigureVertexAttribute`
for arbitrary values of its local constants `sectorCount`, `stackCount`. -/
def HalfSphere.build (sin cos : α → α) (pi : α) (sectorCount stackCount : Nat) : Mesh α :=
  let m := forLoop (stackCount + 1) (HalfSphere.stackBody sin cos pi sectorCount stackCount)
    ({} : Mesh α)
  forLoop stackCount (fun i m => forLoop sectorCount (HalfSphere.indexBody sectorCount i) m) m

/-- The function `HalfSphere::setUpHalfSphereVertexDataAndConfigureVertexAttribute`, up to the
OpenGL calls: `const int sectorCount = 36; const int stackCount = 18;`. -/
def HalfSphere.setUpHalfSphereVertexDataAndConfigureVertexAttribute (sin cos : α → α) (pi : α) :
    Mesh α :=
  HalfSphere.build sin cos pi 36 18

/-! ### `Wheel` (`src/projectHospital/wheel.h`) -/

/-- Body of `for (int j = 0; j <= sectorCount; ++j)` in
`Wheel::setUpWheelVertexDataAndConfigureVertexAttribute` (same text as in `HalfSphere`). -/
def Wheel.sectorBody (sin cos : α → α) (pi : α) (sectorCount stackCount : Nat)
    (radius y : α) (i j : Nat) (m : Mesh α) : Mesh α :=
  let sectorAngle := ((j * 2 : Nat) : α) * pi / (sectorCount : α)
  let x := radius * cos sectorAngle
  let z := radius * sin sectorAngle
  let u := (j : α) / (sectorCount : α)
  let v := (i : α) / (stackCount : α)
  { m with vertices := m.vertices ++ [x, y, z, x, y, z, u, v] }

/-- Body of `for (int i = 0; i <= stackCount; ++i)` in the builder of `Wheel`.
```
float stackAngle = glm::pi<float>() / 2 - i * glm::pi<float>() / stackCount;
float radius = cos(stackAngle); float y = sin(stackAngle);
for (int j = 0; j <= sectorCount; ++j) { ... }
``` -/
def Wheel.stackBody (sin cos : α → α) (pi : α) (sectorCount stackCount : Nat)
    (i : Nat) (m : Mesh α) : Mesh α :=
  let stackAngle := pi / 2 - (i : α) * pi / (stackCount : α)
  let radius := cos stackAngle
  let y := sin stackAngle
  forLoop (sectorCount + 1) (Wheel.sectorBody sin cos pi sectorCount stackCount radius y i) m

/-- Body of the inner index loop of `Wheel` (same text as in `HalfSphere`). -/
def Wheel.indexBody (sectorCount : Nat) (i j : Nat) (m : Mesh α) : Mesh α :=
  let first : Int := (i : Int) * ((sectorCount : Int) + 1) + (j : Int)
  let second : Int := first + (sectorCount : Int) + 1
  { m with indices := m.indices ++ [first, second, first + 1, second, second + 1, first + 1] }

/-- The vertex and index loops of `Wheel::setUpWheelVertexDataAndConfigureVertexAttribute` for
arbitrary values of its local constants. -/
def Wheel.build (sin cos : α → α) (pi : α) (sectorCount stackCount : Nat) : Mesh α :=
  let m := forLoop (stackCount + 1) (Wheel.stackBody sin cos pi sectorCount stackCount)
    ({} : Mesh α)
  forLoop stackCount (fun i m => forLoop sectorCount (Wheel.indexBody sectorCount i) m) m

/-- The function `Wheel::setUpWheelVertexDataAndConfigureVertexAttribute`, up to the OpenGL
calls: `const int sectorCount = 36; const int stackCount = 18;`. -/
def Wheel.setUpWheelVertexDataAndConfigureVertexAttribute (sin cos : α → α) (pi : α) : Mesh α :=
  Wheel.build sin cos pi 36 18

/-! ### `CurvedPipeSegment` (`src/curved_pipe.h`) -/

/-- The macro `#define PI 3.141516` of `curved_pipe.h`, `capsule.h` and
`projectHospital/cylinder.h`. -/
def PI_3141516 : α := 3141516 / 1000000

/-- Body of `for (int j = 0; j <= tubeSegments; ++j)` in
`CurvedPipeSegment::generateSegmentVerticesAndIndices`.
```
float phi = j * tubeStep;
float x = pipeRadius * cos(phi); float y = pipeRadius * sin(phi);
glm::vec3 point = center + glm::vec3(x, y, 0.0f);
vertices.push_back(point.x); vertices.push_back(point.y); vertices.push_back(point.z);
vertices.push_back(x / pipeRadius); vertices.push_back(y / pipeRadius); vertices.push_back(0.0f);
vertices.push_back((float)j / tubeSegments); vertices.push_back((float)i / arcSegments);
``` -/
def CurvedPipeSegment.tubeBody (sin cos : α → α) (tubeSegments arcSegments : Nat)
    (pipeRadius tubeStep : α) (center : Vec3 α) (i j : Nat) (m : Mesh α) : Mesh α :=
  let phi := (j : α) * tubeStep
  let x := pipeRadius * cos phi
  let y := pipeRadius * sin phi
  let point : Vec3 α := ⟨center.x + x, center.y + y, center.z + 0⟩
  { m with vertices := m.vertices ++
      [point.x, point.y, point.z, x / pipeRadius, y / pipeRadius, 0,
       (j : α) / (tubeSegments : α), (i : α) / (arcSegments : α)] }

/-- Body of `for (int i = 0; i <= arcSegments; ++i)` in the builder of `CurvedPipeSegment`.
```
float theta = i * arcStep - arcLength / 2.0f;
glm::vec3 center = glm::vec3(sinf(theta), 0.0f, cosf(theta));
for (int j = 0; j <= tubeSegments; ++j) { ... }
``` -/
def CurvedPipeSegment.arcBody (sin cos : α → α) (tubeSegments arcSegments : Nat)
    (pipeRadius arcLength tubeStep arcStep : α) (i : Nat) (m : Mesh α) : Mesh α :=
  let theta := (i : α) * arcStep - arcLength / 2
  let center : Vec3 α := ⟨sin theta, 0, cos theta⟩
  forLoop (tubeSegments + 1)
    (CurvedPipeSegment.tubeBody sin cos tubeSegments arcSegments pipeRadius tubeStep center i) m

/-- Body of the inner index loop of `CurvedPipeSegment`.
```
int k1 = i * (tubeSegments + 1) + j; int k2 = k1 + tubeSegments + 1;
indices.push_back(k1); indices.push_back(k2); indices.push_back(k1 + 1);
indices.push_back(k1 + 1); indices.push_back(k2); indices.push_back(k2 + 1);
``` -/
def CurvedPipeSegment.indexBody (tubeSegments : Nat) (i j : Nat) (m : Mesh α) : Mesh α :=
  let k1 : Int := (i : Int) * ((tubeSegments : Int) + 1) + (j : Int)
  let k2 : Int := k1 + (tubeSegments : Int) + 1
  { m with indices := m.indices ++ [k1, k2, k1 + 1, k1 + 1, k2, k2 + 1] }

/-- The loops of `CurvedPipeSegment::generateSegmentVerticesAndIndices` for arbitrary values of
its local constants `tubeSegments`, `arcSegments`.
```
float tubeStep = 2 * PI / tubeSegments; float arcStep = arcLength / arcSegments;
``` -/
def CurvedPipeSegment.build (sin cos : α → α) (tubeSegments arcSegments : Nat)
    (pipeRadius arcLength : α) : Mesh α :=
  let tubeStep : α := 2 * PI_3141516 / (tubeSegments : α)
  let arcStep : α := arcLength / (arcSegments : α)
  let m := forLoop (arcSegments + 1)
    (CurvedPipeSegment.arcBody sin cos tubeSegments arcSegments pipeRadius arcLength tubeStep
      arcStep) ({} : Mesh α)
  forLoop arcSegments
    (fun i m => forLoop tubeSegments (CurvedPipeSegment.indexBody tubeSegments i) m) m

/-- The function `CurvedPipeSegment::generateSegmentVerticesAndIndices(pipeRadius, arcLength)`:
`const int tubeSegments = 36; const int arcSegments = 12;`. -/
def CurvedPipeSegment.generateSegmentVerticesAndIndices (sin cos : α → α)
    (pipeRadius arcLength : α) : Mesh α :=
  CurvedPipeSegment.build sin cos 36 12 pipeRadius arcLength

/-! ### `Capsule` (`src/projectHospital/capsule.h`) -/

/-- Body of the sector loop of the two hemisphere loops of
`Capsule::generateCapsuleVerticesAndIndices`; `shift` is `+halfHeight` in the top hemisphere
(`z + halfHeight`) and `-halfHeight` in the bottom one (`z - halfHeight`).
```
float sectorAngle = j * sectorStep;
float x = xy * cosf(sectorAngle); float y = xy * sinf(sectorAngle);
vertices.push_back(x); vertices.push_back(z + halfHeight); vertices.push_back(y);
vertices.push_back(x / radius); vertices.push_back(z / radius); vertices.push_back(y / radius);
vertices.push_back((float)j / sectors); vertices.push_back((float)i / stacks);
``` -/
def Capsule.hemiSectorBody (sin cos : α → α) (sectors nStacks : Nat)
    (radius sectorStep xy z shift : α) (i j : Nat) (m : Mesh α) : Mesh α :=
  let sectorAngle := (j : α) * sectorStep
  let x := xy * cos sectorAngle
  let y := xy * sin sectorAngle
  { m with vertices := m.vertices ++
      [x, z + shift, y, x / radius, z / radius, y / radius,
       (j : α) / (sectors : α), (i : α) / (nStacks : α)] }

/-- Body of a hemisphere loop of `Capsule` for the stack `i`.
```
float stackAngle = PI / 2 - i * stackStep;
float xy = radius * cosf(stackAngle); float z = radius * sinf(stackAngle);
for (int j = 0; j <= sectors; ++j) { ... }
``` -/
def Capsule.hemiStackBody (sin cos : α → α) (sectors nStacks : Nat)
    (radius sectorStep stackStep shift : α) (i : Nat) (m : Mesh α) : Mesh α :=
  let stackAngle := PI_3141516 / 2 - (i : α) * stackStep
  let xy := radius * cos stackAngle
  let z := radius * sin stackAngle
  forLoop (sectors + 1)
    (Capsule.hemiSectorBody sin cos sectors nStacks radius sectorStep xy z shift i) m

/-- Body of the sector loop of the cylinder-body loop of `Capsule`.
```
float angle = j * sectorStep;
float x = radius * cos(angle); float y = radius * sin(angle);
vertices.push_back(x); vertices.push_back(z); vertices.push_back(y);
vertices.push_back(0.0f); vertices.push_back((i == 0) ? 1.0f : -1.0f); vertices.push_back(0.0f);
vertices.push_back((float)j / sectors); vertices.push_back((i == 0) ? 1.0f : 0.0f);
``` -/
def Capsule.bodySectorBody (sin cos : α → α) (sectors : Nat)
    (radius sectorStep z : α) (i j : Nat) (m : Mesh α) : Mesh α :=
  let angle := (j : α) * sectorStep
  let x := radius * cos angle
  let y := radius * sin angle
  { m with vertices := m.vertices ++
      [x, z, y, 0, (if i = 0 then 1 else -1), 0,
       (j : α) / (sectors : α), (if i = 0 then 1 else 0)] }

/-- Body of `for (int i = 0; i <= 1; ++i)` (cylinder body) of `Capsule`:
`float z = (i == 0) ? halfHeight : -halfHeight;` followed by the sector loop. -/
def Capsule.bodyBody (sin cos : α → α) (sectors : Nat)
    (radius sectorStep halfHeight : α) (i : Nat) (m : Mesh α) : Mesh α :=
  let z := if i = 0 then halfHeight else -halfHeight
  forLoop (sectors + 1) (Capsule.bodySectorBody sin cos sectors radius sectorStep z i) m

/-- Body of `for (int j = 0; j < sectors; ++j, ++k1, ++k2)` in the index pass of `Capsule`; the
state is `k1`, `k2` and the vectors.
```
if (i != 0) { indices.push_back(k1); indices.push_back(k2); indices.push_back(k1 + 1); }
if (i != (stacks - 1)) {
    indices.push_back(k1 + 1); indices.push_back(k2); indices.push_back(k2 + 1); }
``` -/
def Capsule.indexInner (nStacks : Nat) (i : Nat) (_j : Nat) (st : Int × Int × Mesh α) :
    Int × Int × Mesh α :=
  let k1 := st.1
  let k2 := st.2.1
  let m := st.2.2
  let m := if (i : Int) ≠ 0 then { m with indices := m.indices ++ [k1, k2, k1 + 1] } else m
  let m := if (i : Int) ≠ (nStacks : Int) - 1 then
      { m with indices := m.indices ++ [k1 + 1, k2, k2 + 1] } else m
  (k1 + 1, k2 + 1, m)

/-- Body of `for (int i = 0; i < stacks; ++i)` in the index pass of `Capsule`:
`k1 = i * (sectors + 1); k2 = k1 + sectors + 1;` followed by the loop over `j`. -/
def Capsule.indexOuter (sectors nStacks : Nat) (i : Nat) (m : Mesh α) : Mesh α :=
  let k1 : Int := (i : Int) * ((sectors : Int) + 1)
  let k2 : Int := k1 + (sectors : Int) + 1
  (forLoop sectors (Capsule.indexInner nStacks i) (k1, k2, m)).2.2

/-- The loops of `Capsule::generateCapsuleVerticesAndIndices` for arbitrary values
`sectors`, `nStacks` of its local constants `sectors`, `stacks` (`stacks` is a reserved word
here); `radius = 1.0f`, `height = 2.0f`, `halfHeight = height / 2.0f`.
```
float sectorStep = 2 * PI / sectors; float stackStep = PI / stacks;
for (int i = 0; i <= stacks / 2; ++i) { ... }          // top hemisphere
for (int i = 0; i <= 1; ++i) { ... }                   // cylinder body
for (int i = stacks / 2; i <= stacks; ++i) { ... }     // bottom hemisphere
for (int i = 0; i < stacks; ++i) { ... }               // indices
``` -/
def Capsule.build (sin cos : α → α) (sectors nStacks : Nat) : Mesh α :=
  let radius : α := 1
  let height : α := 2
  let halfHeight : α := height / 2
  let sectorStep : α := 2 * PI_3141516 / (sectors : α)
  let stackStep : α := PI_3141516 / (nStacks : α)
  let m := forLoop (nStacks / 2 + 1)
    (Capsule.hemiStackBody sin cos sectors nStacks radius sectorStep stackStep halfHeight)
    ({} : Mesh α)
  let m := forLoop 2 (Capsule.bodyBody sin cos sectors radius sectorStep halfHeight) m
  let m := forLoop (nStacks + 1 - nStacks / 2)
    (fun k => Capsule.hemiStackBody sin cos sectors nStacks radius sectorStep stackStep
      (-halfHeight) (nStacks / 2 + k)) m
  forLoop nStacks (Capsule.indexOuter sectors nStacks) m

/-- The function `Capsule::generateCapsuleVerticesAndIndices`:
`const int sectors = 36; const int stacks = 18;`. -/
def Capsule.generateCapsuleVerticesAndIndices (sin cos : α → α) : Mesh α :=
  Capsule.build sin cos 36 18

end Solids

/-! ## Cylinders -/

section Cylinders
variable {α : Type} [LinearOrderedField α]

/-- The macro `# define PI 3.1416` of `cylindertree.h` (and `bezier.h`). -/
def PI_31416 : α := 31416 / 10000

/-- The members `radius`, `height`, `sectorCount` of `CylinderTree` and `CylinderNoTex`. -/
structure CylinderParams (α : Type) where
  radius : α
  height : α
  sectorCount : Int

/-! ### `CylinderTree` (`src/cylindertree.h`) -/

/-- The function `CylinderTree::set`, as far as the geometry members are concerned; `self` holds
the members before the call (indeterminate when the constructor calls `set`).
```
if (radius > 0) this->radius = radius;
this->height = height;
this->sectorCount = sectors;
if (sectors < 3) this->sectorCount = 3;
``` -/
def CylinderTree.set (self : CylinderParams α) (radius height : α) (sectors : Int) :
    CylinderParams α :=
  let self := if radius > 0 then { self with radius := radius } else self
  let self := { self with height := height }
  let self := { self with sectorCount := sectors }
  if sectors < 3 then { self with sectorCount := 3 } else self

/-- Body of the vertex loop `for (int i = 0; i <= sectorCount; ++i)` of
`CylinderTree::buildCoordinatesAndIndices`.
```
sectorAngle = i * sectorStep;
x = radius * cosf(sectorAngle); z = radius * sinf(sectorAngle);
coordinates.push_back(x); coordinates.push_back(-height / 2.0f); coordinates.push_back(z);
coordinates.push_back(x); coordinates.push_back(height / 2.0f); coordinates.push_back(z);
nx = cosf(sectorAngle); nz = sinf(sectorAngle);
normals.push_back(nx); normals.push_back(0.0f); normals.push_back(nz);
normals.push_back(nx); normals.push_back(0.0f); normals.push_back(nz);
float u = (float)i / sectorCount;
texCoords.push_back(u); texCoords.push_back(0.0f);
texCoords.push_back(u); texCoords.push_back(1.0f);
``` -/
def CylinderTree.vertexBody (sin cos : α → α) (p : CylinderParams α) (sectorStep : α)
    (i : Nat) (m : Mesh α) : Mesh α :=
  let sectorAngle := (i : α) * sectorStep
  let x := p.radius * cos sectorAngle
  let z := p.radius * sin sectorAngle
  let m := { m with coordinates := m.coordinates ++ [x, -p.height / 2, z] }
  let m := { m with coordinates := m.coordinates ++ [x, p.height / 2, z] }
  let nx := cos sectorAngle
  let nz := sin sectorAngle
  let m := { m with normals := m.normals ++ [nx, 0, nz] }
  let m := { m with normals := m.normals ++ [nx, 0, nz] }
  let u := (i : α) / (p.sectorCount : α)
  let m := { m with texCoords := m.texCoords ++ [u, 0] }
  { m with texCoords := m.texCoords ++ [u, 1] }

/-- The pushes of the two centre vertices in `CylinderTree::buildCoordinatesAndIndices`.
```
coordinates.push_back(0.0f); coordinates.push_back(-height / 2.0f); coordinates.push_back(0.0f);
coordinates.push_back(0.0f); coordinates.push_back(height / 2.0f); coordinates.push_back(0.0f);
normals.push_back(0.0f); normals.push_back(-1.0f); normals.push_back(0.0f);
normals.push_back(0.0f); normals.push_back(1.0f); normals.push_back(0.0f);
texCoords.push_back(0.5f); texCoords.push_back(0.5f);
texCoords.push_back(0.5f); texCoords.push_back(0.5f);
``` -/
def CylinderTree.pushCenters (p : CylinderParams α) (m : Mesh α) : Mesh α :=
  let m := { m with coordinates := m.coordinates ++ [0, -p.height / 2, 0] }
  let m := { m with coordinates := m.coordinates ++ [0, p.height / 2, 0] }
  let m := { m with normals := m.normals ++ [0, -1, 0] }
  let m := { m with normals := m.normals ++ [0, 1, 0] }
  let m := { m with texCoords := m.texCoords ++ [1 / 2, 1 / 2] }
  { m with texCoords := m.texCoords ++ [1 / 2, 1 / 2] }

/-- Body of the side loop `for (int i = 0; i < sectorCount; ++i)` of `CylinderTree`.
```
int k1 = i * 2; int k2 = k1 + 1;
indices.push_back(k1); indices.push_back(k2); indices.push_back(k1 + 2);
indices.push_back(k2); indices.push_back(k2 + 2); indices.push_back(k1 + 2);
``` -/
def CylinderTree.sideBody (i : Nat) (m : Mesh α) : Mesh α :=
  let k1 : Int := (i : Int) * 2
  let k2 : Int := k1 + 1
  let m := { m with indices := m.indices ++ [k1, k2, k1 + 2] }
  { m with indices := m.indices ++ [k2, k2 + 2, k1 + 2] }

/-- Body of the bottom-circle loop of `CylinderTree`.
```
int k1 = i * 2; int k2 = (i + 1) * 2;
indices.push_back(bottomCenterIndex); indices.push_back(k1); indices.push_back(k2);
``` -/
def CylinderTree.bottomBody (bottomCenterIndex : Int) (i : Nat) (m : Mesh α) : Mesh α :=
  let k1 : Int := (i : Int) * 2
  let k2 : Int := ((i : Int) + 1) * 2
  { m with indices := m.indices ++ [bottomCenterIndex, k1, k2] }

/-- Body of the top-circle loop of `CylinderTree`.
```
int k1 = i * 2 + 1; int k2 = (i + 1) * 2 + 1;
indices.push_back(topCenterIndex); indices.push_back(k2); indices.push_back(k1);
``` -/
def CylinderTree.topBody (topCenterIndex : Int) (i : Nat) (m : Mesh α) : Mesh α :=
  let k1 : Int := (i : Int) * 2 + 1
  let k2 : Int := ((i : Int) + 1) * 2 + 1
  { m with indices := m.indices ++ [topCenterIndex, k2, k1] }

/-- The value `(int)coordinates.size() / 3 - 2` of `bottomCenterIndex` in `CylinderTree`. -/
def CylinderTree.bottomCenterIndex (m : Mesh α) : Int :=
  cdiv (m.coordinates.length : Int) 3 - 2

/-- The value `(int)coordinates.size() / 3 - 1` of `topCenterIndex` in `CylinderTree`. -/
def CylinderTree.topCenterIndex (m : Mesh α) : Int :=
  cdiv (m.coordinates.length : Int) 3 - 1

/-- The vertex part of `CylinderTree::buildCoordinatesAndIndices`: the rim loop and the two
centre vertices (`float sectorStep = 2 * PI / sectorCount;`). -/
def CylinderTree.buildCoordinates (sin cos : α → α) (p : CylinderParams α) : Mesh α :=
  let sectorStep : α := 2 * PI_31416 / (p.sectorCount : α)
  let m := forLoop (p.sectorCount + 1).toNat (CylinderTree.vertexBody sin cos p sectorStep)
    ({} : Mesh α)
  CylinderTree.pushCenters p m

/-- The function `CylinderTree::buildCoordinatesAndIndices`, run on the empty vectors of a new
object. -/
def CylinderTree.buildCoordinatesAndIndices (sin cos : α → α) (p : CylinderParams α) : Mesh α :=
  let m := CylinderTree.buildCoordinates sin cos p
  let m := forLoop p.sectorCount.toNat CylinderTree.sideBody m
  let bottomCenterIndex := CylinderTree.bottomCenterIndex m
  let m := forLoop p.sectorCount.toNat (CylinderTree.bottomBody bottomCenterIndex) m
  let topCenterIndex := CylinderTree.topCenterIndex m
  forLoop p.sectorCount.toNat (CylinderTree.topBody topCenterIndex) m

/-- The constructor of `CylinderTree`, up to `buildCoordinatesAndIndices`: `set` on the fresh
object `self`, then the builder. -/
def CylinderTree.construct (sin cos : α → α) (self : CylinderParams α) (radius height : α)
    (sectorCount : Int) : Mesh α :=
  CylinderTree.buildCoordinatesAndIndices sin cos (CylinderTree.set self radius height sectorCount)

/-! ### `CylinderNoTex` (`src/cylindertree.h`) -/

/-- The function `CylinderNoTex::set` (same text as `CylinderTree::set`). -/
def CylinderNoTex.set (self : CylinderParams α) (radius height : α) (sectors : Int) :
    CylinderParams α :=
  let self := if radius > 0 then { self with radius := radius } else self
  let self := { self with height := height }
  let self := { self with sectorCount := sectors }
  if sectors < 3 then { self with sectorCount := 3 } else self

/-- Body of the vertex loop `for (int i = 0; i <= sectorCount; ++i)` of
`CylinderNoTex::buildCoordinatesAndIndices`.
```
sectorAngle = i * sectorStep;
x = radius * cosf(sectorAngle); z = radius * sinf(sectorAngle);
coordinates.push_back(x); coordinates.push_back(-height / 2.0f); coordinates.push_back(z);
coordinates.push_back(x); coordinates.push_back(height / 2.0f); coordinates.push_back(z);
nx = cosf(sectorAngle); nz = sinf(sectorAngle);
normals.push_back(nx); normals.push_back(0.0f); normals.push_back(nz);
normals.push_back(nx); normals.push_back(0.0f); normals.push_back(nz);
``` -/
def CylinderNoTex.vertexBody (sin cos : α → α) (p : CylinderParams α) (sectorStep : α)
    (i : Nat) (m : Mesh α) : Mesh α :=
  let sectorAngle := (i : α) * sectorStep
  let x := p.radius * cos sectorAngle
  let z := p.radius * sin sectorAngle
  let m := { m with coordinates := m.coordinates ++ [x, -p.height / 2, z] }
  let m := { m with coordinates := m.coordinates ++ [x, p.height / 2, z] }
  let nx := cos sectorAngle
  let nz := sin sectorAngle
  let m := { m with normals := m.normals ++ [nx, 0, nz] }
  { m with normals := m.normals ++ [nx, 0, nz] }

/-- Body of the side loop of `CylinderNoTex` (same text as in `CylinderTree`). -/
def CylinderNoTex.sideBody (i : Nat) (m : Mesh α) : Mesh α :=
  let k1 : Int := (i : Int) * 2
  let k2 : Int := k1 + 1
  let m := { m with indices := m.indices ++ [k1, k2, k1 + 2] }
  { m with indices := m.indices ++ [k2, k2 + 2, k1 + 2] }

/-- Body of the bottom-circle loop of `CylinderNoTex` (same text as in `CylinderTree`). -/
def CylinderNoTex.bottomBody (bottomCenterIndex : Int) (i : Nat) (m : Mesh α) : Mesh α :=
  let k1 : Int := (i : Int) * 2
  let k2 : Int := ((i : Int) + 1) * 2
  { m with indices := m.indices ++ [bottomCenterIndex, k1, k2] }

/-- Body of the top-circle loop of `CylinderNoTex` (same text as in `CylinderTree`). -/
def CylinderNoTex.topBody (topCenterIndex : Int) (i : Nat) (m : Mesh α) : Mesh α :=
  let k1 : Int := (i : Int) * 2 + 1
  let k2 : Int := ((i : Int) + 1) * 2 + 1
  { m with indices := m.indices ++ [topCenterIndex, k2, k1] }

/-- The value `(int)coordinates.size() / 3 - 2` of `bottomCenterIndex` in `CylinderNoTex`. -/
def CylinderNoTex.bottomCenterIndex (m : Mesh α) : Int :=
  cdiv (m.coordinates.length : Int) 3 - 2

/-- The value `(int)coordinates.size() / 3 - 1` of `topCenterIndex` in `CylinderNoTex`. -/
def CylinderNoTex.topCenterIndex (m : Mesh α) : Int :=
  cdiv (m.coordinates.length : Int) 3 - 1

/-- The vertex part of `CylinderNoTex::buildCoordinatesAndIndices`: the rim loop only; the
source pushes nothing between the rim loop and the index loops. -/
def CylinderNoTex.buildCoordinates (sin cos : α → α) (p : CylinderParams α) : Mesh α :=
  let sectorStep : α := 2 * PI_31416 / (p.sectorCount : α)
  forLoop (p.sectorCount + 1).toNat (CylinderNoTex.vertexBody sin cos p sectorStep)
    ({} : Mesh α)

/-- The function `CylinderNoTex::buildCoordinatesAndIndices`, run on the empty vectors of a new
object. -/
def CylinderNoTex.buildCoordinatesAndIndices (sin cos : α → α) (p : CylinderParams α) : Mesh α :=
  let m := CylinderNoTex.buildCoordinates sin cos p
  let m := forLoop p.sectorCount.toNat CylinderNoTex.sideBody m
  let bottomCenterIndex := CylinderNoTex.bottomCenterIndex m
  let m := forLoop p.sectorCount.toNat (CylinderNoTex.bottomBody bottomCenterIndex) m
  let topCenterIndex := CylinderNoTex.topCenterIndex m
  forLoop p.sectorCount.toNat (CylinderNoTex.topBody topCenterIndex) m

/-- The constructor of `CylinderNoTex`, up to `buildCoordinatesAndIndices`. -/
def CylinderNoTex.construct (sin cos : α → α) (self : CylinderParams α) (radius height : α)
    (sectorCount : Int) : Mesh α :=
  CylinderNoTex.buildCoordinatesAndIndices sin cos
    (CylinderNoTex.set self radius height sectorCount)

/-! ### `Cylinder` (`src/projectHospital/cylinder.h`) -/

/-- Body of the vertex loop `for (int i = 0; i <= sectors; ++i)` of
`Cylinder::generateCylinderVerticesAndIndices`.
```
float angle = i * sectorStep;
float x = radius * cos(angle); float z = radius * sin(angle);
float u = (float)i / sectors; float vTop = 1.0f; float vBottom = 0.0f;
vertices: x, height / 2, z, 0.0f, 1.0f, 0.0f, u, vTop        // top circle vertex
vertices: x, -height / 2, z, 0.0f, -1.0f, 0.0f, u, vBottom   // bottom circle vertex
``` -/
def Cylinder.vertexBody (sin cos : α → α) (sectors : Nat) (height radius sectorStep : α)
    (i : Nat) (m : Mesh α) : Mesh α :=
  let angle := (i : α) * sectorStep
  let x := radius * cos angle
  let z := radius * sin angle
  let u := (i : α) / (sectors : α)
  let vTop : α := 1
  let vBottom : α := 0
  let m := { m with vertices := m.vertices ++ [x, height / 2, z, 0, 1, 0, u, vTop] }
  { m with vertices := m.vertices ++ [x, -height / 2, z, 0, -1, 0, u, vBottom] }

/-- Body of the index loop `for (int i = 0; i < sectors; ++i)` of `Cylinder`.
```
int top1 = i * 2; int bottom1 = top1 + 1; int top2 = (i + 1) * 2; int bottom2 = top2 + 1;
indices.push_back(top1); indices.push_back(bottom1); indices.push_back(top2);
indices.push_back(bottom1); indices.push_back(bottom2); indices.push_back(top2);
``` -/
def Cylinder.indexBody (i : Nat) (m : Mesh α) : Mesh α :=
  let top1 : Int := (i : Int) * 2
  let bottom1 : Int := top1 + 1
  let top2 : Int := ((i : Int) + 1) * 2
  let bottom2 : Int := top2 + 1
  let m := { m with indices := m.indices ++ [top1, bottom1, top2] }
  { m with indices := m.indices ++ [bottom1, bottom2, top2] }

/-- The loops of `Cylinder::generateCylinderVerticesAndIndices` for an arbitrary value of its
local constant `sectors`; `height = 2.0f`, `radius = 1.0f`,
`float sectorStep = 2 * PI / sectors;`.  The function ends after the side-surface index loop. -/
def Cylinder.build (sin cos : α → α) (sectors : Nat) : Mesh α :=
  let height : α := 2
  let radius : α := 1
  let sectorStep : α := 2 * PI_3141516 / (sectors : α)
  let m := forLoop (sectors + 1) (Cylinder.vertexBody sin cos sectors height radius sectorStep)
    ({} : Mesh α)
  forLoop sectors Cylinder.indexBody m

/-- The function `Cylinder::generateCylinderVerticesAndIndices`: `const int sectors = 36;`. -/
def Cylinder.generateCylinderVerticesAndIndices (sin cos : α → α) : Mesh α :=
  Cylinder.build sin cos 36

end Cylinders

/-! ## Fractal tree (`src/projectHospital/fractal.h`) -/

section Fractal
variable {α : Type} [LinearOrderedField α]

/-- The sum `a + b` of two `glm::vec3`. -/
def Vec3.add (a b : Vec3 α) : Vec3 α := ⟨a.x + b.x, a.y + b.y, a.z + b.z⟩

/-- The product `v * k` of a `glm::vec3` and a scalar. -/
def Vec3.scale (v : Vec3 α) (k : α) : Vec3 α := ⟨v.x * k, v.y * k, v.z * k⟩

/-- The vector `glm::vec3(glm::rotate(glm::mat4(1.0f), angle, glm::vec3(0, 0, 1)) *
glm::vec4(v, 0.0f))`: the library's rotation matrix about the z axis is
`[[c, -s, 0], [s, c, 0], [0, 0, 1]]` with `c = cos angle`, `s = sin angle`. -/
def rotateZ (sin cos : α → α) (angle : α) (v : Vec3 α) : Vec3 α :=
  ⟨cos angle * v.x - sin angle * v.y, sin angle * v.x + cos angle * v.y, v.z⟩

/-- The function `FractalTree::generateBranches(start, direction, depth)`, appending to the
member `vertices`.  `fuel` bounds the depth of the call stack: the result is `none` when the
recursion is deeper than `fuel` (it is unbounded for a negative `depth`).  `radians` is
`glm::radians`.
```
if (depth == 0) return;
glm::vec3 end = start + direction;
vertices.push_back(start.x); ... start.y ... start.z ... end.x ... end.y ... end.z
float angleRadians = glm::radians(branchAngle);
rotationLeft = glm::rotate(glm::mat4(1.0f), angleRadians, glm::vec3(0.0f, 0.0f, 1.0f));
rotationRight = glm::rotate(glm::mat4(1.0f), -angleRadians, glm::vec3(0.0f, 0.0f, 1.0f));
leftDirection = glm::vec3(rotationLeft * glm::vec4(direction * 0.7f, 0.0f));
rightDirection = glm::vec3(rotationRight * glm::vec4(direction * 0.7f, 0.0f));
generateBranches(end, leftDirection, depth - 1);
generateBranches(end, rightDirection, depth - 1);
``` -/
def FractalTree.generateBranches (sin cos radians : α → α) (branchAngle : α) :
    Nat → Vec3 α → Vec3 α → Int → List α → Option (List α)
  | 0, _, _, _, _ => none
  | fuel + 1, start, direction, depth, vertices =>
    if depth = 0 then some vertices
    else
      let endPoint := Vec3.add start direction
      let vertices := vertices ++ [start.x, start.y, start.z, endPoint.x, endPoint.y, endPoint.z]
      let angleRadians := radians branchAngle
      let leftDirection := rotateZ sin cos angleRadians (Vec3.scale direction (7 / 10))
      let rightDirection := rotateZ sin cos (-angleRadians) (Vec3.scale direction (7 / 10))
      (FractalTree.generateBranches sin cos radians branchAngle fuel endPoint leftDirection
          (depth - 1) vertices).bind
        fun vertices =>
          FractalTree.generateBranches sin cos radians branchAngle fuel endPoint rightDirection
            (depth - 1) vertices

/-- The function `FractalTree::buildTree` on the empty `vertices` of a new object:
`start(0, 0, 0)`, `direction(0, branchLength, 0)`, `generateBranches(start, direction,
recursionDepth)`. -/
def FractalTree.buildTree (sin cos radians : α → α) (branchLength branchAngle : α)
    (recursionDepth : Int) (fuel : Nat) : Option (List α) :=
  let start : Vec3 α := ⟨0, 0, 0⟩
  let direction : Vec3 α := ⟨0, branchLength, 0⟩
  FractalTree.generateBranches sin cos radians branchAngle fuel start direction recursionDepth []

end Fractal

/-! ## Placement of an object (`setPosition`, `setScale`, `setRotation`, `draw`) -/

section PlacementDefs
variable {α : Type} [LinearOrderedField α]

/-- A `glm::mat4`, as the matrix that acts on column vectors. -/
abbrev Mat4 (α : Type) : Type := Matrix (Fin 4) (Fin 4) α

/-- The members `transform`, `positionMatrix`, `scaleMatrix`, `rotationMatrix` that `HalfSphere`,
`Wheel`, `Capsule`, `Cylinder` and `CurvedPipeSegment` declare. -/
structure Placement (α : Type) where
  transform : Mat4 α
  positionMatrix : Mat4 α
  scaleMatrix : Mat4 α
  rotationMatrix : Mat4 α

/-- The members of a new object: the constructors initialise `transform(glm::mat4(1.0f))` and the
member initialisers set the three other matrices to `glm::mat4(1.0f)`. -/
def Placement.fresh : Placement α := ⟨1, 1, 1, 1⟩

/-- The library call `glm::translate(glm::mat4(1.0f), pos)`: the identity with the translation in
the last column. -/
def glmTranslate (pos : Vec3 α) : Mat4 α :=
  Matrix.of ![![1, 0, 0, pos.x], ![0, 1, 0, pos.y], ![0, 0, 1, pos.z], ![0, 0, 0, 1]]

/-- The library call `glm::scale(glm::mat4(1.0f), scale)`: the diagonal matrix of the factors. -/
def glmScale (scale : Vec3 α) : Mat4 α :=
  Matrix.of ![![scale.x, 0, 0, 0], ![0, scale.y, 0, 0], ![0, 0, scale.z, 0], ![0, 0, 0, 1]]

/-! ### `HalfSphere` (`src/half_sphere.h`) -/

/-- The function `HalfSphere::setPosition`:
`positionMatrix = glm::translate(glm::mat4(1.0f), pos);`. -/
def HalfSphere.setPosition (pos : Vec3 α) (self : Placement α) : Placement α :=
  { self with positionMatrix := glmTranslate pos }

/-- The function `HalfSphere::setScale`: `scaleMatrix = glm::scale(glm::mat4(1.0f), scale);`. -/
def HalfSphere.setScale (scale : Vec3 α) (self : Placement α) : Placement α :=
  { self with scaleMatrix := glmScale scale }

/-- The function `HalfSphere::setRotation`:
`rotationMatrix = glm::rotate(glm::mat4(1.0f), glm::radians(angle), axis);`, the library
expression being the parameter `rotate angle axis`. -/
def HalfSphere.setRotation (rotate : α → Vec3 α → Mat4 α) (angle : α) (axis : Vec3 α)
    (self : Placement α) : Placement α :=
  { self with rotationMatrix := rotate angle axis }

/-- The function `HalfSphere::draw(shader, model)`, as far as the members and the `model` uniform are
concerned; the result is the object after the call and the matrix passed to
`shader.setMat4("model", model)`.
```
transform = positionMatrix * rotationMatrix * scaleMatrix;
model = model * transform;
shader.setMat4("model", model);
``` -/
def HalfSphere.draw (self : Placement α) (model : Mat4 α) : Placement α × Mat4 α :=
  let self := { self with
    transform := self.positionMatrix * self.rotationMatrix * self.scaleMatrix }
  let model := model * self.transform
  (self, model)

/-! ### `Wheel` (`src/projectHospital/wheel.h`) -/

/-- The function `Wheel::setPosition`:
`positionMatrix = glm::translate(glm::mat4(1.0f), pos);`. -/
def Wheel.setPosition (pos : Vec3 α) (self : Placement α) : Placement α :=
  { self with positionMatrix := glmTranslate pos }

/-- The function `Wheel::setScale`: `scaleMatrix = glm::scale(glm::mat4(1.0f), scale);`. -/
def Wheel.setScale (scale : Vec3 α) (self : Placement α) : Placement α :=
  { self with scaleMatrix := glmScale scale }

/-- The function `Wheel::setRotation`:
`rotationMatrix = glm::rotate(glm::mat4(1.0f), glm::radians(angle), axis);`, the library
expression being the parameter `rotate angle axis`. -/
def Wheel.setRotation (rotate : α → Vec3 α → Mat4 α) (angle : α) (axis : Vec3 α)
    (self : Placement α) : Placement α :=
  { self with rotationMatrix := rotate angle axis }

/-- The function `Wheel::draw(shader, model)`, as far as the members and the `model` uniform are
concerned; the result is the object after the call and the matrix passed to
`shader.setMat4("model", model)`.
```
transform = positionMatrix * rotationMatrix * scaleMatrix;
model = model * transform;
shader.setMat4("model", model);
``` -/
def Wheel.draw (self : Placement α) (model : Mat4 α) : Placement α × Mat4 α :=
  let self := { self with
    transform := self.positionMatrix * self.rotationMatrix * self.scaleMatrix }
  let model := model * self.transform
  (self, model)

/-! ### `Capsule` (`src/projectHospital/capsule.h`) -/

/-- The function `Capsule::setPosition`:
`positionMatrix = glm::translate(glm::mat4(1.0f), pos);`. -/
def Capsule.setPosition (pos : Vec3 α) (self : Placement α) : Placement α :=
  { self with positionMatrix := glmTranslate pos }

/-- The function `Capsule::setScale`: `scaleMatrix = glm::scale(glm::mat4(1.0f), scale);`. -/
def Capsule.setScale (scale : Vec3 α) (self : Placement α) : Placement α :=
  { self with scaleMatrix := glmScale scale }

/-- The function `Capsule::setRotation`:
`rotationMatrix = glm::rotate(glm::mat4(1.0f), glm::radians(angle), axis);`, the library
expression being the parameter `rotate angle axis`. -/
def Capsule.setRotation (rotate : α → Vec3 α → Mat4 α) (angle : α) (axis : Vec3 α)
    (self : Placement α) : Placement α :=
  { self with rotationMatrix := rotate angle axis }

/-- The function `Capsule::draw(shader, model)`, as far as the members and the `model` uniform are
concerned; the result is the object after the call and the matrix passed to
`shader.setMat4("model", model)`.
```
transform = positionMatrix * rotationMatrix * scaleMatrix;
model = model * transform;
shader.setMat4("model", model);
``` -/
def Capsule.draw (self : Placement α) (model : Mat4 α) : Placement α × Mat4 α :=
  let self := { self with
    transform := self.positionMatrix * self.rotationMatrix * self.scaleMatrix }
  let model := model * self.transform
  (self, model)

/-! ### `Cylinder` (`src/projectHospital/cylinder.h`) -/

/-- The function `Cylinder::setPosition`:
`positionMatrix = glm::translate(glm::mat4(1.0f), pos);`. -/
def Cylinder.setPosition (pos : Vec3 α) (self : Placement α) : Placement α :=
  { self with positionMatrix := glmTranslate pos }

/-- The function `Cylinder::setScale`: `scaleMatrix = glm::scale(glm::mat4(1.0f), scale);`. -/
def Cylinder.setScale (scale : Vec3 α) (self : Placement α) : Placement α :=
  { self with scaleMatrix := glmScale scale }

/-- The function `Cylinder::setRotation`:
`rotationMatrix = glm::rotate(glm::mat4(1.0f), glm::radians(angle), axis);`, the library
expression being the parameter `rotate angle axis`. -/
def Cylinder.setRotation (rotate : α → Vec3 α → Mat4 α) (angle : α) (axis : Vec3 α)
    (self : Placement α) : Placement α :=
  { self with rotationMatrix := rotate angle axis }

/-- The function `Cylinder::draw(shader, model)`, as far as the members and the `model` uniform are
concerned; the result is the object after the call and the matrix passed to
`shader.setMat4("model", model)`.
```
transform = positionMatrix * rotationMatrix * scaleMatrix;
model = model * transform;
shader.setMat4("model", model);
``` -/
def Cylinder.draw (self : Placement α) (model : Mat4 α) : Placement α × Mat4 α :=
  let self := { self with
    transform := self.positionMatrix * self.rotationMatrix * self.scaleMatrix }
  let model := model * self.transform
  (self, model)

/-! ### `CurvedPipeSegment` (`src/curved_pipe.h`) -/

/-- The function `CurvedPipeSegment::setPosition`:
`positionMatrix = glm::translate(glm::mat4(1.0f), pos);`. -/
def CurvedPipeSegment.setPosition (pos : Vec3 α) (self : Placement α) : Placement α :=
  { self with positionMatrix := glmTranslate pos }

/-- The function `CurvedPipeSegment::setScale`: `scaleMatrix = glm::scale(glm::mat4(1.0f), scale);`. -/
def CurvedPipeSegment.setScale (scale : Vec3 α) (self : Placement α) : Placement α :=
  { self with scaleMatrix := glmScale scale }

/-- The function `CurvedPipeSegment::setRotation`:
`rotationMatrix = glm::rotate(glm::mat4(1.0f), glm::radians(angle), axis);`, the library
expression being the parameter `rotate angle axis`. -/
def CurvedPipeSegment.setRotation (rotate : α → Vec3 α → Mat4 α) (angle : α) (axis : Vec3 α)
    (self : Placement α) : Placement α :=
  { self with rotationMatrix := rotate angle axis }

/-- The function `CurvedPipeSegment::draw(shader, model)`, as far as the members and the `model` uniform are
concerned; the result is the object after the call and the matrix passed to
`shader.setMat4("model", model)`.
```
transform = positionMatrix * rotationMatrix * scaleMatrix;
model = model * transform;
shader.setMat4("model", model);
``` -/
def CurvedPipeSegment.draw (self : Placement α) (model : Mat4 α) : Placement α × Mat4 α :=
  let self := { self with
    transform := self.positionMatrix * self.rotationMatrix * self.scaleMatrix }
  let model := model * self.transform
  (self, model)

end PlacementDefs

section BuildVertices
variable {α : Type}

/-- Body of the loop of `CylinderTree::buildVertices`; the state is `i`, `j` and the vectors.
```
vertices.push_back(coordinates[i]); ... coordinates[i + 1] ... coordinates[i + 2]
vertices.push_back(normals[i]); ... normals[i + 1] ... normals[i + 2]
vertices.push_back(texCoords[j]); vertices.push_back(texCoords[j + 1]);
```
followed by the step `i += 3, j += 2` of the loop header. -/
def CylinderTree.buildVerticesBody (_k : Nat) (st : Nat × Nat × Mesh α) :
    Option (Nat × Nat × Mesh α) := do
  let i := st.1
  let j := st.2.1
  let m := st.2.2
  let c0 ← m.coordinates[i]?
  let c1 ← m.coordinates[i + 1]?
  let c2 ← m.coordinates[i + 2]?
  let n0 ← m.normals[i]?
  let n1 ← m.normals[i + 1]?
  let n2 ← m.normals[i + 2]?
  let t0 ← m.texCoords[j]?
  let t1 ← m.texCoords[j + 1]?
  pure (i + 3, j + 2, { m with vertices := m.vertices ++ [c0, c1, c2, n0, n1, n2, t0, t1] })

/-- The function `CylinderTree::buildVertices`:
`for (size_t i = 0, j = 0; i < coordinates.size(); i += 3, j += 2)`, which runs
`⌈coordinates.size() / 3⌉` times. -/
def CylinderTree.buildVertices (m : Mesh α) : Option (Mesh α) := do
  let st ← forLoopM ((m.coordinates.length + 2) / 3) CylinderTree.buildVerticesBody (0, 0, m)
  pure st.2.2

/-- Body of the loop of `CylinderNoTex::buildVertices`; the state is `i` and the vectors.
```
vertices.push_back(coordinates[i]); ... coordinates[i + 1] ... coordinates[i + 2]
vertices.push_back(normals[i]); ... normals[i + 1] ... normals[i + 2]
```
followed by the step `i += 3` of the loop header. -/
def CylinderNoTex.buildVerticesBody (_k : Nat) (st : Nat × Mesh α) : Option (Nat × Mesh α) := do
  let i := st.1
  let m := st.2
  let c0 ← m.coordinates[i]?
  let c1 ← m.coordinates[i + 1]?
  let c2 ← m.coordinates[i + 2]?
  let n0 ← m.normals[i]?
  let n1 ← m.normals[i + 1]?
  let n2 ← m.normals[i + 2]?
  pure (i + 3, { m with vertices := m.vertices ++ [c0, c1, c2, n0, n1, n2] })

/-- The function `CylinderNoTex::buildVertices`:
`for (size_t i = 0; i < coordinates.size(); i += 3)`. -/
def CylinderNoTex.buildVertices (m : Mesh α) : Option (Mesh α) := do
  let st ← forLoopM ((m.coordinates.length + 2) / 3) CylinderNoTex.buildVerticesBody (0, m)
  pure st.2

end BuildVertices

section MaterialDefs
variable {α : Type} [LinearOrderedField α]

/-- A `glm::vec4`. -/
structure Vec4 (α : Type) where
  x : α
  y : α
  z : α
  w : α

/-- The material members `ambient`, `diffuse`, `specular`, `shininess` of the Bezier classes. -/
structure Material (α : Type) where
  ambient : Vec4 α
  diffuse : Vec4 α
  specular : Vec4 α
  shininess : α

/-- The values written to the uniforms `material.ambient`, `material.diffuse`,
`material.specular` (the components passed to `setVec3` or `setVec4`) and
`material.shininess` by a draw call. -/
structure MaterialUniforms (α : Type) where
  ambient : List α
  diffuse : List α
  specular : List α
  shininess : α

/-- The material part of the constructor of `BezierCurve`:
`this->ambient = amb; this->diffuse = diff; this->specular = spec; this->shininess = shiny;`. -/
def BezierCurve.material (amb diff spec : Vec4 α) (shiny : α) : Material α :=
  { ambient := amb, diffuse := diff, specular := spec, shininess := shiny }

/-- The default arguments of the constructor of `BezierCurve`:
`amb = vec4(1.0, 0.0, 0.0, 1.0f)`, `diff = vec4(1.0, 0.0, 0.0, 1.0f)`,
`spec = vec4(0.1f, 0.1f, 0.1f, 0.5f)`, `shiny = 32.0f`. -/
def BezierCurve.defaultMaterial : Material α :=
  BezierCurve.material ⟨1, 0, 0, 1⟩ ⟨1, 0, 0, 1⟩ ⟨1 / 10, 1 / 10, 1 / 10, 1 / 2⟩ 32

/-- The material uniforms written by `BezierCurve::drawBezierCurve` (`src/bezier.h`).
```
lightingShader.setVec3("material.ambient", glm::vec3(0.969, 0.776, 0.561));
lightingShader.setVec3("material.diffuse", glm::vec3(0.969, 0.776, 0.561));
lightingShader.setVec3("material.specular", glm::vec3(1.0f, 1.0f, 1.0f));
lightingShader.setFloat("material.shininess", 32.0f);
``` -/
def BezierCurve.drawBezierCurve (_self : Material α) : MaterialUniforms α :=
  { ambient := [969 / 1000, 776 / 1000, 561 / 1000],
    diffuse := [969 / 1000, 776 / 1000, 561 / 1000],
    specular := [1, 1, 1],
    shininess := 32 }

/-- The material uniforms written by `Bezier::drawBezier` (`src/projectHospital/bezier.h`).
```
lightingShader.setVec4("material.ambient", this->ambient);
lightingShader.setVec4("material.diffuse", this->diffuse);
lightingShader.setVec4("material.specular", this->specular);
lightingShader.setFloat("material.shininess", this->shininess);
``` -/
def Bezier.drawBezier (self : Material α) : MaterialUniforms α :=
  { ambient := [self.ambient.x, self.ambient.y, self.ambient.z, self.ambient.w],
    diffuse := [self.diffuse.x, self.diffuse.y, self.diffuse.z, self.diffuse.w],
    specular := [self.specular.x, self.specular.y, self.specular.z, self.specular.w],
    shininess := self.shininess }

/-- The material uniforms written by `Bezier3::drawBezier` (same text as `Bezier::drawBezier`). -/
def Bezier3.drawBezier (self : Material α) : MaterialUniforms α :=
  { ambient := [self.ambient.x, self.ambient.y, self.ambient.z, self.ambient.w],
    diffuse := [self.diffuse.x, self.diffuse.y, self.diffuse.z, self.diffuse.w],
    specular := [self.specular.x, self.specular.y, self.specular.z, self.specular.w],
    shininess := self.shininess }

end MaterialDefs

section CheckedDivision
variable {α : Type} [LinearOrderedField α]

/-- The division `1.0 / r` as an operation that fails on a zero divisor. -/
def checkedInv (r : α) : Option α := if r = 0 then none else some (1 / r)

/-- The body of the ring loop of `BezierCurve::hollowBezier` (see `BezierCurve.ringBody`) with the
division of `lengthInv = 1.0 / r` observed: the result is `none` when the divisor `r` is zero. -/
def BezierCurve.ringBodyChecked (sin cos : α → α) (nt ntheta : Nat) (ctrlpoints : List α)
    (L : Int) (dtheta dt : α) (i : Nat) (st : α × Mesh α) : Option (α × Mesh α) := do
  let t := st.1
  let m := st.2
  let xy ← BezierCurve.BezierCurveFN t ctrlpoints L
  let r := xy.1
  let y := xy.2
  let theta : α := 0
  let t := t + dt
  let lengthInv ← checkedInv r
  let st := forLoop (ntheta + 1)
    (BezierCurve.sectorBody sin cos nt ntheta dtheta r y lengthInv i) (theta, m)
  pure (t, st.2)

/-- The function `BezierCurve::hollowBezier` with the division of `lengthInv = 1.0 / r`
observed: `none` when a ring divides by zero (or the evaluator reads outside the array). -/
def BezierCurve.hollowBezierChecked (sin cos : α → α) (nt ntheta : Nat) (ctrlpoints : List α)
    (L : Int) : Option (Mesh α) := do
  let dtheta : α := 2 * bezierPi / (ntheta : α)
  let dt : α := 1 / (nt : α)
  let st ← forLoopM (nt + 1)
    (BezierCurve.ringBodyChecked sin cos nt ntheta ctrlpoints L dtheta dt) ((0 : α), ({} : Mesh α))
  let m := forLoop nt (BezierCurve.indexOuter ntheta) st.2
  let count := m.coordinates.length
  forLoopM ((count + 2) / 3) BezierCurve.interleaveBody m

/-- The body of the ring loop of `Bezier::hollowBezier` with the division of
`lengthInv = 1.0 / r` observed. -/
def Bezier.ringBodyChecked (sin cos : α → α) (ntheta : Nat) (ctrlpoints : List α) (L : Int)
    (dtheta dt : α) (_i : Nat) (st : α × Mesh α) : Option (α × Mesh α) := do
  let t := st.1
  let m := st.2
  let xy ← Bezier.BezierCurve t ctrlpoints L
  let r := xy.1
  let y := xy.2
  let theta : α := 0
  let t := t + dt
  let lengthInv ← checkedInv r
  let st := forLoop (ntheta + 1) (Bezier.sectorBody sin cos dtheta r y lengthInv) (theta, m)
  pure (t, st.2)

/-- The function `Bezier::hollowBezier` with the division of `lengthInv = 1.0 / r` observed. -/
def Bezier.hollowBezierChecked (sin cos : α → α) (nt ntheta : Nat) (ctrlpoints : List α)
    (L : Int) : Option (Mesh α) := do
  let dtheta : α := 2 * bezierPi / (ntheta : α)
  let dt : α := 1 / (nt : α)
  let st ← forLoopM (nt + 1) (Bezier.ringBodyChecked sin cos ntheta ctrlpoints L dtheta dt)
    ((0 : α), ({} : Mesh α))
  let m := forLoop nt (Bezier.indexOuter ntheta) st.2
  let count := m.coordinates.length
  forLoopM ((count + 2) / 3) Bezier.interleaveBody m

/-- The body of the ring loop of `Bezier3::generateFan` with the division of
`lengthInv = 1.0 / r` observed. -/
def Bezier3.ringBodyChecked (sin cos : α → α) (ntheta : Nat) (ctrlpoints : List α) (L : Int)
    (dtheta dt : α) (_i : Nat) (st : α × Mesh α) : Option (α × Mesh α) := do
  let t := st.1
  let m := st.2
  let xy ← Bezier3.BezierCurve t ctrlpoints L
  let r := xy.1
  let y := xy.2
  let theta : α := 0
  let t := t + dt
  let lengthInv ← checkedInv r
  let st := forLoop (ntheta + 1) (Bezier3.sectorBody sin cos dtheta r y lengthInv) (theta, m)
  pure (t, st.2)

/-- The function `Bezier3::generateFan` with the division of `lengthInv = 1.0 / r` observed. -/
def Bezier3.generateFanChecked (sin cos : α → α) (nt ntheta : Nat) (ctrlpoints : List α)
    (L : Int) : Option (Mesh α) := do
  let dtheta : α := 2 * bezierPi / (ntheta : α)
  let dt : α := 1 / (nt : α)
  let st ← forLoopM (nt + 1) (Bezier3.ringBodyChecked sin cos ntheta ctrlpoints L dtheta dt)
    ((0 : α), ({} : Mesh α))
  let m := forLoop nt (Bezier3.indexOuter ntheta) st.2
  let count := m.coordinates.length
  forLoopM ((count + 2) / 3) Bezier3.interleaveBody m

end CheckedDivision

/-! ## Specification-side definitions -/

section SpecSide
variable {α : Type} [LinearOrderedField α]

/-- A control polygon as the flattened array of triplets the constructors receive. -/
def controlArray (P : List (Vec3 α)) : List α :=
  P.flatMap fun p => [p.x, p.y, p.z]

/-- The Bernstein polynomial of the specification, for the component `c` (`0` for x, `1` for y) of
the control points stored in `ctrl`: `Σ_{i=0}^{L} C(L,i)·(1−t)^(L−i)·t^i·P_i.c`. -/
def bernsteinSpec (ctrl : List α) (L : Nat) (t : α) (c : Nat) : α :=
  ∑ i in Finset.range (L + 1),
    (L.choose i : α) * (1 - t) ^ (L - i) * t ^ i * ctrl.getD (3 * i + c) 0

/-- The sum the loop of the evaluator forms, for the component `c` of the control points stored
in `ctrl`: `Σ_{i=0}^{L} (1−t)^(L−i)·t^i·c_i·P_i.c`, where `c_i` is the `long long` that
`nCr(L, i)` returns. -/
def bernsteinCode (ctrl : List α) (L : Nat) (t : α) (c : Nat) : α :=
  ∑ i in Finset.range (L + 1),
    (1 - t) ^ (L - i) * t ^ i * ((nCr64 (L : Int) (i : Int) : Int) : α) * ctrl.getD (3 * i + c) 0

/-- The control polygon of `n` points whose x components are `0` except that of point `k`, which
is `1`; the y and z components are `0`. -/
def spikePolygon (k n : Nat) : List (Vec3 α) :=
  (List.range n).map fun i => ⟨if i = k then 1 else 0, 0, 0⟩

/-- Mesh `m'` is `m` with `c` more coordinates, `n` more normals, `t` more texture coordinates
and the same `indices` and `vertices`. -/
def Mesh.Grown {β : Type} (m m' : Mesh β) (c n t : Nat) : Prop :=
  m'.coordinates.length = m.coordinates.length + c ∧
  m'.normals.length = m.normals.length + n ∧
  m'.texCoords.length = m.texCoords.length + t ∧
  m'.indices = m.indices ∧ m'.vertices = m.vertices

/-- The six indices of the cell with upper-left corner `k1` and lower-left corner `k2`, in the
order of the Bezier builders and of `CurvedPipeSegment`: `(k1, k2, k1+1)`, `(k1+1, k2, k2+1)`. -/
def quadCell (k1 k2 : Int) : List Int := [k1, k2, k1 + 1, k1 + 1, k2, k2 + 1]

/-- The six indices of a cell in the order of `HalfSphere` and `Wheel`:
`(first, second, first+1)`, `(second, second+1, first+1)`. -/
def quadCellB (first second : Int) : List Int :=
  [first, second, first + 1, second, second + 1, first + 1]

/-- The closed form of the index buffer of a ring grid of `nt` stacks and `ntheta` sectors:
for stack `i` and sector `j` the cell with `k1 = i·(ntheta+1) + j`, `k2 = k1 + ntheta + 1`. -/
def gridIndices (nt ntheta : Nat) : List Int :=
  (List.range nt).flatMap fun i => (List.range ntheta).flatMap fun j =>
    quadCell ((i : Int) * ((ntheta : Int) + 1) + j)
      ((i : Int) * ((ntheta : Int) + 1) + j + ntheta + 1)

/-- The closed form of the index buffer of `HalfSphere` and `Wheel`:
`first = i·(sectorCount+1) + j`, `second = first + sectorCount + 1`. -/
def gridIndicesB (stackCount sectorCount : Nat) : List Int :=
  (List.range stackCount).flatMap fun i => (List.range sectorCount).flatMap fun j =>
    quadCellB ((i : Int) * ((sectorCount : Int) + 1) + j)
      ((i : Int) * ((sectorCount : Int) + 1) + j + sectorCount + 1)

/-- Mesh `m'` is `m` with `c` more entries in `vertices` and the same `indices`. -/
def Mesh.VGrown {β : Type} (m m' : Mesh β) (c : Nat) : Prop :=
  m'.vertices.length = m.vertices.length + c ∧ m'.indices = m.indices

/-- The indices pushed by the index pass of `Capsule` for the cell with corners `k1`, `k2` of
stack `i`: the first triangle unless `i = 0`, the second unless `i = stacks - 1`. -/
def Capsule.cell (nStacks i : Nat) (k1 k2 : Int) : List Int :=
  (if (i : Int) ≠ 0 then [k1, k2, k1 + 1] else []) ++
  (if (i : Int) ≠ (nStacks : Int) - 1 then [k1 + 1, k2, k2 + 1] else [])

/-- The closed form of the index buffer of `Capsule`. -/
def Capsule.gridIndices (sectors nStacks : Nat) : List Int :=
  (List.range nStacks).flatMap fun i => (List.range sectors).flatMap fun j =>
    Capsule.cell nStacks i ((i : Int) * ((sectors : Int) + 1) + j)
      ((i : Int) * ((sectors : Int) + 1) + j + sectors + 1)

/-- An index buffer `idx` is a triangle list over `V` vertices: every entry is a valid vertex
number and the length is a multiple of three. -/
def IndexSafe (idx : List Int) (V : Nat) : Prop :=
  (∀ x ∈ idx, 0 ≤ x ∧ x < (V : Int)) ∧ 3 ∣ idx.length

/-- The angle `sectorAngle = i * sectorStep` of the rim position `i` of `CylinderTree` and
`CylinderNoTex`, with `sectorStep = 2 * PI / sectorCount`. -/
def cylSectorAngle (p : CylinderParams α) (i : Nat) : α :=
  (i : α) * (2 * PI_31416 / (p.sectorCount : α))

/-- The six coordinates of the rim position `i`: the bottom vertex (number `2 i`), then the top
vertex (number `2 i + 1`). -/
def cylRimCoordinates (sin cos : α → α) (p : CylinderParams α) (i : Nat) : List α :=
  [p.radius * cos (cylSectorAngle p i), -p.height / 2, p.radius * sin (cylSectorAngle p i),
   p.radius * cos (cylSectorAngle p i), p.height / 2, p.radius * sin (cylSectorAngle p i)]

/-- The six normal components of the rim position `i`. -/
def cylRimNormals (sin cos : α → α) (p : CylinderParams α) (i : Nat) : List α :=
  [cos (cylSectorAngle p i), 0, sin (cylSectorAngle p i),
   cos (cylSectorAngle p i), 0, sin (cylSectorAngle p i)]

/-- The four texture coordinates of the rim position `i` of `CylinderTree`. -/
def cylRimTexCoords (p : CylinderParams α) (i : Nat) : List α :=
  [(i : α) / (p.sectorCount : α), 0, (i : α) / (p.sectorCount : α), 1]

/-- The two side triangles of sector `i`: `(2i, 2i+1, 2i+2)` and `(2i+1, 2i+3, 2i+2)`. -/
def cylSideCell (i : Nat) : List Int :=
  [2 * (i : Int), 2 * (i : Int) + 1, 2 * (i : Int) + 2,
   2 * (i : Int) + 1, 2 * (i : Int) + 3, 2 * (i : Int) + 2]

/-- The bottom-fan triangle of sector `i` anchored at `c`: `(c, 2i, 2i+2)`. -/
def cylBottomCell (c : Int) (i : Nat) : List Int := [c, 2 * (i : Int), 2 * (i : Int) + 2]

/-- The top-fan triangle of sector `i` anchored at `c`: `(c, 2i+3, 2i+1)`. -/
def cylTopCell (c : Int) (i : Nat) : List Int := [c, 2 * (i : Int) + 3, 2 * (i : Int) + 1]

/-- The index buffer of a cylinder of `s` sectors whose fans are anchored at `bc` and `tc`:
the `2 s` side triangles, then the `s` bottom-fan triangles, then the `s` top-fan triangles. -/
def cylIndices (s : Nat) (bc tc : Int) : List Int :=
  (List.range s).flatMap cylSideCell ++
    ((List.range s).flatMap (cylBottomCell bc) ++ (List.range s).flatMap (cylTopCell tc))

/-- The sixteen floats `Cylinder::generateCylinderVerticesAndIndices` pushes for the rim position
`i`: the top vertex (number `2 i`), then the bottom vertex (number `2 i + 1`), each with
position, normal and texture coordinates. -/
def Cylinder.rimData (sin cos : α → α) (sectors : Nat) (i : Nat) : List α :=
  [1 * cos ((i : α) * (2 * PI_3141516 / (sectors : α))), 2 / 2,
   1 * sin ((i : α) * (2 * PI_3141516 / (sectors : α))), 0, 1, 0, (i : α) / (sectors : α), 1,
   1 * cos ((i : α) * (2 * PI_3141516 / (sectors : α))), -2 / 2,
   1 * sin ((i : α) * (2 * PI_3141516 / (sectors : α))), 0, -1, 0, (i : α) / (sectors : α), 0]

/-- A call of one of the four member functions that concern the placement of an object. -/
inductive PlacementCall (α : Type) where
  | setPosition (pos : Vec3 α)
  | setScale (scale : Vec3 α)
  | setRotation (angle : α) (axis : Vec3 α)
  | draw (model : Mat4 α)

/-- The four placement member functions of one class. -/
structure PlacementMethods (α : Type) where
  setPosition : Vec3 α → Placement α → Placement α
  setScale : Vec3 α → Placement α → Placement α
  setRotation : α → Vec3 α → Placement α → Placement α
  draw : Placement α → Mat4 α → Placement α × Mat4 α

/-- The placement member functions of `HalfSphere`. -/
def HalfSphere.methods (rotate : α → Vec3 α → Mat4 α) : PlacementMethods α :=
  ⟨HalfSphere.setPosition, HalfSphere.setScale, HalfSphere.setRotation rotate, HalfSphere.draw⟩

/-- The placement member functions of `Wheel`. -/
def Wheel.methods (rotate : α → Vec3 α → Mat4 α) : PlacementMethods α :=
  ⟨Wheel.setPosition, Wheel.setScale, Wheel.setRotation rotate, Wheel.draw⟩

/-- The placement member functions of `Capsule`. -/
def Capsule.methods (rotate : α → Vec3 α → Mat4 α) : PlacementMethods α :=
  ⟨Capsule.setPosition, Capsule.setScale, Capsule.setRotation rotate, Capsule.draw⟩

/-- The placement member functions of `Cylinder`. -/
def Cylinder.methods (rotate : α → Vec3 α → Mat4 α) : PlacementMethods α :=
  ⟨Cylinder.setPosition, Cylinder.setScale, Cylinder.setRotation rotate, Cylinder.draw⟩

/-- The placement member functions of `CurvedPipeSegment`. -/
def CurvedPipeSegment.methods (rotate : α → Vec3 α → Mat4 α) : PlacementMethods α :=
  ⟨CurvedPipeSegment.setPosition, CurvedPipeSegment.setScale, CurvedPipeSegment.setRotation rotate, CurvedPipeSegment.draw⟩

/-- The object after one call. -/
def PlacementMethods.call (M : PlacementMethods α) (self : Placement α) :
    PlacementCall α → Placement α
  | .setPosition pos => M.setPosition pos self
  | .setScale scale => M.setScale scale self
  | .setRotation angle axis => M.setRotation angle axis self
  | .draw model => (M.draw self model).1

/-- The object reached from a new object by a sequence of calls (the reachable states). -/
def PlacementMethods.run (M : PlacementMethods α) (calls : List (PlacementCall α)) :
    Placement α :=
  calls.foldl M.call Placement.fresh

/-- The matrix of the most recent `setPosition` call of a sequence of calls, the identity if
there is none. -/
def lastPosition (calls : List (PlacementCall α)) : Mat4 α :=
  (calls.reverse.findSome? fun c => match c with
    | .setPosition pos => some (glmTranslate pos)
    | _ => none).getD 1

/-- The matrix of the most recent `setScale` call of a sequence of calls, the identity if there
is none. -/
def lastScale (calls : List (PlacementCall α)) : Mat4 α :=
  (calls.reverse.findSome? fun c => match c with
    | .setScale scale => some (glmScale scale)
    | _ => none).getD 1

/-- The matrix of the most recent `setRotation` call of a sequence of calls, the identity if
there is none. -/
def lastRotation (rotate : α → Vec3 α → Mat4 α) (calls : List (PlacementCall α)) : Mat4 α :=
  (calls.reverse.findSome? fun c => match c with
    | .setRotation angle axis => some (rotate angle axis)
    | _ => none).getD 1

/-- The statement of the specification about `draw` for the member functions `M` of one class:
after any sequence of calls, `draw` writes `model · (P · R · S)` to the `model` uniform, with
`P`, `R`, `S` the matrices of the most recent setter calls, stores `P · R · S` in `transform`
and leaves the three matrices as they are; each setter changes its own matrix only. -/
def DrawsComposed (rotate : α → Vec3 α → Mat4 α) (M : PlacementMethods α) : Prop :=
  (∀ (calls : List (PlacementCall α)) (model : Mat4 α),
    (M.draw (M.run calls) model).2
      = model * (lastPosition calls * lastRotation rotate calls * lastScale calls) ∧
    (M.draw (M.run calls) model).1.transform
      = lastPosition calls * lastRotation rotate calls * lastScale calls ∧
    (M.draw (M.run calls) model).1.positionMatrix = (M.run calls).positionMatrix ∧
    (M.draw (M.run calls) model).1.rotationMatrix = (M.run calls).rotationMatrix ∧
    (M.draw (M.run calls) model).1.scaleMatrix = (M.run calls).scaleMatrix) ∧
  (∀ (self : Placement α) (v : Vec3 α) (angle : α),
    M.setPosition v self = { self with positionMatrix := glmTranslate v } ∧
    M.setScale v self = { self with scaleMatrix := glmScale v } ∧
    M.setRotation angle v self = { self with rotationMatrix := rotate angle v })

/-- What the code does with `transform`, for the member functions `M` of one class: no setter
touches it, and `draw` sets it to `positionMatrix · rotationMatrix · scaleMatrix`. -/
def TransformSetByDraw (M : PlacementMethods α) : Prop :=
  (∀ (self : Placement α) (v : Vec3 α) (angle : α),
    (M.setPosition v self).transform = self.transform ∧
    (M.setScale v self).transform = self.transform ∧
    (M.setRotation angle v self).transform = self.transform) ∧
  (∀ (self : Placement α) (model : Mat4 α),
    (M.draw self model).1.transform
      = (M.draw self model).1.positionMatrix * (M.draw self model).1.rotationMatrix
          * (M.draw self model).1.scaleMatrix)

/-- Float `c` of vertex number `v` in an interleaved buffer of eight floats per vertex
(position at `0..2`, normal at `3..5`, texture coordinates at `6..7`). -/
def Mesh.attr8 (m : Mesh α) (v c : Nat) : Option α := m.vertices[8 * v + c]?

/-- The eight floats `HalfSphere` pushes for the vertex of ring `i` and sector `j`. -/
def HalfSphere.vertexData (sin cos : α → α) (pi : α) (sectorCount stackCount : Nat)
    (i j : Nat) : List α :=
  [cos (pi / 2 - (i : α) * pi / ((2 * stackCount : Nat) : α))
      * cos (((j * 2 : Nat) : α) * pi / (sectorCount : α)),
   sin (pi / 2 - (i : α) * pi / ((2 * stackCount : Nat) : α)),
   cos (pi / 2 - (i : α) * pi / ((2 * stackCount : Nat) : α))
      * sin (((j * 2 : Nat) : α) * pi / (sectorCount : α)),
   cos (pi / 2 - (i : α) * pi / ((2 * stackCount : Nat) : α))
      * cos (((j * 2 : Nat) : α) * pi / (sectorCount : α)),
   sin (pi / 2 - (i : α) * pi / ((2 * stackCount : Nat) : α)),
   cos (pi / 2 - (i : α) * pi / ((2 * stackCount : Nat) : α))
      * sin (((j * 2 : Nat) : α) * pi / (sectorCount : α)),
   (j : α) / (sectorCount : α), (i : α) / (stackCount : α)]

/-- The eight floats `Wheel` pushes for the vertex of ring `i` and sector `j`. -/
def Wheel.vertexData (sin cos : α → α) (pi : α) (sectorCount stackCount : Nat)
    (i j : Nat) : List α :=
  [cos (pi / 2 - (i : α) * pi / (stackCount : α))
      * cos (((j * 2 : Nat) : α) * pi / (sectorCount : α)),
   sin (pi / 2 - (i : α) * pi / (stackCount : α)),
   cos (pi / 2 - (i : α) * pi / (stackCount : α))
      * sin (((j * 2 : Nat) : α) * pi / (sectorCount : α)),
   cos (pi / 2 - (i : α) * pi / (stackCount : α))
      * cos (((j * 2 : Nat) : α) * pi / (sectorCount : α)),
   sin (pi / 2 - (i : α) * pi / (stackCount : α)),
   cos (pi / 2 - (i : α) * pi / (stackCount : α))
      * sin (((j * 2 : Nat) : α) * pi / (sectorCount : α)),
   (j : α) / (sectorCount : α), (i : α) / (stackCount : α)]

/-- The eight floats a hemisphere loop of `Capsule` pushes for the vertex of stack `i` and
sector `j`; `shift` is `halfHeight` in the top hemisphere and `-halfHeight` in the bottom one. -/
def Capsule.hemiData (sin cos : α → α) (sectors nStacks : Nat)
    (radius sectorStep stackStep shift : α) (i j : Nat) : List α :=
  [radius * cos (PI_3141516 / 2 - (i : α) * stackStep) * cos ((j : α) * sectorStep),
   radius * sin (PI_3141516 / 2 - (i : α) * stackStep) + shift,
   radius * cos (PI_3141516 / 2 - (i : α) * stackStep) * sin ((j : α) * sectorStep),
   radius * cos (PI_3141516 / 2 - (i : α) * stackStep) * cos ((j : α) * sectorStep) / radius,
   radius * sin (PI_3141516 / 2 - (i : α) * stackStep) / radius,
   radius * cos (PI_3141516 / 2 - (i : α) * stackStep) * sin ((j : α) * sectorStep) / radius,
   (j : α) / (sectors : α), (i : α) / (nStacks : α)]

/-- The eight floats the cylinder-body loop of `Capsule` pushes for the vertex of its ring `i`
(`0` for the top ring, `1` for the bottom ring) and sector `j`. -/
def Capsule.bandData (sin cos : α → α) (sectors : Nat)
    (radius sectorStep halfHeight : α) (i j : Nat) : List α :=
  [radius * cos ((j : α) * sectorStep), (if i = 0 then halfHeight else -halfHeight),
   radius * sin ((j : α) * sectorStep), 0, (if i = 0 then 1 else -1), 0,
   (j : α) / (sectors : α), (if i = 0 then 1 else 0)]

/-- The three consecutive floats of vertex number `v` in an array of three floats per vertex
(`coordinates` or `normals`), as a vector; `none` when the array is too short. -/
def readVec3 (l : List α) (v : Nat) : Option (Vec3 α) :=
  match l[3 * v]?, l[3 * v + 1]?, l[3 * v + 2]? with
  | some x, some y, some z => some ⟨x, y, z⟩
  | _, _, _ => none

/-- Position of vertex number `v`, read from `coordinates`. -/
def Mesh.position (m : Mesh α) (v : Nat) : Option (Vec3 α) := readVec3 m.coordinates v

/-- Normal of vertex number `v`, read from `normals`. -/
def Mesh.normal (m : Mesh α) (v : Nat) : Option (Vec3 α) := readVec3 m.normals v

/-- The difference `a − b` of two vectors. -/
def Vec3.sub (a b : Vec3 α) : Vec3 α := ⟨a.x - b.x, a.y - b.y, a.z - b.z⟩

/-- The cross product `a × b`. -/
def Vec3.cross (a b : Vec3 α) : Vec3 α :=
  ⟨a.y * b.z - a.z * b.y, a.z * b.x - a.x * b.z, a.x * b.y - a.y * b.x⟩

/-- The dot product `a · b`. -/
def Vec3.dot (a b : Vec3 α) : α := a.x * b.x + a.y * b.y + a.z * b.z

/-- The positions `(v0, v1, v2)` of the three corners of triangle number `t` of the index buffer;
`none` when an index or a coordinate is missing. -/
def Mesh.triangle (m : Mesh α) (t : Nat) : Option (Vec3 α × Vec3 α × Vec3 α) :=
  match m.indices[3 * t]?, m.indices[3 * t + 1]?, m.indices[3 * t + 2]? with
  | some i0, some i1, some i2 =>
    if i0 < 0 ∨ i1 < 0 ∨ i2 < 0 then none
    else
      match m.position i0.toNat, m.position i1.toNat, m.position i2.toNat with
      | some p0, some p1, some p2 => some (p0, p1, p2)
      | _, _, _ => none
  | _, _, _ => none

/-- The vector `(v1 − v0) × (v2 − v0)` of a triangle `(v0, v1, v2)`. -/
def triangleNormal (T : Vec3 α × Vec3 α × Vec3 α) : Vec3 α :=
  Vec3.cross (Vec3.sub T.2.1 T.1) (Vec3.sub T.2.2 T.1)

/-- The eight floats of vertex `k` in a buffer interleaved from `co`, `no` and `tx` (`0` stands
for a missing entry). -/
def interleaved8 (co no tx : List α) (k : Nat) : List α :=
  [co.getD (3 * k) 0, co.getD (3 * k + 1) 0, co.getD (3 * k + 2) 0,
   no.getD (3 * k) 0, no.getD (3 * k + 1) 0, no.getD (3 * k + 2) 0,
   tx.getD (2 * k) 0, tx.getD (2 * k + 1) 0]

/-- The six floats of vertex `k` in a buffer interleaved from `co` and `no`. -/
def interleaved6 (co no : List α) (k : Nat) : List α :=
  [co.getD (3 * k) 0, co.getD (3 * k + 1) 0, co.getD (3 * k + 2) 0,
   no.getD (3 * k) 0, no.getD (3 * k + 1) 0, no.getD (3 * k + 2) 0]

/-- Vertex `v` of `m` lies on the ring of radius `r` and height `y` at the angle `theta`, at
`(r·sin θ, y, r·cos θ)`, and its normal is `(x/r, 0, z/r) = (sin θ, 0, cos θ)`, of unit
length. -/
def RadialVertex (sin cos : α → α) (m : Mesh α) (v : Nat) (r y theta : α) : Prop :=
  ∃ P N : Vec3 α, m.position v = some P ∧ m.normal v = some N ∧
    P.x = r * sin theta ∧ P.y = y ∧ P.z = r * cos theta ∧
    N.x = P.x / r ∧ N.y = 0 ∧ N.z = P.z / r ∧
    N.x = sin theta ∧ N.z = cos theta ∧ N.x ^ 2 + N.y ^ 2 + N.z ^ 2 = 1

/-- The buffer `vertices` of `m` is the faithful interleaving, eight floats per vertex, of the
arrays of `m` for `V` vertices: `coordinates` and `normals` hold `3 V` floats, `texCoords` holds
`2 V`, `vertices` holds `8 V`, and vertex `k` is `coordinates[3k..3k+2]`, `normals[3k..3k+2]`,
`texCoords[2k..2k+1]`. -/
def Mesh.Interleaved8 (m : Mesh α) (V : Nat) : Prop :=
  m.coordinates.length = 3 * V ∧ m.normals.length = 3 * V ∧ m.texCoords.length = 2 * V ∧
  m.vertices.length = 8 * V ∧
  ∀ k, k < V →
    (∀ c, c < 3 → m.vertices[8 * k + c]? = m.coordinates[3 * k + c]? ∧
      m.vertices[8 * k + 3 + c]? = m.normals[3 * k + c]?) ∧
    (∀ c, c < 2 → m.vertices[8 * k + 6 + c]? = m.texCoords[2 * k + c]?)

/-- The buffer `vertices` of `m` is the faithful interleaving, six floats per vertex, of
`coordinates` and `normals` for `V` vertices. -/
def Mesh.Interleaved6 (m : Mesh α) (V : Nat) : Prop :=
  m.coordinates.length = 3 * V ∧ m.normals.length = 3 * V ∧ m.vertices.length = 6 * V ∧
  ∀ k, k < V → ∀ c, c < 3 →
    m.vertices[6 * k + c]? = m.coordinates[3 * k + c]? ∧
    m.vertices[6 * k + 3 + c]? = m.normals[3 * k + c]?

/-- The pair `(r, y)` the evaluator returns for ring `i` of a surface of revolution, sampled at
`t = i·dt` (the value of the accumulated `t` in exact arithmetic); `(0, 0)` stands for a failed
evaluation. -/
def revProfile (cp : List α) (L : Int) (dt : α) (i : Nat) : α × α :=
  (BezierCurve.BezierCurveFN ((i : α) * dt) cp L).getD (0, 0)

/-- The three coordinates the sector loop of the Bezier builders pushes for sector `j` of a ring
of radius `r` and height `y`, with `theta = j·dtheta`. -/
def revCoordinates (sin cos : α → α) (dtheta r y : α) (j : Nat) : List α :=
  [r * sin ((j : α) * dtheta), y, r * cos ((j : α) * dtheta)]

/-- The three normal components the sector loop of the Bezier builders pushes for sector `j`,
with `lengthInv = 1 / r`. -/
def revNormals (sin cos : α → α) (dtheta r y : α) (j : Nat) : List α :=
  [(r * sin ((j : α) * dtheta) - 0) * (1 / r), (y - y) * (1 / r),
   (r * cos ((j : α) * dtheta) - 0) * (1 / r)]

/-- The two texture coordinates `BezierCurve` pushes for sector `j` of ring `i`. -/
def revTexCoords (nt ntheta i j : Nat) : List α :=
  [(j : α) / (ntheta : α), (i : α) / (nt : α)]

/-- The coordinates array of a surface of revolution of `n` rings. -/
def revCoordinateArray (sin cos : α → α) (ntheta : Nat) (cp : List α) (L : Int)
    (dtheta dt : α) (n : Nat) : List α :=
  (List.range n).flatMap fun i => (List.range (ntheta + 1)).flatMap
    (revCoordinates sin cos dtheta (revProfile cp L dt i).1 (revProfile cp L dt i).2)

/-- The normals array of a surface of revolution of `n` rings. -/
def revNormalArray (sin cos : α → α) (ntheta : Nat) (cp : List α) (L : Int)
    (dtheta dt : α) (n : Nat) : List α :=
  (List.range n).flatMap fun i => (List.range (ntheta + 1)).flatMap
    (revNormals sin cos dtheta (revProfile cp L dt i).1 (revProfile cp L dt i).2)

/-- The texture-coordinate array of `BezierCurve` for `n` rings. -/
def revTexCoordArray (nt ntheta n : Nat) : List α :=
  (List.range n).flatMap fun i => (List.range (ntheta + 1)).flatMap (revTexCoords nt ntheta i)

/-- An interleaved buffer of eight floats per vertex with the two texture coordinates of every
vertex removed (a trailing incomplete vertex is dropped). -/
def stripTexCoords {β : Type} : List β → List β
  | a :: b :: c :: d :: e :: f :: _ :: _ :: rest => a :: b :: c :: d :: e :: f :: stripTexCoords rest
  | _ => []

/-- The exact (unwrapped) products `ans·(n − r + i)` formed by the iterations `i = 1, …, r` of
`nCr` in `long long` arithmetic. -/
def nCr64Products (n r : Int) : List Int :=
  (List.range (nCrReduce n r).toNat).map fun j =>
    nCr64Loop n (nCrReduce n r) j * (n - nCrReduce n r + ((j : Int) + 1))

/-- The Bernstein weight `C(L,i)·(1−t)^(L−i)·t^i`. -/
def bernsteinWeight (L i : Nat) (t : α) : α :=
  (L.choose i : α) * (1 - t) ^ (L - i) * t ^ i

/-- The floats a call `generateBranches(start, direction, depth)` appends, for `depth ≥ 0`, in
pre-order: the segment of the call, then everything of the left child, then everything of the
right child. -/
def FractalTree.layout (sin cos radians : α → α) (branchAngle : α) :
    Nat → Vec3 α → Vec3 α → List α
  | 0, _, _ => []
  | d + 1, start, direction =>
    [start.x, start.y, start.z, (Vec3.add start direction).x, (Vec3.add start direction).y,
      (Vec3.add start direction).z]
    ++ FractalTree.layout sin cos radians branchAngle d (Vec3.add start direction)
        (rotateZ sin cos (radians branchAngle) (Vec3.scale direction (7 / 10)))
    ++ FractalTree.layout sin cos radians branchAngle d (Vec3.add start direction)
        (rotateZ sin cos (-radians branchAngle) (Vec3.scale direction (7 / 10)))

/-- The line segment number `p` of a position buffer of two points per segment: its start and
its end point. -/
def segmentAt (l : List α) (p : Nat) : Option (Vec3 α × Vec3 α) :=
  match readVec3 l (2 * p), readVec3 l (2 * p + 1) with
  | some a, some b => some (a, b)
  | _, _ => none

/-- The squared length of a vector. -/
def Vec3.normSq (v : Vec3 α) : α := v.x ^ 2 + v.y ^ 2 + v.z ^ 2

/-- The calls made during `generateBranches(s0, v0, D)`, each with the segment index the
pre-order layout assigns to it: `Call d p s v` is a call with remaining depth `d`, start `s` and
direction `v` whose own segment (if `d ≥ 1`) is segment `p`.  A call of depth `d + 1` at index
`p` calls its left child at index `p + 1` and its right child at index `p + 2^d`, both starting
at the end point `s + v`, with the direction scaled by `0.7` and rotated about the z axis by
`+branchAngle` and `−branchAngle`. -/
inductive FractalTree.Call (sin cos radians : α → α) (branchAngle : α) (D : Nat)
    (s0 v0 : Vec3 α) : Nat → Nat → Vec3 α → Vec3 α → Prop
  | root : FractalTree.Call sin cos radians branchAngle D s0 v0 D 0 s0 v0
  | left (d p : Nat) (s v : Vec3 α) :
      FractalTree.Call sin cos radians branchAngle D s0 v0 (d + 1) p s v →
      FractalTree.Call sin cos radians branchAngle D s0 v0 d (p + 1) (Vec3.add s v)
        (rotateZ sin cos (radians branchAngle) (Vec3.scale v (7 / 10)))
  | right (d p : Nat) (s v : Vec3 α) :
      FractalTree.Call sin cos radians branchAngle D s0 v0 (d + 1) p s v →
      FractalTree.Call sin cos radians branchAngle D s0 v0 d (p + 2 ^ d) (Vec3.add s v)
        (rotateZ sin cos (-radians branchAngle) (Vec3.scale v (7 / 10)))

/-- Every third float of `l`, starting with the float `2` (the z components), is zero. -/
def ZFlat (l : List α) : Prop := ∀ k : Nat, ∀ z : α, l[3 * k + 2]? = some z → z = 0

end SpecSide

/-! ## Loop rules -/

theorem forLoop_zero {σ : Type} (body : Nat → σ → σ) (s : σ) : forLoop 0 body s = s := rfl

theorem forLoop_succ {σ : Type} (n : Nat) (body : Nat → σ → σ) (s : σ) :
    forLoop (n + 1) body s = body n (forLoop n body s) := by
  simp [forLoop, List.range_succ, List.foldl_append]

/-- Invariant rule for `forLoop`. -/
theorem forLoop_inv {σ : Type} (Inv : Nat → σ → Prop) (n : Nat) (body : Nat → σ → σ) (s : σ)
    (h0 : Inv 0 s) (hstep : ∀ i t, i < n → Inv i t → Inv (i + 1) (body i t)) :
    Inv n (forLoop n body s) := by
  induction n with
  | zero => simpa [forLoop_zero] using h0
  | succ k ih =>
    rw [forLoop_succ]
    exact hstep k _ (Nat.lt_succ_self k)
      (ih (fun i t hi hu => hstep i t (Nat.lt_succ_of_lt hi) hu))

theorem forLoopM_zero {σ : Type} (body : Nat → σ → Option σ) (s : σ) :
    forLoopM 0 body s = some s := rfl

theorem forLoopM_succ {σ : Type} (n : Nat) (body : Nat → σ → Option σ) (s : σ) :
    forLoopM (n + 1) body s = (forLoopM n body s).bind (body n) := by
  simp only [forLoopM, List.range_succ, List.foldlM_append]
  cases h : List.foldlM (fun acc i => body i acc) s (List.range n) <;> simp [List.foldlM]

/-- Invariant rule for `forLoopM`: a body that succeeds under the invariant makes the whole
loop succeed. -/
theorem forLoopM_inv {σ : Type} (Inv : Nat → σ → Prop) (n : Nat) (body : Nat → σ → Option σ)
    (s : σ) (h0 : Inv 0 s)
    (hstep : ∀ i t, i < n → Inv i t → ∃ u, body i t = some u ∧ Inv (i + 1) u) :
    ∃ u, forLoopM n body s = some u ∧ Inv n u := by
  induction n with
  | zero => exact ⟨s, rfl, h0⟩
  | succ k ih =>
    obtain ⟨u, hu, hinv⟩ := ih (fun i t hi ht => hstep i t (Nat.lt_succ_of_lt hi) ht)
    obtain ⟨v, hv, hinv2⟩ := hstep k u (Nat.lt_succ_self k) hinv
    exact ⟨v, by rw [forLoopM_succ, hu]; simpa using hv, hinv2⟩

/-- Closed-form rule for `forLoop`: if the body maps `F i` to `F (i + 1)`, the loop started in
`F 0` ends in `F n`. -/
theorem forLoop_closed {σ : Type} (F : Nat → σ) (n : Nat) (body : Nat → σ → σ) (s : σ)
    (h0 : s = F 0) (hstep : ∀ i, i < n → body i (F i) = F (i + 1)) :
    forLoop n body s = F n := by
  refine forLoop_inv (fun i t => t = F i) n body s h0 ?_
  intro i t hi ht
  rw [ht]
  exact hstep i hi

/-- Closed-form rule for `forLoopM`. -/
theorem forLoopM_closed {σ : Type} (F : Nat → σ) (n : Nat) (body : Nat → σ → Option σ) (s : σ)
    (h0 : s = F 0) (hstep : ∀ i, i < n → body i (F i) = some (F (i + 1))) :
    forLoopM n body s = some (F n) := by
  obtain ⟨u, hu, hinv⟩ := forLoopM_inv (fun i t => t = F i) n body s h0
    (fun i t hi ht => ⟨F (i + 1), by rw [ht]; exact hstep i hi, rfl⟩)
  rw [hu, hinv]

/-! ## Lists built from chunks -/

/-- The chunks `g 0, …, g (n - 1)` laid out one after the other. -/
theorem flatMap_range_succ {β : Type} (g : Nat → List β) (n : Nat) :
    (List.range (n + 1)).flatMap g = (List.range n).flatMap g ++ g n := by
  simp [List.range_succ, List.flatMap_append]

theorem length_flatMap_range {β : Type} (g : Nat → List β) (c : Nat)
    (h : ∀ i, (g i).length = c) (n : Nat) :
    ((List.range n).flatMap g).length = n * c := by
  induction n with
  | zero => simp
  | succ k ih =>
    rw [flatMap_range_succ, List.length_append, ih, h k]
    ring

/-- Entry `k` of chunk `i` sits at position `c * i + k` when all chunks have length `c`. -/
theorem getElem?_flatMap_range {β : Type} (g : Nat → List β) (c : Nat)
    (h : ∀ i, (g i).length = c) (n i k : Nat) (hi : i < n) (hk : k < c) :
    ((List.range n).flatMap g)[c * i + k]? = (g i)[k]? := by
  induction n with
  | zero => omega
  | succ m ih =>
    rw [flatMap_range_succ]
    by_cases him : i < m
    · have hlt : c * i + k < ((List.range m).flatMap g).length := by
        rw [length_flatMap_range g c h m]
        have : c * (i + 1) ≤ c * m := Nat.mul_le_mul_left c him
        have e : m * c = c * m := Nat.mul_comm m c
        rw [e]
        have e2 : c * (i + 1) = c * i + c := by ring
        omega
      rw [List.getElem?_append_left hlt]
      exact ih him
    · have e : i = m := by omega
      subst e
      have hge : ((List.range i).flatMap g).length ≤ c * i + k := by
        rw [length_flatMap_range g c h i, Nat.mul_comm]
        omega
      rw [List.getElem?_append_right hge, length_flatMap_range g c h i]
      have e3 : c * i + k - i * c = k := by
        rw [Nat.mul_comm]; omega
      rw [e3]

/-- Every entry of the laid-out chunks satisfies what every entry of every chunk satisfies. -/
theorem forall_mem_flatMap_range {β : Type} (g : Nat → List β) (Q : β → Prop) (n : Nat)
    (h : ∀ i, i < n → ∀ x ∈ g i, Q x) : ∀ x ∈ (List.range n).flatMap g, Q x := by
  intro x hx
  obtain ⟨i, hi, hxi⟩ := List.mem_flatMap.mp hx
  exact h i (List.mem_range.mp hi) x hxi

/-! ## `nCr` -/

theorem nCrLoop_succ (n r : Int) (k : Nat) :
    nCrLoop n r (k + 1) = cdiv (nCrLoop n r k * (n - r + ((k : Int) + 1))) ((k : Int) + 1) := by
  simp [nCrLoop, forLoop_succ, nCrStep]

/-- The product formed in iteration `k + 1` of the loop, when `ans` is a binomial coefficient. -/
theorem choose_step (m k : Nat) :
    ((m + k).choose k : Int) * ((m : Int) + ((k : Int) + 1))
      = ((m + (k + 1)).choose (k + 1) : Int) * ((k : Int) + 1) := by
  have h := Nat.succ_mul_choose_eq (m + k) k
  have h2 : ((m + k).succ : Int) * ((m + k).choose k : Int)
      = ((m + k).succ.choose k.succ : Int) * (k.succ : Int) := by exact_mod_cast h
  have e1 : (m + k).succ = m + (k + 1) := by omega
  rw [e1] at h2
  push_cast at h2 ⊢
  linarith

/-- After `k` iterations on `n = m + r` the accumulator is `C(m + k, k)`. -/
theorem nCrLoop_eq_choose (m r k : Nat) :
    nCrLoop ((m : Int) + r) r k = ((m + k).choose k : Int) := by
  induction k with
  | zero => simp [nCrLoop, forLoop_zero]
  | succ k ih =>
    rw [nCrLoop_succ, ih]
    have e : ((m : Int) + r - r + ((k : Int) + 1)) = (m : Int) + ((k : Int) + 1) := by ring
    rw [e, choose_step, cdiv]
    have hpos : ((k : Int) + 1) ≠ 0 := by positivity
    exact Int.mul_tdiv_cancel _ hpos

theorem cdiv_two_nat (n : Nat) : cdiv (n : Int) 2 = ((n / 2 : Nat) : Int) := by
  unfold cdiv
  rw [Int.tdiv_eq_ediv (by positivity) (by norm_num)]
  norm_cast

/-- The reduced `r` for natural arguments. -/
theorem nCrReduce_nat (n r : Nat) (h : r ≤ n) :
    nCrReduce n r = ((if r > n / 2 then n - r else r : Nat) : Int) := by
  unfold nCrReduce
  rw [cdiv_two_nat]
  by_cases hr : r > n / 2
  · have : (r : Int) > ((n / 2 : Nat) : Int) := by exact_mod_cast hr
    simp only [this, hr, if_true]
    omega
  · have : ¬ (r : Int) > ((n / 2 : Nat) : Int) := by exact_mod_cast hr
    simp only [this, hr, if_false]

/-- Over unbounded integers the value `nCr` returns is the binomial coefficient. -/
theorem nCr_nat (n r : Nat) (h : r ≤ n) : nCr n r = (n.choose r : Int) := by
  unfold nCr
  simp only
  rw [nCrReduce_nat n r h]
  by_cases hr : r > n / 2
  · simp only [hr, if_true, Int.toNat_ofNat]
    have hn : ((n : Nat) : Int) = ((r : Nat) : Int) + ((n - r : Nat) : Int) := by omega
    rw [hn, nCrLoop_eq_choose]
    have e : r + (n - r) = n := by omega
    rw [e, Nat.choose_symm h]
  · simp only [hr, if_false, Int.toNat_ofNat]
    have hn : ((n : Nat) : Int) = ((n - r : Nat) : Int) + ((r : Nat) : Int) := by omega
    rw [hn, nCrLoop_eq_choose]
    have e : n - r + r = n := by omega
    rw [e]

/-- C1: over unbounded integers `nCr n r` is the binomial coefficient `C(n, r)` for all
`0 ≤ r ≤ n`; with `r'` the reduced `r` (`r` if `r ≤ n/2`, else `n - r`) the accumulator after
step `i ≤ r'` is `C(n - r' + i, i)`, and every division `ans /= i` is exact (the divisor divides
the product just formed). -/
theorem nCr_eq_choose (n r : Nat) (h : r ≤ n) :
    nCr n r = (n.choose r : Int) ∧
    nCrReduce n r = ((if r > n / 2 then n - r else r : Nat) : Int) ∧
    ∀ i : Nat, i ≤ (nCrReduce n r).toNat →
      nCrLoop n (nCrReduce n r) i = ((n - (nCrReduce n r).toNat + i).choose i : Int) ∧
      (1 ≤ i → (i : Int) ∣ nCrLoop n (nCrReduce n r) (i - 1) * (n - nCrReduce n r + i)) := by
  refine ⟨nCr_nat n r h, nCrReduce_nat n r h, ?_⟩
  rw [nCrReduce_nat n r h]
  set q : Nat := if r > n / 2 then n - r else r with hq
  have hqn : q ≤ n := by
    rw [hq]; split_ifs <;> omega
  intro i _
  simp only [Int.toNat_ofNat]
  have hn : ((n : Nat) : Int) = ((n - q : Nat) : Int) + ((q : Nat) : Int) := by omega
  have key : ∀ k : Nat, nCrLoop n q k = ((n - q + k).choose k : Int) := by
    intro k
    rw [hn, nCrLoop_eq_choose]
  refine ⟨key i, ?_⟩
  intro hi
  obtain ⟨k, rfl⟩ : ∃ k, i = k + 1 := ⟨i - 1, by omega⟩
  simp only [Nat.add_sub_cancel]
  rw [key k]
  have e : ((n : Int) - (q : Int) + ((k + 1 : Nat) : Int))
      = ((n - q : Nat) : Int) + ((k : Int) + 1) := by
    push_cast
    omega
  rw [e, choose_step]
  exact ⟨_, by push_cast; ring⟩

/-- Witness for C1 at `n = 5`, `r = 3`. -/
theorem nCr_eq_choose_witness :
    nCr 5 3 = ((5 : Nat).choose 3 : Int) ∧
    nCrLoop 5 (nCrReduce 5 3) 2 = (((5 : Nat) - (nCrReduce 5 3).toNat + 2).choose 2 : Int) ∧
    ((2 : Nat) : Int) ∣ nCrLoop 5 (nCrReduce 5 3) (2 - 1) * (5 - nCrReduce 5 3 + (2 : Nat)) :=
  ⟨(nCr_eq_choose 5 3 (by decide)).1,
   ((nCr_eq_choose 5 3 (by decide)).2.2 2 (by decide)).1,
   ((nCr_eq_choose 5 3 (by decide)).2.2 2 (by decide)).2 (by decide)⟩

/-! ## `nCr` with `long long` arithmetic -/

theorem wrap64_id (x : Int) (h0 : 0 ≤ x) (h1 : x < 2 ^ 63) : wrap64 x = x := by
  unfold wrap64
  omega

theorem nCr64Loop_succ (n r : Int) (k : Nat) :
    nCr64Loop n r (k + 1)
      = cdiv (wrap64 (nCr64Loop n r k * (n - r + ((k : Int) + 1)))) ((k : Int) + 1) := by
  simp [nCr64Loop, forLoop_succ, nCr64Step]

theorem choose_60_30 : Nat.choose 60 30 = 118264581564861424 := by
  have h := nCr_nat 60 30 (by decide)
  have e : nCr ((60 : Nat) : Int) ((30 : Nat) : Int) = 118264581564861424 := by decide
  rw [e] at h
  exact_mod_cast h.symm

/-- The product formed by an iteration of `nCr` stays below `2^63` up to `n = 61`. -/
theorem choose_product_bound (m k : Nat) (h : m + k + 1 ≤ 61) :
    ((m + k).choose k : Int) * ((m : Int) + ((k : Int) + 1)) < 2 ^ 63 := by
  have h1 : (m + k).choose k ≤ Nat.choose 60 k := Nat.choose_le_choose k (by omega)
  have h2 : Nat.choose 60 k ≤ Nat.choose 60 (60 / 2) := Nat.choose_le_middle k 60
  have h3 : (m + k).choose k ≤ 118264581564861424 := by
    rw [← choose_60_30]
    exact le_trans h1 h2
  have h4 : ((m + k).choose k : Int) ≤ 118264581564861424 := by exact_mod_cast h3
  have h5 : (m : Int) + ((k : Int) + 1) ≤ 61 := by omega
  have h6 : (0 : Int) ≤ ((m + k).choose k : Int) := by positivity
  have h7 : (0 : Int) ≤ (m : Int) + ((k : Int) + 1) := by positivity
  calc ((m + k).choose k : Int) * ((m : Int) + ((k : Int) + 1))
      ≤ 118264581564861424 * 61 := mul_le_mul h4 h5 h7 (by norm_num)
    _ < 2 ^ 63 := by norm_num

/-- Up to `n = 61` the wrapping loop computes the binomial coefficients of the exact loop. -/
theorem nCr64Loop_eq_choose (m r k : Nat) (hk : k ≤ r) (hn : m + r ≤ 61) :
    nCr64Loop ((m : Int) + r) r k = ((m + k).choose k : Int) := by
  induction k with
  | zero => simp [nCr64Loop, forLoop_zero]
  | succ k ih =>
    rw [nCr64Loop_succ, ih (by omega)]
    have e : ((m : Int) + r - r + ((k : Int) + 1)) = (m : Int) + ((k : Int) + 1) := by ring
    rw [e, wrap64_id _ (by positivity) (choose_product_bound m k (by omega)), choose_step, cdiv]
    have hpos : ((k : Int) + 1) ≠ 0 := by positivity
    exact Int.mul_tdiv_cancel _ hpos

/-- Up to `n = 61` the wrapping function returns the binomial coefficient. -/
theorem nCr64_nat (n r : Nat) (hr : r ≤ n) (hn : n ≤ 61) :
    nCr64 (n : Int) (r : Int) = (n.choose r : Int) := by
  unfold nCr64
  simp only
  rw [nCrReduce_nat n r hr]
  by_cases h2 : r > n / 2
  · simp only [h2, if_true, Int.toNat_ofNat]
    have e : ((n : Nat) : Int) = ((r : Nat) : Int) + ((n - r : Nat) : Int) := by omega
    rw [e, nCr64Loop_eq_choose r (n - r) (n - r) (le_refl _) (by omega)]
    have e2 : r + (n - r) = n := by omega
    rw [e2, Nat.choose_symm hr]
  · simp only [h2, if_false, Int.toNat_ofNat]
    have e : ((n : Nat) : Int) = ((n - r : Nat) : Int) + ((r : Nat) : Int) := by omega
    rw [e, nCr64Loop_eq_choose (n - r) r r (le_refl _) (by omega)]
    have e2 : n - r + r = n := by omega
    rw [e2]

/-- For `r = 0` the loop of `nCr` does not run: the result is `1` for every `n`. -/
theorem nCr64_zero (L : Nat) : nCr64 (L : Int) ((0 : Nat) : Int) = 1 := by
  unfold nCr64
  simp only
  rw [nCrReduce_nat L 0 (Nat.zero_le L)]
  have e : (if 0 > L / 2 then L - 0 else 0 : Nat) = 0 := by simp
  rw [e]
  simp [nCr64Loop, forLoop_zero]

/-- For `r = n` the symmetry step reduces `r` to `0` and the loop does not run: the result is `1`
for every `n`. -/
theorem nCr64_self (L : Nat) : nCr64 (L : Int) (L : Int) = 1 := by
  unfold nCr64
  simp only
  rw [nCrReduce_nat L L (le_refl L)]
  have e : (if L > L / 2 then L - L else L : Nat) = 0 := by
    split_ifs with h
    · omega
    · omega
  rw [e]
  simp [nCr64Loop, forLoop_zero]

/-- The value `nCr(62, 31)` returns after its last product wrapped. -/
theorem nCr64_62_31 : nCr64 ((62 : Nat) : Int) ((31 : Nat) : Int) = -129627907186982512 := by
  set_option maxRecDepth 100000 in decide

/-- The binomial coefficient `C(62, 31)`. -/
theorem choose_62_31 : Nat.choose 62 31 = 465428353255261088 := by
  have h := nCr_nat 62 31 (by decide)
  have e : nCr ((62 : Nat) : Int) ((31 : Nat) : Int) = 465428353255261088 := by
    set_option maxRecDepth 100000 in decide
  rw [e] at h
  exact_mod_cast h.symm

/-! ## The Bernstein evaluator -/

theorem controlArray_length {β : Type} (P : List (Vec3 β)) :
    (controlArray P).length = 3 * P.length := by
  induction P with
  | nil => rfl
  | cons p P ih =>
    simp only [controlArray, List.flatMap_cons, List.length_append, List.length_cons,
      List.length_nil] at ih ⊢
    omega

theorem controlArray_cons {β : Type} (p : Vec3 β) (P : List (Vec3 β)) :
    controlArray (p :: P) = p.x :: p.y :: p.z :: controlArray P := by
  simp [controlArray]

/-- Component `c < 3` of the point `i` sits at position `3 * i + c` of the flattened array. -/
theorem controlArray_getElem? {β : Type} (P : List (Vec3 β)) (i : Nat) :
    (controlArray P)[3 * i]? = P[i]?.map Vec3.x ∧
    (controlArray P)[3 * i + 1]? = P[i]?.map Vec3.y ∧
    (controlArray P)[3 * i + 2]? = P[i]?.map Vec3.z := by
  induction P generalizing i with
  | nil => simp [controlArray]
  | cons p P ih =>
    rw [controlArray_cons]
    cases i with
    | zero => simp
    | succ i =>
      have e0 : 3 * (i + 1) = 3 * i + 1 + 1 + 1 := by ring
      rw [e0]
      simpa using ih i

section EvaluatorFacts
variable {α : Type} [LinearOrderedField α]

theorem Bezier_BezierCurve_eq (t : α) (cp : List α) (L : Int) :
    Bezier.BezierCurve t cp L = BezierCurve.BezierCurveFN t cp L := rfl

theorem Bezier3_BezierCurve_eq (t : α) (cp : List α) (L : Int) :
    Bezier3.BezierCurve t cp L = BezierCurve.BezierCurveFN t cp L := rfl

/-- The evaluator returns the sum its loop forms, at the clamped parameter, whenever the last
control point it reads is inside the array. -/
theorem BezierCurveFN_eq_code (t : α) (cp : List α) (L : Nat) (h : 3 * L + 1 < cp.length) :
    BezierCurve.BezierCurveFN t cp (L : Int)
      = some (bernsteinCode cp L (if t > 1 then 1 else t) 0,
              bernsteinCode cp L (if t > 1 then 1 else t) 1) := by
  unfold BezierCurve.BezierCurveFN
  simp only
  set u : α := if t > 1 then 1 else t
  have hn : ((L : Int) + 1).toNat = L + 1 := by omega
  rw [hn]
  obtain ⟨xy, hxy, hinv⟩ := forLoopM_inv
    (fun k (xy : α × α) =>
      xy = (∑ i in Finset.range k,
              (1 - u) ^ (L - i) * u ^ i * ((nCr64 (L : Int) (i : Int) : Int) : α)
                * cp.getD (3 * i + 0) 0,
            ∑ i in Finset.range k,
              (1 - u) ^ (L - i) * u ^ i * ((nCr64 (L : Int) (i : Int) : Int) : α)
                * cp.getD (3 * i + 1) 0))
    (L + 1)
    (fun i (xy : α × α) => do
      let ncr := nCr64 L i
      let oneMinusTpow := (1 - u) ^ ((L : Int) - i).toNat
      let tPow := u ^ i
      let coef := oneMinusTpow * tPow * (ncr : α)
      let px ← cp[i * 3]?
      let py ← cp[i * 3 + 1]?
      pure (xy.1 + coef * px, xy.2 + coef * py))
    (0, 0) (by simp)
    (by
      intro i xy hi hxy
      have h0 : i * 3 < cp.length := by omega
      have h1 : i * 3 + 1 < cp.length := by omega
      have he : ((L : Int) - i).toNat = L - i := by omega
      simp only [List.getElem?_eq_getElem h0, List.getElem?_eq_getElem h1, Option.pure_def,
        Option.bind_eq_bind, Option.some_bind]
      refine ⟨_, rfl, ?_⟩
      · rw [hxy]
        simp only [Finset.sum_range_succ, he]
        have g0 : cp.getD (3 * i + 0) 0 = cp[i * 3] := by
          have : 3 * i + 0 = i * 3 := by ring
          rw [this, List.getD_eq_getElem cp 0 h0]
        have g1 : cp.getD (3 * i + 1) 0 = cp[i * 3 + 1] := by
          have : 3 * i + 1 = i * 3 + 1 := by ring
          rw [this, List.getD_eq_getElem cp 0 h1]
        rw [g0, g1])
  rw [hxy, hinv]
  rfl

/-- Up to degree 61 the coefficients `nCr` returns are the binomial coefficients, and the sum of
the loop is the Bernstein polynomial. -/
theorem bernsteinCode_eq_spec (cp : List α) (L : Nat) (hL : L ≤ 61) (t : α) (c : Nat) :
    bernsteinCode cp L t c = bernsteinSpec cp L t c := by
  unfold bernsteinCode bernsteinSpec
  refine Finset.sum_congr rfl ?_
  intro i hi
  have hi2 : i ≤ L := by
    have := Finset.mem_range.mp hi
    omega
  rw [nCr64_nat L i hi2 hL, Int.cast_natCast]
  ring

/-- Up to degree 61 the evaluator computes the Bernstein polynomial at the clamped parameter
whenever the last control point it reads is inside the array. -/
theorem BezierCurveFN_eq_spec (t : α) (cp : List α) (L : Nat) (h : 3 * L + 1 < cp.length)
    (hL : L ≤ 61) :
    BezierCurve.BezierCurveFN t cp (L : Int)
      = some (bernsteinSpec cp L (if t > 1 then 1 else t) 0,
              bernsteinSpec cp L (if t > 1 then 1 else t) 1) := by
  rw [BezierCurveFN_eq_code t cp L h, bernsteinCode_eq_spec cp L hL, bernsteinCode_eq_spec cp L hL]

/-- At `t = 0` only the first term of the loop is non-zero, and `nCr(L, 0) = 1`. -/
theorem bernsteinCode_zero (cp : List α) (L c : Nat) :
    bernsteinCode cp L 0 c = cp.getD c 0 := by
  unfold bernsteinCode
  rw [Finset.sum_eq_single 0]
  · rw [nCr64_zero]
    simp
  · intro i _ hi
    simp [zero_pow hi]
  · intro h
    exact absurd (Finset.mem_range.mpr (Nat.succ_pos L)) h

/-- At `t = 1` only the last term of the loop is non-zero, and `nCr(L, L) = 1`. -/
theorem bernsteinCode_one (cp : List α) (L c : Nat) :
    bernsteinCode cp L 1 c = cp.getD (3 * L + c) 0 := by
  unfold bernsteinCode
  rw [Finset.sum_eq_single L]
  · rw [nCr64_self]
    simp
  · intro i hi hne
    have hlt : i < L := by
      have := Finset.mem_range.mp hi
      omega
    have hpos : L - i ≠ 0 := by omega
    simp [zero_pow hpos]
  · intro h
    exact absurd (Finset.mem_range.mpr (Nat.lt_succ_self L)) h

/-- At `t = 0` only the first Bernstein weight is non-zero. -/
theorem bernsteinSpec_zero (cp : List α) (L c : Nat) :
    bernsteinSpec cp L 0 c = cp.getD c 0 := by
  unfold bernsteinSpec
  rw [Finset.sum_eq_single 0]
  · simp
  · intro i _ hi
    simp [zero_pow hi]
  · intro h
    exact absurd (Finset.mem_range.mpr (Nat.succ_pos L)) h

/-- At `t = 1` only the last Bernstein weight is non-zero. -/
theorem bernsteinSpec_one (cp : List α) (L c : Nat) :
    bernsteinSpec cp L 1 c = cp.getD (3 * L + c) 0 := by
  unfold bernsteinSpec
  rw [Finset.sum_eq_single L]
  · simp
  · intro i hi hne
    have hlt : i < L := by
      have := Finset.mem_range.mp hi
      omega
    have hpos : L - i ≠ 0 := by omega
    simp [zero_pow hpos]
  · intro h
    exact absurd (Finset.mem_range.mpr (Nat.lt_succ_self L)) h

/-- The evaluator clamps from above: beyond `1` it returns what it returns at `1`. -/
theorem BezierCurveFN_clamp (t : α) (ht : 1 < t) (cp : List α) (L : Int) :
    BezierCurve.BezierCurveFN t cp L = BezierCurve.BezierCurveFN 1 cp L := by
  unfold BezierCurve.BezierCurveFN
  simp [ht]

/-- The evaluator on a control polygon of `L + 1` points, at the two ends of the parameter
range. -/
theorem BezierCurveFN_ends (L : Nat) (P : List (Vec3 α)) (hP : P.length = L + 1)
    (p0 pL : Vec3 α) (h0 : P[0]? = some p0) (hL : P[L]? = some pL) :
    BezierCurve.BezierCurveFN 0 (controlArray P) L = some (p0.x, p0.y) ∧
    BezierCurve.BezierCurveFN 1 (controlArray P) L = some (pL.x, pL.y) := by
  have hlen : 3 * L + 1 < (controlArray P).length := by
    rw [controlArray_length, hP]; omega
  have a0 := controlArray_getElem? P 0
  have aL := controlArray_getElem? P L
  rw [h0] at a0
  rw [hL] at aL
  simp only [Option.map_some', Nat.mul_zero, Nat.zero_add] at a0 aL
  constructor
  · rw [BezierCurveFN_eq_code 0 _ L hlen]
    have hc : ¬ ((0 : α) > 1) := by norm_num
    simp only [hc, if_false, bernsteinCode_zero, List.getD_eq_getElem?_getD, a0.1, a0.2.1,
      Option.getD_some]
  · rw [BezierCurveFN_eq_code 1 _ L hlen]
    have hc : ¬ ((1 : α) > 1) := by norm_num
    simp only [hc, if_false, bernsteinCode_one, List.getD_eq_getElem?_getD, Nat.add_zero,
      aL.1, aL.2.1, Option.getD_some]

/-- C2: in exact arithmetic, for every degree `L` (in particular every `L ≥ 1`) and every control
polygon `P` of `L + 1` points, each of the three copies of the Bernstein evaluator returns exactly
`(P_0.x, P_0.y)` at `t = 0` and exactly `(P_L.x, P_L.y)` at `t = 1`. -/
theorem bernstein_boundary_interpolation (L : Nat) (P : List (Vec3 α)) (hP : P.length = L + 1)
    (p0 pL : Vec3 α) (h0 : P[0]? = some p0) (hL : P[L]? = some pL) :
    (BezierCurve.BezierCurveFN 0 (controlArray P) L = some (p0.x, p0.y) ∧
     BezierCurve.BezierCurveFN 1 (controlArray P) L = some (pL.x, pL.y)) ∧
    (Bezier.BezierCurve 0 (controlArray P) L = some (p0.x, p0.y) ∧
     Bezier.BezierCurve 1 (controlArray P) L = some (pL.x, pL.y)) ∧
    (Bezier3.BezierCurve 0 (controlArray P) L = some (p0.x, p0.y) ∧
     Bezier3.BezierCurve 1 (controlArray P) L = some (pL.x, pL.y)) := by
  simp only [Bezier_BezierCurve_eq, Bezier3_BezierCurve_eq]
  exact ⟨BezierCurveFN_ends L P hP p0 pL h0 hL, BezierCurveFN_ends L P hP p0 pL h0 hL,
    BezierCurveFN_ends L P hP p0 pL h0 hL⟩

/-- Witness for C2: the quadratic polygon `(1,2,0), (3,5,0), (4,7,0)` over the rationals. -/
theorem bernstein_boundary_interpolation_witness :
    BezierCurve.BezierCurveFN (0 : ℚ) (controlArray [⟨1, 2, 0⟩, ⟨3, 5, 0⟩, ⟨4, 7, 0⟩]) 2
      = some (1, 2) ∧
    BezierCurve.BezierCurveFN (1 : ℚ) (controlArray [⟨1, 2, 0⟩, ⟨3, 5, 0⟩, ⟨4, 7, 0⟩]) 2
      = some (4, 7) :=
  (bernstein_boundary_interpolation 2 ([⟨1, 2, 0⟩, ⟨3, 5, 0⟩, ⟨4, 7, 0⟩] : List (Vec3 ℚ)) rfl
    ⟨1, 2, 0⟩ ⟨4, 7, 0⟩ rfl rfl).1

theorem spikePolygon_length (k n : Nat) : (spikePolygon k n : List (Vec3 α)).length = n := by
  simp [spikePolygon]

/-- The components of the spike polygon as the evaluator reads them. -/
theorem spikePolygon_getD (k n i : Nat) (hi : i < n) :
    (controlArray (spikePolygon k n : List (Vec3 α))).getD (3 * i + 0) 0
      = (if i = k then 1 else 0) ∧
    (controlArray (spikePolygon k n : List (Vec3 α))).getD (3 * i + 1) 0 = 0 := by
  have a := controlArray_getElem? (spikePolygon k n : List (Vec3 α)) i
  have e : (spikePolygon k n : List (Vec3 α))[i]? = some ⟨if i = k then 1 else 0, 0, 0⟩ := by
    simp [spikePolygon, List.getElem?_range hi]
  rw [e] at a
  simp only [Option.map_some'] at a
  simp only [List.getD_eq_getElem?_getD, Nat.add_zero, a.1, a.2.1, Option.getD_some, and_self]

/-- On the spike polygon the sum of the loop has one term. -/
theorem bernsteinCode_spike (k L : Nat) (hk : k ≤ L) (t : α) :
    bernsteinCode (controlArray (spikePolygon k (L + 1))) L t 0
      = (1 - t) ^ (L - k) * t ^ k * ((nCr64 (L : Int) (k : Int) : Int) : α) ∧
    bernsteinCode (controlArray (spikePolygon k (L + 1))) L t 1 = 0 := by
  constructor
  · unfold bernsteinCode
    rw [Finset.sum_eq_single k]
    · rw [(@spikePolygon_getD α _ k (L + 1) k (by omega)).1]
      simp
    · intro i hi hne
      rw [(@spikePolygon_getD α _ k (L + 1) i (Finset.mem_range.mp hi)).1]
      simp [hne]
    · intro h
      exact absurd (Finset.mem_range.mpr (by omega)) h
  · unfold bernsteinCode
    refine Finset.sum_eq_zero ?_
    intro i hi
    rw [(@spikePolygon_getD α _ k (L + 1) i (Finset.mem_range.mp hi)).2]
    simp

/-- On the spike polygon the Bernstein polynomial has one term. -/
theorem bernsteinSpec_spike (k L : Nat) (hk : k ≤ L) (t : α) :
    bernsteinSpec (controlArray (spikePolygon k (L + 1))) L t 0
      = (L.choose k : α) * (1 - t) ^ (L - k) * t ^ k ∧
    bernsteinSpec (controlArray (spikePolygon k (L + 1))) L t 1 = 0 := by
  constructor
  · unfold bernsteinSpec
    rw [Finset.sum_eq_single k]
    · rw [(@spikePolygon_getD α _ k (L + 1) k (by omega)).1]
      simp
    · intro i hi hne
      rw [(@spikePolygon_getD α _ k (L + 1) i (Finset.mem_range.mp hi)).1]
      simp [hne]
    · intro h
      exact absurd (Finset.mem_range.mpr (by omega)) h
  · unfold bernsteinSpec
    refine Finset.sum_eq_zero ?_
    intro i hi
    rw [(@spikePolygon_getD α _ k (L + 1) i (Finset.mem_range.mp hi)).2]
    simp

/-- The evaluator at degree 62 on the spike polygon with the `1` at point 31: the only non-zero
term of the loop is the one with the coefficient `nCr(62, 31)`. -/
theorem BezierCurveFN_spike_62 (t : α) (ht : ¬ t > 1) :
    BezierCurve.BezierCurveFN t (controlArray (spikePolygon 31 63)) 62
      = some ((1 - t) ^ 31 * t ^ 31 * (-129627907186982512), 0) := by
  have hlen : 3 * 62 + 1 < (controlArray (spikePolygon 31 63 : List (Vec3 α))).length := by
    rw [controlArray_length, spikePolygon_length]
    norm_num
  have hev := BezierCurveFN_eq_code t (controlArray (spikePolygon 31 63)) 62 hlen
  have hc := bernsteinCode_spike 31 62 (by decide) t
  simp only [ht, if_false] at hev
  rw [hc.1, hc.2, nCr64_62_31] at hev
  rw [show ((62 : Int)) = ((62 : Nat) : Int) from rfl, hev]
  norm_num

end EvaluatorFacts


/-! ## Ring grids and index loops -/

section GridFacts
variable {α : Type}

theorem forLoop_append_indices (g : Nat → List Int) (n : Nat) (body : Nat → Mesh α → Mesh α)
    (m : Mesh α) (h : ∀ i t, body i t = { t with indices := t.indices ++ g i }) :
    forLoop n body m = { m with indices := m.indices ++ (List.range n).flatMap g } := by
  refine forLoop_closed
    (fun i => { m with indices := m.indices ++ (List.range i).flatMap g }) n body m (by simp) ?_
  intro i _
  rw [h]
  simp [flatMap_range_succ]

/-- A loop whose body appends the chunk `g i` to `vertices` appends all chunks in order. -/
theorem forLoop_append_vertices (g : Nat → List α) (n : Nat) (body : Nat → Mesh α → Mesh α)
    (m : Mesh α) (h : ∀ i t, body i t = { t with vertices := t.vertices ++ g i }) :
    forLoop n body m = { m with vertices := m.vertices ++ (List.range n).flatMap g } := by
  refine forLoop_closed
    (fun i => { m with vertices := m.vertices ++ (List.range i).flatMap g }) n body m (by simp) ?_
  intro i _
  rw [h]
  simp [flatMap_range_succ]

/-- Corner indices of the cell `(i, j)` of a ring grid stay inside the `(nt+1)·(ntheta+1)`
vertices. -/
theorem grid_cell_bounds (nt ntheta i j : Nat) (hi : i < nt) (hj : j < ntheta) :
    (0 : Int) ≤ (i : Int) * ((ntheta : Int) + 1) + j ∧
    (i : Int) * ((ntheta : Int) + 1) + j + ntheta + 1 + 1
      < (((nt + 1) * (ntheta + 1) : Nat) : Int) := by
  have h1 : (i + 1) * (ntheta + 1) ≤ nt * (ntheta + 1) := Nat.mul_le_mul_right _ hi
  have h2 : (((i + 1) * (ntheta + 1) : Nat) : Int) ≤ ((nt * (ntheta + 1) : Nat) : Int) := by
    exact_mod_cast h1
  push_cast at h2 ⊢
  constructor
  · positivity
  · nlinarith

theorem gridIndices_bounds (nt ntheta : Nat) :
    ∀ x ∈ gridIndices nt ntheta, 0 ≤ x ∧ x < (((nt + 1) * (ntheta + 1) : Nat) : Int) := by
  refine forall_mem_flatMap_range _ _ nt ?_
  intro i hi
  refine forall_mem_flatMap_range _ _ ntheta ?_
  intro j hj x hx
  obtain ⟨b0, b1⟩ := grid_cell_bounds nt ntheta i j hi hj
  simp only [quadCell, List.mem_cons, List.mem_singleton, List.not_mem_nil, or_false] at hx
  rcases hx with h | h | h | h | h | h <;> subst h <;> constructor <;> omega

theorem gridIndices_length (nt ntheta : Nat) :
    (gridIndices nt ntheta).length = nt * ntheta * 6 := by
  unfold gridIndices
  rw [length_flatMap_range _ (ntheta * 6) _ nt, Nat.mul_assoc]
  intro i
  apply length_flatMap_range
  intro j
  rfl

theorem BezierCurve_indexInner_closed (n : Nat) (k1 k2 : Int) (m : Mesh α) :
    forLoop n BezierCurve.indexInner (k1, k2, m)
      = (k1 + n, k2 + n,
          { m with indices := m.indices ++ (List.range n).flatMap fun j =>
              quadCell (k1 + j) (k2 + j) }) := by
  refine forLoop_closed
    (fun i => (k1 + (i : Int), k2 + (i : Int),
      { m with indices := m.indices ++ (List.range i).flatMap fun j =>
          quadCell (k1 + j) (k2 + j) }))
    n BezierCurve.indexInner (k1, k2, m) (by simp) ?_
  intro i _
  simp [BezierCurve.indexInner, quadCell, flatMap_range_succ, add_assoc]

theorem BezierCurve_indexLoop_closed (nt ntheta : Nat) (m : Mesh α) :
    forLoop nt (BezierCurve.indexOuter ntheta) m
      = { m with indices := m.indices ++ gridIndices nt ntheta } := by
  refine forLoop_append_indices _ nt _ m ?_
  intro i t
  unfold BezierCurve.indexOuter
  simp only [BezierCurve_indexInner_closed]
  congr 2
  refine List.flatMap_congr ?_
  intro j _
  congr 1
  ring

theorem BezierCurve_interleave_total (V : Nat) (m : Mesh α)
    (hc : m.coordinates.length = 3 * V) (hn : m.normals.length = 3 * V)
    (ht : m.texCoords.length = 2 * V) (n : Nat) (hnV : n ≤ V) :
    ∃ m', forLoopM n BezierCurve.interleaveBody m = some m' ∧
      m'.coordinates = m.coordinates ∧ m'.normals = m.normals ∧ m'.texCoords = m.texCoords ∧
      m'.indices = m.indices ∧ m'.vertices.length = m.vertices.length + 8 * n := by
  refine forLoopM_inv (fun k (m' : Mesh α) =>
      m'.coordinates = m.coordinates ∧ m'.normals = m.normals ∧ m'.texCoords = m.texCoords ∧
      m'.indices = m.indices ∧ m'.vertices.length = m.vertices.length + 8 * k) n _ m
      ⟨rfl, rfl, rfl, rfl, rfl⟩ ?_
  intro k t hk h
  obtain ⟨h1, h2, h3, h4, h5⟩ := h
  have c0 : 3 * k < t.coordinates.length := by rw [h1, hc]; omega
  have c1 : 3 * k + 1 < t.coordinates.length := by rw [h1, hc]; omega
  have c2 : 3 * k + 2 < t.coordinates.length := by rw [h1, hc]; omega
  have n0 : 3 * k < t.normals.length := by rw [h2, hn]; omega
  have n1 : 3 * k + 1 < t.normals.length := by rw [h2, hn]; omega
  have n2 : 3 * k + 2 < t.normals.length := by rw [h2, hn]; omega
  have e : 3 * k / 3 * 2 = 2 * k := by omega
  have t0 : 2 * k < t.texCoords.length := by rw [h3, ht]; omega
  have t1 : 2 * k + 1 < t.texCoords.length := by rw [h3, ht]; omega
  have hb : BezierCurve.interleaveBody k t = some { t with vertices := t.vertices ++
      [t.coordinates[3 * k], t.coordinates[3 * k + 1], t.coordinates[3 * k + 2],
       t.normals[3 * k], t.normals[3 * k + 1], t.normals[3 * k + 2],
       t.texCoords[2 * k], t.texCoords[2 * k + 1]] } := by
    simp only [BezierCurve.interleaveBody, e, List.getElem?_eq_getElem c0,
      List.getElem?_eq_getElem c1, List.getElem?_eq_getElem c2, List.getElem?_eq_getElem n0,
      List.getElem?_eq_getElem n1, List.getElem?_eq_getElem n2, List.getElem?_eq_getElem t0,
      List.getElem?_eq_getElem t1, Option.pure_def, Option.bind_eq_bind, Option.some_bind]
  refine ⟨_, hb, h1, h2, h3, h4, ?_⟩
  simp only [List.length_append, h5, List.length_cons, List.length_nil]
  omega

theorem Bezier_indexInner_closed (n : Nat) (k1 k2 : Int) (m : Mesh α) :
    forLoop n Bezier.indexInner (k1, k2, m)
      = (k1 + n, k2 + n,
          { m with indices := m.indices ++ (List.range n).flatMap fun j =>
              quadCell (k1 + j) (k2 + j) }) := by
  refine forLoop_closed
    (fun i => (k1 + (i : Int), k2 + (i : Int),
      { m with indices := m.indices ++ (List.range i).flatMap fun j =>
          quadCell (k1 + j) (k2 + j) }))
    n Bezier.indexInner (k1, k2, m) (by simp) ?_
  intro i _
  simp [Bezier.indexInner, quadCell, flatMap_range_succ, add_assoc]

theorem Bezier_indexLoop_closed (nt ntheta : Nat) (m : Mesh α) :
    forLoop nt (Bezier.indexOuter ntheta) m
      = { m with indices := m.indices ++ gridIndices nt ntheta } := by
  refine forLoop_append_indices _ nt _ m ?_
  intro i t
  unfold Bezier.indexOuter
  simp only [Bezier_indexInner_closed]
  congr 2
  refine List.flatMap_congr ?_
  intro j _
  congr 1
  ring

theorem Bezier_interleave_total (V : Nat) (m : Mesh α)
    (hc : m.coordinates.length = 3 * V) (hn : m.normals.length = 3 * V)
    (n : Nat) (hnV : n ≤ V) :
    ∃ m', forLoopM n Bezier.interleaveBody m = some m' ∧
      m'.coordinates = m.coordinates ∧ m'.normals = m.normals ∧ m'.texCoords = m.texCoords ∧
      m'.indices = m.indices ∧ m'.vertices.length = m.vertices.length + 6 * n := by
  refine forLoopM_inv (fun k (m' : Mesh α) =>
      m'.coordinates = m.coordinates ∧ m'.normals = m.normals ∧ m'.texCoords = m.texCoords ∧
      m'.indices = m.indices ∧ m'.vertices.length = m.vertices.length + 6 * k) n _ m
      ⟨rfl, rfl, rfl, rfl, rfl⟩ ?_
  intro k t hk h
  obtain ⟨h1, h2, h3, h4, h5⟩ := h
  have c0 : 3 * k < t.coordinates.length := by rw [h1, hc]; omega
  have c1 : 3 * k + 1 < t.coordinates.length := by rw [h1, hc]; omega
  have c2 : 3 * k + 2 < t.coordinates.length := by rw [h1, hc]; omega
  have n0 : 3 * k < t.normals.length := by rw [h2, hn]; omega
  have n1 : 3 * k + 1 < t.normals.length := by rw [h2, hn]; omega
  have n2 : 3 * k + 2 < t.normals.length := by rw [h2, hn]; omega
  have hb : Bezier.interleaveBody k t = some { t with vertices := t.vertices ++
      [t.coordinates[3 * k], t.coordinates[3 * k + 1], t.coordinates[3 * k + 2],
       t.normals[3 * k], t.normals[3 * k + 1], t.normals[3 * k + 2]] } := by
    simp only [Bezier.interleaveBody, List.getElem?_eq_getElem c0,
      List.getElem?_eq_getElem c1, List.getElem?_eq_getElem c2, List.getElem?_eq_getElem n0,
      List.getElem?_eq_getElem n1, List.getElem?_eq_getElem n2, Option.pure_def,
      Option.bind_eq_bind, Option.some_bind]
  refine ⟨_, hb, h1, h2, h3, h4, ?_⟩
  simp only [List.length_append, h5, List.length_cons, List.length_nil]
  omega

theorem dvd_length_flatMap_range {β : Type} (g : Nat → List β) (d : Nat)
    (h : ∀ i, d ∣ (g i).length) (n : Nat) : d ∣ ((List.range n).flatMap g).length := by
  induction n with
  | zero => simp
  | succ k ih =>
    rw [flatMap_range_succ, List.length_append]
    exact Nat.dvd_add ih (h k)

theorem forLoop_vgrown (c n : Nat) (body : Nat → Mesh α → Mesh α) (m : Mesh α)
    (h : ∀ i t, Mesh.VGrown t (body i t) c) : Mesh.VGrown m (forLoop n body m) (n * c) := by
  refine forLoop_inv (fun i t => Mesh.VGrown m t (i * c)) n body m ⟨by simp, rfl⟩ ?_
  intro i t _ ht
  obtain ⟨a1, a2⟩ := h i t
  obtain ⟨b1, b2⟩ := ht
  exact ⟨by rw [a1, b1]; ring, by rw [a2, b2]⟩

theorem gridIndicesB_bounds (nt ntheta : Nat) :
    ∀ x ∈ gridIndicesB nt ntheta, 0 ≤ x ∧ x < (((nt + 1) * (ntheta + 1) : Nat) : Int) := by
  refine forall_mem_flatMap_range _ _ nt ?_
  intro i hi
  refine forall_mem_flatMap_range _ _ ntheta ?_
  intro j hj x hx
  obtain ⟨b0, b1⟩ := grid_cell_bounds nt ntheta i j hi hj
  simp only [quadCellB, List.mem_cons, List.mem_singleton, List.not_mem_nil, or_false] at hx
  rcases hx with h | h | h | h | h | h <;> subst h <;> constructor <;> omega

theorem gridIndicesB_length (nt ntheta : Nat) :
    (gridIndicesB nt ntheta).length = nt * ntheta * 6 := by
  unfold gridIndicesB
  rw [length_flatMap_range _ (ntheta * 6) _ nt, Nat.mul_assoc]
  intro i
  apply length_flatMap_range
  intro j
  rfl

theorem Capsule_gridIndices_bounds (sectors nStacks : Nat) :
    ∀ x ∈ Capsule.gridIndices sectors nStacks,
      0 ≤ x ∧ x < (((nStacks + 1) * (sectors + 1) : Nat) : Int) := by
  refine forall_mem_flatMap_range _ _ nStacks ?_
  intro i hi
  refine forall_mem_flatMap_range _ _ sectors ?_
  intro j hj x hx
  obtain ⟨b0, b1⟩ := grid_cell_bounds nStacks sectors i j hi hj
  unfold Capsule.cell at hx
  rcases List.mem_append.mp hx with h | h
  · split_ifs at h
    · simp only [List.mem_cons, List.mem_singleton, List.not_mem_nil, or_false] at h
      rcases h with h | h | h <;> subst h <;> constructor <;> omega
    · simp at h
  · split_ifs at h
    · simp only [List.mem_cons, List.mem_singleton, List.not_mem_nil, or_false] at h
      rcases h with h | h | h <;> subst h <;> constructor <;> omega
    · simp at h

theorem Capsule_gridIndices_length_dvd (sectors nStacks : Nat) :
    3 ∣ (Capsule.gridIndices sectors nStacks).length := by
  apply dvd_length_flatMap_range
  intro i
  apply dvd_length_flatMap_range
  intro j
  unfold Capsule.cell
  rw [List.length_append]
  split_ifs <;> simp only [List.length_cons, List.length_nil] <;> decide

theorem Capsule_indexInner_closed (nStacks i n : Nat) (k1 k2 : Int) (m : Mesh α) :
    forLoop n (Capsule.indexInner nStacks i) (k1, k2, m)
      = (k1 + n, k2 + n,
          { m with indices := m.indices ++ (List.range n).flatMap fun j =>
              Capsule.cell nStacks i (k1 + j) (k2 + j) }) := by
  refine forLoop_closed
    (fun l => (k1 + (l : Int), k2 + (l : Int),
      { m with indices := m.indices ++ (List.range l).flatMap fun j =>
          Capsule.cell nStacks i (k1 + j) (k2 + j) }))
    n (Capsule.indexInner nStacks i) (k1, k2, m) (by simp) ?_
  intro l _
  unfold Capsule.indexInner Capsule.cell
  simp only [flatMap_range_succ]
  split_ifs <;> simp [add_assoc]

theorem Capsule_indexLoop_closed (sectors nStacks : Nat) (m : Mesh α) :
    forLoop nStacks (Capsule.indexOuter sectors nStacks) m
      = { m with indices := m.indices ++ Capsule.gridIndices sectors nStacks } := by
  refine forLoop_append_indices _ nStacks _ m ?_
  intro i t
  unfold Capsule.indexOuter
  simp only [Capsule_indexInner_closed]
  congr 2
  refine List.flatMap_congr ?_
  intro j _
  congr 1
  ring

end GridFacts

/-! ## The surface-of-revolution builders -/

section RevolutionFacts
variable {α : Type} [LinearOrderedField α]

/-- The evaluator returns a value when `L` is negative or the last point it reads is inside
the control array. -/
theorem BezierCurveFN_total (t : α) (cp : List α) (L : Int)
    (h : L < 0 ∨ 3 * L.toNat + 1 < cp.length) :
    ∃ xy, BezierCurve.BezierCurveFN t cp L = some xy := by
  by_cases hL : L < 0
  · have e : (L + 1).toNat = 0 := by omega
    refine ⟨(0, 0), ?_⟩
    unfold BezierCurve.BezierCurveFN
    simp only [e]
    rfl
  · have hlen : 3 * L.toNat + 1 < cp.length := by
      rcases h with h | h
      · exact absurd h hL
      · exact h
    have e : L = (L.toNat : Int) := by omega
    rw [e]
    exact ⟨_, BezierCurveFN_eq_code t cp L.toNat hlen⟩

theorem BezierCurve_sectorLoop_grown (sin cos : α → α) (nt ntheta : Nat)
    (dtheta r y lengthInv : α) (i n : Nat) (theta : α) (m : Mesh α) :
    Mesh.Grown m (forLoop n (BezierCurve.sectorBody sin cos nt ntheta dtheta r y lengthInv i)
      (theta, m)).2 (3 * n) (3 * n) (2 * n) := by
  refine forLoop_inv (fun j (st : α × Mesh α) => Mesh.Grown m st.2 (3 * j) (3 * j) (2 * j)) n _ _
    ⟨rfl, rfl, rfl, rfl, rfl⟩ ?_
  intro j st _ h
  obtain ⟨h1, h2, h3, h4, h5⟩ := h
  refine ⟨?_, ?_, ?_, ?_, ?_⟩ <;>
    simp [BezierCurve.sectorBody, h1, h2, h3, h4, h5] <;> omega

theorem BezierCurve_ringLoop_grown (sin cos : α → α) (nt ntheta : Nat) (cp : List α) (L : Int)
    (dtheta dt : α) (hev : ∀ t, ∃ xy, BezierCurve.BezierCurveFN t cp L = some xy)
    (n : Nat) (t0 : α) (m : Mesh α) :
    ∃ st, forLoopM n (BezierCurve.ringBody sin cos nt ntheta cp L dtheta dt) (t0, m) = some st ∧
      Mesh.Grown m st.2 (3 * (n * (ntheta + 1))) (3 * (n * (ntheta + 1)))
        (2 * (n * (ntheta + 1))) := by
  refine forLoopM_inv (fun i (st : α × Mesh α) =>
      Mesh.Grown m st.2 (3 * (i * (ntheta + 1))) (3 * (i * (ntheta + 1)))
        (2 * (i * (ntheta + 1)))) n _ _ ⟨by simp, by simp, by simp, rfl, rfl⟩ ?_
  intro i st _ h
  obtain ⟨xy, hxy⟩ := hev st.1
  obtain ⟨h1, h2, h3, h4, h5⟩ := h
  obtain ⟨g1, g2, g3, g4, g5⟩ := BezierCurve_sectorLoop_grown sin cos nt ntheta dtheta xy.1 xy.2
    (1 / xy.1) i (ntheta + 1) 0 st.2
  have hb : BezierCurve.ringBody sin cos nt ntheta cp L dtheta dt i st
      = some (st.1 + dt, (forLoop (ntheta + 1)
          (BezierCurve.sectorBody sin cos nt ntheta dtheta xy.1 xy.2 (1 / xy.1) i)
          (0, st.2)).2) := by
    simp only [BezierCurve.ringBody, hxy, Option.pure_def, Option.bind_eq_bind,
      Option.some_bind]
  refine ⟨_, hb, ?_, ?_, ?_, ?_, ?_⟩
  · simp only [g1, h1]; ring
  · simp only [g2, h2]; ring
  · simp only [g3, h3]; ring
  · simp only [g4, h4]
  · simp only [g5, h5]

/-- Shape of the mesh built by `BezierCurve::hollowBezier` when the evaluator never reads outside
the control array. -/
theorem BezierCurve_hollowBezier_shape (sin cos : α → α) (nt ntheta : Nat) (cp : List α)
    (L : Int) (hev : L < 0 ∨ 3 * L.toNat + 1 < cp.length) :
    ∃ m, BezierCurve.hollowBezier sin cos nt ntheta cp L = some m ∧
      m.coordinates.length = 3 * ((nt + 1) * (ntheta + 1)) ∧
      m.normals.length = 3 * ((nt + 1) * (ntheta + 1)) ∧
      m.texCoords.length = 2 * ((nt + 1) * (ntheta + 1)) ∧
      m.indices = gridIndices nt ntheta ∧
      m.vertices.length = 8 * ((nt + 1) * (ntheta + 1)) := by
  obtain ⟨st, hst, g1, g2, g3, g4, g5⟩ := BezierCurve_ringLoop_grown sin cos nt ntheta cp L
    (2 * bezierPi / (ntheta : α)) (1 / (nt : α)) (fun t => BezierCurveFN_total t cp L hev)
    (nt + 1) 0 ({} : Mesh α)
  simp only [List.length_nil, Nat.zero_add] at g1 g2 g3
  set m1 : Mesh α := forLoop nt (BezierCurve.indexOuter ntheta) st.2 with hm1
  have hm1c : m1 = { st.2 with indices := st.2.indices ++ gridIndices nt ntheta } :=
    BezierCurve_indexLoop_closed nt ntheta st.2
  have c1 : m1.coordinates.length = 3 * ((nt + 1) * (ntheta + 1)) := by rw [hm1c]; exact g1
  have c2 : m1.normals.length = 3 * ((nt + 1) * (ntheta + 1)) := by rw [hm1c]; exact g2
  have c3 : m1.texCoords.length = 2 * ((nt + 1) * (ntheta + 1)) := by rw [hm1c]; exact g3
  have c4 : m1.indices = gridIndices nt ntheta := by rw [hm1c]; simp [g4]
  have c5 : m1.vertices = [] := by rw [hm1c]; exact g5
  have hcount : (m1.coordinates.length + 2) / 3 = (nt + 1) * (ntheta + 1) := by
    rw [c1]; omega
  obtain ⟨m2, hm2, d1, d2, d3, d4, d5⟩ := BezierCurve_interleave_total
    ((nt + 1) * (ntheta + 1)) m1 c1 c2 c3 ((nt + 1) * (ntheta + 1)) (le_refl _)
  refine ⟨m2, ?_, ?_, ?_, ?_, ?_, ?_⟩
  · unfold BezierCurve.hollowBezier
    simp only [hst, Option.bind_eq_bind, Option.some_bind]
    rw [← hm1, hcount]
    exact hm2
  · rw [d1]; exact c1
  · rw [d2]; exact c2
  · rw [d3]; exact c3
  · rw [d4]; exact c4
  · rw [d5, c5]; simp

/-- The degree derived by the constructors of `BezierCurve` and `Bezier` never makes the evaluator
read outside the control array. -/
theorem BezierCurve_degree_safe (size : Nat) :
    BezierCurve.degree size < 0 ∨ 3 * (BezierCurve.degree size).toNat + 1 < size := by
  unfold BezierCurve.degree toInt32
  have hu : size % 2 ^ 32 < 2 ^ 32 := Nat.mod_lt _ (by norm_num)
  have hle : size % 2 ^ 32 ≤ size := Nat.mod_le _ _
  by_cases hq : size % 2 ^ 32 / 3 = 0
  · left
    rw [hq]
    norm_num
  · right
    have e : (size % 2 ^ 32 / 3 + (2 ^ 32 - 1)) % 2 ^ 32 = size % 2 ^ 32 / 3 - 1 := by omega
    rw [e]
    have hlt : size % 2 ^ 32 / 3 - 1 < 2 ^ 31 := by omega
    simp only [hlt, if_true, Int.toNat_ofNat]
    omega

theorem Bezier_sectorLoop_grown (sin cos : α → α) (dtheta r y lengthInv : α) (n : Nat)
    (theta : α) (m : Mesh α) :
    Mesh.Grown m (forLoop n (Bezier.sectorBody sin cos dtheta r y lengthInv) (theta, m)).2
      (3 * n) (3 * n) 0 := by
  refine forLoop_inv (fun j (st : α × Mesh α) => Mesh.Grown m st.2 (3 * j) (3 * j) 0) n _ _
    ⟨rfl, rfl, rfl, rfl, rfl⟩ ?_
  intro j st _ h
  obtain ⟨h1, h2, h3, h4, h5⟩ := h
  refine ⟨?_, ?_, ?_, ?_, ?_⟩ <;>
    simp [Bezier.sectorBody, h1, h2, h3, h4, h5] <;> omega

theorem Bezier_ringLoop_grown (sin cos : α → α) (ntheta : Nat) (cp : List α) (L : Int)
    (dtheta dt : α) (hev : ∀ t, ∃ xy, Bezier.BezierCurve t cp L = some xy)
    (n : Nat) (t0 : α) (m : Mesh α) :
    ∃ st, forLoopM n (Bezier.ringBody sin cos ntheta cp L dtheta dt) (t0, m) = some st ∧
      Mesh.Grown m st.2 (3 * (n * (ntheta + 1))) (3 * (n * (ntheta + 1))) 0 := by
  refine forLoopM_inv (fun i (st : α × Mesh α) =>
      Mesh.Grown m st.2 (3 * (i * (ntheta + 1))) (3 * (i * (ntheta + 1))) 0) n _ _
      ⟨by simp, by simp, by simp, rfl, rfl⟩ ?_
  intro i st _ h
  obtain ⟨xy, hxy⟩ := hev st.1
  obtain ⟨h1, h2, h3, h4, h5⟩ := h
  obtain ⟨g1, g2, g3, g4, g5⟩ := Bezier_sectorLoop_grown sin cos dtheta xy.1 xy.2
    (1 / xy.1) (ntheta + 1) 0 st.2
  have hb : Bezier.ringBody sin cos ntheta cp L dtheta dt i st
      = some (st.1 + dt, (forLoop (ntheta + 1)
          (Bezier.sectorBody sin cos dtheta xy.1 xy.2 (1 / xy.1)) (0, st.2)).2) := by
    simp only [Bezier.ringBody, hxy, Option.pure_def, Option.bind_eq_bind,
      Option.some_bind]
  refine ⟨_, hb, ?_, ?_, ?_, ?_, ?_⟩
  · simp only [g1, h1]; ring
  · simp only [g2, h2]; ring
  · simp only [g3, h3]
  · simp only [g4, h4]
  · simp only [g5, h5]

/-- Shape of the mesh built by `Bezier::hollowBezier` when the evaluator never reads outside
the control array. -/
theorem Bezier_hollowBezier_shape (sin cos : α → α) (nt ntheta : Nat) (cp : List α)
    (L : Int) (hev : L < 0 ∨ 3 * L.toNat + 1 < cp.length) :
    ∃ m, Bezier.hollowBezier sin cos nt ntheta cp L = some m ∧
      m.coordinates.length = 3 * ((nt + 1) * (ntheta + 1)) ∧
      m.normals.length = 3 * ((nt + 1) * (ntheta + 1)) ∧
      m.texCoords = [] ∧
      m.indices = gridIndices nt ntheta ∧
      m.vertices.length = 6 * ((nt + 1) * (ntheta + 1)) := by
  obtain ⟨st, hst, g1, g2, g3, g4, g5⟩ := Bezier_ringLoop_grown sin cos ntheta cp L
    (2 * bezierPi / (ntheta : α)) (1 / (nt : α))
    (fun t => by rw [Bezier_BezierCurve_eq]; exact BezierCurveFN_total t cp L hev)
    (nt + 1) 0 ({} : Mesh α)
  simp only [List.length_nil, Nat.zero_add, Nat.add_zero] at g1 g2 g3
  set m1 : Mesh α := forLoop nt (Bezier.indexOuter ntheta) st.2 with hm1
  have hm1c : m1 = { st.2 with indices := st.2.indices ++ gridIndices nt ntheta } :=
    Bezier_indexLoop_closed nt ntheta st.2
  have c1 : m1.coordinates.length = 3 * ((nt + 1) * (ntheta + 1)) := by rw [hm1c]; exact g1
  have c2 : m1.normals.length = 3 * ((nt + 1) * (ntheta + 1)) := by rw [hm1c]; exact g2
  have c3 : m1.texCoords = [] := by
    rw [hm1c]; exact List.eq_nil_of_length_eq_zero g3
  have c4 : m1.indices = gridIndices nt ntheta := by rw [hm1c]; simp [g4]
  have c5 : m1.vertices = [] := by rw [hm1c]; exact g5
  have hcount : (m1.coordinates.length + 2) / 3 = (nt + 1) * (ntheta + 1) := by
    rw [c1]; omega
  obtain ⟨m2, hm2, d1, d2, d3, d4, d5⟩ := Bezier_interleave_total
    ((nt + 1) * (ntheta + 1)) m1 c1 c2 ((nt + 1) * (ntheta + 1)) (le_refl _)
  refine ⟨m2, ?_, ?_, ?_, ?_, ?_, ?_⟩
  · unfold Bezier.hollowBezier
    simp only [hst, Option.bind_eq_bind, Option.some_bind]
    rw [← hm1, hcount]
    exact hm2
  · rw [d1]; exact c1
  · rw [d2]; exact c2
  · rw [d3]; exact c3
  · rw [d4]; exact c4
  · rw [d5, c5]; simp

/-- The two untextured builders are the same function: `Bezier3::generateFan` is the text of
`Bezier::hollowBezier`. -/
theorem Bezier3_generateFan_eq (sin cos : α → α) (nt ntheta : Nat) (cp : List α) (L : Int) :
    Bezier3.generateFan sin cos nt ntheta cp L = Bezier.hollowBezier sin cos nt ntheta cp L :=
  rfl

/-- The degree derived by the constructor of `Bezier3` never makes the evaluator read outside
the control array. -/
theorem Bezier3_degree_safe (size : Nat) :
    Bezier3.degree size < 0 ∨ 3 * (Bezier3.degree size).toNat + 1 < size := by
  unfold Bezier3.degree toInt32
  have hu : size / 3 % 2 ^ 32 < 2 ^ 32 := Nat.mod_lt _ (by norm_num)
  have hle : size / 3 % 2 ^ 32 ≤ size / 3 := Nat.mod_le _ _
  by_cases hq : size / 3 % 2 ^ 32 = 0
  · left
    rw [hq]
    norm_num
  · have e : (size / 3 % 2 ^ 32 + (2 ^ 32 - 1)) % 2 ^ 32 = size / 3 % 2 ^ 32 - 1 := by omega
    rw [e]
    by_cases hlt : size / 3 % 2 ^ 32 - 1 < 2 ^ 31
    · right
      simp only [hlt, if_true, Int.toNat_ofNat]
      omega
    · left
      simp only [hlt, if_false]
      omega

end RevolutionFacts

/-! ## The parametric solids -/

section SolidShapes
variable {α : Type} [LinearOrderedField α]

theorem HalfSphere_build_shape (sin cos : α → α) (pi : α) (sectorCount stackCount : Nat) :
    (HalfSphere.build sin cos pi sectorCount stackCount).vertices.length
      = 8 * ((stackCount + 1) * (sectorCount + 1)) ∧
    (HalfSphere.build sin cos pi sectorCount stackCount).indices
      = gridIndicesB stackCount sectorCount := by
  unfold HalfSphere.build
  simp only
  obtain ⟨v1, v2⟩ := forLoop_vgrown ((sectorCount + 1) * 8) (stackCount + 1)
    (HalfSphere.stackBody sin cos pi sectorCount stackCount) ({} : Mesh α)
    (fun i t => forLoop_vgrown 8 (sectorCount + 1) _ t
      (fun j u => ⟨by simp [HalfSphere.sectorBody], rfl⟩))
  set m := forLoop (stackCount + 1) (HalfSphere.stackBody sin cos pi sectorCount stackCount)
    ({} : Mesh α)
  have hi : forLoop stackCount
      (fun i m => forLoop sectorCount (HalfSphere.indexBody sectorCount i) m) m
      = { m with indices := m.indices ++ gridIndicesB stackCount sectorCount } := by
    refine forLoop_append_indices _ stackCount _ m ?_
    intro i t
    exact forLoop_append_indices _ sectorCount _ t (fun j u => rfl)
  rw [hi]
  constructor
  · simp only [v1, List.length_nil]; ring
  · simp [v2]

theorem Wheel_build_shape (sin cos : α → α) (pi : α) (sectorCount stackCount : Nat) :
    (Wheel.build sin cos pi sectorCount stackCount).vertices.length
      = 8 * ((stackCount + 1) * (sectorCount + 1)) ∧
    (Wheel.build sin cos pi sectorCount stackCount).indices
      = gridIndicesB stackCount sectorCount := by
  unfold Wheel.build
  simp only
  obtain ⟨v1, v2⟩ := forLoop_vgrown ((sectorCount + 1) * 8) (stackCount + 1)
    (Wheel.stackBody sin cos pi sectorCount stackCount) ({} : Mesh α)
    (fun i t => forLoop_vgrown 8 (sectorCount + 1) _ t
      (fun j u => ⟨by simp [Wheel.sectorBody], rfl⟩))
  set m := forLoop (stackCount + 1) (Wheel.stackBody sin cos pi sectorCount stackCount)
    ({} : Mesh α)
  have hi : forLoop stackCount
      (fun i m => forLoop sectorCount (Wheel.indexBody sectorCount i) m) m
      = { m with indices := m.indices ++ gridIndicesB stackCount sectorCount } := by
    refine forLoop_append_indices _ stackCount _ m ?_
    intro i t
    exact forLoop_append_indices _ sectorCount _ t (fun j u => rfl)
  rw [hi]
  constructor
  · simp only [v1, List.length_nil]; ring
  · simp [v2]

theorem CurvedPipeSegment_build_shape (sin cos : α → α) (tubeSegments arcSegments : Nat)
    (pipeRadius arcLength : α) :
    (CurvedPipeSegment.build sin cos tubeSegments arcSegments pipeRadius arcLength).vertices.length
      = 8 * ((arcSegments + 1) * (tubeSegments + 1)) ∧
    (CurvedPipeSegment.build sin cos tubeSegments arcSegments pipeRadius arcLength).indices
      = gridIndices arcSegments tubeSegments := by
  unfold CurvedPipeSegment.build
  simp only
  obtain ⟨v1, v2⟩ := forLoop_vgrown ((tubeSegments + 1) * 8) (arcSegments + 1)
    (CurvedPipeSegment.arcBody sin cos tubeSegments arcSegments pipeRadius arcLength
      (2 * PI_3141516 / (tubeSegments : α)) (arcLength / (arcSegments : α))) ({} : Mesh α)
    (fun i t => forLoop_vgrown 8 (tubeSegments + 1) _ t
      (fun j u => ⟨by simp [CurvedPipeSegment.tubeBody], rfl⟩))
  set m := forLoop (arcSegments + 1)
    (CurvedPipeSegment.arcBody sin cos tubeSegments arcSegments pipeRadius arcLength
      (2 * PI_3141516 / (tubeSegments : α)) (arcLength / (arcSegments : α))) ({} : Mesh α)
  have hi : forLoop arcSegments
      (fun i m => forLoop tubeSegments (CurvedPipeSegment.indexBody tubeSegments i) m) m
      = { m with indices := m.indices ++ gridIndices arcSegments tubeSegments } := by
    refine forLoop_append_indices _ arcSegments _ m ?_
    intro i t
    exact forLoop_append_indices _ tubeSegments _ t (fun j u => rfl)
  rw [hi]
  constructor
  · simp only [v1, List.length_nil]; ring
  · simp [v2]

theorem Capsule_build_shape (sin cos : α → α) (sectors nStacks : Nat) :
    (Capsule.build sin cos sectors nStacks).vertices.length
      = 8 * ((nStacks + 4) * (sectors + 1)) ∧
    (Capsule.build sin cos sectors nStacks).indices = Capsule.gridIndices sectors nStacks := by
  unfold Capsule.build
  simp only
  have hemi : ∀ (shift : α) (f : Nat → Nat) (k : Nat) (t : Mesh α), Mesh.VGrown t
      (Capsule.hemiStackBody sin cos sectors nStacks 1 (2 * PI_3141516 / (sectors : α))
        (PI_3141516 / (nStacks : α)) shift (f k) t) ((sectors + 1) * 8) :=
    fun shift f k t => forLoop_vgrown 8 (sectors + 1) _ t
      (fun j u => ⟨by simp [Capsule.hemiSectorBody], rfl⟩)
  obtain ⟨a1, a2⟩ := forLoop_vgrown ((sectors + 1) * 8) (nStacks / 2 + 1)
    (Capsule.hemiStackBody sin cos sectors nStacks 1 (2 * PI_3141516 / (sectors : α))
      (PI_3141516 / (nStacks : α)) (2 / 2)) ({} : Mesh α) (hemi (2 / 2) id)
  set m1 := forLoop (nStacks / 2 + 1)
    (Capsule.hemiStackBody sin cos sectors nStacks 1 (2 * PI_3141516 / (sectors : α))
      (PI_3141516 / (nStacks : α)) (2 / 2)) ({} : Mesh α)
  obtain ⟨b1, b2⟩ := forLoop_vgrown ((sectors + 1) * 8) 2
    (Capsule.bodyBody sin cos sectors 1 (2 * PI_3141516 / (sectors : α)) (2 / 2)) m1
    (fun i t => forLoop_vgrown 8 (sectors + 1) _ t
      (fun j u => ⟨by simp [Capsule.bodySectorBody], rfl⟩))
  set m2 := forLoop 2
    (Capsule.bodyBody sin cos sectors 1 (2 * PI_3141516 / (sectors : α)) (2 / 2)) m1
  obtain ⟨c1, c2⟩ := forLoop_vgrown ((sectors + 1) * 8) (nStacks + 1 - nStacks / 2)
    (fun k => Capsule.hemiStackBody sin cos sectors nStacks 1 (2 * PI_3141516 / (sectors : α))
      (PI_3141516 / (nStacks : α)) (-(2 / 2)) (nStacks / 2 + k)) m2
    (hemi (-(2 / 2)) (fun k => nStacks / 2 + k))
  set m3 := forLoop (nStacks + 1 - nStacks / 2)
    (fun k => Capsule.hemiStackBody sin cos sectors nStacks 1 (2 * PI_3141516 / (sectors : α))
      (PI_3141516 / (nStacks : α)) (-(2 / 2)) (nStacks / 2 + k)) m2
  rw [Capsule_indexLoop_closed]
  constructor
  · simp only [c1, b1, a1, List.length_nil]
    have h2 : nStacks / 2 ≤ nStacks := Nat.div_le_self _ _
    have e : nStacks / 2 + 1 + 2 + (nStacks + 1 - nStacks / 2) = nStacks + 4 := by omega
    calc 0 + (nStacks / 2 + 1) * ((sectors + 1) * 8) + 2 * ((sectors + 1) * 8)
          + (nStacks + 1 - nStacks / 2) * ((sectors + 1) * 8)
        = (nStacks / 2 + 1 + 2 + (nStacks + 1 - nStacks / 2)) * ((sectors + 1) * 8) := by ring
      _ = 8 * ((nStacks + 4) * (sectors + 1)) := by rw [e]; ring
  · simp [c2, b2, a2]

end SolidShapes

/-! ## Vertex and index counts -/

section CountClaims
variable {α : Type} [LinearOrderedField α]

theorem gridIndices_safe (nt ntheta : Nat) :
    IndexSafe (gridIndices nt ntheta) ((nt + 1) * (ntheta + 1)) :=
  ⟨gridIndices_bounds nt ntheta, ⟨nt * ntheta * 2, by rw [gridIndices_length]; ring⟩⟩

theorem gridIndicesB_safe (nt ntheta : Nat) :
    IndexSafe (gridIndicesB nt ntheta) ((nt + 1) * (ntheta + 1)) :=
  ⟨gridIndicesB_bounds nt ntheta, ⟨nt * ntheta * 2, by rw [gridIndicesB_length]; ring⟩⟩

theorem Capsule_gridIndices_safe (sectors nStacks : Nat) :
    IndexSafe (Capsule.gridIndices sectors nStacks) ((nStacks + 4) * (sectors + 1)) := by
  refine ⟨?_, Capsule_gridIndices_length_dvd sectors nStacks⟩
  intro x hx
  obtain ⟨h0, h1⟩ := Capsule_gridIndices_bounds sectors nStacks x hx
  refine ⟨h0, lt_of_lt_of_le h1 ?_⟩
  have : (nStacks + 1) * (sectors + 1) ≤ (nStacks + 4) * (sectors + 1) :=
    Nat.mul_le_mul_right _ (by omega)
  exact_mod_cast this

/-- C4: for every control array (whatever the sampled radii), each of the three
surface-of-revolution builders, run as its constructor runs it, emits exactly `(nt+1)·(ntheta+1)`
vertices (three position floats and three normal floats each) and exactly `nt·ntheta·6` indices;
with the members `nt = 40`, `ntheta = 20` of the classes that is `861` vertices and `4800`
indices. -/
theorem revolution_mesh_counts (sin cos : α → α) (cp : List α) :
    (∀ nt ntheta : Nat,
      (∃ m, BezierCurve.hollowBezier sin cos nt ntheta cp (BezierCurve.degree cp.length) = some m ∧
        m.coordinates.length = 3 * ((nt + 1) * (ntheta + 1)) ∧
        m.normals.length = 3 * ((nt + 1) * (ntheta + 1)) ∧
        m.indices.length = nt * ntheta * 6) ∧
      (∃ m, Bezier.hollowBezier sin cos nt ntheta cp (Bezier.degree cp.length) = some m ∧
        m.coordinates.length = 3 * ((nt + 1) * (ntheta + 1)) ∧
        m.normals.length = 3 * ((nt + 1) * (ntheta + 1)) ∧
        m.indices.length = nt * ntheta * 6) ∧
      (∃ m, Bezier3.generateFan sin cos nt ntheta cp (Bezier3.degree cp.length) = some m ∧
        m.coordinates.length = 3 * ((nt + 1) * (ntheta + 1)) ∧
        m.normals.length = 3 * ((nt + 1) * (ntheta + 1)) ∧
        m.indices.length = nt * ntheta * 6)) ∧
    (∃ m, BezierCurve.construct sin cos cp = some m ∧
      m.coordinates.length = 3 * 861 ∧ m.normals.length = 3 * 861 ∧ m.indices.length = 4800) ∧
    (∃ m, Bezier.construct sin cos cp = some m ∧
      m.coordinates.length = 3 * 861 ∧ m.normals.length = 3 * 861 ∧ m.indices.length = 4800) ∧
    (∃ m, Bezier3.construct sin cos cp = some m ∧
      m.coordinates.length = 3 * 861 ∧ m.normals.length = 3 * 861 ∧ m.indices.length = 4800) := by
  have gen : ∀ nt ntheta : Nat,
      (∃ m, BezierCurve.hollowBezier sin cos nt ntheta cp (BezierCurve.degree cp.length) = some m ∧
        m.coordinates.length = 3 * ((nt + 1) * (ntheta + 1)) ∧
        m.normals.length = 3 * ((nt + 1) * (ntheta + 1)) ∧
        m.indices.length = nt * ntheta * 6) ∧
      (∃ m, Bezier.hollowBezier sin cos nt ntheta cp (Bezier.degree cp.length) = some m ∧
        m.coordinates.length = 3 * ((nt + 1) * (ntheta + 1)) ∧
        m.normals.length = 3 * ((nt + 1) * (ntheta + 1)) ∧
        m.indices.length = nt * ntheta * 6) ∧
      (∃ m, Bezier3.generateFan sin cos nt ntheta cp (Bezier3.degree cp.length) = some m ∧
        m.coordinates.length = 3 * ((nt + 1) * (ntheta + 1)) ∧
        m.normals.length = 3 * ((nt + 1) * (ntheta + 1)) ∧
        m.indices.length = nt * ntheta * 6) := by
    intro nt ntheta
    refine ⟨?_, ?_, ?_⟩
    · obtain ⟨m, hm, h1, h2, _, h4, _⟩ := BezierCurve_hollowBezier_shape sin cos nt ntheta cp _
        (BezierCurve_degree_safe cp.length)
      exact ⟨m, hm, h1, h2, by rw [h4, gridIndices_length]⟩
    · obtain ⟨m, hm, h1, h2, _, h4, _⟩ := Bezier_hollowBezier_shape sin cos nt ntheta cp _
        (BezierCurve_degree_safe cp.length)
      exact ⟨m, hm, h1, h2, by rw [h4, gridIndices_length]⟩
    · obtain ⟨m, hm, h1, h2, _, h4, _⟩ := Bezier_hollowBezier_shape sin cos nt ntheta cp _
        (Bezier3_degree_safe cp.length)
      exact ⟨m, by rw [Bezier3_generateFan_eq]; exact hm, h1, h2,
        by rw [h4, gridIndices_length]⟩
  exact ⟨gen, (gen 40 20).1, (gen 40 20).2.1, (gen 40 20).2.2⟩

/-- C5: in every ring-grid builder (the three Bezier surface-of-revolution builders, `HalfSphere`,
`Wheel`, `CurvedPipeSegment` and `Capsule`) every value pushed to the index buffer is `≥ 0` and
strictly below the number of vertices generated, and the length of the index buffer is a multiple
of three.  The first part is about the builders with the constants of the sources, the second
about any number `n` of stacks and `k` of sectors. -/
theorem ring_grid_indices_in_range (sin cos : α → α) (pi pipeRadius arcLength : α)
    (cp : List α) :
    ((∃ m, BezierCurve.construct sin cos cp = some m ∧
        IndexSafe m.indices (m.coordinates.length / 3)) ∧
     (∃ m, Bezier.construct sin cos cp = some m ∧
        IndexSafe m.indices (m.coordinates.length / 3)) ∧
     (∃ m, Bezier3.construct sin cos cp = some m ∧
        IndexSafe m.indices (m.coordinates.length / 3)) ∧
     IndexSafe (HalfSphere.setUpHalfSphereVertexDataAndConfigureVertexAttribute sin cos pi).indices
       ((HalfSphere.setUpHalfSphereVertexDataAndConfigureVertexAttribute sin cos pi).vertices.length
         / 8) ∧
     IndexSafe (Wheel.setUpWheelVertexDataAndConfigureVertexAttribute sin cos pi).indices
       ((Wheel.setUpWheelVertexDataAndConfigureVertexAttribute sin cos pi).vertices.length / 8) ∧
     IndexSafe
       (CurvedPipeSegment.generateSegmentVerticesAndIndices sin cos pipeRadius arcLength).indices
       ((CurvedPipeSegment.generateSegmentVerticesAndIndices sin cos pipeRadius
         arcLength).vertices.length / 8) ∧
     IndexSafe (Capsule.generateCapsuleVerticesAndIndices sin cos).indices
       ((Capsule.generateCapsuleVerticesAndIndices sin cos).vertices.length / 8)) ∧
    (∀ n k : Nat,
     (∃ m, BezierCurve.hollowBezier sin cos n k cp (BezierCurve.degree cp.length) = some m ∧
        IndexSafe m.indices (m.coordinates.length / 3)) ∧
     (∃ m, Bezier.hollowBezier sin cos n k cp (Bezier.degree cp.length) = some m ∧
        IndexSafe m.indices (m.coordinates.length / 3)) ∧
     (∃ m, Bezier3.generateFan sin cos n k cp (Bezier3.degree cp.length) = some m ∧
        IndexSafe m.indices (m.coordinates.length / 3)) ∧
     IndexSafe (HalfSphere.build sin cos pi k n).indices
       ((HalfSphere.build sin cos pi k n).vertices.length / 8) ∧
     IndexSafe (Wheel.build sin cos pi k n).indices
       ((Wheel.build sin cos pi k n).vertices.length / 8) ∧
     IndexSafe (CurvedPipeSegment.build sin cos k n pipeRadius arcLength).indices
       ((CurvedPipeSegment.build sin cos k n pipeRadius arcLength).vertices.length / 8) ∧
     IndexSafe (Capsule.build sin cos k n).indices
       ((Capsule.build sin cos k n).vertices.length / 8)) := by
  have gen : ∀ n k : Nat,
     (∃ m, BezierCurve.hollowBezier sin cos n k cp (BezierCurve.degree cp.length) = some m ∧
        IndexSafe m.indices (m.coordinates.length / 3)) ∧
     (∃ m, Bezier.hollowBezier sin cos n k cp (Bezier.degree cp.length) = some m ∧
        IndexSafe m.indices (m.coordinates.length / 3)) ∧
     (∃ m, Bezier3.generateFan sin cos n k cp (Bezier3.degree cp.length) = some m ∧
        IndexSafe m.indices (m.coordinates.length / 3)) ∧
     IndexSafe (HalfSphere.build sin cos pi k n).indices
       ((HalfSphere.build sin cos pi k n).vertices.length / 8) ∧
     IndexSafe (Wheel.build sin cos pi k n).indices
       ((Wheel.build sin cos pi k n).vertices.length / 8) ∧
     IndexSafe (CurvedPipeSegment.build sin cos k n pipeRadius arcLength).indices
       ((CurvedPipeSegment.build sin cos k n pipeRadius arcLength).vertices.length / 8) ∧
     IndexSafe (Capsule.build sin cos k n).indices
       ((Capsule.build sin cos k n).vertices.length / 8) := by
    intro n k
    have e3 : ∀ V : Nat, 3 * V / 3 = V := fun V => by omega
    have e8 : ∀ V : Nat, 8 * V / 8 = V := fun V => by omega
    refine ⟨?_, ?_, ?_, ?_, ?_, ?_, ?_⟩
    · obtain ⟨m, hm, h1, _, _, h4, _⟩ := BezierCurve_hollowBezier_shape sin cos n k cp _
        (BezierCurve_degree_safe cp.length)
      exact ⟨m, hm, by rw [h1, h4, e3]; exact gridIndices_safe n k⟩
    · obtain ⟨m, hm, h1, _, _, h4, _⟩ := Bezier_hollowBezier_shape sin cos n k cp _
        (BezierCurve_degree_safe cp.length)
      exact ⟨m, hm, by rw [h1, h4, e3]; exact gridIndices_safe n k⟩
    · obtain ⟨m, hm, h1, _, _, h4, _⟩ := Bezier_hollowBezier_shape sin cos n k cp _
        (Bezier3_degree_safe cp.length)
      exact ⟨m, by rw [Bezier3_generateFan_eq]; exact hm,
        by rw [h1, h4, e3]; exact gridIndices_safe n k⟩
    · obtain ⟨h1, h2⟩ := HalfSphere_build_shape sin cos pi k n
      rw [h1, h2, e8]; exact gridIndicesB_safe n k
    · obtain ⟨h1, h2⟩ := Wheel_build_shape sin cos pi k n
      rw [h1, h2, e8]; exact gridIndicesB_safe n k
    · obtain ⟨h1, h2⟩ := CurvedPipeSegment_build_shape sin cos k n pipeRadius arcLength
      rw [h1, h2, e8]; exact gridIndices_safe n k
    · obtain ⟨h1, h2⟩ := Capsule_build_shape sin cos k n
      rw [h1, h2, e8]; exact Capsule_gridIndices_safe k n
  refine ⟨⟨(gen 40 20).1, (gen 40 20).2.1, (gen 40 20).2.2.1, (gen 18 36).2.2.2.1,
    (gen 18 36).2.2.2.2.1, (gen 12 36).2.2.2.2.2.1, (gen 18 36).2.2.2.2.2.2⟩, gen⟩

end CountClaims

/-! ## The fractal tree -/

section FractalFacts
variable {α : Type} [LinearOrderedField α]

/-- A call of `generateBranches` at depth `d ≥ 0` returns as soon as the call stack may hold
`d + 1` frames, and appends `6·(2^d − 1)` floats. -/
theorem FractalTree_generateBranches_appends (sin cos radians : α → α) (branchAngle : α)
    (d : Nat) : ∀ (fuel : Nat) (start direction : Vec3 α) (vertices : List α), d < fuel →
      ∃ out, FractalTree.generateBranches sin cos radians branchAngle fuel start direction
          (d : Int) vertices = some (vertices ++ out) ∧ out.length = 6 * (2 ^ d - 1) := by
  induction d with
  | zero =>
    intro fuel start direction vertices hf
    obtain ⟨f, rfl⟩ : ∃ f, fuel = f + 1 := ⟨fuel - 1, by omega⟩
    exact ⟨[], by simp [FractalTree.generateBranches], by simp⟩
  | succ d ih =>
    intro fuel start direction vertices hf
    obtain ⟨f, rfl⟩ : ∃ f, fuel = f + 1 := ⟨fuel - 1, by omega⟩
    have hd : ((d + 1 : Nat) : Int) ≠ 0 := by omega
    have hd1 : ((d + 1 : Nat) : Int) - 1 = (d : Int) := by omega
    have hfd : d < f := by omega
    obtain ⟨o1, e1, l1⟩ := ih f (Vec3.add start direction)
      (rotateZ sin cos (radians branchAngle) (Vec3.scale direction (7 / 10)))
      (vertices ++ [start.x, start.y, start.z, (Vec3.add start direction).x,
        (Vec3.add start direction).y, (Vec3.add start direction).z]) hfd
    obtain ⟨o2, e2, l2⟩ := ih f (Vec3.add start direction)
      (rotateZ sin cos (-radians branchAngle) (Vec3.scale direction (7 / 10)))
      (vertices ++ [start.x, start.y, start.z, (Vec3.add start direction).x,
        (Vec3.add start direction).y, (Vec3.add start direction).z] ++ o1) hfd
    refine ⟨[start.x, start.y, start.z, (Vec3.add start direction).x,
        (Vec3.add start direction).y, (Vec3.add start direction).z] ++ o1 ++ o2, ?_, ?_⟩
    · rw [FractalTree.generateBranches]
      simp only [hd, if_false, hd1, e1, Option.some_bind]
      rw [e2]
      simp only [List.append_assoc]
    · simp only [List.length_append, List.length_cons, List.length_nil, l1, l2]
      have hp : 1 ≤ 2 ^ d := Nat.one_le_two_pow
      have e : 2 ^ (d + 1) = 2 * 2 ^ d := by ring
      omega

/-- C6: for every recursion depth `d ≥ 0`, `FractalTree::generateBranches` returns (a call stack
of `d + 1` frames is enough) and appends exactly `2^d − 1` line segments, that is exactly
`6·(2^d − 1)` floats, to the position buffer; for `d = 0` nothing is appended.  The same holds for
`buildTree`, which starts from the empty buffer. -/
theorem fractal_segment_count (sin cos radians : α → α) (branchLength branchAngle : α)
    (d fuel : Nat) (hfuel : d < fuel) (start direction : Vec3 α) (vertices : List α) :
    (∃ out, FractalTree.generateBranches sin cos radians branchAngle fuel start direction
        (d : Int) vertices = some (vertices ++ out) ∧ out.length = 6 * (2 ^ d - 1)) ∧
    (∃ out, FractalTree.buildTree sin cos radians branchLength branchAngle (d : Int) fuel
        = some out ∧ out.length = 6 * (2 ^ d - 1)) ∧
    FractalTree.generateBranches sin cos radians branchAngle fuel start direction 0 vertices
      = some vertices := by
  refine ⟨FractalTree_generateBranches_appends sin cos radians branchAngle d fuel start direction
    vertices hfuel, ?_, ?_⟩
  · obtain ⟨out, h, hl⟩ := FractalTree_generateBranches_appends sin cos radians branchAngle d fuel
      ⟨0, 0, 0⟩ ⟨0, branchLength, 0⟩ [] hfuel
    exact ⟨out, by simpa [FractalTree.buildTree] using h, hl⟩
  · obtain ⟨f, rfl⟩ : ∃ f, fuel = f + 1 := ⟨fuel - 1, by omega⟩
    simp [FractalTree.generateBranches]

/-- Witness for C6: depth `2` over the rationals, three segments. -/
theorem fractal_segment_count_witness :
    ∃ out, FractalTree.buildTree (fun x : ℚ => x) (fun x : ℚ => x) (fun x : ℚ => x) 1 30 2 3
        = some out ∧ out.length = 6 * (2 ^ 2 - 1) :=
  (fractal_segment_count (fun x : ℚ => x) (fun x : ℚ => x) (fun x : ℚ => x) 1 30 2 3
    (by decide) ⟨0, 0, 0⟩ ⟨0, 1, 0⟩ []).2.1

end FractalFacts

/-! ## Cylinders -/

section CylinderLists
variable {β : Type}

/-- Entry `k` of chunk `i` of a run of equal-length chunks that follows a prefix `A`. -/
theorem getElem?_append_flatMap_range (A rest : List β) (g : Nat → List β) (c : Nat)
    (h : ∀ i, (g i).length = c) (n i k : Nat) (hi : i < n) (hk : k < c) :
    (A ++ ((List.range n).flatMap g ++ rest))[A.length + (c * i + k)]? = (g i)[k]? := by
  rw [List.getElem?_append_right (by omega)]
  have e : A.length + (c * i + k) - A.length = c * i + k := by omega
  rw [e]
  have hlt : c * i + k < ((List.range n).flatMap g).length := by
    rw [length_flatMap_range g c h n]
    have : c * (i + 1) ≤ c * n := Nat.mul_le_mul_left c hi
    have e1 : n * c = c * n := Nat.mul_comm n c
    have e2 : c * (i + 1) = c * i + c := by ring
    omega
  rw [List.getElem?_append_left hlt]
  exact getElem?_flatMap_range g c h n i k hi hk

end CylinderLists

section CylinderFacts
variable {α : Type} [LinearOrderedField α]

theorem CylinderTree_set_eq (self : CylinderParams α) (radius height : α) (sectors : Int) :
    (CylinderTree.set self radius height sectors).sectorCount = max sectors 3 ∧
    (CylinderTree.set self radius height sectors).height = height ∧
    (CylinderTree.set self radius height sectors).radius
      = if radius > 0 then radius else self.radius := by
  unfold CylinderTree.set
  by_cases h3 : sectors < 3 <;> by_cases hr : radius > 0 <;>
    simp [h3, hr, max_eq_left, max_eq_right, le_of_lt, not_lt.mp]

/-- Closed form of the vertex part of `CylinderTree::buildCoordinatesAndIndices`. -/
theorem CylinderTree_buildCoordinates_closed (sin cos : α → α) (p : CylinderParams α) :
    CylinderTree.buildCoordinates sin cos p =
      { coordinates := (List.range (p.sectorCount + 1).toNat).flatMap (cylRimCoordinates sin cos p)
          ++ [0, -p.height / 2, 0, 0, p.height / 2, 0],
        normals := (List.range (p.sectorCount + 1).toNat).flatMap (cylRimNormals sin cos p)
          ++ [0, -1, 0, 0, 1, 0],
        texCoords := (List.range (p.sectorCount + 1).toNat).flatMap (cylRimTexCoords p)
          ++ [1 / 2, 1 / 2, 1 / 2, 1 / 2],
        indices := [], vertices := [] } := by
  unfold CylinderTree.buildCoordinates
  simp only
  rw [forLoop_closed (fun i => ({
        coordinates := (List.range i).flatMap (cylRimCoordinates sin cos p),
        normals := (List.range i).flatMap (cylRimNormals sin cos p),
        texCoords := (List.range i).flatMap (cylRimTexCoords p),
        indices := [], vertices := [] } : Mesh α)) _ _ _ (by simp)]
  · simp [CylinderTree.pushCenters]
  · intro i _
    simp [CylinderTree.vertexBody, flatMap_range_succ, cylRimCoordinates, cylRimNormals,
      cylRimTexCoords, cylSectorAngle]

end CylinderFacts

section CylinderIndexFacts
variable {α : Type}

theorem CylinderTree_sideBody_eq (i : Nat) (t : Mesh α) :
    CylinderTree.sideBody i t = { t with indices := t.indices ++ cylSideCell i } := by
  have e1 : (i : Int) * 2 = 2 * (i : Int) := by ring
  have e2 : 2 * (i : Int) + 1 + 2 = 2 * (i : Int) + 3 := by ring
  simp only [CylinderTree.sideBody, cylSideCell, List.append_assoc, List.cons_append,
    List.nil_append, e1, e2]

theorem CylinderTree_bottomBody_eq (c : Int) (i : Nat) (t : Mesh α) :
    CylinderTree.bottomBody c i t = { t with indices := t.indices ++ cylBottomCell c i } := by
  have e1 : (i : Int) * 2 = 2 * (i : Int) := by ring
  have e2 : ((i : Int) + 1) * 2 = 2 * (i : Int) + 2 := by ring
  simp only [CylinderTree.bottomBody, cylBottomCell, e1, e2]

theorem CylinderTree_topBody_eq (c : Int) (i : Nat) (t : Mesh α) :
    CylinderTree.topBody c i t = { t with indices := t.indices ++ cylTopCell c i } := by
  have e1 : (i : Int) * 2 + 1 = 2 * (i : Int) + 1 := by ring
  have e2 : ((i : Int) + 1) * 2 + 1 = 2 * (i : Int) + 3 := by ring
  simp only [CylinderTree.topBody, cylTopCell, e1, e2]

theorem cylIndices_length (s : Nat) (bc tc : Int) : (cylIndices s bc tc).length = 12 * s := by
  unfold cylIndices
  rw [List.length_append, List.length_append,
    length_flatMap_range cylSideCell 6 (fun _ => rfl),
    length_flatMap_range (cylBottomCell bc) 3 (fun _ => rfl),
    length_flatMap_range (cylTopCell tc) 3 (fun _ => rfl)]
  ring

/-- The three entries of the bottom-fan triangle `i` in the index buffer. -/
theorem cylIndices_bottom (s : Nat) (bc tc : Int) (i : Nat) (hi : i < s) (k : Nat) (hk : k < 3) :
    (cylIndices s bc tc)[6 * s + 3 * i + k]? = (cylBottomCell bc i)[k]? := by
  have h := getElem?_append_flatMap_range ((List.range s).flatMap cylSideCell)
    ((List.range s).flatMap (cylTopCell tc)) (cylBottomCell bc) 3 (fun _ => rfl) s i k hi hk
  rw [length_flatMap_range cylSideCell 6 (fun _ => rfl)] at h
  have e : s * 6 + (3 * i + k) = 6 * s + 3 * i + k := by ring
  rw [e] at h
  exact h

/-- The three entries of the top-fan triangle `i` in the index buffer. -/
theorem cylIndices_top (s : Nat) (bc tc : Int) (i : Nat) (hi : i < s) (k : Nat) (hk : k < 3) :
    (cylIndices s bc tc)[9 * s + 3 * i + k]? = (cylTopCell tc i)[k]? := by
  have h := getElem?_append_flatMap_range
    ((List.range s).flatMap cylSideCell ++ (List.range s).flatMap (cylBottomCell bc)) []
    (cylTopCell tc) 3 (fun _ => rfl) s i k hi hk
  rw [List.length_append, length_flatMap_range cylSideCell 6 (fun _ => rfl),
    length_flatMap_range (cylBottomCell bc) 3 (fun _ => rfl)] at h
  have e : s * 6 + s * 3 + (3 * i + k) = 9 * s + 3 * i + k := by ring
  rw [e, List.append_nil, List.append_assoc] at h
  exact h

/-- The six entries of the two side triangles of sector `i` in the index buffer. -/
theorem cylIndices_side (s : Nat) (bc tc : Int) (i : Nat) (hi : i < s) (k : Nat) (hk : k < 6) :
    (cylIndices s bc tc)[6 * i + k]? = (cylSideCell i)[k]? := by
  have h := getElem?_append_flatMap_range []
    ((List.range s).flatMap (cylBottomCell bc) ++ (List.range s).flatMap (cylTopCell tc))
    cylSideCell 6 (fun _ => rfl) s i k hi hk
  simpa [cylIndices] using h

end CylinderIndexFacts

section CylinderBuildFacts
variable {α : Type} [LinearOrderedField α]

/-- Closed form of `CylinderTree::buildCoordinatesAndIndices` for a non-negative sector count:
the vertex arrays of `buildCoordinates` and the index buffer `cylIndices` with the fans anchored
at the two centre vertices `2 s + 2` and `2 s + 3`. -/
theorem CylinderTree_build_closed (sin cos : α → α) (p : CylinderParams α)
    (h0 : 0 ≤ p.sectorCount) :
    CylinderTree.buildCoordinatesAndIndices sin cos p =
      { CylinderTree.buildCoordinates sin cos p with
        indices := cylIndices p.sectorCount.toNat (2 * p.sectorCount + 2)
          (2 * p.sectorCount + 3) } ∧
    CylinderTree.bottomCenterIndex (CylinderTree.buildCoordinatesAndIndices sin cos p)
      = 2 * p.sectorCount + 2 ∧
    CylinderTree.topCenterIndex (CylinderTree.buildCoordinatesAndIndices sin cos p)
      = 2 * p.sectorCount + 3 := by
  have hn : (p.sectorCount + 1).toNat = p.sectorCount.toNat + 1 := by omega
  have hlen : (CylinderTree.buildCoordinates sin cos p).coordinates.length
      = 3 * (2 * p.sectorCount.toNat + 4) := by
    rw [CylinderTree_buildCoordinates_closed, hn]
    simp only [List.length_append,
      length_flatMap_range (cylRimCoordinates sin cos p) 6 (fun _ => rfl),
      List.length_cons, List.length_nil]
    ring
  have hc : cdiv (((CylinderTree.buildCoordinates sin cos p).coordinates.length : Nat) : Int) 3
      = 2 * p.sectorCount + 4 := by
    rw [hlen, cdiv, Int.tdiv_eq_ediv (by positivity) (by norm_num)]
    omega
  have main : CylinderTree.buildCoordinatesAndIndices sin cos p =
      { CylinderTree.buildCoordinates sin cos p with
        indices := cylIndices p.sectorCount.toNat (2 * p.sectorCount + 2)
          (2 * p.sectorCount + 3) } := by
    unfold CylinderTree.buildCoordinatesAndIndices
    simp only
    rw [forLoop_append_indices cylSideCell _ _ _ CylinderTree_sideBody_eq]
    rw [forLoop_append_indices _ _ _ _ (CylinderTree_bottomBody_eq _)]
    rw [forLoop_append_indices _ _ _ _ (CylinderTree_topBody_eq _)]
    simp only [CylinderTree.bottomCenterIndex, CylinderTree.topCenterIndex, hc]
    have e1 : 2 * p.sectorCount + 4 - 2 = 2 * p.sectorCount + 2 := by ring
    have e2 : 2 * p.sectorCount + 4 - 1 = 2 * p.sectorCount + 3 := by ring
    rw [e1, e2, CylinderTree_buildCoordinates_closed]
    simp only [cylIndices, List.nil_append, List.append_assoc]
  refine ⟨main, ?_, ?_⟩
  · rw [main]
    simp only [CylinderTree.bottomCenterIndex, hc]
    ring
  · rw [main]
    simp only [CylinderTree.topCenterIndex, hc]
    ring


/-- The y coordinate and the vertical position in the arrays of the rim vertices: vertex
`2 j` (bottom) and vertex `2 j + 1` (top) of the rim position `j`, followed by whatever is pushed
after the rim loop. -/
theorem cylRim_lookup (sin cos : α → α) (p : CylinderParams α) (n j : Nat) (hj : j < n)
    (rest : List α) (k : Nat) (hk : k < 6) :
    ((List.range n).flatMap (cylRimCoordinates sin cos p) ++ rest)[6 * j + k]?
      = (cylRimCoordinates sin cos p j)[k]? := by
  have h := getElem?_append_flatMap_range [] rest (cylRimCoordinates sin cos p) 6 (fun _ => rfl)
    n j k hj hk
  simpa using h

/-- What is stored after the rim data. -/
theorem cylRim_after {γ : Type} (g : Nat → List γ) (c : Nat) (h : ∀ i, (g i).length = c)
    (n : Nat) (rest : List γ) (k : Nat) :
    ((List.range n).flatMap g ++ rest)[c * n + k]? = rest[k]? := by
  rw [List.getElem?_append_right (by rw [length_flatMap_range g c h n]; nlinarith)]
  rw [length_flatMap_range g c h n]
  congr 1
  rw [Nat.mul_comm]
  omega

end CylinderBuildFacts

section NoTexIndexFacts
variable {α : Type}

theorem CylinderNoTex_sideBody_eq (i : Nat) (t : Mesh α) :
    CylinderNoTex.sideBody i t = { t with indices := t.indices ++ cylSideCell i } :=
  CylinderTree_sideBody_eq i t

theorem CylinderNoTex_bottomBody_eq (c : Int) (i : Nat) (t : Mesh α) :
    CylinderNoTex.bottomBody c i t = { t with indices := t.indices ++ cylBottomCell c i } :=
  CylinderTree_bottomBody_eq c i t

theorem CylinderNoTex_topBody_eq (c : Int) (i : Nat) (t : Mesh α) :
    CylinderNoTex.topBody c i t = { t with indices := t.indices ++ cylTopCell c i } :=
  CylinderTree_topBody_eq c i t

theorem Cylinder_indexBody_eq (i : Nat) (t : Mesh α) :
    Cylinder.indexBody i t = { t with indices := t.indices ++ cylSideCell i } := by
  have e1 : (i : Int) * 2 = 2 * (i : Int) := by ring
  have e2 : ((i : Int) + 1) * 2 = 2 * (i : Int) + 2 := by ring
  have e3 : 2 * (i : Int) + 2 + 1 = 2 * (i : Int) + 3 := by ring
  simp only [Cylinder.indexBody, cylSideCell, List.append_assoc, List.cons_append,
    List.nil_append, e1, e2, e3]

end NoTexIndexFacts

section NoTexFacts
variable {α : Type} [LinearOrderedField α]

theorem CylinderNoTex_set_eq (self : CylinderParams α) (radius height : α) (sectors : Int) :
    (CylinderNoTex.set self radius height sectors).sectorCount = max sectors 3 ∧
    (CylinderNoTex.set self radius height sectors).height = height ∧
    (CylinderNoTex.set self radius height sectors).radius
      = if radius > 0 then radius else self.radius :=
  CylinderTree_set_eq self radius height sectors

/-- Closed form of the vertex part of `CylinderNoTex::buildCoordinatesAndIndices`: rim vertices
only. -/
theorem CylinderNoTex_buildCoordinates_closed (sin cos : α → α) (p : CylinderParams α) :
    CylinderNoTex.buildCoordinates sin cos p =
      { coordinates := (List.range (p.sectorCount + 1).toNat).flatMap (cylRimCoordinates sin cos p),
        normals := (List.range (p.sectorCount + 1).toNat).flatMap (cylRimNormals sin cos p),
        texCoords := [], indices := [], vertices := [] } := by
  unfold CylinderNoTex.buildCoordinates
  simp only
  rw [forLoop_closed (fun i => ({
        coordinates := (List.range i).flatMap (cylRimCoordinates sin cos p),
        normals := (List.range i).flatMap (cylRimNormals sin cos p),
        texCoords := [], indices := [], vertices := [] } : Mesh α)) _ _ _ (by simp)]
  intro i _
  simp [CylinderNoTex.vertexBody, flatMap_range_succ, cylRimCoordinates, cylRimNormals,
    cylSectorAngle]

/-- Closed form of `CylinderNoTex::buildCoordinatesAndIndices` for a non-negative sector count:
the fans are anchored at the vertices `2 s` and `2 s + 1`, the last two rim vertices. -/
theorem CylinderNoTex_build_closed (sin cos : α → α) (p : CylinderParams α)
    (h0 : 0 ≤ p.sectorCount) :
    CylinderNoTex.buildCoordinatesAndIndices sin cos p =
      { CylinderNoTex.buildCoordinates sin cos p with
        indices := cylIndices p.sectorCount.toNat (2 * p.sectorCount)
          (2 * p.sectorCount + 1) } ∧
    CylinderNoTex.bottomCenterIndex (CylinderNoTex.buildCoordinatesAndIndices sin cos p)
      = 2 * p.sectorCount ∧
    CylinderNoTex.topCenterIndex (CylinderNoTex.buildCoordinatesAndIndices sin cos p)
      = 2 * p.sectorCount + 1 := by
  have hn : (p.sectorCount + 1).toNat = p.sectorCount.toNat + 1 := by omega
  have hlen : (CylinderNoTex.buildCoordinates sin cos p).coordinates.length
      = 3 * (2 * p.sectorCount.toNat + 2) := by
    rw [CylinderNoTex_buildCoordinates_closed, hn]
    simp only [length_flatMap_range (cylRimCoordinates sin cos p) 6 (fun _ => rfl)]
    ring
  have hc : cdiv (((CylinderNoTex.buildCoordinates sin cos p).coordinates.length : Nat) : Int) 3
      = 2 * p.sectorCount + 2 := by
    rw [hlen, cdiv, Int.tdiv_eq_ediv (by positivity) (by norm_num)]
    omega
  have main : CylinderNoTex.buildCoordinatesAndIndices sin cos p =
      { CylinderNoTex.buildCoordinates sin cos p with
        indices := cylIndices p.sectorCount.toNat (2 * p.sectorCount)
          (2 * p.sectorCount + 1) } := by
    unfold CylinderNoTex.buildCoordinatesAndIndices
    simp only
    rw [forLoop_append_indices cylSideCell _ _ _ CylinderNoTex_sideBody_eq]
    rw [forLoop_append_indices _ _ _ _ (CylinderNoTex_bottomBody_eq _)]
    rw [forLoop_append_indices _ _ _ _ (CylinderNoTex_topBody_eq _)]
    simp only [CylinderNoTex.bottomCenterIndex, CylinderNoTex.topCenterIndex, hc]
    have e1 : 2 * p.sectorCount + 2 - 2 = 2 * p.sectorCount := by ring
    have e2 : 2 * p.sectorCount + 2 - 1 = 2 * p.sectorCount + 1 := by ring
    rw [e1, e2, CylinderNoTex_buildCoordinates_closed]
    simp only [cylIndices, List.nil_append, List.append_assoc]
  refine ⟨main, ?_, ?_⟩
  · rw [main]
    simp only [CylinderNoTex.bottomCenterIndex, hc]
    ring
  · rw [main]
    simp only [CylinderNoTex.topCenterIndex, hc]
    ring

/-- Shape of the mesh of `CylinderNoTex` for `sectorCount ≥ 3`: no vertex besides the
`2·(sectorCount+1)` rim vertices, fans anchored at the last two rim vertices. -/
theorem CylinderNoTex_construct_closed (sin cos : α → α) (self : CylinderParams α)
    (radius height : α) (sectorCount : Int) (h3 : 3 ≤ sectorCount) :
    (CylinderNoTex.construct sin cos self radius height sectorCount).coordinates
      = (List.range (sectorCount.toNat + 1)).flatMap
          (cylRimCoordinates sin cos (CylinderNoTex.set self radius height sectorCount)) ∧
    (CylinderNoTex.construct sin cos self radius height sectorCount).indices
      = cylIndices sectorCount.toNat (2 * sectorCount) (2 * sectorCount + 1) ∧
    CylinderNoTex.bottomCenterIndex
      (CylinderNoTex.construct sin cos self radius height sectorCount) = 2 * sectorCount ∧
    CylinderNoTex.topCenterIndex
      (CylinderNoTex.construct sin cos self radius height sectorCount) = 2 * sectorCount + 1 := by
  obtain ⟨e1, e2, _⟩ := CylinderNoTex_set_eq self radius height sectorCount
  have hmax : max sectorCount 3 = sectorCount := max_eq_left h3
  rw [hmax] at e1
  have h0 : 0 ≤ (CylinderNoTex.set self radius height sectorCount).sectorCount := by
    rw [e1]; omega
  obtain ⟨hb, hbc, htc⟩ := CylinderNoTex_build_closed sin cos
    (CylinderNoTex.set self radius height sectorCount) h0
  have hn : (sectorCount + 1).toNat = sectorCount.toNat + 1 := by omega
  rw [e1] at hb hbc htc
  refine ⟨?_, ?_, hbc, htc⟩
  · rw [CylinderNoTex.construct, hb, CylinderNoTex_buildCoordinates_closed, e1, hn]
  · rw [CylinderNoTex.construct, hb]

end NoTexFacts

/-- C9 (code defect): `CylinderNoTex` built with `radius = 1`, `height = 2`, `sectorCount = 3`
in real arithmetic.  The builder pushes the `8` rim vertices and no centre vertex;
`bottomCenterIndex` and `topCenterIndex` are `6` and `7`, the last two rim vertices; vertex `6`
does not lie on the axis; the last bottom-fan triangle is `(6, 4, 6)` and the last top-fan
triangle is `(7, 7, 5)`, each with a repeated index. -/
theorem cylinderNoTex_caps_anchored_at_rim :
    (CylinderNoTex.construct Real.sin Real.cos ⟨0, 0, 0⟩ 1 2 3).coordinates.length
      = 3 * (2 * (3 + 1)) ∧
    CylinderNoTex.bottomCenterIndex
      (CylinderNoTex.construct Real.sin Real.cos ⟨0, 0, 0⟩ 1 2 3) = 6 ∧
    CylinderNoTex.topCenterIndex
      (CylinderNoTex.construct Real.sin Real.cos ⟨0, 0, 0⟩ 1 2 3) = 7 ∧
    ¬ ((CylinderNoTex.construct Real.sin Real.cos ⟨0, 0, 0⟩ 1 2 3).coordinates[3 * 6]? = some 0 ∧
       (CylinderNoTex.construct Real.sin Real.cos ⟨0, 0, 0⟩ 1 2 3).coordinates[3 * 6 + 2]?
         = some 0) ∧
    ((CylinderNoTex.construct Real.sin Real.cos ⟨0, 0, 0⟩ 1 2 3).indices[6 * 3 + 3 * 2]? = some 6 ∧
     (CylinderNoTex.construct Real.sin Real.cos ⟨0, 0, 0⟩ 1 2 3).indices[6 * 3 + 3 * 2 + 1]?
       = some 4 ∧
     (CylinderNoTex.construct Real.sin Real.cos ⟨0, 0, 0⟩ 1 2 3).indices[6 * 3 + 3 * 2 + 2]?
       = some 6) ∧
    ((CylinderNoTex.construct Real.sin Real.cos ⟨0, 0, 0⟩ 1 2 3).indices[9 * 3 + 3 * 2]? = some 7 ∧
     (CylinderNoTex.construct Real.sin Real.cos ⟨0, 0, 0⟩ 1 2 3).indices[9 * 3 + 3 * 2 + 1]?
       = some 7 ∧
     (CylinderNoTex.construct Real.sin Real.cos ⟨0, 0, 0⟩ 1 2 3).indices[9 * 3 + 3 * 2 + 2]?
       = some 5) := by
  obtain ⟨hc, hi, hb, ht⟩ := CylinderNoTex_construct_closed Real.sin Real.cos ⟨0, 0, 0⟩ 1 2 3
    (le_refl _)
  have e3 : (3 : Int).toNat = 3 := rfl
  rw [e3] at hc hi
  refine ⟨?_, by rw [hb]; norm_num, by rw [ht]; norm_num, ?_, ?_, ?_⟩
  · rw [hc, length_flatMap_range (cylRimCoordinates Real.sin Real.cos _) 6 (fun _ => rfl)]
  · rw [hc]
    have h0 := getElem?_flatMap_range
      (cylRimCoordinates Real.sin Real.cos (CylinderNoTex.set ⟨0, 0, 0⟩ 1 2 3)) 6
      (fun _ => rfl) 4 3 0 (by norm_num) (by norm_num)
    have h2 := getElem?_flatMap_range
      (cylRimCoordinates Real.sin Real.cos (CylinderNoTex.set ⟨0, 0, 0⟩ 1 2 3)) 6
      (fun _ => rfl) 4 3 2 (by norm_num) (by norm_num)
    have a0 : 3 * 6 = 6 * 3 + 0 := rfl
    have a2 : 3 * 6 + 2 = 6 * 3 + 2 := rfl
    rw [a2, a0, h0, h2]
    intro hboth
    obtain ⟨hx, hz⟩ := hboth
    have hr : (CylinderNoTex.set (⟨0, 0, 0⟩ : CylinderParams ℝ) 1 2 3).radius = 1 := by
      rw [(CylinderNoTex_set_eq _ _ _ _).2.2]; norm_num
    simp only [cylRimCoordinates, List.getElem?_cons_zero, List.getElem?_cons_succ,
      Option.some.injEq, hr, one_mul] at hx hz
    have hsq := Real.sin_sq_add_cos_sq
      (cylSectorAngle (CylinderNoTex.set (⟨0, 0, 0⟩ : CylinderParams ℝ) 1 2 3) 3)
    rw [hx, hz] at hsq
    norm_num at hsq
  · rw [hi]
    exact ⟨cylIndices_bottom 3 _ _ 2 (by norm_num) 0 (by norm_num),
      cylIndices_bottom 3 _ _ 2 (by norm_num) 1 (by norm_num),
      cylIndices_bottom 3 _ _ 2 (by norm_num) 2 (by norm_num)⟩
  · rw [hi]
    exact ⟨cylIndices_top 3 _ _ 2 (by norm_num) 0 (by norm_num),
      cylIndices_top 3 _ _ 2 (by norm_num) 1 (by norm_num),
      cylIndices_top 3 _ _ 2 (by norm_num) 2 (by norm_num)⟩


section CylinderOpen
variable {α : Type} [LinearOrderedField α]

/-- Closed form of `Cylinder::generateCylinderVerticesAndIndices` for `sectors` sectors: the rim
data of the positions `0 … sectors` and the side triangles, nothing else. -/
theorem Cylinder_build_closed (sin cos : α → α) (sectors : Nat) :
    Cylinder.build sin cos sectors =
      { coordinates := [], normals := [], texCoords := [],
        indices := (List.range sectors).flatMap cylSideCell,
        vertices := (List.range (sectors + 1)).flatMap (Cylinder.rimData sin cos sectors) } := by
  unfold Cylinder.build
  simp only
  have hv : forLoop (sectors + 1)
      (Cylinder.vertexBody sin cos sectors 2 1 (2 * PI_3141516 / (sectors : α))) ({} : Mesh α)
      = { ({} : Mesh α) with vertices := ({} : Mesh α).vertices ++
          (List.range (sectors + 1)).flatMap (Cylinder.rimData sin cos sectors) } :=
    forLoop_append_vertices (Cylinder.rimData sin cos sectors) _ _ _
      (fun i t => by simp [Cylinder.vertexBody, Cylinder.rimData])
  rw [hv, forLoop_append_indices cylSideCell _ _ _ Cylinder_indexBody_eq]
  simp

/-- C10 (as amended): the builder of the projectHospital `Cylinder` (fixed `sectors = 36`) emits
exactly the `2·(sectors+1) = 74` rim vertices (top and bottom circle, eight floats each) and
exactly its `2·sectors = 72` side triangles `(2i, 2i+1, 2i+2)`, `(2i+1, 2i+3, 2i+2)`, all of them
over rim vertices; it emits no centre vertex and no cap-fan triangle. -/
theorem cylinder_open_tube (sin cos : α → α) :
    (Cylinder.generateCylinderVerticesAndIndices sin cos).vertices
      = (List.range (36 + 1)).flatMap (Cylinder.rimData sin cos 36) ∧
    (Cylinder.generateCylinderVerticesAndIndices sin cos).vertices.length = 8 * (2 * (36 + 1)) ∧
    (Cylinder.generateCylinderVerticesAndIndices sin cos).indices
      = (List.range 36).flatMap cylSideCell ∧
    (Cylinder.generateCylinderVerticesAndIndices sin cos).indices.length = 3 * (2 * 36) ∧
    IndexSafe (Cylinder.generateCylinderVerticesAndIndices sin cos).indices (2 * (36 + 1)) := by
  have h := Cylinder_build_closed sin cos 36
  unfold Cylinder.generateCylinderVerticesAndIndices
  rw [h]
  refine ⟨rfl, ?_, rfl, ?_, ?_, ?_⟩
  · simp only [length_flatMap_range (Cylinder.rimData sin cos 36) 16 (fun _ => rfl)]
  · simp only [length_flatMap_range cylSideCell 6 (fun _ => rfl)]
  · refine forall_mem_flatMap_range cylSideCell _ 36 ?_
    intro i hi x hx
    simp only [cylSideCell, List.mem_cons, List.mem_singleton, List.not_mem_nil, or_false] at hx
    rcases hx with h | h | h | h | h | h <;> subst h <;> constructor <;> omega
  · simp only [length_flatMap_range cylSideCell 6 (fun _ => rfl)]
    decide

end CylinderOpen

/-- C10 (counterexample): in real arithmetic the projectHospital `Cylinder` has no triangle
besides its `2·sectors = 72` side triangles and no vertex besides its `2·(sectors+1) = 74` rim
vertices, so there are no centre vertices and no fan triangles in addition to the side
triangles. -/
theorem cylinder_has_no_caps :
    ¬ (3 * (2 * 36)
        < (Cylinder.generateCylinderVerticesAndIndices Real.sin Real.cos).indices.length) ∧
    ¬ (8 * (2 * (36 + 1))
        < (Cylinder.generateCylinderVerticesAndIndices Real.sin Real.cos).vertices.length) := by
  have h := Cylinder_build_closed Real.sin Real.cos 36
  unfold Cylinder.generateCylinderVerticesAndIndices
  rw [h]
  simp only [length_flatMap_range (Cylinder.rimData Real.sin Real.cos 36) 16 (fun _ => rfl),
    length_flatMap_range cylSideCell 6 (fun _ => rfl)]
  constructor <;> norm_num

/-! ## Placement of an object -/

section PlacementFacts
variable {α : Type} [LinearOrderedField α]

theorem run_concat (M : PlacementMethods α) (calls : List (PlacementCall α))
    (c : PlacementCall α) : M.run (calls ++ [c]) = M.call (M.run calls) c := by
  simp [PlacementMethods.run, List.foldl_append]

/-- The three matrices of a reachable object of `HalfSphere` are those of the most recent setter
calls. -/
theorem HalfSphere_run_matrices (rotate : α → Vec3 α → Mat4 α)
    (calls : List (PlacementCall α)) :
    ((HalfSphere.methods rotate).run calls).positionMatrix = lastPosition calls ∧
    ((HalfSphere.methods rotate).run calls).rotationMatrix = lastRotation rotate calls ∧
    ((HalfSphere.methods rotate).run calls).scaleMatrix = lastScale calls := by
  induction calls using List.reverseRecOn with
  | nil => simp [PlacementMethods.run, Placement.fresh, lastPosition, lastRotation, lastScale]
  | append_singleton cs c ih =>
    obtain ⟨h1, h2, h3⟩ := ih
    rw [run_concat]
    cases c <;>
      simp [PlacementMethods.call, HalfSphere.methods, HalfSphere.setPosition,
        HalfSphere.setScale, HalfSphere.setRotation, HalfSphere.draw, lastPosition,
        lastRotation, lastScale, List.reverse_append, List.findSome?_cons] <;>
      simp_all [lastPosition, lastRotation, lastScale, HalfSphere.methods]

theorem HalfSphere_drawsComposed (rotate : α → Vec3 α → Mat4 α) :
    DrawsComposed rotate (HalfSphere.methods rotate) := by
  refine ⟨?_, fun self v angle => ⟨rfl, rfl, rfl⟩⟩
  intro calls model
  obtain ⟨h1, h2, h3⟩ := HalfSphere_run_matrices rotate calls
  refine ⟨?_, ?_, rfl, rfl, rfl⟩
  · show model * (((HalfSphere.methods rotate).run calls).positionMatrix
      * ((HalfSphere.methods rotate).run calls).rotationMatrix
      * ((HalfSphere.methods rotate).run calls).scaleMatrix) = _
    rw [h1, h2, h3]
  · show ((HalfSphere.methods rotate).run calls).positionMatrix
      * ((HalfSphere.methods rotate).run calls).rotationMatrix
      * ((HalfSphere.methods rotate).run calls).scaleMatrix = _
    rw [h1, h2, h3]

theorem Wheel_methods_eq (rotate : α → Vec3 α → Mat4 α) :
    Wheel.methods rotate = HalfSphere.methods rotate := rfl

theorem Capsule_methods_eq (rotate : α → Vec3 α → Mat4 α) :
    Capsule.methods rotate = HalfSphere.methods rotate := rfl

theorem Cylinder_methods_eq (rotate : α → Vec3 α → Mat4 α) :
    Cylinder.methods rotate = HalfSphere.methods rotate := rfl

theorem CurvedPipeSegment_methods_eq (rotate : α → Vec3 α → Mat4 α) :
    CurvedPipeSegment.methods rotate = HalfSphere.methods rotate := rfl

/-- C17: for `HalfSphere`, `Wheel`, `Capsule`, `Cylinder` and `CurvedPipeSegment`, on an object
reached by any sequence of calls, `draw(shader, model_in)` writes exactly
`model_in · (P · R · S)` to the `model` uniform, where `P`, `R`, `S` are the matrices of the most
recent `setPosition`, `setRotation` and `setScale` calls (the identity for a setter never
called); each setter changes only its own matrix, and `draw` stores `P · R · S` in `transform`
without changing `P`, `R` or `S`. -/
theorem draw_writes_composed_model (rotate : α → Vec3 α → Mat4 α) :
    DrawsComposed rotate (HalfSphere.methods rotate) ∧
    DrawsComposed rotate (Wheel.methods rotate) ∧
    DrawsComposed rotate (Capsule.methods rotate) ∧
    DrawsComposed rotate (Cylinder.methods rotate) ∧
    DrawsComposed rotate (CurvedPipeSegment.methods rotate) := by
  rw [Wheel_methods_eq, Capsule_methods_eq, Cylinder_methods_eq, CurvedPipeSegment_methods_eq]
  exact ⟨HalfSphere_drawsComposed rotate, HalfSphere_drawsComposed rotate,
    HalfSphere_drawsComposed rotate, HalfSphere_drawsComposed rotate,
    HalfSphere_drawsComposed rotate⟩

theorem HalfSphere_transformSetByDraw (rotate : α → Vec3 α → Mat4 α) :
    TransformSetByDraw (HalfSphere.methods rotate) :=
  ⟨fun _ _ _ => ⟨rfl, rfl, rfl⟩, fun _ _ => rfl⟩

/-- C16 (as amended): for `HalfSphere`, `Wheel`, `Capsule`, `Cylinder` and `CurvedPipeSegment`
no setter touches `transform` (`setPosition`, `setScale` and `setRotation` leave it as it was);
it is `draw` that recomputes it, and after every `draw` call `transform` equals
`positionMatrix · rotationMatrix · scaleMatrix`. -/
theorem transform_recomputed_by_draw (rotate : α → Vec3 α → Mat4 α) :
    TransformSetByDraw (HalfSphere.methods rotate) ∧
    TransformSetByDraw (Wheel.methods rotate) ∧
    TransformSetByDraw (Capsule.methods rotate) ∧
    TransformSetByDraw (Cylinder.methods rotate) ∧
    TransformSetByDraw (CurvedPipeSegment.methods rotate) := by
  rw [Wheel_methods_eq, Capsule_methods_eq, Cylinder_methods_eq, CurvedPipeSegment_methods_eq]
  exact ⟨HalfSphere_transformSetByDraw rotate, HalfSphere_transformSetByDraw rotate,
    HalfSphere_transformSetByDraw rotate, HalfSphere_transformSetByDraw rotate,
    HalfSphere_transformSetByDraw rotate⟩

end PlacementFacts

/-- C16 (counterexample): on a new object of each of the five classes, over the rationals, after
`setPosition((1, 0, 0))` the member `transform` is still the identity and differs from
`positionMatrix · rotationMatrix · scaleMatrix`. -/
theorem transform_stale_after_setter :
    (HalfSphere.setPosition (⟨1, 0, 0⟩ : Vec3 ℚ) Placement.fresh).transform
      ≠ (HalfSphere.setPosition (⟨1, 0, 0⟩ : Vec3 ℚ) Placement.fresh).positionMatrix
        * (HalfSphere.setPosition (⟨1, 0, 0⟩ : Vec3 ℚ) Placement.fresh).rotationMatrix
        * (HalfSphere.setPosition (⟨1, 0, 0⟩ : Vec3 ℚ) Placement.fresh).scaleMatrix ∧
    (Wheel.setPosition (⟨1, 0, 0⟩ : Vec3 ℚ) Placement.fresh).transform
      ≠ (Wheel.setPosition (⟨1, 0, 0⟩ : Vec3 ℚ) Placement.fresh).positionMatrix
        * (Wheel.setPosition (⟨1, 0, 0⟩ : Vec3 ℚ) Placement.fresh).rotationMatrix
        * (Wheel.setPosition (⟨1, 0, 0⟩ : Vec3 ℚ) Placement.fresh).scaleMatrix ∧
    (Capsule.setPosition (⟨1, 0, 0⟩ : Vec3 ℚ) Placement.fresh).transform
      ≠ (Capsule.setPosition (⟨1, 0, 0⟩ : Vec3 ℚ) Placement.fresh).positionMatrix
        * (Capsule.setPosition (⟨1, 0, 0⟩ : Vec3 ℚ) Placement.fresh).rotationMatrix
        * (Capsule.setPosition (⟨1, 0, 0⟩ : Vec3 ℚ) Placement.fresh).scaleMatrix ∧
    (Cylinder.setPosition (⟨1, 0, 0⟩ : Vec3 ℚ) Placement.fresh).transform
      ≠ (Cylinder.setPosition (⟨1, 0, 0⟩ : Vec3 ℚ) Placement.fresh).positionMatrix
        * (Cylinder.setPosition (⟨1, 0, 0⟩ : Vec3 ℚ) Placement.fresh).rotationMatrix
        * (Cylinder.setPosition (⟨1, 0, 0⟩ : Vec3 ℚ) Placement.fresh).scaleMatrix ∧
    (CurvedPipeSegment.setPosition (⟨1, 0, 0⟩ : Vec3 ℚ) Placement.fresh).transform
      ≠ (CurvedPipeSegment.setPosition (⟨1, 0, 0⟩ : Vec3 ℚ) Placement.fresh).positionMatrix
        * (CurvedPipeSegment.setPosition (⟨1, 0, 0⟩ : Vec3 ℚ) Placement.fresh).rotationMatrix
        * (CurvedPipeSegment.setPosition (⟨1, 0, 0⟩ : Vec3 ℚ) Placement.fresh).scaleMatrix := by
  have key : (HalfSphere.setPosition (⟨1, 0, 0⟩ : Vec3 ℚ) Placement.fresh).transform
      ≠ (HalfSphere.setPosition (⟨1, 0, 0⟩ : Vec3 ℚ) Placement.fresh).positionMatrix
        * (HalfSphere.setPosition (⟨1, 0, 0⟩ : Vec3 ℚ) Placement.fresh).rotationMatrix
        * (HalfSphere.setPosition (⟨1, 0, 0⟩ : Vec3 ℚ) Placement.fresh).scaleMatrix := by
    intro h
    have h03 := congrFun (congrFun h 0) 3
    simp [HalfSphere.setPosition, Placement.fresh, glmTranslate] at h03
  exact ⟨key, key, key, key, key⟩

/-! ## Spheres -/

section GridAccess
variable {β : Type}

/-- Entry `k` of the chunk of cell `(i, j)` in a buffer laid out ring by ring, `m` cells per
ring and `c` entries per cell. -/
theorem getElem?_grid (g : Nat → Nat → List β) (c : Nat) (h : ∀ i j, (g i j).length = c)
    (n m i j k : Nat) (hi : i < n) (hj : j < m) (hk : k < c) :
    ((List.range n).flatMap fun i => (List.range m).flatMap (g i))[c * (i * m + j) + k]?
      = (g i j)[k]? := by
  have hlen : ∀ i, ((List.range m).flatMap (g i)).length = m * c :=
    fun i => length_flatMap_range (g i) c (h i) m
  have e : c * (i * m + j) + k = (m * c) * i + (c * j + k) := by ring
  have hlt : c * j + k < m * c := by
    have : c * (j + 1) ≤ c * m := Nat.mul_le_mul_left c hj
    have e2 : c * (j + 1) = c * j + c := by ring
    have e3 : m * c = c * m := Nat.mul_comm m c
    omega
  rw [e, getElem?_flatMap_range (fun i => (List.range m).flatMap (g i)) (m * c) hlen n i
    (c * j + k) hi hlt]
  exact getElem?_flatMap_range (g i) c (h i) m j k hj hk

end GridAccess

section SameVertices
variable {α : Type}

/-- A loop whose body leaves `vertices` alone leaves `vertices` alone. -/
theorem forLoop_vertices_same (n : Nat) (body : Nat → Mesh α → Mesh α) (m : Mesh α)
    (h : ∀ i t, (body i t).vertices = t.vertices) :
    (forLoop n body m).vertices = m.vertices := by
  refine forLoop_inv (fun _ t => t.vertices = m.vertices) n body m rfl ?_
  intro i t _ ht
  rw [h, ht]

end SameVertices

section SphereFacts
variable {α : Type} [LinearOrderedField α]

/-- Closed form of the vertex buffer of `HalfSphere`. -/
theorem HalfSphere_vertices_closed (sin cos : α → α) (pi : α) (sectorCount stackCount : Nat) :
    (HalfSphere.build sin cos pi sectorCount stackCount).vertices
      = (List.range (stackCount + 1)).flatMap fun i =>
          (List.range (sectorCount + 1)).flatMap
            (HalfSphere.vertexData sin cos pi sectorCount stackCount i) := by
  unfold HalfSphere.build
  simp only
  have hv : forLoop (stackCount + 1) (HalfSphere.stackBody sin cos pi sectorCount stackCount)
      ({} : Mesh α)
      = { ({} : Mesh α) with vertices := (({} : Mesh α).vertices ++
          (List.range (stackCount + 1)).flatMap fun i =>
            (List.range (sectorCount + 1)).flatMap
              (HalfSphere.vertexData sin cos pi sectorCount stackCount i)) } := by
    refine forLoop_append_vertices _ _ _ _ ?_
    intro i t
    exact forLoop_append_vertices
      (HalfSphere.vertexData sin cos pi sectorCount stackCount i) _ _ t (fun j u => rfl)
  rw [hv]
  have hi : ∀ m : Mesh α, (forLoop stackCount
      (fun i m => forLoop sectorCount (HalfSphere.indexBody sectorCount i) m) m).vertices
      = m.vertices := by
    intro m
    exact forLoop_vertices_same _ _ m
      (fun i t => forLoop_vertices_same _ _ t (fun j u => rfl))
  rw [hi]
  simp

/-- Closed form of the vertex buffer of `Wheel`. -/
theorem Wheel_vertices_closed (sin cos : α → α) (pi : α) (sectorCount stackCount : Nat) :
    (Wheel.build sin cos pi sectorCount stackCount).vertices
      = (List.range (stackCount + 1)).flatMap fun i =>
          (List.range (sectorCount + 1)).flatMap
            (Wheel.vertexData sin cos pi sectorCount stackCount i) := by
  unfold Wheel.build
  simp only
  have hv : forLoop (stackCount + 1) (Wheel.stackBody sin cos pi sectorCount stackCount)
      ({} : Mesh α)
      = { ({} : Mesh α) with vertices := (({} : Mesh α).vertices ++
          (List.range (stackCount + 1)).flatMap fun i =>
            (List.range (sectorCount + 1)).flatMap
              (Wheel.vertexData sin cos pi sectorCount stackCount i)) } := by
    refine forLoop_append_vertices _ _ _ _ ?_
    intro i t
    exact forLoop_append_vertices
      (Wheel.vertexData sin cos pi sectorCount stackCount i) _ _ t (fun j u => rfl)
  rw [hv]
  have hi : ∀ m : Mesh α, (forLoop stackCount
      (fun i m => forLoop sectorCount (Wheel.indexBody sectorCount i) m) m).vertices
      = m.vertices := by
    intro m
    exact forLoop_vertices_same _ _ m
      (fun i t => forLoop_vertices_same _ _ t (fun j u => rfl))
  rw [hi]
  simp

/-- The floats of the vertex of ring `i` and sector `j` of `HalfSphere`. -/
theorem HalfSphere_attr8 (sin cos : α → α) (pi : α) (sectorCount stackCount i j c : Nat)
    (hi : i ≤ stackCount) (hj : j ≤ sectorCount) (hc : c < 8) :
    (HalfSphere.build sin cos pi sectorCount stackCount).attr8 (i * (sectorCount + 1) + j) c
      = (HalfSphere.vertexData sin cos pi sectorCount stackCount i j)[c]? := by
  unfold Mesh.attr8
  rw [HalfSphere_vertices_closed]
  exact getElem?_grid (HalfSphere.vertexData sin cos pi sectorCount stackCount) 8
    (fun _ _ => rfl) _ _ i j c (by omega) (by omega) hc

/-- The floats of the vertex of ring `i` and sector `j` of `Wheel`. -/
theorem Wheel_attr8 (sin cos : α → α) (pi : α) (sectorCount stackCount i j c : Nat)
    (hi : i ≤ stackCount) (hj : j ≤ sectorCount) (hc : c < 8) :
    (Wheel.build sin cos pi sectorCount stackCount).attr8 (i * (sectorCount + 1) + j) c
      = (Wheel.vertexData sin cos pi sectorCount stackCount i j)[c]? := by
  unfold Mesh.attr8
  rw [Wheel_vertices_closed]
  exact getElem?_grid (Wheel.vertexData sin cos pi sectorCount stackCount) 8
    (fun _ _ => rfl) _ _ i j c (by omega) (by omega) hc

end SphereFacts

section SphereClaims

theorem unit_sphere_point (a b : ℝ) :
    (Real.cos a * Real.cos b) ^ 2 + Real.sin a ^ 2 + (Real.cos a * Real.sin b) ^ 2 = 1 := by
  have h1 := Real.sin_sq_add_cos_sq a
  have h2 := Real.sin_sq_add_cos_sq b
  have e : (Real.cos a * Real.cos b) ^ 2 + Real.sin a ^ 2 + (Real.cos a * Real.sin b) ^ 2
      = Real.cos a ^ 2 * (Real.sin b ^ 2 + Real.cos b ^ 2) + Real.sin a ^ 2 := by ring
  rw [e, h2]
  linarith

/-- C18: in exact real arithmetic, ring `i` (`0 ≤ i ≤ stackCount = 18`) of `HalfSphere` uses the
stack angle `π/2 − i·(π/2)/stackCount`; every vertex `(i, j)` has `0 ≤ y ≤ 1`, satisfies
`x² + y² + z² = 1`, and its normal equals its position; ring `0` collapses to the pole
`(0, 1, 0)` and ring `stackCount` lies in the plane `y = 0`. -/
theorem halfSphere_unit_upper_hemisphere (i j : Nat) (hi : i ≤ 18) (hj : j ≤ 36) :
    ∃ x y z : ℝ,
      ((HalfSphere.setUpHalfSphereVertexDataAndConfigureVertexAttribute Real.sin Real.cos
          Real.pi).attr8 (i * (36 + 1) + j) 0 = some x ∧
       (HalfSphere.setUpHalfSphereVertexDataAndConfigureVertexAttribute Real.sin Real.cos
          Real.pi).attr8 (i * (36 + 1) + j) 1 = some y ∧
       (HalfSphere.setUpHalfSphereVertexDataAndConfigureVertexAttribute Real.sin Real.cos
          Real.pi).attr8 (i * (36 + 1) + j) 2 = some z) ∧
      ((HalfSphere.setUpHalfSphereVertexDataAndConfigureVertexAttribute Real.sin Real.cos
          Real.pi).attr8 (i * (36 + 1) + j) 3 = some x ∧
       (HalfSphere.setUpHalfSphereVertexDataAndConfigureVertexAttribute Real.sin Real.cos
          Real.pi).attr8 (i * (36 + 1) + j) 4 = some y ∧
       (HalfSphere.setUpHalfSphereVertexDataAndConfigureVertexAttribute Real.sin Real.cos
          Real.pi).attr8 (i * (36 + 1) + j) 5 = some z) ∧
      y = Real.sin (Real.pi / 2 - (i : ℝ) * (Real.pi / 2) / 18) ∧
      0 ≤ y ∧ y ≤ 1 ∧ x ^ 2 + y ^ 2 + z ^ 2 = 1 ∧
      (i = 0 → x = 0 ∧ y = 1 ∧ z = 0) ∧ (i = 18 → y = 0) := by
  have hA : ∀ c, c < 8 →
      (HalfSphere.setUpHalfSphereVertexDataAndConfigureVertexAttribute Real.sin Real.cos
          Real.pi).attr8 (i * (36 + 1) + j) c
        = (HalfSphere.vertexData Real.sin Real.cos Real.pi 36 18 i j)[c]? :=
    fun c hc => HalfSphere_attr8 Real.sin Real.cos Real.pi 36 18 i j c hi hj hc
  have hang : Real.pi / 2 - (i : ℝ) * Real.pi / ((2 * 18 : Nat) : ℝ)
      = Real.pi / 2 - (i : ℝ) * (Real.pi / 2) / 18 := by
    push_cast
    ring
  have hi' : (i : ℝ) ≤ 18 := by exact_mod_cast hi
  have hi0 : (0 : ℝ) ≤ (i : ℝ) := Nat.cast_nonneg i
  have hpi := Real.pi_pos
  have hlo : 0 ≤ Real.pi / 2 - (i : ℝ) * (Real.pi / 2) / 18 := by nlinarith
  have hhi : Real.pi / 2 - (i : ℝ) * (Real.pi / 2) / 18 ≤ Real.pi := by nlinarith
  refine ⟨Real.cos (Real.pi / 2 - (i : ℝ) * Real.pi / ((2 * 18 : Nat) : ℝ))
        * Real.cos (((j * 2 : Nat) : ℝ) * Real.pi / ((36 : Nat) : ℝ)),
    Real.sin (Real.pi / 2 - (i : ℝ) * Real.pi / ((2 * 18 : Nat) : ℝ)),
    Real.cos (Real.pi / 2 - (i : ℝ) * Real.pi / ((2 * 18 : Nat) : ℝ))
        * Real.sin (((j * 2 : Nat) : ℝ) * Real.pi / ((36 : Nat) : ℝ)),
    ⟨hA 0 (by norm_num), hA 1 (by norm_num), hA 2 (by norm_num)⟩,
    ⟨hA 3 (by norm_num), hA 4 (by norm_num), hA 5 (by norm_num)⟩, ?_, ?_, ?_, ?_, ?_, ?_⟩
  · rw [hang]
  · rw [hang]; exact Real.sin_nonneg_of_nonneg_of_le_pi hlo hhi
  · exact Real.sin_le_one _
  · exact unit_sphere_point _ _
  · intro h0
    subst h0
    simp
  · intro h18
    subst h18
    rw [hang]
    have : Real.pi / 2 - ((18 : Nat) : ℝ) * (Real.pi / 2) / 18 = 0 := by
      push_cast; ring
    rw [this, Real.sin_zero]

/-- Witness for C18: the vertex of ring `0`, sector `0`. -/
theorem halfSphere_unit_upper_hemisphere_witness :
    ∃ x y z : ℝ,
      ((HalfSphere.setUpHalfSphereVertexDataAndConfigureVertexAttribute Real.sin Real.cos
          Real.pi).attr8 (0 * (36 + 1) + 0) 0 = some x ∧
       (HalfSphere.setUpHalfSphereVertexDataAndConfigureVertexAttribute Real.sin Real.cos
          Real.pi).attr8 (0 * (36 + 1) + 0) 1 = some y ∧
       (HalfSphere.setUpHalfSphereVertexDataAndConfigureVertexAttribute Real.sin Real.cos
          Real.pi).attr8 (0 * (36 + 1) + 0) 2 = some z) ∧
      x = 0 ∧ y = 1 ∧ z = 0 :=
  let ⟨x, y, z, hp, _, _, _, _, _, h0, _⟩ :=
    halfSphere_unit_upper_hemisphere 0 0 (by norm_num) (by norm_num)
  ⟨x, y, z, hp, h0 rfl⟩

/-- C19 (as amended): in exact real arithmetic the builder of `Wheel` generates a full unit
sphere, not a hemisphere: ring `i` (`0 ≤ i ≤ 18`) uses the stack angle `π/2 − i·π/18`, which runs
from `π/2` down to `−π/2`; every vertex satisfies `x² + y² + z² = 1` and `−1 ≤ y ≤ 1`, its normal
equals its position, `y ≥ 0` holds on the rings `i ≤ 9` and `y < 0` on the rings `10 … 18`, and
ring `18` is the pole `(0, −1, 0)`. -/
theorem wheel_full_sphere (i j : Nat) (hi : i ≤ 18) (hj : j ≤ 36) :
    ∃ x y z : ℝ,
      ((Wheel.setUpWheelVertexDataAndConfigureVertexAttribute Real.sin Real.cos
          Real.pi).attr8 (i * (36 + 1) + j) 0 = some x ∧
       (Wheel.setUpWheelVertexDataAndConfigureVertexAttribute Real.sin Real.cos
          Real.pi).attr8 (i * (36 + 1) + j) 1 = some y ∧
       (Wheel.setUpWheelVertexDataAndConfigureVertexAttribute Real.sin Real.cos
          Real.pi).attr8 (i * (36 + 1) + j) 2 = some z) ∧
      ((Wheel.setUpWheelVertexDataAndConfigureVertexAttribute Real.sin Real.cos
          Real.pi).attr8 (i * (36 + 1) + j) 3 = some x ∧
       (Wheel.setUpWheelVertexDataAndConfigureVertexAttribute Real.sin Real.cos
          Real.pi).attr8 (i * (36 + 1) + j) 4 = some y ∧
       (Wheel.setUpWheelVertexDataAndConfigureVertexAttribute Real.sin Real.cos
          Real.pi).attr8 (i * (36 + 1) + j) 5 = some z) ∧
      y = Real.sin (Real.pi / 2 - (i : ℝ) * Real.pi / 18) ∧
      -1 ≤ y ∧ y ≤ 1 ∧ x ^ 2 + y ^ 2 + z ^ 2 = 1 ∧
      (i ≤ 9 → 0 ≤ y) ∧ (9 < i → y < 0) ∧ (i = 18 → x = 0 ∧ y = -1 ∧ z = 0) := by
  have hA : ∀ c, c < 8 →
      (Wheel.setUpWheelVertexDataAndConfigureVertexAttribute Real.sin Real.cos
          Real.pi).attr8 (i * (36 + 1) + j) c
        = (Wheel.vertexData Real.sin Real.cos Real.pi 36 18 i j)[c]? :=
    fun c hc => Wheel_attr8 Real.sin Real.cos Real.pi 36 18 i j c hi hj hc
  have hang : Real.pi / 2 - (i : ℝ) * Real.pi / ((18 : Nat) : ℝ)
      = Real.pi / 2 - (i : ℝ) * Real.pi / 18 := by
    push_cast
    ring
  have hi' : (i : ℝ) ≤ 18 := by exact_mod_cast hi
  have hi0 : (0 : ℝ) ≤ (i : ℝ) := Nat.cast_nonneg i
  have hpi := Real.pi_pos
  refine ⟨Real.cos (Real.pi / 2 - (i : ℝ) * Real.pi / ((18 : Nat) : ℝ))
        * Real.cos (((j * 2 : Nat) : ℝ) * Real.pi / ((36 : Nat) : ℝ)),
    Real.sin (Real.pi / 2 - (i : ℝ) * Real.pi / ((18 : Nat) : ℝ)),
    Real.cos (Real.pi / 2 - (i : ℝ) * Real.pi / ((18 : Nat) : ℝ))
        * Real.sin (((j * 2 : Nat) : ℝ) * Real.pi / ((36 : Nat) : ℝ)),
    ⟨hA 0 (by norm_num), hA 1 (by norm_num), hA 2 (by norm_num)⟩,
    ⟨hA 3 (by norm_num), hA 4 (by norm_num), hA 5 (by norm_num)⟩, ?_, ?_, ?_, ?_, ?_, ?_, ?_⟩
  · rw [hang]
  · exact Real.neg_one_le_sin _
  · exact Real.sin_le_one _
  · exact unit_sphere_point _ _
  · intro h9
    have h9' : (i : ℝ) ≤ 9 := by exact_mod_cast h9
    rw [hang]
    exact Real.sin_nonneg_of_nonneg_of_le_pi (by nlinarith) (by nlinarith)
  · intro h9
    have h9' : (10 : ℝ) ≤ (i : ℝ) := by exact_mod_cast h9
    rw [hang]
    exact Real.sin_neg_of_neg_of_neg_pi_lt (by nlinarith) (by nlinarith)
  · intro h18
    subst h18
    have e : Real.pi / 2 - ((18 : Nat) : ℝ) * Real.pi / ((18 : Nat) : ℝ) = -(Real.pi / 2) := by
      push_cast; ring
    simp only [e, Real.cos_neg, Real.sin_neg, Real.cos_pi_div_two,
      Real.sin_pi_div_two, zero_mul, and_self]

/-- Witness for C19 (as amended): the vertex of ring `18`, sector `0`, is the pole
`(0, −1, 0)`. -/
theorem wheel_full_sphere_witness :
    ∃ x y z : ℝ,
      ((Wheel.setUpWheelVertexDataAndConfigureVertexAttribute Real.sin Real.cos
          Real.pi).attr8 (18 * (36 + 1) + 0) 0 = some x ∧
       (Wheel.setUpWheelVertexDataAndConfigureVertexAttribute Real.sin Real.cos
          Real.pi).attr8 (18 * (36 + 1) + 0) 1 = some y ∧
       (Wheel.setUpWheelVertexDataAndConfigureVertexAttribute Real.sin Real.cos
          Real.pi).attr8 (18 * (36 + 1) + 0) 2 = some z) ∧
      x = 0 ∧ y = -1 ∧ z = 0 :=
  let ⟨x, y, z, hp, _, _, _, _, _, _, _, h18⟩ :=
    wheel_full_sphere 18 0 (by norm_num) (by norm_num)
  ⟨x, y, z, hp, h18 rfl⟩

/-- C19 (counterexample): in exact real arithmetic the vertex of ring `18`, sector `0`, emitted
by the builder of `Wheel` has `y = −1 < 0`. -/
theorem wheel_has_negative_y :
    ∃ y : ℝ, (Wheel.setUpWheelVertexDataAndConfigureVertexAttribute Real.sin Real.cos
        Real.pi).attr8 (18 * (36 + 1) + 0) 1 = some y ∧ ¬ (0 ≤ y) := by
  refine ⟨Real.sin (Real.pi / 2 - ((18 : Nat) : ℝ) * Real.pi / ((18 : Nat) : ℝ)),
    Wheel_attr8 Real.sin Real.cos Real.pi 36 18 18 0 1 (le_refl _) (by norm_num) (by norm_num),
    ?_⟩
  have e : Real.pi / 2 - ((18 : Nat) : ℝ) * Real.pi / ((18 : Nat) : ℝ) = -(Real.pi / 2) := by
    push_cast; ring
  rw [e, Real.sin_neg, Real.sin_pi_div_two]
  norm_num

end SphereClaims

section GridLength
variable {β : Type}

theorem length_grid (g : Nat → Nat → List β) (c : Nat) (h : ∀ i j, (g i j).length = c)
    (n m : Nat) :
    ((List.range n).flatMap fun i => (List.range m).flatMap (g i)).length = n * (m * c) :=
  length_flatMap_range (fun i => (List.range m).flatMap (g i)) (m * c)
    (fun i => length_flatMap_range (g i) c (h i) m) n

end GridLength

section CapsuleFacts
variable {α : Type} [LinearOrderedField α]

/-- Closed form of the vertex buffer of `Capsule`: the rings of the top hemisphere, the two
rings of the cylinder body, the rings of the bottom hemisphere. -/
theorem Capsule_vertices_closed (sin cos : α → α) (sectors nStacks : Nat) :
    (Capsule.build sin cos sectors nStacks).vertices
      = ((List.range (nStacks / 2 + 1)).flatMap fun i =>
          (List.range (sectors + 1)).flatMap
            (Capsule.hemiData sin cos sectors nStacks 1 (2 * PI_3141516 / (sectors : α))
              (PI_3141516 / (nStacks : α)) (2 / 2) i)) ++
        (((List.range 2).flatMap fun i =>
          (List.range (sectors + 1)).flatMap
            (Capsule.bandData sin cos sectors 1 (2 * PI_3141516 / (sectors : α)) (2 / 2) i)) ++
         ((List.range (nStacks + 1 - nStacks / 2)).flatMap fun k =>
          (List.range (sectors + 1)).flatMap
            (Capsule.hemiData sin cos sectors nStacks 1 (2 * PI_3141516 / (sectors : α))
              (PI_3141516 / (nStacks : α)) (-(2 / 2)) (nStacks / 2 + k)))) := by
  unfold Capsule.build
  simp only
  rw [Capsule_indexLoop_closed]
  have hemi : ∀ (shift : α) (f : Nat → Nat) (n : Nat) (t : Mesh α),
      forLoop n (fun k => Capsule.hemiStackBody sin cos sectors nStacks 1
        (2 * PI_3141516 / (sectors : α)) (PI_3141516 / (nStacks : α)) shift (f k)) t
      = { t with vertices := (t.vertices ++ (List.range n).flatMap fun k =>
          (List.range (sectors + 1)).flatMap
            (Capsule.hemiData sin cos sectors nStacks 1 (2 * PI_3141516 / (sectors : α))
              (PI_3141516 / (nStacks : α)) shift (f k))) } := by
    intro shift f n t
    refine forLoop_append_vertices _ _ _ _ ?_
    intro k u
    exact forLoop_append_vertices
      (Capsule.hemiData sin cos sectors nStacks 1 (2 * PI_3141516 / (sectors : α))
        (PI_3141516 / (nStacks : α)) shift (f k)) _ _ u (fun j w => rfl)
  have band : ∀ (t : Mesh α),
      forLoop 2 (Capsule.bodyBody sin cos sectors 1 (2 * PI_3141516 / (sectors : α)) (2 / 2)) t
      = { t with vertices := (t.vertices ++ (List.range 2).flatMap fun i =>
          (List.range (sectors + 1)).flatMap
            (Capsule.bandData sin cos sectors 1 (2 * PI_3141516 / (sectors : α)) (2 / 2) i)) } := by
    intro t
    refine forLoop_append_vertices _ _ _ _ ?_
    intro k u
    exact forLoop_append_vertices
      (Capsule.bandData sin cos sectors 1 (2 * PI_3141516 / (sectors : α)) (2 / 2) k) _ _ u
      (fun j w => rfl)
  have top := hemi (2 / 2) (fun k => k) (nStacks / 2 + 1) ({} : Mesh α)
  rw [top, band, hemi (-(2 / 2)) (fun k => nStacks / 2 + k)]
  simp

theorem Capsule_top_length (sin cos : α → α) (sectors nStacks n : Nat) (shift : α)
    (f : Nat → Nat) :
    ((List.range n).flatMap fun k => (List.range (sectors + 1)).flatMap
        (Capsule.hemiData sin cos sectors nStacks 1 (2 * PI_3141516 / (sectors : α))
          (PI_3141516 / (nStacks : α)) shift (f k))).length = n * ((sectors + 1) * 8) :=
  length_grid (fun k => Capsule.hemiData sin cos sectors nStacks 1
    (2 * PI_3141516 / (sectors : α)) (PI_3141516 / (nStacks : α)) shift (f k)) 8
    (fun _ _ => rfl) n (sectors + 1)

theorem Capsule_band_length (sin cos : α → α) (sectors : Nat) :
    ((List.range 2).flatMap fun i => (List.range (sectors + 1)).flatMap
        (Capsule.bandData sin cos sectors 1 (2 * PI_3141516 / (sectors : α)) (2 / 2) i)).length
      = 2 * ((sectors + 1) * 8) :=
  length_grid (fun i => Capsule.bandData sin cos sectors 1 (2 * PI_3141516 / (sectors : α))
    (2 / 2) i) 8 (fun _ _ => rfl) 2 (sectors + 1)

theorem Capsule_attr8_top (sin cos : α → α) (sectors nStacks i j c : Nat)
    (hi : i ≤ nStacks / 2) (hj : j ≤ sectors) (hc : c < 8) :
    (Capsule.build sin cos sectors nStacks).attr8 (i * (sectors + 1) + j) c
      = (Capsule.hemiData sin cos sectors nStacks 1 (2 * PI_3141516 / (sectors : α))
          (PI_3141516 / (nStacks : α)) (2 / 2) i j)[c]? := by
  unfold Mesh.attr8
  rw [Capsule_vertices_closed]
  have hlt : 8 * (i * (sectors + 1) + j) + c < (nStacks / 2 + 1) * ((sectors + 1) * 8) := by
    have h1 : (i + 1) * (sectors + 1) ≤ (nStacks / 2 + 1) * (sectors + 1) :=
      Nat.mul_le_mul_right _ (by omega)
    nlinarith
  rw [List.getElem?_append_left
    (by rw [Capsule_top_length sin cos sectors nStacks _ (2 / 2) (fun k => k)]; exact hlt)]
  exact getElem?_grid (fun k => Capsule.hemiData sin cos sectors nStacks 1
      (2 * PI_3141516 / (sectors : α)) (PI_3141516 / (nStacks : α)) (2 / 2) k) 8
    (fun _ _ => rfl) _ _ i j c (by omega) (by omega) hc

theorem Capsule_attr8_band (sin cos : α → α) (sectors nStacks b j c : Nat)
    (hb : b < 2) (hj : j ≤ sectors) (hc : c < 8) :
    (Capsule.build sin cos sectors nStacks).attr8 ((nStacks / 2 + 1 + b) * (sectors + 1) + j) c
      = (Capsule.bandData sin cos sectors 1 (2 * PI_3141516 / (sectors : α)) (2 / 2) b j)[c]? := by
  unfold Mesh.attr8
  rw [Capsule_vertices_closed]
  have e : 8 * ((nStacks / 2 + 1 + b) * (sectors + 1) + j) + c
      = (nStacks / 2 + 1) * ((sectors + 1) * 8) + (8 * (b * (sectors + 1) + j) + c) := by ring
  have lt := Capsule_top_length sin cos sectors nStacks (nStacks / 2 + 1) (2 / 2) (fun k => k)
  have lb := Capsule_band_length sin cos sectors
  rw [e, List.getElem?_append_right (by rw [lt]; omega), lt, Nat.add_sub_cancel_left]
  have hlt : 8 * (b * (sectors + 1) + j) + c < 2 * ((sectors + 1) * 8) := by
    have h1 : (b + 1) * (sectors + 1) ≤ 2 * (sectors + 1) :=
      Nat.mul_le_mul_right _ (by omega)
    nlinarith
  rw [List.getElem?_append_left (by rw [lb]; exact hlt)]
  exact getElem?_grid (fun i => Capsule.bandData sin cos sectors 1
      (2 * PI_3141516 / (sectors : α)) (2 / 2) i) 8 (fun _ _ => rfl) _ _ b j c hb (by omega) hc

theorem Capsule_attr8_bottom (sin cos : α → α) (sectors nStacks k j c : Nat)
    (hk : k ≤ nStacks - nStacks / 2) (hj : j ≤ sectors) (hc : c < 8) :
    (Capsule.build sin cos sectors nStacks).attr8 ((nStacks / 2 + 3 + k) * (sectors + 1) + j) c
      = (Capsule.hemiData sin cos sectors nStacks 1 (2 * PI_3141516 / (sectors : α))
          (PI_3141516 / (nStacks : α)) (-(2 / 2)) (nStacks / 2 + k) j)[c]? := by
  unfold Mesh.attr8
  rw [Capsule_vertices_closed]
  have e : 8 * ((nStacks / 2 + 3 + k) * (sectors + 1) + j) + c
      = (nStacks / 2 + 1) * ((sectors + 1) * 8)
        + (2 * ((sectors + 1) * 8) + (8 * (k * (sectors + 1) + j) + c)) := by ring
  have lt := Capsule_top_length sin cos sectors nStacks (nStacks / 2 + 1) (2 / 2) (fun k => k)
  have lb := Capsule_band_length sin cos sectors
  rw [e, List.getElem?_append_right (by rw [lt]; omega), lt, Nat.add_sub_cancel_left,
    List.getElem?_append_right (by rw [lb]; omega), lb, Nat.add_sub_cancel_left]
  have h2 : nStacks / 2 ≤ nStacks := Nat.div_le_self _ _
  exact getElem?_grid
    (fun k => Capsule.hemiData sin cos sectors nStacks 1 (2 * PI_3141516 / (sectors : α))
      (PI_3141516 / (nStacks : α)) (-(2 / 2)) (nStacks / 2 + k)) 8 (fun _ _ => rfl) _ _ k j c
    (by omega) (by omega) hc

end CapsuleFacts

section CapsuleClaims

/-- C11 (code defect): the builder of `Capsule`, in real arithmetic.  It writes `22` rings of
`37` vertices (ten of the top hemisphere, two of the cylinder body, ten of the bottom hemisphere),
but its index pass runs over `stacks = 18` rows only: every index is below `19·37 = 703`, so no
triangle references a vertex of the rings `19`, `20` and `21`, the last three rings of the bottom
hemisphere (the bottom pole included). -/
theorem capsule_bottom_rings_unreferenced :
    (Capsule.generateCapsuleVerticesAndIndices Real.sin Real.cos).vertices.length
      = 8 * (22 * 37) ∧
    IndexSafe (Capsule.generateCapsuleVerticesAndIndices Real.sin Real.cos).indices (19 * 37) ∧
    ¬ ∃ x ∈ (Capsule.generateCapsuleVerticesAndIndices Real.sin Real.cos).indices,
        (19 * 37 : Int) ≤ x := by
  obtain ⟨h1, h2⟩ := Capsule_build_shape Real.sin Real.cos 36 18
  have hb := Capsule_gridIndices_bounds 36 18
  unfold Capsule.generateCapsuleVerticesAndIndices
  rw [h1, h2]
  refine ⟨rfl, ⟨?_, Capsule_gridIndices_length_dvd 36 18⟩, ?_⟩
  · intro x hx
    obtain ⟨a, b⟩ := hb x hx
    exact ⟨a, by simpa using b⟩
  · rintro ⟨x, hx, hge⟩
    obtain ⟨_, b⟩ := hb x hx
    have : x < 19 * 37 := by simpa using b
    omega

/-- C12: in exact real arithmetic (with the constant `PI = 3.141516` of the code), for every
sector `j` in `[0, sectors]` the equator vertex of the top hemisphere (ring `i = stacks/2 = 9`,
vertex ring `9`) has the position of the vertex `j` of the top ring of the cylinder body (vertex
ring `10`), the equator vertex of the bottom hemisphere (first ring of the bottom loop, vertex
ring `12`) has the position of the vertex `j` of the bottom ring of the body (vertex ring `11`),
and the two equator vertices have the same `(x, z) = (radius·cos(j·sectorStep),
radius·sin(j·sectorStep))` with `radius = 1` and differ only in `y`: `+halfHeight = 1` against
`−halfHeight = −1`. -/
theorem capsule_equator_alignment (j : Nat) (hj : j ≤ 36) :
    ∃ x z : ℝ,
      x = 1 * Real.cos ((j : ℝ) * (2 * PI_3141516 / 36)) ∧
      z = 1 * Real.sin ((j : ℝ) * (2 * PI_3141516 / 36)) ∧
      ((Capsule.generateCapsuleVerticesAndIndices Real.sin Real.cos).attr8
          (9 * (36 + 1) + j) 0 = some x ∧
       (Capsule.generateCapsuleVerticesAndIndices Real.sin Real.cos).attr8
          (9 * (36 + 1) + j) 1 = some 1 ∧
       (Capsule.generateCapsuleVerticesAndIndices Real.sin Real.cos).attr8
          (9 * (36 + 1) + j) 2 = some z) ∧
      ((Capsule.generateCapsuleVerticesAndIndices Real.sin Real.cos).attr8
          (10 * (36 + 1) + j) 0 = some x ∧
       (Capsule.generateCapsuleVerticesAndIndices Real.sin Real.cos).attr8
          (10 * (36 + 1) + j) 1 = some 1 ∧
       (Capsule.generateCapsuleVerticesAndIndices Real.sin Real.cos).attr8
          (10 * (36 + 1) + j) 2 = some z) ∧
      ((Capsule.generateCapsuleVerticesAndIndices Real.sin Real.cos).attr8
          (11 * (36 + 1) + j) 0 = some x ∧
       (Capsule.generateCapsuleVerticesAndIndices Real.sin Real.cos).attr8
          (11 * (36 + 1) + j) 1 = some (-1) ∧
       (Capsule.generateCapsuleVerticesAndIndices Real.sin Real.cos).attr8
          (11 * (36 + 1) + j) 2 = some z) ∧
      ((Capsule.generateCapsuleVerticesAndIndices Real.sin Real.cos).attr8
          (12 * (36 + 1) + j) 0 = some x ∧
       (Capsule.generateCapsuleVerticesAndIndices Real.sin Real.cos).attr8
          (12 * (36 + 1) + j) 1 = some (-1) ∧
       (Capsule.generateCapsuleVerticesAndIndices Real.sin Real.cos).attr8
          (12 * (36 + 1) + j) 2 = some z) := by
  have hT : ∀ c, c < 8 → (Capsule.generateCapsuleVerticesAndIndices Real.sin Real.cos).attr8
      (9 * (36 + 1) + j) c = _ :=
    fun c hc => Capsule_attr8_top Real.sin Real.cos 36 18 9 j c (by norm_num) hj hc
  have hB0 : ∀ c, c < 8 → (Capsule.generateCapsuleVerticesAndIndices Real.sin Real.cos).attr8
      (10 * (36 + 1) + j) c = _ :=
    fun c hc => Capsule_attr8_band Real.sin Real.cos 36 18 0 j c (by norm_num) hj hc
  have hB1 : ∀ c, c < 8 → (Capsule.generateCapsuleVerticesAndIndices Real.sin Real.cos).attr8
      (11 * (36 + 1) + j) c = _ :=
    fun c hc => Capsule_attr8_band Real.sin Real.cos 36 18 1 j c (by norm_num) hj hc
  have hL : ∀ c, c < 8 → (Capsule.generateCapsuleVerticesAndIndices Real.sin Real.cos).attr8
      (12 * (36 + 1) + j) c = _ :=
    fun c hc => Capsule_attr8_bottom Real.sin Real.cos 36 18 0 j c (by norm_num) hj hc
  have ang : (PI_3141516 : ℝ) / 2 - 9 * (PI_3141516 / 18) = 0 := by ring
  refine ⟨_, _, rfl, rfl, ⟨?_, ?_, ?_⟩, ⟨?_, ?_, ?_⟩, ⟨?_, ?_, ?_⟩, ⟨?_, ?_, ?_⟩⟩
  · rw [hT 0 (by norm_num)]
    simp [Capsule.hemiData, ang]
  · rw [hT 1 (by norm_num)]
    simp [Capsule.hemiData, ang]
  · rw [hT 2 (by norm_num)]
    simp [Capsule.hemiData, ang]
  · rw [hB0 0 (by norm_num)]
    simp [Capsule.bandData]
  · rw [hB0 1 (by norm_num)]
    simp [Capsule.bandData]
  · rw [hB0 2 (by norm_num)]
    simp [Capsule.bandData]
  · rw [hB1 0 (by norm_num)]
    simp [Capsule.bandData]
  · rw [hB1 1 (by norm_num)]
    simp [Capsule.bandData]
  · rw [hB1 2 (by norm_num)]
    simp [Capsule.bandData]
  · rw [hL 0 (by norm_num)]
    simp [Capsule.hemiData, ang]
  · rw [hL 1 (by norm_num)]
    simp [Capsule.hemiData, ang]
  · rw [hL 2 (by norm_num)]
    simp [Capsule.hemiData, ang]

/-- Witness for C12: sector `j = 0`. -/
theorem capsule_equator_alignment_witness :
    (Capsule.generateCapsuleVerticesAndIndices Real.sin Real.cos).attr8 (9 * (36 + 1) + 0) 1
      = some 1 ∧
    (Capsule.generateCapsuleVerticesAndIndices Real.sin Real.cos).attr8 (12 * (36 + 1) + 0) 1
      = some (-1) :=
  let ⟨_, _, _, _, ht, _, _, hl⟩ := capsule_equator_alignment 0 (by norm_num)
  ⟨ht.2.1, hl.2.1⟩

end CapsuleClaims

section CylinderReads
variable {α : Type}

theorem readVec3_of (l : List α) (v : Nat) (x y z : α) (hx : l[3 * v]? = some x)
    (hy : l[3 * v + 1]? = some y) (hz : l[3 * v + 2]? = some z) :
    readVec3 l v = some ⟨x, y, z⟩ := by
  simp only [readVec3, hx, hy, hz]

theorem Mesh_triangle_of (m : Mesh α) (t : Nat) (i0 i1 i2 : Nat) (p0 p1 p2 : Vec3 α)
    (h0 : m.indices[3 * t]? = some (i0 : Int)) (h1 : m.indices[3 * t + 1]? = some (i1 : Int))
    (h2 : m.indices[3 * t + 2]? = some (i2 : Int))
    (q0 : m.position i0 = some p0) (q1 : m.position i1 = some p1)
    (q2 : m.position i2 = some p2) :
    m.triangle t = some (p0, p1, p2) := by
  have n0 : ¬ ((i0 : Int) < 0 ∨ (i1 : Int) < 0 ∨ (i2 : Int) < 0) := by omega
  simp only [Mesh.triangle, h0, h1, h2, n0, if_false, Int.toNat_ofNat, q0, q1, q2]

/-- Float `3 b + c` of the chunk `j` is float `c` of vertex `2 j + b` when every chunk holds two
vertices of three floats. -/
theorem getElem?_chunk6 (g : Nat → List α) (hg : ∀ i, (g i).length = 6) (n : Nat)
    (rest : List α) (j : Nat) (hj : j < n) (b c : Nat) (hb : b < 2) (hc : c < 3) :
    ((List.range n).flatMap g ++ rest)[3 * (2 * j + b) + c]? = (g j)[3 * b + c]? := by
  have h := getElem?_append_flatMap_range [] rest g 6 hg n j (3 * b + c) hj (by omega)
  have e : ([] : List α).length + (6 * j + (3 * b + c)) = 3 * (2 * j + b) + c := by
    simp only [List.length_nil]; ring
  rw [e] at h
  simpa using h

/-- The two vectors stored in the chunk `j` of an array of rim data. -/
theorem readVec3_chunk6 (g : Nat → List α) (n : Nat) (rest : List α) (j : Nat) (hj : j < n)
    (a0 a1 a2 b0 b1 b2 : α) (hg : ∀ i, (g i).length = 6)
    (hgj : g j = [a0, a1, a2, b0, b1, b2]) :
    readVec3 ((List.range n).flatMap g ++ rest) (2 * j) = some ⟨a0, a1, a2⟩ ∧
    readVec3 ((List.range n).flatMap g ++ rest) (2 * j + 1) = some ⟨b0, b1, b2⟩ := by
  have k := fun b c hb hc => getElem?_chunk6 g hg n rest j hj b c hb hc
  constructor
  · refine readVec3_of _ _ _ _ _ ?_ ?_ ?_
    · have := k 0 0 (by norm_num) (by norm_num)
      simpa [hgj] using this
    · have := k 0 1 (by norm_num) (by norm_num)
      simpa [hgj] using this
    · have := k 0 2 (by norm_num) (by norm_num)
      simpa [hgj] using this
  · refine readVec3_of _ _ _ _ _ ?_ ?_ ?_
    · have := k 1 0 (by norm_num) (by norm_num)
      simpa [hgj] using this
    · have := k 1 1 (by norm_num) (by norm_num)
      simpa [hgj] using this
    · have := k 1 2 (by norm_num) (by norm_num)
      simpa [hgj] using this

/-- The two vectors stored right after `n` chunks of rim data. -/
theorem readVec3_after6 (g : Nat → List α) (n : Nat) (a0 a1 a2 b0 b1 b2 : α)
    (hg : ∀ i, (g i).length = 6) :
    readVec3 ((List.range n).flatMap g ++ [a0, a1, a2, b0, b1, b2]) (2 * n) = some ⟨a0, a1, a2⟩ ∧
    readVec3 ((List.range n).flatMap g ++ [a0, a1, a2, b0, b1, b2]) (2 * n + 1)
      = some ⟨b0, b1, b2⟩ := by
  have k := fun c => cylRim_after g 6 hg n [a0, a1, a2, b0, b1, b2] c
  have e0 : 3 * (2 * n) = 6 * n + 0 := by ring
  have e1 : 3 * (2 * n) + 1 = 6 * n + 1 := by ring
  have e2 : 3 * (2 * n) + 2 = 6 * n + 2 := by ring
  have e3 : 3 * (2 * n + 1) = 6 * n + 3 := by ring
  have e4 : 3 * (2 * n + 1) + 1 = 6 * n + 4 := by ring
  have e5 : 3 * (2 * n + 1) + 2 = 6 * n + 5 := by ring
  constructor
  · refine readVec3_of _ _ _ _ _ ?_ ?_ ?_
    · rw [e0, k]; rfl
    · rw [e1, k]; rfl
    · rw [e2, k]; rfl
  · refine readVec3_of _ _ _ _ _ ?_ ?_ ?_
    · rw [e3, k]; rfl
    · rw [e4, k]; rfl
    · rw [e5, k]; rfl

end CylinderReads

section CylinderGeometry
variable {α : Type} [LinearOrderedField α]

/-- The arrays of a constructed `CylinderTree`, for every requested sector count. -/
theorem CylinderTree_construct_arrays (sin cos : α → α) (self : CylinderParams α)
    (radius height : α) (sectors : Int) :
    (CylinderTree.construct sin cos self radius height sectors).coordinates
      = (List.range ((max sectors 3).toNat + 1)).flatMap
          (cylRimCoordinates sin cos (CylinderTree.set self radius height sectors))
        ++ [0, -height / 2, 0, 0, height / 2, 0] ∧
    (CylinderTree.construct sin cos self radius height sectors).normals
      = (List.range ((max sectors 3).toNat + 1)).flatMap
          (cylRimNormals sin cos (CylinderTree.set self radius height sectors))
        ++ [0, -1, 0, 0, 1, 0] ∧
    (CylinderTree.construct sin cos self radius height sectors).texCoords
      = (List.range ((max sectors 3).toNat + 1)).flatMap
          (cylRimTexCoords (CylinderTree.set self radius height sectors))
        ++ [1 / 2, 1 / 2, 1 / 2, 1 / 2] ∧
    (CylinderTree.construct sin cos self radius height sectors).indices
      = cylIndices (max sectors 3).toNat (2 * max sectors 3 + 2) (2 * max sectors 3 + 3) ∧
    (CylinderTree.construct sin cos self radius height sectors).vertices = [] := by
  obtain ⟨e1, e2, _⟩ := CylinderTree_set_eq self radius height sectors
  have h0 : 0 ≤ (CylinderTree.set self radius height sectors).sectorCount := by
    rw [e1]; exact le_trans (by norm_num) (le_max_right _ _)
  obtain ⟨hb, _, _⟩ := CylinderTree_build_closed sin cos
    (CylinderTree.set self radius height sectors) h0
  have hn : (max sectors 3 + 1).toNat = (max sectors 3).toNat + 1 := by
    have : (0 : Int) ≤ max sectors 3 := le_trans (by norm_num) (le_max_right _ _)
    omega
  unfold CylinderTree.construct
  rw [hb, CylinderTree_buildCoordinates_closed, e1, e2, hn]
  exact ⟨rfl, rfl, rfl, rfl, rfl⟩

/-- The arrays of a constructed `CylinderNoTex`, for every requested sector count. -/
theorem CylinderNoTex_construct_arrays (sin cos : α → α) (self : CylinderParams α)
    (radius height : α) (sectors : Int) :
    (CylinderNoTex.construct sin cos self radius height sectors).coordinates
      = (List.range ((max sectors 3).toNat + 1)).flatMap
          (cylRimCoordinates sin cos (CylinderNoTex.set self radius height sectors)) ++ [] ∧
    (CylinderNoTex.construct sin cos self radius height sectors).normals
      = (List.range ((max sectors 3).toNat + 1)).flatMap
          (cylRimNormals sin cos (CylinderNoTex.set self radius height sectors)) ++ [] ∧
    (CylinderNoTex.construct sin cos self radius height sectors).texCoords = [] ∧
    (CylinderNoTex.construct sin cos self radius height sectors).indices
      = cylIndices (max sectors 3).toNat (2 * max sectors 3) (2 * max sectors 3 + 1) ∧
    (CylinderNoTex.construct sin cos self radius height sectors).vertices = [] := by
  obtain ⟨e1, e2, _⟩ := CylinderNoTex_set_eq self radius height sectors
  have h0 : 0 ≤ (CylinderNoTex.set self radius height sectors).sectorCount := by
    rw [e1]; exact le_trans (by norm_num) (le_max_right _ _)
  obtain ⟨hb, _, _⟩ := CylinderNoTex_build_closed sin cos
    (CylinderNoTex.set self radius height sectors) h0
  have hn : (max sectors 3 + 1).toNat = (max sectors 3).toNat + 1 := by
    have : (0 : Int) ≤ max sectors 3 := le_trans (by norm_num) (le_max_right _ _)
    omega
  unfold CylinderNoTex.construct
  rw [hb, CylinderNoTex_buildCoordinates_closed, e1, hn]
  exact ⟨(List.append_nil _).symm, (List.append_nil _).symm, rfl, rfl, rfl⟩

end CylinderGeometry

section CylinderReal

/-- Facts about one rim position of a cylinder of radius `r > 0` in real arithmetic. -/
theorem cylRim_on_surface (p : CylinderParams ℝ) (hr : 0 < p.radius) (n : Nat)
    (restC restN : List ℝ) (i : Nat) (hi : i < n) (co no : List ℝ)
    (hco : co = (List.range n).flatMap (cylRimCoordinates Real.sin Real.cos p) ++ restC)
    (hno : no = (List.range n).flatMap (cylRimNormals Real.sin Real.cos p) ++ restN) :
    (∃ P N : Vec3 ℝ, readVec3 co (2 * i) = some P ∧ readVec3 no (2 * i) = some N ∧
      P.x ^ 2 + P.z ^ 2 = p.radius ^ 2 ∧ P.y = -p.height / 2 ∧
      N.x = P.x / p.radius ∧ N.y = 0 ∧ N.z = P.z / p.radius) ∧
    (∃ P N : Vec3 ℝ, readVec3 co (2 * i + 1) = some P ∧ readVec3 no (2 * i + 1) = some N ∧
      P.x ^ 2 + P.z ^ 2 = p.radius ^ 2 ∧ P.y = p.height / 2 ∧
      N.x = P.x / p.radius ∧ N.y = 0 ∧ N.z = P.z / p.radius) := by
  obtain ⟨c0, c1⟩ := readVec3_chunk6 (cylRimCoordinates Real.sin Real.cos p) n restC i hi
    _ _ _ _ _ _ (fun _ => rfl) rfl
  obtain ⟨n0, n1⟩ := readVec3_chunk6 (cylRimNormals Real.sin Real.cos p) n restN i hi
    _ _ _ _ _ _ (fun _ => rfl) rfl
  have hne : p.radius ≠ 0 := ne_of_gt hr
  have circle : (p.radius * Real.cos (cylSectorAngle p i)) ^ 2
      + (p.radius * Real.sin (cylSectorAngle p i)) ^ 2 = p.radius ^ 2 := by
    have := Real.cos_sq_add_sin_sq (cylSectorAngle p i)
    calc (p.radius * Real.cos (cylSectorAngle p i)) ^ 2
          + (p.radius * Real.sin (cylSectorAngle p i)) ^ 2
        = p.radius ^ 2 * (Real.cos (cylSectorAngle p i) ^ 2
            + Real.sin (cylSectorAngle p i) ^ 2) := by ring
      _ = p.radius ^ 2 := by rw [this, mul_one]
  rw [hco, hno]
  refine ⟨⟨_, _, c0, n0, circle, rfl, ?_, rfl, ?_⟩, ⟨_, _, c1, n1, circle, rfl, ?_, rfl, ?_⟩⟩ <;>
    · show _ = _ / _
      field_simp

/-- C13: in exact real arithmetic, for `CylinderTree` and `CylinderNoTex` built with radius
`r > 0`, height `h` and any requested sector count (`s = max(sectors, 3)` after the clamp of
`set`), the two side vertices of every rim position `i ≤ s` (vertex `2i`, even, and vertex
`2i+1`, odd: all the `2·(s+1)` side vertices) satisfy `x² + z² = r²`; the even one has
`y = −h/2`, the odd one `y = h/2`, and the normal of each is `(x/r, 0, z/r)`. -/
theorem cylinder_side_vertices_on_surface (self : CylinderParams ℝ) (r h : ℝ) (sectors : Int)
    (hr : 0 < r) (i : Nat) (hi : (i : Int) ≤ max sectors 3) :
    ((∃ P N : Vec3 ℝ,
        (CylinderTree.construct Real.sin Real.cos self r h sectors).position (2 * i) = some P ∧
        (CylinderTree.construct Real.sin Real.cos self r h sectors).normal (2 * i) = some N ∧
        P.x ^ 2 + P.z ^ 2 = r ^ 2 ∧ P.y = -h / 2 ∧ N.x = P.x / r ∧ N.y = 0 ∧ N.z = P.z / r) ∧
     (∃ P N : Vec3 ℝ,
        (CylinderTree.construct Real.sin Real.cos self r h sectors).position (2 * i + 1)
          = some P ∧
        (CylinderTree.construct Real.sin Real.cos self r h sectors).normal (2 * i + 1)
          = some N ∧
        P.x ^ 2 + P.z ^ 2 = r ^ 2 ∧ P.y = h / 2 ∧ N.x = P.x / r ∧ N.y = 0 ∧ N.z = P.z / r)) ∧
    ((∃ P N : Vec3 ℝ,
        (CylinderNoTex.construct Real.sin Real.cos self r h sectors).position (2 * i) = some P ∧
        (CylinderNoTex.construct Real.sin Real.cos self r h sectors).normal (2 * i) = some N ∧
        P.x ^ 2 + P.z ^ 2 = r ^ 2 ∧ P.y = -h / 2 ∧ N.x = P.x / r ∧ N.y = 0 ∧ N.z = P.z / r) ∧
     (∃ P N : Vec3 ℝ,
        (CylinderNoTex.construct Real.sin Real.cos self r h sectors).position (2 * i + 1)
          = some P ∧
        (CylinderNoTex.construct Real.sin Real.cos self r h sectors).normal (2 * i + 1)
          = some N ∧
        P.x ^ 2 + P.z ^ 2 = r ^ 2 ∧ P.y = h / 2 ∧ N.x = P.x / r ∧ N.y = 0 ∧ N.z = P.z / r)) := by
  have hs : i < (max sectors 3).toNat + 1 := by
    have : (0 : Int) ≤ max sectors 3 := le_trans (by norm_num) (le_max_right _ _)
    omega
  constructor
  · obtain ⟨_, eH, eR⟩ := CylinderTree_set_eq self r h sectors
    rw [if_pos hr] at eR
    obtain ⟨hc, hn, _⟩ := CylinderTree_construct_arrays Real.sin Real.cos self r h sectors
    have key := cylRim_on_surface (CylinderTree.set self r h sectors) (by rw [eR]; exact hr)
      _ _ _ i hs _ _ hc hn
    rw [eR, eH] at key
    exact key
  · obtain ⟨_, eH, eR⟩ := CylinderNoTex_set_eq self r h sectors
    rw [if_pos hr] at eR
    obtain ⟨hc, hn, _⟩ := CylinderNoTex_construct_arrays Real.sin Real.cos self r h sectors
    have key := cylRim_on_surface (CylinderNoTex.set self r h sectors) (by rw [eR]; exact hr)
      _ _ _ i hs _ _ hc hn
    rw [eR, eH] at key
    exact key

/-- Witness for C13: radius `1`, height `2`, four sectors, rim position `i = 1` (vertices `2`
and `3`). -/
theorem cylinder_side_vertices_on_surface_witness :
    (0 : ℝ) < 1 ∧ ((1 : Nat) : Int) ≤ max 4 3 ∧
    ∃ P N : Vec3 ℝ,
      (CylinderTree.construct Real.sin Real.cos ⟨0, 0, 0⟩ 1 2 4).position (2 * 1) = some P ∧
      (CylinderTree.construct Real.sin Real.cos ⟨0, 0, 0⟩ 1 2 4).normal (2 * 1) = some N ∧
      P.x ^ 2 + P.z ^ 2 = 1 ^ 2 ∧ P.y = -2 / 2 ∧ N.x = P.x / 1 ∧ N.y = 0 ∧ N.z = P.z / 1 :=
  ⟨by norm_num, by decide,
    (cylinder_side_vertices_on_surface ⟨0, 0, 0⟩ 1 2 4 (by norm_num) 1 (by decide)).1.1⟩

/-- The sine of the sector step `2·3.1416/n` is positive for `n ≥ 3`. -/
theorem sin_sectorStep_pos (n : Int) (h3 : 3 ≤ n) :
    0 < Real.sin (2 * PI_31416 / (n : ℝ)) := by
  have hn : (3 : ℝ) ≤ (n : ℝ) := by exact_mod_cast h3
  have hpos : (0 : ℝ) < (n : ℝ) := by linarith
  have hP : (PI_31416 : ℝ) = 31416 / 10000 := rfl
  apply Real.sin_pos_of_pos_of_lt_pi
  · rw [hP]; positivity
  · have h1 : 2 * (PI_31416 : ℝ) / (n : ℝ) ≤ 2 * PI_31416 / 3 := by
      apply div_le_div_of_nonneg_left _ (by norm_num) hn
      rw [hP]; norm_num
    have h2 : 2 * (PI_31416 : ℝ) / 3 < 3 := by rw [hP]; norm_num
    linarith [Real.pi_gt_three]

/-- The triangles of a constructed `CylinderTree` with their corner positions. -/
theorem CylinderTree_triangles (sin cos : ℝ → ℝ) (self : CylinderParams ℝ) (r h : ℝ)
    (sectorCount : Int) (hr : 0 < r) (h3 : 3 ≤ sectorCount) (i : Nat)
    (hi : (i : Int) < sectorCount) :
    (CylinderTree.construct sin cos self r h sectorCount).triangle (2 * i)
      = some (⟨r * cos ((i : ℝ) * (2 * PI_31416 / (sectorCount : ℝ))), -h / 2,
                r * sin ((i : ℝ) * (2 * PI_31416 / (sectorCount : ℝ)))⟩,
              ⟨r * cos ((i : ℝ) * (2 * PI_31416 / (sectorCount : ℝ))), h / 2,
                r * sin ((i : ℝ) * (2 * PI_31416 / (sectorCount : ℝ)))⟩,
              ⟨r * cos (((i + 1 : Nat) : ℝ) * (2 * PI_31416 / (sectorCount : ℝ))), -h / 2,
                r * sin (((i + 1 : Nat) : ℝ) * (2 * PI_31416 / (sectorCount : ℝ)))⟩) ∧
    (CylinderTree.construct sin cos self r h sectorCount).triangle (2 * i + 1)
      = some (⟨r * cos ((i : ℝ) * (2 * PI_31416 / (sectorCount : ℝ))), h / 2,
                r * sin ((i : ℝ) * (2 * PI_31416 / (sectorCount : ℝ)))⟩,
              ⟨r * cos (((i + 1 : Nat) : ℝ) * (2 * PI_31416 / (sectorCount : ℝ))), h / 2,
                r * sin (((i + 1 : Nat) : ℝ) * (2 * PI_31416 / (sectorCount : ℝ)))⟩,
              ⟨r * cos (((i + 1 : Nat) : ℝ) * (2 * PI_31416 / (sectorCount : ℝ))), -h / 2,
                r * sin (((i + 1 : Nat) : ℝ) * (2 * PI_31416 / (sectorCount : ℝ)))⟩) ∧
    (CylinderTree.construct sin cos self r h sectorCount).triangle
        (2 * sectorCount.toNat + i)
      = some (⟨0, -h / 2, 0⟩,
              ⟨r * cos ((i : ℝ) * (2 * PI_31416 / (sectorCount : ℝ))), -h / 2,
                r * sin ((i : ℝ) * (2 * PI_31416 / (sectorCount : ℝ)))⟩,
              ⟨r * cos (((i + 1 : Nat) : ℝ) * (2 * PI_31416 / (sectorCount : ℝ))), -h / 2,
                r * sin (((i + 1 : Nat) : ℝ) * (2 * PI_31416 / (sectorCount : ℝ)))⟩) ∧
    (CylinderTree.construct sin cos self r h sectorCount).triangle
        (3 * sectorCount.toNat + i)
      = some (⟨0, h / 2, 0⟩,
              ⟨r * cos (((i + 1 : Nat) : ℝ) * (2 * PI_31416 / (sectorCount : ℝ))), h / 2,
                r * sin (((i + 1 : Nat) : ℝ) * (2 * PI_31416 / (sectorCount : ℝ)))⟩,
              ⟨r * cos ((i : ℝ) * (2 * PI_31416 / (sectorCount : ℝ))), h / 2,
                r * sin ((i : ℝ) * (2 * PI_31416 / (sectorCount : ℝ)))⟩) := by
  obtain ⟨eS, eH, eR⟩ := CylinderTree_set_eq self r h sectorCount
  rw [if_pos hr] at eR
  have hmax : max sectorCount 3 = sectorCount := max_eq_left h3
  rw [hmax] at eS
  obtain ⟨hc, _, _, hidx, _⟩ := CylinderTree_construct_arrays sin cos self r h sectorCount
  rw [hmax] at hc hidx
  have his : i < sectorCount.toNat := by omega
  have hsc : ((sectorCount.toNat : Nat) : Int) = sectorCount := by omega
  have rim : ∀ j, j < sectorCount.toNat + 1 →
      (CylinderTree.construct sin cos self r h sectorCount).position (2 * j)
        = some ⟨r * cos ((j : ℝ) * (2 * PI_31416 / (sectorCount : ℝ))), -h / 2,
                r * sin ((j : ℝ) * (2 * PI_31416 / (sectorCount : ℝ)))⟩ ∧
      (CylinderTree.construct sin cos self r h sectorCount).position (2 * j + 1)
        = some ⟨r * cos ((j : ℝ) * (2 * PI_31416 / (sectorCount : ℝ))), h / 2,
                r * sin ((j : ℝ) * (2 * PI_31416 / (sectorCount : ℝ)))⟩ := by
    intro j hj
    unfold Mesh.position
    rw [hc]
    exact readVec3_chunk6 _ _ _ j hj _ _ _ _ _ _ (fun _ => rfl)
      (by simp only [cylRimCoordinates, cylSectorAngle, eS, eH, eR])
  have ctr : (CylinderTree.construct sin cos self r h sectorCount).position
        (2 * sectorCount.toNat + 2) = some ⟨0, -h / 2, 0⟩ ∧
      (CylinderTree.construct sin cos self r h sectorCount).position
        (2 * sectorCount.toNat + 3) = some ⟨0, h / 2, 0⟩ := by
    unfold Mesh.position
    rw [hc]
    exact readVec3_after6 _ (sectorCount.toNat + 1) _ _ _ _ _ _ (fun _ => rfl)
  have side : ∀ k, k < 6 →
      (CylinderTree.construct sin cos self r h sectorCount).indices[6 * i + k]?
        = (cylSideCell i)[k]? := by
    intro k hk
    rw [hidx]
    exact cylIndices_side _ _ _ i his k hk
  have bot : ∀ k, k < 3 →
      (CylinderTree.construct sin cos self r h sectorCount).indices[
          6 * sectorCount.toNat + 3 * i + k]? = (cylBottomCell (2 * sectorCount + 2) i)[k]? := by
    intro k hk
    rw [hidx]
    exact cylIndices_bottom _ _ _ i his k hk
  have top : ∀ k, k < 3 →
      (CylinderTree.construct sin cos self r h sectorCount).indices[
          9 * sectorCount.toNat + 3 * i + k]? = (cylTopCell (2 * sectorCount + 3) i)[k]? := by
    intro k hk
    rw [hidx]
    exact cylIndices_top _ _ _ i his k hk
  have a0 : 3 * (2 * i) = 6 * i + 0 := by ring
  have a1 : 3 * (2 * i) + 1 = 6 * i + 1 := by ring
  have a2 : 3 * (2 * i) + 2 = 6 * i + 2 := by ring
  have a3 : 3 * (2 * i + 1) = 6 * i + 3 := by ring
  have a4 : 3 * (2 * i + 1) + 1 = 6 * i + 4 := by ring
  have a5 : 3 * (2 * i + 1) + 2 = 6 * i + 5 := by ring
  have b0 : 3 * (2 * sectorCount.toNat + i) = 6 * sectorCount.toNat + 3 * i + 0 := by ring
  have b1 : 3 * (2 * sectorCount.toNat + i) + 1 = 6 * sectorCount.toNat + 3 * i + 1 := by ring
  have b2 : 3 * (2 * sectorCount.toNat + i) + 2 = 6 * sectorCount.toNat + 3 * i + 2 := by ring
  have t0 : 3 * (3 * sectorCount.toNat + i) = 9 * sectorCount.toNat + 3 * i + 0 := by ring
  have t1 : 3 * (3 * sectorCount.toNat + i) + 1 = 9 * sectorCount.toNat + 3 * i + 1 := by ring
  have t2 : 3 * (3 * sectorCount.toNat + i) + 2 = 9 * sectorCount.toNat + 3 * i + 2 := by ring
  have c1 : (2 * (i : Int) + 1) = ((2 * i + 1 : Nat) : Int) := by push_cast; ring
  have c2 : (2 * (i : Int) + 2) = ((2 * (i + 1) : Nat) : Int) := by push_cast; ring
  have c3 : (2 * (i : Int) + 3) = ((2 * (i + 1) + 1 : Nat) : Int) := by push_cast; ring
  have c0 : (2 * (i : Int)) = ((2 * i : Nat) : Int) := by push_cast; ring
  have cb : (2 * sectorCount + 2) = ((2 * sectorCount.toNat + 2 : Nat) : Int) := by
    push_cast; rw [hsc]
  have ct : (2 * sectorCount + 3) = ((2 * sectorCount.toNat + 3 : Nat) : Int) := by
    push_cast; rw [hsc]
  refine ⟨?_, ?_, ?_, ?_⟩
  · refine Mesh_triangle_of _ _ (2 * i) (2 * i + 1) (2 * (i + 1)) _ _ _ ?_ ?_ ?_
      (rim i (by omega)).1 (rim i (by omega)).2 (rim (i + 1) (by omega)).1
    · rw [a0, side 0 (by norm_num), ← c0]; rfl
    · rw [a1, side 1 (by norm_num), ← c1]; rfl
    · rw [a2, side 2 (by norm_num), ← c2]; rfl
  · refine Mesh_triangle_of _ _ (2 * i + 1) (2 * (i + 1) + 1) (2 * (i + 1)) _ _ _ ?_ ?_ ?_
      (rim i (by omega)).2 (rim (i + 1) (by omega)).2 (rim (i + 1) (by omega)).1
    · rw [a3, side 3 (by norm_num), ← c1]; rfl
    · rw [a4, side 4 (by norm_num), ← c3]; rfl
    · rw [a5, side 5 (by norm_num), ← c2]; rfl
  · refine Mesh_triangle_of _ _ (2 * sectorCount.toNat + 2) (2 * i) (2 * (i + 1)) _ _ _ ?_ ?_ ?_
      ctr.1 (rim i (by omega)).1 (rim (i + 1) (by omega)).1
    · rw [b0, bot 0 (by norm_num), ← cb]; rfl
    · rw [b1, bot 1 (by norm_num), ← c0]; rfl
    · rw [b2, bot 2 (by norm_num), ← c2]; rfl
  · refine Mesh_triangle_of _ _ (2 * sectorCount.toNat + 3) (2 * (i + 1) + 1) (2 * i + 1)
      _ _ _ ?_ ?_ ?_ ctr.2 (rim (i + 1) (by omega)).2 (rim i (by omega)).2
    · rw [t0, top 0 (by norm_num), ← ct]; rfl
    · rw [t1, top 1 (by norm_num), ← c3]; rfl
    · rw [t2, top 2 (by norm_num), ← c1]; rfl

end CylinderReal

section RevolutionClosed
variable {α : Type} [LinearOrderedField α]

theorem BezierCurve_sectorLoop_closed (sin cos : α → α) (nt ntheta : Nat) (dtheta r y : α)
    (i n : Nat) (m : Mesh α) :
    forLoop n (BezierCurve.sectorBody sin cos nt ntheta dtheta r y (1 / r) i) (0, m)
      = ((n : α) * dtheta,
          { m with
            coordinates := m.coordinates ++
              (List.range n).flatMap (revCoordinates sin cos dtheta r y),
            normals := m.normals ++ (List.range n).flatMap (revNormals sin cos dtheta r y),
            texCoords := m.texCoords ++ (List.range n).flatMap (revTexCoords nt ntheta i) }) := by
  refine forLoop_closed (fun k => ((k : α) * dtheta,
          { m with
            coordinates := m.coordinates ++
              (List.range k).flatMap (revCoordinates sin cos dtheta r y),
            normals := m.normals ++ (List.range k).flatMap (revNormals sin cos dtheta r y),
            texCoords := m.texCoords ++ (List.range k).flatMap (revTexCoords nt ntheta i) }))
    n _ _ ?_ ?_
  · simp
  intro j _
  have e : (j : α) * dtheta + dtheta = ((j + 1 : Nat) : α) * dtheta := by push_cast; ring
  simp only [BezierCurve.sectorBody, flatMap_range_succ, revCoordinates, revNormals,
    revTexCoords, List.append_assoc, e]

theorem Bezier_sectorLoop_closed (sin cos : α → α) (dtheta r y : α) (n : Nat) (m : Mesh α) :
    forLoop n (Bezier.sectorBody sin cos dtheta r y (1 / r)) (0, m)
      = ((n : α) * dtheta,
          { m with
            coordinates := m.coordinates ++
              (List.range n).flatMap (revCoordinates sin cos dtheta r y),
            normals := m.normals ++ (List.range n).flatMap (revNormals sin cos dtheta r y) }) := by
  refine forLoop_closed (fun k => ((k : α) * dtheta,
          { m with
            coordinates := m.coordinates ++
              (List.range k).flatMap (revCoordinates sin cos dtheta r y),
            normals := m.normals ++ (List.range k).flatMap (revNormals sin cos dtheta r y) }))
    n _ _ ?_ ?_
  · simp
  intro j _
  have e : (j : α) * dtheta + dtheta = ((j + 1 : Nat) : α) * dtheta := by push_cast; ring
  simp only [Bezier.sectorBody, flatMap_range_succ, revCoordinates, revNormals,
    List.append_assoc, e]

theorem revProfile_eq (cp : List α) (L : Int) (dt : α) (i : Nat)
    (hev : L < 0 ∨ 3 * L.toNat + 1 < cp.length) :
    BezierCurve.BezierCurveFN ((i : α) * dt) cp L = some (revProfile cp L dt i) := by
  obtain ⟨xy, hxy⟩ := BezierCurveFN_total ((i : α) * dt) cp L hev
  rw [revProfile, hxy]
  rfl

/-- Closed form of the vertex loops of `BezierCurve::hollowBezier`. -/
theorem BezierCurve_ringLoop_closed (sin cos : α → α) (nt ntheta : Nat) (cp : List α) (L : Int)
    (dtheta dt : α) (hev : L < 0 ∨ 3 * L.toNat + 1 < cp.length) (n : Nat) :
    forLoopM n (BezierCurve.ringBody sin cos nt ntheta cp L dtheta dt) ((0 : α), ({} : Mesh α))
      = some ((n : α) * dt,
          { coordinates := revCoordinateArray sin cos ntheta cp L dtheta dt n,
            normals := revNormalArray sin cos ntheta cp L dtheta dt n,
            texCoords := revTexCoordArray nt ntheta n,
            indices := [], vertices := [] }) := by
  refine forLoopM_closed (fun k => ((k : α) * dt,
          ({ coordinates := revCoordinateArray sin cos ntheta cp L dtheta dt k,
             normals := revNormalArray sin cos ntheta cp L dtheta dt k,
             texCoords := revTexCoordArray nt ntheta k,
             indices := [], vertices := [] } : Mesh α))) n _ _ ?_ ?_
  · simp [revCoordinateArray, revNormalArray, revTexCoordArray]
  · intro i _
    have e : (i : α) * dt + dt = ((i + 1 : Nat) : α) * dt := by push_cast; ring
    simp only [BezierCurve.ringBody, revProfile_eq cp L dt i hev, Option.pure_def,
      Option.bind_eq_bind, Option.some_bind, BezierCurve_sectorLoop_closed, e,
      revCoordinateArray, revNormalArray, revTexCoordArray, flatMap_range_succ]

/-- Closed form of the vertex loops of `Bezier::hollowBezier`. -/
theorem Bezier_ringLoop_closed (sin cos : α → α) (ntheta : Nat) (cp : List α) (L : Int)
    (dtheta dt : α) (hev : L < 0 ∨ 3 * L.toNat + 1 < cp.length) (n : Nat) :
    forLoopM n (Bezier.ringBody sin cos ntheta cp L dtheta dt) ((0 : α), ({} : Mesh α))
      = some ((n : α) * dt,
          { coordinates := revCoordinateArray sin cos ntheta cp L dtheta dt n,
            normals := revNormalArray sin cos ntheta cp L dtheta dt n,
            texCoords := [], indices := [], vertices := [] }) := by
  refine forLoopM_closed (fun k => ((k : α) * dt,
          ({ coordinates := revCoordinateArray sin cos ntheta cp L dtheta dt k,
             normals := revNormalArray sin cos ntheta cp L dtheta dt k,
             texCoords := [], indices := [], vertices := [] } : Mesh α))) n _ _ ?_ ?_
  · simp [revCoordinateArray, revNormalArray]
  · intro i _
    have e : (i : α) * dt + dt = ((i + 1 : Nat) : α) * dt := by push_cast; ring
    simp only [Bezier.ringBody, Bezier_BezierCurve_eq, revProfile_eq cp L dt i hev,
      Option.pure_def, Option.bind_eq_bind, Option.some_bind, Bezier_sectorLoop_closed, e,
      revCoordinateArray, revNormalArray, flatMap_range_succ]

end RevolutionClosed

section InterleaveClosed
variable {α : Type} [LinearOrderedField α]

theorem getElem?_eq_some_getD (l : List α) (i : Nat) (h : i < l.length) :
    l[i]? = some (l.getD i 0) := by
  rw [List.getD_eq_getElem?_getD, List.getElem?_eq_getElem h]
  rfl

theorem BezierCurve_interleave_closed (V : Nat) (m : Mesh α)
    (hc : m.coordinates.length = 3 * V) (hn : m.normals.length = 3 * V)
    (ht : m.texCoords.length = 2 * V) (n : Nat) (hnV : n ≤ V) :
    forLoopM n BezierCurve.interleaveBody m
      = some { m with vertices := (m.vertices ++
          (List.range n).flatMap (interleaved8 m.coordinates m.normals m.texCoords)) } := by
  refine forLoopM_closed (fun k => { m with vertices := (m.vertices ++
      (List.range k).flatMap (interleaved8 m.coordinates m.normals m.texCoords)) }) n _ _ ?_ ?_
  · simp
  · intro k hk
    have e : 3 * k / 3 * 2 = 2 * k := by omega
    simp only [BezierCurve.interleaveBody, e,
      getElem?_eq_some_getD m.coordinates (3 * k) (by omega),
      getElem?_eq_some_getD m.coordinates (3 * k + 1) (by omega),
      getElem?_eq_some_getD m.coordinates (3 * k + 2) (by omega),
      getElem?_eq_some_getD m.normals (3 * k) (by omega),
      getElem?_eq_some_getD m.normals (3 * k + 1) (by omega),
      getElem?_eq_some_getD m.normals (3 * k + 2) (by omega),
      getElem?_eq_some_getD m.texCoords (2 * k) (by omega),
      getElem?_eq_some_getD m.texCoords (2 * k + 1) (by omega),
      Option.pure_def, Option.bind_eq_bind, Option.some_bind, flatMap_range_succ, interleaved8,
      List.append_assoc]

theorem Bezier_interleave_closed (V : Nat) (m : Mesh α)
    (hc : m.coordinates.length = 3 * V) (hn : m.normals.length = 3 * V)
    (n : Nat) (hnV : n ≤ V) :
    forLoopM n Bezier.interleaveBody m
      = some { m with vertices := (m.vertices ++
          (List.range n).flatMap (interleaved6 m.coordinates m.normals)) } := by
  refine forLoopM_closed (fun k => { m with vertices := (m.vertices ++
      (List.range k).flatMap (interleaved6 m.coordinates m.normals)) }) n _ _ ?_ ?_
  · simp
  · intro k hk
    simp only [Bezier.interleaveBody,
      getElem?_eq_some_getD m.coordinates (3 * k) (by omega),
      getElem?_eq_some_getD m.coordinates (3 * k + 1) (by omega),
      getElem?_eq_some_getD m.coordinates (3 * k + 2) (by omega),
      getElem?_eq_some_getD m.normals (3 * k) (by omega),
      getElem?_eq_some_getD m.normals (3 * k + 1) (by omega),
      getElem?_eq_some_getD m.normals (3 * k + 2) (by omega),
      Option.pure_def, Option.bind_eq_bind, Option.some_bind, flatMap_range_succ, interleaved6,
      List.append_assoc]

theorem CylinderTree_buildVertices_closed (V : Nat) (m : Mesh α)
    (hc : m.coordinates.length = 3 * V) (hn : m.normals.length = 3 * V)
    (ht : m.texCoords.length = 2 * V) :
    CylinderTree.buildVertices m
      = some { m with vertices := (m.vertices ++
          (List.range V).flatMap (interleaved8 m.coordinates m.normals m.texCoords)) } := by
  have hcount : (m.coordinates.length + 2) / 3 = V := by omega
  have hl : forLoopM V CylinderTree.buildVerticesBody (0, 0, m)
      = some (3 * V, 2 * V, { m with vertices := (m.vertices ++
          (List.range V).flatMap (interleaved8 m.coordinates m.normals m.texCoords)) }) := by
    refine forLoopM_closed (fun k => (3 * k, 2 * k, { m with vertices := (m.vertices ++
      (List.range k).flatMap (interleaved8 m.coordinates m.normals m.texCoords)) })) V _ _ ?_ ?_
    · simp
    · intro k hk
      have e1 : 3 * k + 3 = 3 * (k + 1) := by ring
      have e2 : 2 * k + 2 = 2 * (k + 1) := by ring
      simp only [CylinderTree.buildVerticesBody,
        getElem?_eq_some_getD m.coordinates (3 * k) (by omega),
        getElem?_eq_some_getD m.coordinates (3 * k + 1) (by omega),
        getElem?_eq_some_getD m.coordinates (3 * k + 2) (by omega),
        getElem?_eq_some_getD m.normals (3 * k) (by omega),
        getElem?_eq_some_getD m.normals (3 * k + 1) (by omega),
        getElem?_eq_some_getD m.normals (3 * k + 2) (by omega),
        getElem?_eq_some_getD m.texCoords (2 * k) (by omega),
        getElem?_eq_some_getD m.texCoords (2 * k + 1) (by omega),
        Option.pure_def, Option.bind_eq_bind, Option.some_bind, flatMap_range_succ,
        interleaved8, List.append_assoc, e1, e2]
  unfold CylinderTree.buildVertices
  rw [hcount, hl]
  rfl

theorem CylinderNoTex_buildVertices_closed (V : Nat) (m : Mesh α)
    (hc : m.coordinates.length = 3 * V) (hn : m.normals.length = 3 * V) :
    CylinderNoTex.buildVertices m
      = some { m with vertices := (m.vertices ++
          (List.range V).flatMap (interleaved6 m.coordinates m.normals)) } := by
  have hcount : (m.coordinates.length + 2) / 3 = V := by omega
  have hl : forLoopM V CylinderNoTex.buildVerticesBody (0, m)
      = some (3 * V, { m with vertices := (m.vertices ++
          (List.range V).flatMap (interleaved6 m.coordinates m.normals)) }) := by
    refine forLoopM_closed (fun k => (3 * k, { m with vertices := (m.vertices ++
      (List.range k).flatMap (interleaved6 m.coordinates m.normals)) })) V _ _ ?_ ?_
    · simp
    · intro k hk
      have e1 : 3 * k + 3 = 3 * (k + 1) := by ring
      simp only [CylinderNoTex.buildVerticesBody,
        getElem?_eq_some_getD m.coordinates (3 * k) (by omega),
        getElem?_eq_some_getD m.coordinates (3 * k + 1) (by omega),
        getElem?_eq_some_getD m.coordinates (3 * k + 2) (by omega),
        getElem?_eq_some_getD m.normals (3 * k) (by omega),
        getElem?_eq_some_getD m.normals (3 * k + 1) (by omega),
        getElem?_eq_some_getD m.normals (3 * k + 2) (by omega),
        Option.pure_def, Option.bind_eq_bind, Option.some_bind, flatMap_range_succ,
        interleaved6, List.append_assoc, e1]
  unfold CylinderNoTex.buildVertices
  rw [hcount, hl]
  rfl

/-- A buffer laid out by `interleaved8` is a faithful interleaving. -/
theorem interleaved8_faithful (m : Mesh α) (V : Nat)
    (hc : m.coordinates.length = 3 * V) (hn : m.normals.length = 3 * V)
    (ht : m.texCoords.length = 2 * V)
    (hv : m.vertices = (List.range V).flatMap
      (interleaved8 m.coordinates m.normals m.texCoords)) :
    m.Interleaved8 V := by
  refine ⟨hc, hn, ht, ?_, ?_⟩
  · rw [hv, length_flatMap_range (interleaved8 m.coordinates m.normals m.texCoords) 8
      (fun _ => rfl)]
    ring
  · intro k hk
    have look : ∀ c, c < 8 → m.vertices[8 * k + c]?
        = (interleaved8 m.coordinates m.normals m.texCoords k)[c]? := by
      intro c hc8
      rw [hv]
      exact getElem?_flatMap_range (interleaved8 m.coordinates m.normals m.texCoords) 8
        (fun _ => rfl) V k c hk hc8
    constructor
    · intro c hc3
      have a : 8 * k + 3 + c = 8 * k + (3 + c) := by ring
      rw [a, look c (by omega), look (3 + c) (by omega),
        getElem?_eq_some_getD m.coordinates (3 * k + c) (by omega),
        getElem?_eq_some_getD m.normals (3 * k + c) (by omega)]
      interval_cases c <;> exact ⟨rfl, rfl⟩
    · intro c hc2
      have a : 8 * k + 6 + c = 8 * k + (6 + c) := by ring
      rw [a, look (6 + c) (by omega),
        getElem?_eq_some_getD m.texCoords (2 * k + c) (by omega)]
      interval_cases c <;> rfl

/-- A buffer laid out by `interleaved6` is a faithful interleaving. -/
theorem interleaved6_faithful (m : Mesh α) (V : Nat)
    (hc : m.coordinates.length = 3 * V) (hn : m.normals.length = 3 * V)
    (hv : m.vertices = (List.range V).flatMap (interleaved6 m.coordinates m.normals)) :
    m.Interleaved6 V := by
  refine ⟨hc, hn, ?_, ?_⟩
  · rw [hv, length_flatMap_range (interleaved6 m.coordinates m.normals) 6 (fun _ => rfl)]
    ring
  · intro k hk c hc3
    have look : ∀ c, c < 6 → m.vertices[6 * k + c]?
        = (interleaved6 m.coordinates m.normals k)[c]? := by
      intro c hc6
      rw [hv]
      exact getElem?_flatMap_range (interleaved6 m.coordinates m.normals) 6
        (fun _ => rfl) V k c hk hc6
    have a : 6 * k + 3 + c = 6 * k + (3 + c) := by ring
    rw [a, look c (by omega), look (3 + c) (by omega),
      getElem?_eq_some_getD m.coordinates (3 * k + c) (by omega),
      getElem?_eq_some_getD m.normals (3 * k + c) (by omega)]
    interval_cases c <;> exact ⟨rfl, rfl⟩

end InterleaveClosed

section RevolutionMesh
variable {α : Type} [LinearOrderedField α]

theorem revCoordinateArray_length (sin cos : α → α) (ntheta : Nat) (cp : List α) (L : Int)
    (dtheta dt : α) (n : Nat) :
    (revCoordinateArray sin cos ntheta cp L dtheta dt n).length = 3 * (n * (ntheta + 1)) := by
  unfold revCoordinateArray
  rw [length_grid (fun i => revCoordinates sin cos dtheta (revProfile cp L dt i).1
    (revProfile cp L dt i).2) 3 (fun _ _ => rfl)]
  ring

theorem revNormalArray_length (sin cos : α → α) (ntheta : Nat) (cp : List α) (L : Int)
    (dtheta dt : α) (n : Nat) :
    (revNormalArray sin cos ntheta cp L dtheta dt n).length = 3 * (n * (ntheta + 1)) := by
  unfold revNormalArray
  rw [length_grid (fun i => revNormals sin cos dtheta (revProfile cp L dt i).1
    (revProfile cp L dt i).2) 3 (fun _ _ => rfl)]
  ring

theorem revTexCoordArray_length (nt ntheta n : Nat) :
    (revTexCoordArray nt ntheta n : List α).length = 2 * (n * (ntheta + 1)) := by
  unfold revTexCoordArray
  rw [length_grid (fun i => (revTexCoords nt ntheta i : Nat → List α)) 2 (fun _ _ => rfl)]
  ring

/-- Closed form of the mesh built by `BezierCurve::hollowBezier`. -/
theorem BezierCurve_hollowBezier_closed (sin cos : α → α) (nt ntheta : Nat) (cp : List α)
    (L : Int) (hev : L < 0 ∨ 3 * L.toNat + 1 < cp.length) :
    BezierCurve.hollowBezier sin cos nt ntheta cp L
      = some
        { coordinates := revCoordinateArray sin cos ntheta cp L (2 * bezierPi / (ntheta : α))
            (1 / (nt : α)) (nt + 1),
          normals := revNormalArray sin cos ntheta cp L (2 * bezierPi / (ntheta : α))
            (1 / (nt : α)) (nt + 1),
          texCoords := revTexCoordArray nt ntheta (nt + 1),
          indices := gridIndices nt ntheta,
          vertices := (List.range ((nt + 1) * (ntheta + 1))).flatMap
            (interleaved8
              (revCoordinateArray sin cos ntheta cp L (2 * bezierPi / (ntheta : α))
                (1 / (nt : α)) (nt + 1))
              (revNormalArray sin cos ntheta cp L (2 * bezierPi / (ntheta : α))
                (1 / (nt : α)) (nt + 1))
              (revTexCoordArray nt ntheta (nt + 1))) } := by
  unfold BezierCurve.hollowBezier
  simp only [BezierCurve_ringLoop_closed sin cos nt ntheta cp L _ _ hev, Option.bind_eq_bind,
    Option.some_bind, BezierCurve_indexLoop_closed]
  have hcount : ((revCoordinateArray sin cos ntheta cp L (2 * bezierPi / (ntheta : α))
      (1 / (nt : α)) (nt + 1)).length + 2) / 3 = (nt + 1) * (ntheta + 1) := by
    rw [revCoordinateArray_length]; omega
  rw [hcount, BezierCurve_interleave_closed ((nt + 1) * (ntheta + 1)) _
    (revCoordinateArray_length _ _ _ _ _ _ _ _) (revNormalArray_length _ _ _ _ _ _ _ _)
    (revTexCoordArray_length _ _ _) _ (le_refl _)]
  simp

/-- Closed form of the mesh built by `Bezier::hollowBezier`. -/
theorem Bezier_hollowBezier_closed (sin cos : α → α) (nt ntheta : Nat) (cp : List α)
    (L : Int) (hev : L < 0 ∨ 3 * L.toNat + 1 < cp.length) :
    Bezier.hollowBezier sin cos nt ntheta cp L
      = some
        { coordinates := revCoordinateArray sin cos ntheta cp L (2 * bezierPi / (ntheta : α))
            (1 / (nt : α)) (nt + 1),
          normals := revNormalArray sin cos ntheta cp L (2 * bezierPi / (ntheta : α))
            (1 / (nt : α)) (nt + 1),
          texCoords := [],
          indices := gridIndices nt ntheta,
          vertices := (List.range ((nt + 1) * (ntheta + 1))).flatMap
            (interleaved6
              (revCoordinateArray sin cos ntheta cp L (2 * bezierPi / (ntheta : α))
                (1 / (nt : α)) (nt + 1))
              (revNormalArray sin cos ntheta cp L (2 * bezierPi / (ntheta : α))
                (1 / (nt : α)) (nt + 1))) } := by
  unfold Bezier.hollowBezier
  simp only [Bezier_ringLoop_closed sin cos ntheta cp L _ _ hev, Option.bind_eq_bind,
    Option.some_bind, Bezier_indexLoop_closed]
  have hcount : ((revCoordinateArray sin cos ntheta cp L (2 * bezierPi / (ntheta : α))
      (1 / (nt : α)) (nt + 1)).length + 2) / 3 = (nt + 1) * (ntheta + 1) := by
    rw [revCoordinateArray_length]; omega
  rw [hcount, Bezier_interleave_closed ((nt + 1) * (ntheta + 1)) _
    (revCoordinateArray_length _ _ _ _ _ _ _ _) (revNormalArray_length _ _ _ _ _ _ _ _)
    _ (le_refl _)]
  simp

/-- The position and the normal of vertex `i·(ntheta+1) + j` in the arrays of a surface of
revolution. -/
theorem rev_vertex (sin cos : α → α) (ntheta : Nat) (cp : List α) (L : Int)
    (dtheta dt : α) (n i j : Nat) (hi : i < n) (hj : j ≤ ntheta) :
    readVec3 (revCoordinateArray sin cos ntheta cp L dtheta dt n) (i * (ntheta + 1) + j)
      = some ⟨(revProfile cp L dt i).1 * sin ((j : α) * dtheta), (revProfile cp L dt i).2,
              (revProfile cp L dt i).1 * cos ((j : α) * dtheta)⟩ ∧
    readVec3 (revNormalArray sin cos ntheta cp L dtheta dt n) (i * (ntheta + 1) + j)
      = some ⟨((revProfile cp L dt i).1 * sin ((j : α) * dtheta) - 0)
                * (1 / (revProfile cp L dt i).1),
              ((revProfile cp L dt i).2 - (revProfile cp L dt i).2)
                * (1 / (revProfile cp L dt i).1),
              ((revProfile cp L dt i).1 * cos ((j : α) * dtheta) - 0)
                * (1 / (revProfile cp L dt i).1)⟩ := by
  have kc := fun c hc => getElem?_grid (fun i => revCoordinates sin cos dtheta
    (revProfile cp L dt i).1 (revProfile cp L dt i).2) 3 (fun _ _ => rfl) n (ntheta + 1) i j c
    hi (by omega) hc
  have kn := fun c hc => getElem?_grid (fun i => revNormals sin cos dtheta
    (revProfile cp L dt i).1 (revProfile cp L dt i).2) 3 (fun _ _ => rfl) n (ntheta + 1) i j c
    hi (by omega) hc
  constructor
  · refine readVec3_of _ _ _ _ _ ?_ ?_ ?_
    · exact kc 0 (by norm_num)
    · exact kc 1 (by norm_num)
    · exact kc 2 (by norm_num)
  · refine readVec3_of _ _ _ _ _ ?_ ?_ ?_
    · exact kn 0 (by norm_num)
    · exact kn 1 (by norm_num)
    · exact kn 2 (by norm_num)

/-- `CylinderTree::buildVertices` on arrays of `V` vertices and an empty buffer: the attribute
arrays and the index buffer are untouched, and the buffer is their interleaving. -/
theorem CylinderTree_buildVertices_faithful (m0 : Mesh α) (V : Nat)
    (hc : m0.coordinates.length = 3 * V) (hn : m0.normals.length = 3 * V)
    (ht : m0.texCoords.length = 2 * V) (hv : m0.vertices = []) :
    ∃ m, CylinderTree.buildVertices m0 = some m ∧
      m.coordinates = m0.coordinates ∧ m.normals = m0.normals ∧
      m.texCoords = m0.texCoords ∧ m.indices = m0.indices ∧
      m.coordinates.length / 3 = V ∧ m.Interleaved8 V := by
  refine ⟨_, CylinderTree_buildVertices_closed V m0 hc hn ht, rfl, rfl, rfl, rfl, ?_, ?_⟩
  · show m0.coordinates.length / 3 = V
    omega
  · exact interleaved8_faithful _ _ hc hn ht (by simp only [hv, List.nil_append])

/-- `CylinderNoTex::buildVertices` on arrays of `V` vertices and an empty buffer. -/
theorem CylinderNoTex_buildVertices_faithful (m0 : Mesh α) (V : Nat)
    (hc : m0.coordinates.length = 3 * V) (hn : m0.normals.length = 3 * V)
    (hv : m0.vertices = []) :
    ∃ m, CylinderNoTex.buildVertices m0 = some m ∧
      m.coordinates = m0.coordinates ∧ m.normals = m0.normals ∧ m.indices = m0.indices ∧
      m.coordinates.length / 3 = V ∧ m.Interleaved6 V := by
  refine ⟨_, CylinderNoTex_buildVertices_closed V m0 hc hn, rfl, rfl, rfl, ?_, ?_⟩
  · show m0.coordinates.length / 3 = V
    omega
  · exact interleaved6_faithful _ _ hc hn (by simp only [hv, List.nil_append])

/-- The sizes of the arrays of a constructed `CylinderTree`. -/
theorem CylinderTree_construct_sizes (sin cos : α → α) (self : CylinderParams α)
    (radius height : α) (sectors : Int) :
    (CylinderTree.construct sin cos self radius height sectors).coordinates.length
      = 3 * (2 * (max sectors 3).toNat + 4) ∧
    (CylinderTree.construct sin cos self radius height sectors).normals.length
      = 3 * (2 * (max sectors 3).toNat + 4) ∧
    (CylinderTree.construct sin cos self radius height sectors).texCoords.length
      = 2 * (2 * (max sectors 3).toNat + 4) ∧
    (CylinderTree.construct sin cos self radius height sectors).vertices = [] := by
  obtain ⟨hc, hn, ht, _, hv⟩ :=
    CylinderTree_construct_arrays sin cos self radius height sectors
  refine ⟨?_, ?_, ?_, hv⟩
  · rw [hc, List.length_append, length_flatMap_range (cylRimCoordinates sin cos _) 6
      (fun _ => rfl)]
    simp only [List.length_cons, List.length_nil]
    ring
  · rw [hn, List.length_append, length_flatMap_range (cylRimNormals sin cos _) 6
      (fun _ => rfl)]
    simp only [List.length_cons, List.length_nil]
    ring
  · rw [ht, List.length_append, length_flatMap_range (cylRimTexCoords _) 4 (fun _ => rfl)]
    simp only [List.length_cons, List.length_nil]
    ring

/-- The sizes of the arrays of a constructed `CylinderNoTex`. -/
theorem CylinderNoTex_construct_sizes (sin cos : α → α) (self : CylinderParams α)
    (radius height : α) (sectors : Int) :
    (CylinderNoTex.construct sin cos self radius height sectors).coordinates.length
      = 3 * (2 * (max sectors 3).toNat + 2) ∧
    (CylinderNoTex.construct sin cos self radius height sectors).normals.length
      = 3 * (2 * (max sectors 3).toNat + 2) ∧
    (CylinderNoTex.construct sin cos self radius height sectors).vertices = [] := by
  obtain ⟨hc, hn, _, _, hv⟩ :=
    CylinderNoTex_construct_arrays sin cos self radius height sectors
  refine ⟨?_, ?_, hv⟩
  · rw [hc, List.length_append, length_flatMap_range (cylRimCoordinates sin cos _) 6
      (fun _ => rfl)]
    simp only [List.length_nil]
    ring
  · rw [hn, List.length_append, length_flatMap_range (cylRimNormals sin cos _) 6
      (fun _ => rfl)]
    simp only [List.length_nil]
    ring

/-- C14: the interleaved vertex buffer is a faithful interleaving of the attribute arrays the
builder filled.  `BezierCurve::hollowBezier` (whenever the evaluator stays inside the control
array) returns a mesh whose `coordinates`, `normals`, `texCoords` are the arrays its vertex loop
built, with `V = coordinates.size / 3 = (nt + 1)(ntheta + 1)`, sizes `3V`, `3V`, `2V`, and a
buffer of `8V` floats with `vertices[8k+c] = coordinates[3k+c]`,
`vertices[8k+3+c] = normals[3k+c]` (`c < 3`), `vertices[8k+6+c] = texCoords[2k+c]` (`c < 2`),
every read being in range.  `CylinderTree::buildVertices`, on any arrays of sizes `3V`, `3V`,
`2V` and an empty buffer, returns with the arrays and the index buffer unchanged and the same
layout of `8V` floats; on a constructed cylinder `V = coordinates.size / 3 = 2s + 4` with
`s = max(sectors, 3)`.  `Bezier::hollowBezier`, `Bezier3::generateFan` and
`CylinderNoTex::buildVertices` (`V = 2s + 2` on a constructed cylinder) do the same with a buffer
of `6V` floats, `vertices[6k+c] = coordinates[3k+c]` and `vertices[6k+3+c] = normals[3k+c]`. -/
theorem interleaved_buffer_faithful (sin cos : α → α) (nt ntheta : Nat) (cp : List α) (L : Int)
    (hev : L < 0 ∨ 3 * L.toNat + 1 < cp.length) (self : CylinderParams α) (radius height : α)
    (sectors : Int) :
    (∃ st m,
      forLoopM (nt + 1) (BezierCurve.ringBody sin cos nt ntheta cp L
        (2 * bezierPi / (ntheta : α)) (1 / (nt : α))) ((0 : α), ({} : Mesh α)) = some st ∧
      BezierCurve.hollowBezier sin cos nt ntheta cp L = some m ∧
      m.coordinates = st.2.coordinates ∧ m.normals = st.2.normals ∧
      m.texCoords = st.2.texCoords ∧
      m.coordinates.length / 3 = (nt + 1) * (ntheta + 1) ∧
      m.Interleaved8 (m.coordinates.length / 3)) ∧
    (∀ (m0 : Mesh α) (V : Nat), m0.coordinates.length = 3 * V → m0.normals.length = 3 * V →
      m0.texCoords.length = 2 * V → m0.vertices = [] →
      ∃ m, CylinderTree.buildVertices m0 = some m ∧
        m.coordinates = m0.coordinates ∧ m.normals = m0.normals ∧
        m.texCoords = m0.texCoords ∧ m.indices = m0.indices ∧
        m.coordinates.length / 3 = V ∧ m.Interleaved8 V) ∧
    (∃ m, CylinderTree.buildVertices (CylinderTree.construct sin cos self radius height sectors)
        = some m ∧
      m.coordinates = (CylinderTree.construct sin cos self radius height sectors).coordinates ∧
      m.normals = (CylinderTree.construct sin cos self radius height sectors).normals ∧
      m.texCoords = (CylinderTree.construct sin cos self radius height sectors).texCoords ∧
      m.indices = (CylinderTree.construct sin cos self radius height sectors).indices ∧
      m.coordinates.length / 3 = 2 * (max sectors 3).toNat + 4 ∧
      m.Interleaved8 (2 * (max sectors 3).toNat + 4)) ∧
    (∃ st m,
      forLoopM (nt + 1) (Bezier.ringBody sin cos ntheta cp L
        (2 * bezierPi / (ntheta : α)) (1 / (nt : α))) ((0 : α), ({} : Mesh α)) = some st ∧
      Bezier.hollowBezier sin cos nt ntheta cp L = some m ∧
      m.coordinates = st.2.coordinates ∧ m.normals = st.2.normals ∧
      m.coordinates.length / 3 = (nt + 1) * (ntheta + 1) ∧
      m.Interleaved6 (m.coordinates.length / 3)) ∧
    (∃ st m,
      forLoopM (nt + 1) (Bezier3.ringBody sin cos ntheta cp L
        (2 * bezierPi / (ntheta : α)) (1 / (nt : α))) ((0 : α), ({} : Mesh α)) = some st ∧
      Bezier3.generateFan sin cos nt ntheta cp L = some m ∧
      m.coordinates = st.2.coordinates ∧ m.normals = st.2.normals ∧
      m.coordinates.length / 3 = (nt + 1) * (ntheta + 1) ∧
      m.Interleaved6 (m.coordinates.length / 3)) ∧
    (∀ (m0 : Mesh α) (V : Nat), m0.coordinates.length = 3 * V → m0.normals.length = 3 * V →
      m0.vertices = [] →
      ∃ m, CylinderNoTex.buildVertices m0 = some m ∧
        m.coordinates = m0.coordinates ∧ m.normals = m0.normals ∧ m.indices = m0.indices ∧
        m.coordinates.length / 3 = V ∧ m.Interleaved6 V) ∧
    (∃ m, CylinderNoTex.buildVertices
        (CylinderNoTex.construct sin cos self radius height sectors) = some m ∧
      m.coordinates = (CylinderNoTex.construct sin cos self radius height sectors).coordinates ∧
      m.normals = (CylinderNoTex.construct sin cos self radius height sectors).normals ∧
      m.indices = (CylinderNoTex.construct sin cos self radius height sectors).indices ∧
      m.coordinates.length / 3 = 2 * (max sectors 3).toNat + 2 ∧
      m.Interleaved6 (2 * (max sectors 3).toNat + 2)) := by
  have e : (revCoordinateArray sin cos ntheta cp L (2 * bezierPi / (ntheta : α))
      (1 / (nt : α)) (nt + 1)).length / 3 = (nt + 1) * (ntheta + 1) := by
    rw [revCoordinateArray_length]; omega
  have hB : ∃ st m,
      forLoopM (nt + 1) (Bezier.ringBody sin cos ntheta cp L
        (2 * bezierPi / (ntheta : α)) (1 / (nt : α))) ((0 : α), ({} : Mesh α)) = some st ∧
      Bezier.hollowBezier sin cos nt ntheta cp L = some m ∧
      m.coordinates = st.2.coordinates ∧ m.normals = st.2.normals ∧
      m.coordinates.length / 3 = (nt + 1) * (ntheta + 1) ∧
      m.Interleaved6 (m.coordinates.length / 3) := by
    refine ⟨_, _, Bezier_ringLoop_closed sin cos ntheta cp L _ _ hev (nt + 1),
      Bezier_hollowBezier_closed sin cos nt ntheta cp L hev, rfl, rfl, e, ?_⟩
    simp only [e]
    exact interleaved6_faithful _ _ (revCoordinateArray_length _ _ _ _ _ _ _ _)
      (revNormalArray_length _ _ _ _ _ _ _ _) rfl
  obtain ⟨tc, tn, tt, tv⟩ := CylinderTree_construct_sizes sin cos self radius height sectors
  obtain ⟨nc, nn, nv⟩ := CylinderNoTex_construct_sizes sin cos self radius height sectors
  refine ⟨?_, fun m0 V hc hn ht hv => CylinderTree_buildVertices_faithful m0 V hc hn ht hv,
    CylinderTree_buildVertices_faithful _ _ tc tn tt tv, hB, hB,
    fun m0 V hc hn hv => CylinderNoTex_buildVertices_faithful m0 V hc hn hv,
    CylinderNoTex_buildVertices_faithful _ _ nc nn nv⟩
  refine ⟨_, _, BezierCurve_ringLoop_closed sin cos nt ntheta cp L _ _ hev (nt + 1),
    BezierCurve_hollowBezier_closed sin cos nt ntheta cp L hev, rfl, rfl, rfl, e, ?_⟩
  simp only [e]
  exact interleaved8_faithful _ _ (revCoordinateArray_length _ _ _ _ _ _ _ _)
    (revNormalArray_length _ _ _ _ _ _ _ _) (revTexCoordArray_length _ _ _) rfl

/-- Witness for C14: the profile through `(1, 0)` and `(1, 1)` of degree `1`, over the
rationals, and `CylinderTree::buildVertices` on the arrays of one vertex. -/
theorem interleaved_buffer_faithful_witness :
    ((1 : Int) < 0 ∨ 3 * (1 : Int).toNat + 1 < ([1, 0, 0, 1, 1, 0] : List ℚ).length) ∧
    (∃ st m,
      forLoopM (40 + 1) (BezierCurve.ringBody (fun x : ℚ => x) (fun x : ℚ => x) 40 20
        [1, 0, 0, 1, 1, 0] 1 (2 * bezierPi / ((20 : Nat) : ℚ)) (1 / ((40 : Nat) : ℚ)))
        ((0 : ℚ), ({} : Mesh ℚ)) = some st ∧
      BezierCurve.hollowBezier (fun x : ℚ => x) (fun x : ℚ => x) 40 20 [1, 0, 0, 1, 1, 0] 1
        = some m ∧
      m.coordinates = st.2.coordinates ∧ m.normals = st.2.normals ∧
      m.texCoords = st.2.texCoords ∧
      m.coordinates.length / 3 = (40 + 1) * (20 + 1) ∧
      m.Interleaved8 (m.coordinates.length / 3)) ∧
    (∃ m : Mesh ℚ, CylinderTree.buildVertices
        ({ coordinates := [1, 2, 3], normals := [4, 5, 6], texCoords := [7, 8] } : Mesh ℚ)
        = some m ∧
      m.coordinates = [1, 2, 3] ∧ m.normals = [4, 5, 6] ∧ m.texCoords = [7, 8] ∧
      m.indices = [] ∧ m.coordinates.length / 3 = 1 ∧ m.Interleaved8 1) :=
  ⟨Or.inr (by decide),
    (interleaved_buffer_faithful (fun x : ℚ => x) (fun x : ℚ => x) 40 20 [1, 0, 0, 1, 1, 0] 1
      (Or.inr (by decide)) ⟨0, 0, 0⟩ 1 2 4).1,
    (interleaved_buffer_faithful (fun x : ℚ => x) (fun x : ℚ => x) 40 20 [1, 0, 0, 1, 1, 0] 1
      (Or.inr (by decide)) ⟨0, 0, 0⟩ 1 2 4).2.1
      { coordinates := [1, 2, 3], normals := [4, 5, 6], texCoords := [7, 8] } 1 rfl rfl rfl rfl⟩

end RevolutionMesh

section RevolutionReal

/-- A vertex of a ring of non-zero radius is a radial vertex. -/
theorem rev_radial (ntheta : Nat) (cp : List ℝ) (L : Int) (dtheta dt : ℝ) (n i j : Nat)
    (hi : i < n) (hj : j ≤ ntheta) (m : Mesh ℝ)
    (hc : m.coordinates = revCoordinateArray Real.sin Real.cos ntheta cp L dtheta dt n)
    (hn : m.normals = revNormalArray Real.sin Real.cos ntheta cp L dtheta dt n)
    (hr : (revProfile cp L dt i).1 ≠ 0) :
    RadialVertex Real.sin Real.cos m (i * (ntheta + 1) + j) (revProfile cp L dt i).1
      (revProfile cp L dt i).2 ((j : ℝ) * dtheta) := by
  obtain ⟨p, q⟩ := rev_vertex Real.sin Real.cos ntheta cp L dtheta dt n i j hi hj
  refine ⟨_, _, by rw [Mesh.position, hc]; exact p, by rw [Mesh.normal, hn]; exact q,
    rfl, rfl, rfl, ?_, ?_, ?_, ?_, ?_, ?_⟩
  · show _ = _ / _
    field_simp
  · show _ = (0 : ℝ)
    ring
  · show _ = _ / _
    field_simp
  · show _ = Real.sin _
    field_simp
  · show _ = Real.cos _
    field_simp
  · have e1 : ((revProfile cp L dt i).1 * Real.sin ((j : ℝ) * dtheta) - 0)
        * (1 / (revProfile cp L dt i).1) = Real.sin ((j : ℝ) * dtheta) := by field_simp
    have e2 : ((revProfile cp L dt i).1 * Real.cos ((j : ℝ) * dtheta) - 0)
        * (1 / (revProfile cp L dt i).1) = Real.cos ((j : ℝ) * dtheta) := by field_simp
    have e3 : ((revProfile cp L dt i).2 - (revProfile cp L dt i).2)
        * (1 / (revProfile cp L dt i).1) = 0 := by ring
    show (_ : ℝ) ^ 2 + (_ : ℝ) ^ 2 + (_ : ℝ) ^ 2 = 1
    rw [e1, e2, e3]
    have := Real.sin_sq_add_cos_sq ((j : ℝ) * dtheta)
    show Real.sin ((j : ℝ) * dtheta) ^ 2 + (0 : ℝ) ^ 2 + Real.cos ((j : ℝ) * dtheta) ^ 2 = 1
    nlinarith [this]

/-- C15: in exact real arithmetic, for every ring `i ≤ nt` and every sector `j ≤ ntheta` of the
three surface-of-revolution builders, with `(r, y)` the pair the evaluator returns for the ring
(sampled at `t = i·dt`): if `r ≠ 0` (of either sign), vertex `i·(ntheta+1) + j` has position
`(r·sin θ, y, r·cos θ)` with `θ = j·(2·pi/ntheta)` (`pi` the constant of the classes) and normal
`(x/r, 0, z/r) = (sin θ, 0, cos θ)`: its y-component is `0`, it has unit length and it is a
function of `θ` alone, not of the control points. -/
theorem revolution_normals_radial (nt ntheta : Nat) (cp : List ℝ) (L : Int)
    (hev : L < 0 ∨ 3 * L.toNat + 1 < cp.length) (i j : Nat) (hi : i ≤ nt) (hj : j ≤ ntheta) :
    ∃ r y : ℝ, BezierCurve.BezierCurveFN ((i : ℝ) * (1 / (nt : ℝ))) cp L = some (r, y) ∧
      (r ≠ 0 →
        (∃ m, BezierCurve.hollowBezier Real.sin Real.cos nt ntheta cp L = some m ∧
          RadialVertex Real.sin Real.cos m (i * (ntheta + 1) + j) r y
            ((j : ℝ) * (2 * bezierPi / (ntheta : ℝ)))) ∧
        (∃ m, Bezier.hollowBezier Real.sin Real.cos nt ntheta cp L = some m ∧
          RadialVertex Real.sin Real.cos m (i * (ntheta + 1) + j) r y
            ((j : ℝ) * (2 * bezierPi / (ntheta : ℝ)))) ∧
        (∃ m, Bezier3.generateFan Real.sin Real.cos nt ntheta cp L = some m ∧
          RadialVertex Real.sin Real.cos m (i * (ntheta + 1) + j) r y
            ((j : ℝ) * (2 * bezierPi / (ntheta : ℝ))))) := by
  refine ⟨(revProfile cp L (1 / (nt : ℝ)) i).1, (revProfile cp L (1 / (nt : ℝ)) i).2,
    revProfile_eq cp L _ i hev, ?_⟩
  intro hr
  have hB : ∃ m, Bezier.hollowBezier Real.sin Real.cos nt ntheta cp L = some m ∧
      RadialVertex Real.sin Real.cos m (i * (ntheta + 1) + j)
        (revProfile cp L (1 / (nt : ℝ)) i).1 (revProfile cp L (1 / (nt : ℝ)) i).2
        ((j : ℝ) * (2 * bezierPi / (ntheta : ℝ))) :=
    ⟨_, Bezier_hollowBezier_closed Real.sin Real.cos nt ntheta cp L hev,
      rev_radial ntheta cp L _ _ (nt + 1) i j (by omega) hj _ rfl rfl hr⟩
  refine ⟨⟨_, BezierCurve_hollowBezier_closed Real.sin Real.cos nt ntheta cp L hev,
    rev_radial ntheta cp L _ _ (nt + 1) i j (by omega) hj _ rfl rfl hr⟩, hB, ?_⟩
  rw [Bezier3_generateFan_eq]
  exact hB

/-- Witness for C15: the straight profile from `(1, 0)` to `(1, 1)` (a cylinder of radius `1`),
ring `0`, sector `0`: the sampled radius is `1` and the vertex is radial. -/
theorem revolution_normals_radial_witness :
    ((1 : Int) < 0 ∨ 3 * (1 : Int).toNat + 1 < ([1, 0, 0, 1, 1, 0] : List ℝ).length) ∧
    ∃ m, BezierCurve.hollowBezier Real.sin Real.cos 40 20 [1, 0, 0, 1, 1, 0] 1 = some m ∧
      RadialVertex Real.sin Real.cos m (0 * (20 + 1) + 0) 1 0
        (((0 : Nat) : ℝ) * (2 * bezierPi / ((20 : Nat) : ℝ))) := by
  have hev : (1 : Int) < 0 ∨ 3 * (1 : Int).toNat + 1 < ([1, 0, 0, 1, 1, 0] : List ℝ).length :=
    Or.inr (by simp)
  refine ⟨hev, ?_⟩
  obtain ⟨r, y, hxy, himp⟩ :=
    revolution_normals_radial 40 20 [1, 0, 0, 1, 1, 0] 1 hev 0 0 (by norm_num) (by norm_num)
  have hval : BezierCurve.BezierCurveFN (((0 : Nat) : ℝ) * (1 / ((40 : Nat) : ℝ)))
      [1, 0, 0, 1, 1, 0] 1 = some (1, 0) := by
    have h := BezierCurveFN_eq_spec (((0 : Nat) : ℝ) * (1 / ((40 : Nat) : ℝ)))
      ([1, 0, 0, 1, 1, 0] : List ℝ) 1 (by simp) (by norm_num)
    rw [show ((1 : Nat) : Int) = 1 from rfl] at h
    rw [h]
    norm_num [bernsteinSpec, Finset.sum_range_succ]
  rw [hval] at hxy
  have hr : r = 1 := by
    have := congrArg Prod.fst (Option.some.inj hxy)
    exact this.symm
  have hy : y = 0 := by
    have := congrArg Prod.snd (Option.some.inj hxy)
    exact this.symm
  subst hr
  subst hy
  exact (himp one_ne_zero).1

end RevolutionReal

section LoopCongr

theorem forLoopM_congr {σ : Type} (n : Nat) (b b' : Nat → σ → Option σ)
    (h : ∀ i, i < n → ∀ s, b i s = b' i s) (s : σ) : forLoopM n b s = forLoopM n b' s := by
  induction n with
  | zero => rfl
  | succ k ih =>
    rw [forLoopM_succ, forLoopM_succ, ih (fun i hi => h i (Nat.lt_succ_of_lt hi))]
    have e : b k = b' k := funext (h k (Nat.lt_succ_self k))
    rw [e]

theorem stripTexCoords_flatMap {β : Type} (xs : List Nat) (g8 g6 : Nat → List β)
    (h : ∀ k rest, stripTexCoords (g8 k ++ rest) = g6 k ++ stripTexCoords rest) :
    stripTexCoords (xs.flatMap g8) = xs.flatMap g6 := by
  induction xs with
  | nil => rfl
  | cons x xs ih => rw [List.flatMap_cons, List.flatMap_cons, h, ih]

end LoopCongr

section Independence
variable {α : Type} [LinearOrderedField α]

/-- The evaluator depends on the control array only through the entries `3i` and `3i+1`,
`0 ≤ i ≤ L`. -/
theorem BezierCurveFN_congr (t : α) (cp cp' : List α) (L : Int)
    (h : ∀ i : Nat, (i : Int) ≤ L → cp[3 * i]? = cp'[3 * i]? ∧ cp[3 * i + 1]? = cp'[3 * i + 1]?) :
    BezierCurve.BezierCurveFN t cp L = BezierCurve.BezierCurveFN t cp' L := by
  unfold BezierCurve.BezierCurveFN
  simp only
  refine forLoopM_congr _ _ _ ?_ _
  intro i hi xy
  have hiL : (i : Int) ≤ L := by omega
  obtain ⟨h0, h1⟩ := h i hiL
  have e : i * 3 = 3 * i := Nat.mul_comm i 3
  simp only [e, h0, h1]

/-- The ring loop body depends on the control array only through the evaluator. -/
theorem BezierCurve_ringBody_congr (sin cos : α → α) (nt ntheta : Nat) (cp cp' : List α)
    (L : Int) (dtheta dt : α)
    (h : ∀ t : α, BezierCurve.BezierCurveFN t cp L = BezierCurve.BezierCurveFN t cp' L) :
    BezierCurve.ringBody sin cos nt ntheta cp L dtheta dt
      = BezierCurve.ringBody sin cos nt ntheta cp' L dtheta dt := by
  funext i st
  simp only [BezierCurve.ringBody, h]

theorem Bezier_ringBody_congr (sin cos : α → α) (ntheta : Nat) (cp cp' : List α)
    (L : Int) (dtheta dt : α)
    (h : ∀ t : α, BezierCurve.BezierCurveFN t cp L = BezierCurve.BezierCurveFN t cp' L) :
    Bezier.ringBody sin cos ntheta cp L dtheta dt
      = Bezier.ringBody sin cos ntheta cp' L dtheta dt := by
  funext i st
  simp only [Bezier.ringBody, Bezier_BezierCurve_eq, h]

/-- C21: the Bernstein evaluator never reads the third component of a control point.  For every
degree `L`, every `t` and any two control arrays that agree at the positions `3i` and `3i+1`,
`0 ≤ i ≤ L`, the three copies of the evaluator return the same result on both arrays, and the
three surface-of-revolution builders return the same mesh; this holds in particular for two
control polygons that differ only in the z components of their points. -/
theorem evaluator_ignores_third_component (sin cos : α → α) (nt ntheta : Nat) (t : α)
    (cp cp' : List α) (L : Int)
    (h : ∀ i : Nat, (i : Int) ≤ L →
      cp[3 * i]? = cp'[3 * i]? ∧ cp[3 * i + 1]? = cp'[3 * i + 1]?) :
    BezierCurve.BezierCurveFN t cp L = BezierCurve.BezierCurveFN t cp' L ∧
    Bezier.BezierCurve t cp L = Bezier.BezierCurve t cp' L ∧
    Bezier3.BezierCurve t cp L = Bezier3.BezierCurve t cp' L ∧
    BezierCurve.hollowBezier sin cos nt ntheta cp L
      = BezierCurve.hollowBezier sin cos nt ntheta cp' L ∧
    Bezier.hollowBezier sin cos nt ntheta cp L = Bezier.hollowBezier sin cos nt ntheta cp' L ∧
    Bezier3.generateFan sin cos nt ntheta cp L = Bezier3.generateFan sin cos nt ntheta cp' L ∧
    ∀ P P' : List (Vec3 α), P.map Vec3.x = P'.map Vec3.x → P.map Vec3.y = P'.map Vec3.y →
      BezierCurve.hollowBezier sin cos nt ntheta (controlArray P) L
        = BezierCurve.hollowBezier sin cos nt ntheta (controlArray P') L ∧
      Bezier.hollowBezier sin cos nt ntheta (controlArray P) L
        = Bezier.hollowBezier sin cos nt ntheta (controlArray P') L ∧
      Bezier3.generateFan sin cos nt ntheta (controlArray P) L
        = Bezier3.generateFan sin cos nt ntheta (controlArray P') L := by
  have main : ∀ q q' : List α,
      (∀ i : Nat, (i : Int) ≤ L → q[3 * i]? = q'[3 * i]? ∧ q[3 * i + 1]? = q'[3 * i + 1]?) →
      BezierCurve.hollowBezier sin cos nt ntheta q L
        = BezierCurve.hollowBezier sin cos nt ntheta q' L ∧
      Bezier.hollowBezier sin cos nt ntheta q L = Bezier.hollowBezier sin cos nt ntheta q' L := by
    intro q q' hq
    have he : ∀ u : α, BezierCurve.BezierCurveFN u q L = BezierCurve.BezierCurveFN u q' L :=
      fun u => BezierCurveFN_congr u q q' L hq
    constructor
    · unfold BezierCurve.hollowBezier
      simp only [BezierCurve_ringBody_congr sin cos nt ntheta q q' L _ _ he]
    · unfold Bezier.hollowBezier
      simp only [Bezier_ringBody_congr sin cos ntheta q q' L _ _ he]
  simp only [Bezier_BezierCurve_eq, Bezier3_BezierCurve_eq, Bezier3_generateFan_eq]
  refine ⟨BezierCurveFN_congr t cp cp' L h, BezierCurveFN_congr t cp cp' L h,
    BezierCurveFN_congr t cp cp' L h, (main cp cp' h).1,
    (main cp cp' h).2, (main cp cp' h).2, ?_⟩
  intro P P' hx hy
  have hP : ∀ i : Nat, (i : Int) ≤ L →
      (controlArray P)[3 * i]? = (controlArray P')[3 * i]? ∧
      (controlArray P)[3 * i + 1]? = (controlArray P')[3 * i + 1]? := by
    intro i _
    obtain ⟨a0, a1, _⟩ := controlArray_getElem? P i
    obtain ⟨b0, b1, _⟩ := controlArray_getElem? P' i
    rw [a0, a1, b0, b1, ← List.getElem?_map, ← List.getElem?_map, ← List.getElem?_map,
      ← List.getElem?_map, hx, hy]
    exact ⟨rfl, rfl⟩
  exact ⟨(main _ _ hP).1, (main _ _ hP).2, (main _ _ hP).2⟩

/-- Witness for C21: two arrays of two control points that differ in the third components only,
over the rationals. -/
theorem evaluator_ignores_third_component_witness :
    BezierCurve.BezierCurveFN (1 / 2 : ℚ) [1, 2, 3, 4, 5, 6] 1
      = BezierCurve.BezierCurveFN (1 / 2 : ℚ) [1, 2, 9, 4, 5, 7] 1 ∧
    BezierCurve.hollowBezier (fun x : ℚ => x) (fun x : ℚ => x) 40 20 [1, 2, 3, 4, 5, 6] 1
      = BezierCurve.hollowBezier (fun x : ℚ => x) (fun x : ℚ => x) 40 20 [1, 2, 9, 4, 5, 7] 1 :=
  have h := evaluator_ignores_third_component (fun x : ℚ => x) (fun x : ℚ => x) 40 20 (1 / 2)
    [1, 2, 3, 4, 5, 6] [1, 2, 9, 4, 5, 7] 1
    (by
      intro i hi
      have hi1 : i ≤ 1 := by omega
      interval_cases i <;> exact ⟨rfl, rfl⟩)
  ⟨h.1, h.2.2.2.1⟩

end Independence

section IndexOuterEq
variable {α : Type}

theorem Bezier3_indexOuter_eq (ntheta : Nat) :
    (Bezier3.indexOuter ntheta : Nat → Mesh α → Mesh α) = Bezier.indexOuter ntheta := rfl

end IndexOuterEq

section IndexClosedForm
variable {α : Type}

/-- C23: the incremental index loop of the three surface-of-revolution builders (`k1`, `k2`
advanced by `++` inside the sector loop) equals the closed form.  Run on any mesh, the loop appends
`gridIndices nt ntheta`; in that buffer, for every stack `i < nt` and sector `j < ntheta`, the six
indices at offset `6·(i·ntheta + j)` are `(k1, k2, k1+1, k1+1, k2, k2+1)` with
`k1 = i·(ntheta+1) + j` and `k2 = k1 + ntheta + 1`; the three indices of each of the two
triangles are distinct, and the four corners are the vertices `(i, j)`, `(i, j+1)`, `(i+1, j)`,
`(i+1, j+1)` of two adjacent rings at two adjacent sectors. -/
theorem index_loop_closed_form (nt ntheta : Nat) (m0 : Mesh α) (i j : Nat) (hi : i < nt)
    (hj : j < ntheta) :
    forLoop nt (BezierCurve.indexOuter ntheta) m0
      = { m0 with indices := m0.indices ++ gridIndices nt ntheta } ∧
    forLoop nt (Bezier.indexOuter ntheta) m0
      = { m0 with indices := m0.indices ++ gridIndices nt ntheta } ∧
    forLoop nt (Bezier3.indexOuter ntheta) m0
      = { m0 with indices := m0.indices ++ gridIndices nt ntheta } ∧
    (∀ k, k < 6 →
      (gridIndices nt ntheta)[6 * (i * ntheta + j) + k]?
        = ([(i : Int) * ((ntheta : Int) + 1) + j,
            (i : Int) * ((ntheta : Int) + 1) + j + ntheta + 1,
            (i : Int) * ((ntheta : Int) + 1) + j + 1,
            (i : Int) * ((ntheta : Int) + 1) + j + 1,
            (i : Int) * ((ntheta : Int) + 1) + j + ntheta + 1,
            (i : Int) * ((ntheta : Int) + 1) + j + ntheta + 1 + 1] : List Int)[k]?) ∧
    ((i : Int) * ((ntheta : Int) + 1) + j ≠ (i : Int) * ((ntheta : Int) + 1) + j + ntheta + 1 ∧
     (i : Int) * ((ntheta : Int) + 1) + j + ntheta + 1 ≠ (i : Int) * ((ntheta : Int) + 1) + j + 1 ∧
     (i : Int) * ((ntheta : Int) + 1) + j ≠ (i : Int) * ((ntheta : Int) + 1) + j + 1) ∧
    ((i : Int) * ((ntheta : Int) + 1) + j + 1
        ≠ (i : Int) * ((ntheta : Int) + 1) + j + ntheta + 1 ∧
     (i : Int) * ((ntheta : Int) + 1) + j + ntheta + 1
        ≠ (i : Int) * ((ntheta : Int) + 1) + j + ntheta + 1 + 1 ∧
     (i : Int) * ((ntheta : Int) + 1) + j + 1
        ≠ (i : Int) * ((ntheta : Int) + 1) + j + ntheta + 1 + 1) ∧
    ((i : Int) * ((ntheta : Int) + 1) + j + 1 = ((i * (ntheta + 1) + (j + 1) : Nat) : Int) ∧
     (i : Int) * ((ntheta : Int) + 1) + j + ntheta + 1
        = (((i + 1) * (ntheta + 1) + j : Nat) : Int) ∧
     (i : Int) * ((ntheta : Int) + 1) + j + ntheta + 1 + 1
        = (((i + 1) * (ntheta + 1) + (j + 1) : Nat) : Int) ∧
     i + 1 ≤ nt ∧ j + 1 ≤ ntheta) := by
  refine ⟨BezierCurve_indexLoop_closed nt ntheta m0, Bezier_indexLoop_closed nt ntheta m0,
    ?_, ?_, ?_, ?_, ?_⟩
  · rw [Bezier3_indexOuter_eq]
    exact Bezier_indexLoop_closed nt ntheta m0
  · intro k hk
    have h := getElem?_grid (fun i j => quadCell ((i : Int) * ((ntheta : Int) + 1) + j)
      ((i : Int) * ((ntheta : Int) + 1) + j + ntheta + 1)) 6 (fun _ _ => rfl) nt ntheta i j k
      hi hj hk
    exact h
  · have hn : (0 : Int) < (ntheta : Int) := by omega
    refine ⟨?_, ?_, ?_⟩ <;> omega
  · have hn : (0 : Int) < (ntheta : Int) := by omega
    refine ⟨?_, ?_, ?_⟩ <;> omega
  · refine ⟨?_, ?_, ?_, by omega, by omega⟩ <;> push_cast <;> ring

/-- Witness for C23: the cell of stack `2`, sector `3` in the grid of the classes
(`nt = 40`, `ntheta = 20`); its first index, at offset `6·(2·20 + 3)`, is `2·21 + 3`. -/
theorem index_loop_closed_form_witness :
    (gridIndices 40 20)[6 * (2 * 20 + 3) + 0]?
      = ([((2 : Nat) : Int) * (((20 : Nat) : Int) + 1) + (3 : Nat),
          ((2 : Nat) : Int) * (((20 : Nat) : Int) + 1) + (3 : Nat) + (20 : Nat) + 1,
          ((2 : Nat) : Int) * (((20 : Nat) : Int) + 1) + (3 : Nat) + 1,
          ((2 : Nat) : Int) * (((20 : Nat) : Int) + 1) + (3 : Nat) + 1,
          ((2 : Nat) : Int) * (((20 : Nat) : Int) + 1) + (3 : Nat) + (20 : Nat) + 1,
          ((2 : Nat) : Int) * (((20 : Nat) : Int) + 1) + (3 : Nat) + (20 : Nat) + 1 + 1]
            : List Int)[0]? :=
  (index_loop_closed_form 40 20 ({} : Mesh ℚ) 2 3 (by decide) (by decide)).2.2.2.1 0 (by decide)

end IndexClosedForm

section Variants
variable {α : Type} [LinearOrderedField α]

/-- C26: the Bezier surface variants differ only in texture coordinates and stride.  For every
control array and degree for which the evaluator stays inside the array (as it does for the degree
the constructors derive), `BezierCurve::hollowBezier`, `Bezier::hollowBezier` and
`Bezier3::generateFan` return meshes with identical coordinates, identical normals and identical
index sequences; the untextured variants have no texture coordinates, and the interleaved buffer
of the textured variant with the two texture floats of each vertex removed is the buffer of the
untextured variants. -/
theorem bezier_variants_differ_in_texcoords (sin cos : α → α) (nt ntheta : Nat) (cp : List α)
    (L : Int) (hev : L < 0 ∨ 3 * L.toNat + 1 < cp.length) :
    ∃ m mB m3 : Mesh α,
      BezierCurve.hollowBezier sin cos nt ntheta cp L = some m ∧
      Bezier.hollowBezier sin cos nt ntheta cp L = some mB ∧
      Bezier3.generateFan sin cos nt ntheta cp L = some m3 ∧
      (m.coordinates = mB.coordinates ∧ m.coordinates = m3.coordinates) ∧
      (m.normals = mB.normals ∧ m.normals = m3.normals) ∧
      (m.indices = mB.indices ∧ m.indices = m3.indices) ∧
      (mB.texCoords = [] ∧ m3.texCoords = []) ∧
      (stripTexCoords m.vertices = mB.vertices ∧ stripTexCoords m.vertices = m3.vertices) := by
  have hs : ∀ (co no tx : List α) (V : Nat),
      stripTexCoords ((List.range V).flatMap (interleaved8 co no tx))
        = (List.range V).flatMap (interleaved6 co no) :=
    fun co no tx V => stripTexCoords_flatMap _ _ _ (fun _ _ => rfl)
  have h1 := BezierCurve_hollowBezier_closed sin cos nt ntheta cp L hev
  have h2 := Bezier_hollowBezier_closed sin cos nt ntheta cp L hev
  have h3 := h2
  rw [← Bezier3_generateFan_eq] at h3
  exact ⟨_, _, _, h1, h2, h3, ⟨rfl, rfl⟩, ⟨rfl, rfl⟩, ⟨rfl, rfl⟩, ⟨rfl, rfl⟩,
    ⟨hs _ _ _ _, hs _ _ _ _⟩⟩

/-- Witness for C26: the straight profile from `(1, 0)` to `(1, 1)` over the rationals. -/
theorem bezier_variants_differ_in_texcoords_witness :
    ∃ m mB : Mesh ℚ,
      BezierCurve.hollowBezier (fun x : ℚ => x) (fun x : ℚ => x) 40 20 [1, 0, 0, 1, 1, 0] 1
        = some m ∧
      Bezier.hollowBezier (fun x : ℚ => x) (fun x : ℚ => x) 40 20 [1, 0, 0, 1, 1, 0] 1
        = some mB ∧
      m.coordinates = mB.coordinates ∧ stripTexCoords m.vertices = mB.vertices :=
  let ⟨m, mB, _, h1, h2, _, hc, _, _, _, hv⟩ :=
    bezier_variants_differ_in_texcoords (fun x : ℚ => x) (fun x : ℚ => x) 40 20
      [1, 0, 0, 1, 1, 0] 1 (Or.inr (by decide))
  ⟨m, mB, h1, h2, hc.1, hv.1⟩

end Variants

section Degree
variable {α : Type} [LinearOrderedField α]

theorem BezierCurveFN_negative (t : α) (cp : List α) :
    BezierCurve.BezierCurveFN t cp (-1) = some (0, 0) := by
  unfold BezierCurve.BezierCurveFN
  rfl

theorem BezierCurve_degree_eq (n : Nat) :
    (3 ≤ n → n < 2 ^ 32 → BezierCurve.degree n = ((n / 3 : Nat) : Int) - 1) ∧
    (n < 3 → BezierCurve.degree n = -1) := by
  unfold BezierCurve.degree toInt32
  constructor
  · intro h3 hn
    have e1 : n % 2 ^ 32 = n := Nat.mod_eq_of_lt hn
    have e : (n / 3 + (2 ^ 32 - 1)) % 2 ^ 32 = n / 3 - 1 := by omega
    rw [e1, e]
    have hlt : n / 3 - 1 < 2 ^ 31 := by omega
    simp only [hlt, if_true]
    omega
  · intro h
    have e1 : n % 2 ^ 32 = n := Nat.mod_eq_of_lt (by omega)
    have e : (n / 3 + (2 ^ 32 - 1)) % 2 ^ 32 = 2 ^ 32 - 1 := by omega
    rw [e1, e]
    norm_num

theorem Bezier3_degree_eq (n : Nat) :
    (3 ≤ n → n < 2 ^ 32 → Bezier3.degree n = ((n / 3 : Nat) : Int) - 1) ∧
    (n < 3 → Bezier3.degree n = -1) := by
  unfold Bezier3.degree toInt32
  constructor
  · intro h3 hn
    have e : (n / 3 % 2 ^ 32 + (2 ^ 32 - 1)) % 2 ^ 32 = n / 3 - 1 := by omega
    rw [e]
    have hlt : n / 3 - 1 < 2 ^ 31 := by omega
    simp only [hlt, if_true]
    omega
  · intro h
    have e : (n / 3 % 2 ^ 32 + (2 ^ 32 - 1)) % 2 ^ 32 = 2 ^ 32 - 1 := by omega
    rw [e]
    norm_num

/-- C30: the degree the constructors derive from the length `n` of the control array is always
safe to evaluate.  For every `n`, every index the evaluator reads (`3i` and `3i+1` for
`0 ≤ i ≤ L`) is below `n`; for `3 ≤ n` (a multiple of three or not; `n < 2^32`, the range of the
`unsigned int` conversion, which the `int` size parameter of the constructors never leaves) the
degree is `L = n/3 − 1` under integer division; for `n < 3` the unsigned subtraction wraps and
the degree is `−1`, the loop of the evaluator does not run and it returns `(0, 0)` for every `t`,
so every ring has radius `0`. -/
theorem constructor_degree_safe (n : Nat) (t dt : α) (cp : List α) (i : Nat) :
    (((i : Int) ≤ BezierCurve.degree n → 3 * i < n ∧ 3 * i + 1 < n) ∧
     ((i : Int) ≤ Bezier.degree n → 3 * i < n ∧ 3 * i + 1 < n) ∧
     ((i : Int) ≤ Bezier3.degree n → 3 * i < n ∧ 3 * i + 1 < n)) ∧
    (3 ≤ n → n < 2 ^ 32 →
      BezierCurve.degree n = ((n / 3 : Nat) : Int) - 1 ∧
      Bezier.degree n = ((n / 3 : Nat) : Int) - 1 ∧
      Bezier3.degree n = ((n / 3 : Nat) : Int) - 1) ∧
    (n < 3 →
      BezierCurve.degree n = -1 ∧ Bezier.degree n = -1 ∧ Bezier3.degree n = -1) ∧
    (BezierCurve.BezierCurveFN t cp (-1) = some (0, 0) ∧
     Bezier.BezierCurve t cp (-1) = some (0, 0) ∧
     Bezier3.BezierCurve t cp (-1) = some (0, 0)) ∧
    (cp.length < 3 →
      revProfile cp (BezierCurve.degree cp.length) dt i = (0, 0) ∧
      revProfile cp (Bezier.degree cp.length) dt i = (0, 0) ∧
      revProfile cp (Bezier3.degree cp.length) dt i = (0, 0)) := by
  have hB : Bezier.degree n = BezierCurve.degree n := rfl
  have hBl : Bezier.degree cp.length = BezierCurve.degree cp.length := rfl
  refine ⟨⟨?_, ?_, ?_⟩, ?_, ?_, ⟨BezierCurveFN_negative t cp, BezierCurveFN_negative t cp,
    BezierCurveFN_negative t cp⟩, ?_⟩
  · intro h
    rcases BezierCurve_degree_safe n with hneg | hlt
    · omega
    · omega
  · intro h
    rw [hB] at h
    rcases BezierCurve_degree_safe n with hneg | hlt
    · omega
    · omega
  · intro h
    rcases Bezier3_degree_safe n with hneg | hlt
    · omega
    · omega
  · intro h3 hn
    rw [hB]
    exact ⟨(BezierCurve_degree_eq n).1 h3 hn, (BezierCurve_degree_eq n).1 h3 hn,
      (Bezier3_degree_eq n).1 h3 hn⟩
  · intro h
    rw [hB]
    exact ⟨(BezierCurve_degree_eq n).2 h, (BezierCurve_degree_eq n).2 h,
      (Bezier3_degree_eq n).2 h⟩
  · intro h
    rw [hBl, (BezierCurve_degree_eq cp.length).2 h, (Bezier3_degree_eq cp.length).2 h]
    have e : revProfile cp (-1) dt i = (0, 0) := by
      rw [revProfile, BezierCurveFN_negative]
      rfl
    exact ⟨e, e, e⟩

/-- Witness for C30: a control array of seven floats has degree `1` and the evaluator reads the
indices `0, 1, 3, 4`; an array of two floats has degree `−1`. -/
theorem constructor_degree_safe_witness :
    (3 * 1 < 7 ∧ 3 * 1 + 1 < 7) ∧
    BezierCurve.degree 7 = ((7 / 3 : Nat) : Int) - 1 ∧
    BezierCurve.degree 2 = -1 ∧
    revProfile ([5, 6] : List ℚ) (BezierCurve.degree ([5, 6] : List ℚ).length) (1 / 40) 3
      = (0, 0) :=
  ⟨(constructor_degree_safe 7 (0 : ℚ) 0 [] 1).1.1 (by decide),
   ((constructor_degree_safe 7 (0 : ℚ) 0 [] 1).2.1 (by decide) (by decide)).1,
   ((constructor_degree_safe 2 (0 : ℚ) 0 [] 1).2.2.1 (by decide)).1,
   ((constructor_degree_safe 2 (0 : ℚ) (1 / 40) [5, 6] 3).2.2.2.2 (by decide)).1⟩

end Degree

section Overflow

/-- C24: `nCr` with its `long long` arithmetic modelled as wrapping modulo `2^64`.  For every
`0 ≤ r ≤ n ≤ 61` every intermediate product `ans·(n − r + i)` lies in `[0, 2^63 − 1]` and the
result is the binomial coefficient `C(n, r)`.  For `n = 62`, `r = 31` the product of the last
step (`i = 31`) is `C(61,30)·62 = 14428278950913093728 > 2^63 − 1`, although
`C(62,31) = 465428353255261088` fits in 64 bits; the function returns
`−129627907186982512`, which is not `C(62,31)`. -/
theorem nCr_overflow_threshold :
    (∀ n r : Nat, r ≤ n → n ≤ 61 →
      (∀ p ∈ nCr64Products n r, 0 ≤ p ∧ p ≤ 2 ^ 63 - 1) ∧
      nCr64 n r = (n.choose r : Int)) ∧
    ((nCr64Products 62 31)[30]? = some 14428278950913093728 ∧
     (14428278950913093728 : Int) > 2 ^ 63 - 1) ∧
    ((Nat.choose 62 31 : Int) = 465428353255261088 ∧
     (465428353255261088 : Int) ≤ 2 ^ 63 - 1) ∧
    nCr64 62 31 = -129627907186982512 ∧
    nCr64 62 31 ≠ (Nat.choose 62 31 : Int) := by
  have hc : (Nat.choose 62 31 : Int) = 465428353255261088 := by
    have h := nCr_nat 62 31 (by decide)
    have e : nCr ((62 : Nat) : Int) ((31 : Nat) : Int) = 465428353255261088 := by decide
    rw [e] at h
    exact h.symm
  have hv : nCr64 62 31 = -129627907186982512 := by
    set_option maxRecDepth 100000 in decide
  have hp : (nCr64Products 62 31)[30]? = some 14428278950913093728 := by
    set_option maxRecDepth 100000 in decide
  refine ⟨?_, ⟨hp, by norm_num⟩, ⟨hc, by norm_num⟩, hv, ?_⟩
  · intro n r hr hn
    have hred := nCrReduce_nat n r hr
    set q : Nat := if r > n / 2 then n - r else r with hq
    have hqn : q ≤ n := by
      rw [hq]; split_ifs <;> omega
    have hnq : ((n : Nat) : Int) = ((n - q : Nat) : Int) + ((q : Nat) : Int) := by omega
    have key : ∀ k : Nat, k ≤ q → nCr64Loop n q k = ((n - q + k).choose k : Int) := by
      intro k hk
      rw [hnq]
      exact nCr64Loop_eq_choose (n - q) q k hk (by omega)
    constructor
    · intro p hp
      unfold nCr64Products at hp
      rw [hred] at hp
      simp only [Int.toNat_ofNat, List.mem_map, List.mem_range] at hp
      obtain ⟨j, hj, rfl⟩ := hp
      rw [key j (by omega)]
      have e : ((n : Int) - (q : Int) + ((j : Int) + 1))
          = ((n - q : Nat) : Int) + ((j : Int) + 1) := by omega
      rw [e]
      have hb := choose_product_bound (n - q) j (by omega)
      have h0 : (0 : Int)
          ≤ ((n - q + j).choose j : Int) * (((n - q : Nat) : Int) + ((j : Int) + 1)) :=
        mul_nonneg (Int.natCast_nonneg _) (by omega)
      exact ⟨h0, by omega⟩
    · unfold nCr64
      simp only
      rw [hred, Int.toNat_ofNat, key q (le_refl q)]
      have e : n - q + q = n := by omega
      rw [e]
      by_cases h2 : r > n / 2
      · have : q = n - r := by rw [hq]; simp [h2]
        rw [this, Nat.choose_symm hr]
      · have : q = r := by rw [hq]; simp [h2]
        rw [this]
  · rw [hv, hc]
    norm_num

/-- Witness for C24: `n = 61`, `r = 30`, the largest case without overflow. -/
theorem nCr_overflow_threshold_witness :
    (30 : Nat) ≤ 61 ∧ (61 : Nat) ≤ 61 ∧
    (∀ p ∈ nCr64Products ((61 : Nat) : Int) ((30 : Nat) : Int), 0 ≤ p ∧ p ≤ 2 ^ 63 - 1) ∧
    nCr64 ((61 : Nat) : Int) ((30 : Nat) : Int) = (Nat.choose 61 30 : Int) :=
  ⟨by decide, by decide, nCr_overflow_threshold.1 61 30 (by decide) (by decide)⟩

end Overflow

section MaterialFacts

/-- C22 (code defect): `BezierCurve::drawBezierCurve` does not consume the stored material.  What
it writes to the four material uniforms is the same for every object; for the object constructed
with the default arguments the written ambient, diffuse and specular colours are
`(0.969, 0.776, 0.561)`, `(0.969, 0.776, 0.561)` and `(1, 1, 1)`, not the stored
`(1, 0, 0)`, `(1, 0, 0)` and `(0.1, 0.1, 0.1)`; an object constructed with `shiny = 8` is drawn
with shininess `32`.  The sibling classes `Bezier` and `Bezier3` write the stored members. -/
theorem bezierCurve_draw_ignores_material :
    (∀ self self' : Material ℚ,
      BezierCurve.drawBezierCurve self = BezierCurve.drawBezierCurve self') ∧
    ((BezierCurve.drawBezierCurve (BezierCurve.defaultMaterial : Material ℚ)).ambient
        = [969 / 1000, 776 / 1000, 561 / 1000] ∧
     (BezierCurve.drawBezierCurve (BezierCurve.defaultMaterial : Material ℚ)).ambient
        ≠ [(BezierCurve.defaultMaterial : Material ℚ).ambient.x,
           (BezierCurve.defaultMaterial : Material ℚ).ambient.y,
           (BezierCurve.defaultMaterial : Material ℚ).ambient.z]) ∧
    (BezierCurve.drawBezierCurve (BezierCurve.defaultMaterial : Material ℚ)).diffuse
        ≠ [(BezierCurve.defaultMaterial : Material ℚ).diffuse.x,
           (BezierCurve.defaultMaterial : Material ℚ).diffuse.y,
           (BezierCurve.defaultMaterial : Material ℚ).diffuse.z] ∧
    (BezierCurve.drawBezierCurve (BezierCurve.defaultMaterial : Material ℚ)).specular
        ≠ [(BezierCurve.defaultMaterial : Material ℚ).specular.x,
           (BezierCurve.defaultMaterial : Material ℚ).specular.y,
           (BezierCurve.defaultMaterial : Material ℚ).specular.z] ∧
    (BezierCurve.drawBezierCurve
        (BezierCurve.material (⟨1, 0, 0, 1⟩ : Vec4 ℚ) ⟨1, 0, 0, 1⟩ ⟨1, 1, 1, 1⟩ 8)).shininess
        ≠ (BezierCurve.material (⟨1, 0, 0, 1⟩ : Vec4 ℚ) ⟨1, 0, 0, 1⟩ ⟨1, 1, 1, 1⟩ 8).shininess ∧
    (∀ amb diff spec : Vec4 ℚ, ∀ shiny : ℚ,
      Bezier.drawBezier (BezierCurve.material amb diff spec shiny)
        = ⟨[amb.x, amb.y, amb.z, amb.w], [diff.x, diff.y, diff.z, diff.w],
           [spec.x, spec.y, spec.z, spec.w], shiny⟩ ∧
      Bezier3.drawBezier (BezierCurve.material amb diff spec shiny)
        = ⟨[amb.x, amb.y, amb.z, amb.w], [diff.x, diff.y, diff.z, diff.w],
           [spec.x, spec.y, spec.z, spec.w], shiny⟩) := by
  refine ⟨fun _ _ => rfl, ⟨rfl, ?_⟩, ?_, ?_, ?_, fun _ _ _ _ => ⟨rfl, rfl⟩⟩
  · simp [BezierCurve.drawBezierCurve, BezierCurve.defaultMaterial, BezierCurve.material]
  · simp [BezierCurve.drawBezierCurve, BezierCurve.defaultMaterial, BezierCurve.material]
  · simp [BezierCurve.drawBezierCurve, BezierCurve.defaultMaterial, BezierCurve.material]
  · simp [BezierCurve.drawBezierCurve, BezierCurve.material]

end MaterialFacts

section CheckedFacts
variable {α : Type} [LinearOrderedField α]

theorem forLoopM_none_first {σ : Type} (n : Nat) (body : Nat → σ → Option σ) (s : σ)
    (h : body 0 s = none) : forLoopM (n + 1) body s = none := by
  induction n with
  | zero => rw [forLoopM_succ, forLoopM_zero]; exact h
  | succ k ih => rw [forLoopM_succ, ih]; rfl

theorem checkedInv_ne (r : α) (h : r ≠ 0) : checkedInv r = some (1 / r) := by
  simp [checkedInv, h]

/-- When no sampled radius is zero, the checked ring loop of `BezierCurve` is the ring loop. -/
theorem BezierCurve_ringLoopChecked_eq (sin cos : α → α) (nt ntheta : Nat) (cp : List α)
    (L : Int) (dtheta dt : α) (hev : L < 0 ∨ 3 * L.toNat + 1 < cp.length) (n : Nat)
    (hr : ∀ i, i < n → (revProfile cp L dt i).1 ≠ 0) :
    forLoopM n (BezierCurve.ringBodyChecked sin cos nt ntheta cp L dtheta dt)
        ((0 : α), ({} : Mesh α))
      = forLoopM n (BezierCurve.ringBody sin cos nt ntheta cp L dtheta dt)
        ((0 : α), ({} : Mesh α)) := by
  rw [BezierCurve_ringLoop_closed sin cos nt ntheta cp L dtheta dt hev n]
  refine forLoopM_closed (fun k => ((k : α) * dt,
          ({ coordinates := revCoordinateArray sin cos ntheta cp L dtheta dt k,
             normals := revNormalArray sin cos ntheta cp L dtheta dt k,
             texCoords := revTexCoordArray nt ntheta k,
             indices := [], vertices := [] } : Mesh α))) n _ _ ?_ ?_
  · simp [revCoordinateArray, revNormalArray, revTexCoordArray]
  · intro i hi
    have e : (i : α) * dt + dt = ((i + 1 : Nat) : α) * dt := by push_cast; ring
    simp only [BezierCurve.ringBodyChecked, revProfile_eq cp L dt i hev, Option.pure_def,
      Option.bind_eq_bind, Option.some_bind, checkedInv_ne _ (hr i hi),
      BezierCurve_sectorLoop_closed, e,
      revCoordinateArray, revNormalArray, revTexCoordArray, flatMap_range_succ]

theorem Bezier_ringLoopChecked_eq (sin cos : α → α) (ntheta : Nat) (cp : List α)
    (L : Int) (dtheta dt : α) (hev : L < 0 ∨ 3 * L.toNat + 1 < cp.length) (n : Nat)
    (hr : ∀ i, i < n → (revProfile cp L dt i).1 ≠ 0) :
    forLoopM n (Bezier.ringBodyChecked sin cos ntheta cp L dtheta dt)
        ((0 : α), ({} : Mesh α))
      = forLoopM n (Bezier.ringBody sin cos ntheta cp L dtheta dt)
        ((0 : α), ({} : Mesh α)) := by
  rw [Bezier_ringLoop_closed sin cos ntheta cp L dtheta dt hev n]
  refine forLoopM_closed (fun k => ((k : α) * dt,
          ({ coordinates := revCoordinateArray sin cos ntheta cp L dtheta dt k,
             normals := revNormalArray sin cos ntheta cp L dtheta dt k,
             texCoords := [], indices := [], vertices := [] } : Mesh α))) n _ _ ?_ ?_
  · simp [revCoordinateArray, revNormalArray]
  · intro i hi
    have e : (i : α) * dt + dt = ((i + 1 : Nat) : α) * dt := by push_cast; ring
    simp only [Bezier.ringBodyChecked, Bezier_BezierCurve_eq, revProfile_eq cp L dt i hev,
      Option.pure_def, Option.bind_eq_bind, Option.some_bind, checkedInv_ne _ (hr i hi),
      Bezier_sectorLoop_closed, e, revCoordinateArray, revNormalArray, flatMap_range_succ]

theorem Bezier3_generateFanChecked_eq (sin cos : α → α) (nt ntheta : Nat) (cp : List α)
    (L : Int) :
    Bezier3.generateFanChecked sin cos nt ntheta cp L
      = Bezier.hollowBezierChecked sin cos nt ntheta cp L := rfl

/-- The ring at `t = 0` has the radius `P_0.x`. -/
theorem BezierCurveFN_at_zero (cp : List α) (L : Int) (h0 : 0 ≤ L)
    (hev : L < 0 ∨ 3 * L.toNat + 1 < cp.length) :
    BezierCurve.BezierCurveFN 0 cp L = some (cp.getD 0 0, cp.getD 1 0) := by
  have hlen : 3 * L.toNat + 1 < cp.length := by
    rcases hev with h | h
    · omega
    · exact h
  have e : L = (L.toNat : Int) := by omega
  rw [e, BezierCurveFN_eq_code 0 cp L.toNat hlen]
  have hc : ¬ ((0 : α) > 1) := by norm_num
  simp only [hc, if_false, bernsteinCode_zero]

/-- C25: the surface-of-revolution builders compute `lengthInv = 1 / r` with no guard.  With
the division observed (`none` on a zero divisor): if the evaluator stays inside the control array
and every sampled radius `r_i`, `i ∈ [0, nt]` (the first component the evaluator returns at
`t = i·dt`), is non-zero, then no division by zero occurs and the three builders return their
mesh; if `0 ≤ L` and the first control point has `x = 0`, the ring at `t = 0` has
`r = P_0.x = 0` and the three builders divide by zero. -/
theorem unguarded_inverse_radius (sin cos : α → α) (nt ntheta : Nat) (cp : List α) (L : Int)
    (hev : L < 0 ∨ 3 * L.toNat + 1 < cp.length) :
    ((∀ i : Nat, i ≤ nt → ∀ r y : α,
        BezierCurve.BezierCurveFN ((i : α) * (1 / (nt : α))) cp L = some (r, y) → r ≠ 0) →
      (BezierCurve.hollowBezierChecked sin cos nt ntheta cp L
          = BezierCurve.hollowBezier sin cos nt ntheta cp L ∧
       ∃ m, BezierCurve.hollowBezierChecked sin cos nt ntheta cp L = some m) ∧
      (Bezier.hollowBezierChecked sin cos nt ntheta cp L
          = Bezier.hollowBezier sin cos nt ntheta cp L ∧
       ∃ m, Bezier.hollowBezierChecked sin cos nt ntheta cp L = some m) ∧
      (Bezier3.generateFanChecked sin cos nt ntheta cp L
          = Bezier3.generateFan sin cos nt ntheta cp L ∧
       ∃ m, Bezier3.generateFanChecked sin cos nt ntheta cp L = some m)) ∧
    (0 ≤ L → cp[0]? = some 0 →
      (∃ y, BezierCurve.BezierCurveFN 0 cp L = some (0, y)) ∧
      BezierCurve.hollowBezierChecked sin cos nt ntheta cp L = none ∧
      Bezier.hollowBezierChecked sin cos nt ntheta cp L = none ∧
      Bezier3.generateFanChecked sin cos nt ntheta cp L = none) := by
  constructor
  · intro hr
    have hr' : ∀ i, i < nt + 1 → (revProfile cp L (1 / (nt : α)) i).1 ≠ 0 := by
      intro i hi
      exact hr i (by omega) _ _ (revProfile_eq cp L (1 / (nt : α)) i hev)
    have h1 : BezierCurve.hollowBezierChecked sin cos nt ntheta cp L
        = BezierCurve.hollowBezier sin cos nt ntheta cp L := by
      unfold BezierCurve.hollowBezierChecked BezierCurve.hollowBezier
      simp only [BezierCurve_ringLoopChecked_eq sin cos nt ntheta cp L _ _ hev (nt + 1) hr']
    have h2 : Bezier.hollowBezierChecked sin cos nt ntheta cp L
        = Bezier.hollowBezier sin cos nt ntheta cp L := by
      unfold Bezier.hollowBezierChecked Bezier.hollowBezier
      simp only [Bezier_ringLoopChecked_eq sin cos ntheta cp L _ _ hev (nt + 1) hr']
    have c1 := BezierCurve_hollowBezier_closed sin cos nt ntheta cp L hev
    have c2 := Bezier_hollowBezier_closed sin cos nt ntheta cp L hev
    rw [← h1] at c1
    rw [← h2] at c2
    have h3 : Bezier3.generateFanChecked sin cos nt ntheta cp L
        = Bezier3.generateFan sin cos nt ntheta cp L := by
      rw [Bezier3_generateFanChecked_eq, Bezier3_generateFan_eq]; exact h2
    have c3 := c2
    rw [← Bezier3_generateFanChecked_eq] at c3
    exact ⟨⟨h1, _, c1⟩, ⟨h2, _, c2⟩, ⟨h3, _, c3⟩⟩
  · intro h0 hc0
    have hz := BezierCurveFN_at_zero cp L h0 hev
    have e0 : cp.getD 0 0 = 0 := by
      rw [List.getD_eq_getElem?_getD, hc0]; rfl
    rw [e0] at hz
    have b1 : BezierCurve.ringBodyChecked sin cos nt ntheta cp L (2 * bezierPi / (ntheta : α))
        (1 / (nt : α)) 0 ((0 : α), ({} : Mesh α)) = none := by
      simp [BezierCurve.ringBodyChecked, hz, checkedInv]
    have b2 : Bezier.ringBodyChecked sin cos ntheta cp L (2 * bezierPi / (ntheta : α))
        (1 / (nt : α)) 0 ((0 : α), ({} : Mesh α)) = none := by
      simp [Bezier.ringBodyChecked, Bezier_BezierCurve_eq, hz, checkedInv]
    have n2 : Bezier.hollowBezierChecked sin cos nt ntheta cp L = none := by
      unfold Bezier.hollowBezierChecked
      simp only [forLoopM_none_first nt _ _ b2]
      rfl
    refine ⟨⟨_, hz⟩, ?_, n2, ?_⟩
    · unfold BezierCurve.hollowBezierChecked
      simp only [forLoopM_none_first nt _ _ b1]
      rfl
    · rw [Bezier3_generateFanChecked_eq]
      exact n2

/-- Witness for C25: over the rationals, the straight profile from `(1, 0)` to `(1, 1)` has
radius `1` on every ring, and the profile from `(0, 0)` to `(1, 1)` starts on the axis. -/
theorem unguarded_inverse_radius_witness :
    (∃ m, BezierCurve.hollowBezierChecked (fun x : ℚ => x) (fun x : ℚ => x) 40 20
        [1, 0, 0, 1, 1, 0] 1 = some m) ∧
    BezierCurve.hollowBezierChecked (fun x : ℚ => x) (fun x : ℚ => x) 40 20
        [0, 0, 0, 1, 1, 0] 1 = none := by
  constructor
  · refine ((unguarded_inverse_radius (fun x : ℚ => x) (fun x : ℚ => x) 40 20
      [1, 0, 0, 1, 1, 0] 1 (Or.inr (by decide))).1 ?_).1.2
    intro i _ r y h
    have hs := BezierCurveFN_eq_spec ((i : ℚ) * (1 / ((40 : Nat) : ℚ)))
      ([1, 0, 0, 1, 1, 0] : List ℚ) 1 (by decide) (by decide)
    rw [show ((1 : Nat) : Int) = 1 from rfl] at hs
    rw [hs] at h
    have hr : r = bernsteinSpec [1, 0, 0, 1, 1, 0] 1
        (if (i : ℚ) * (1 / ((40 : Nat) : ℚ)) > 1 then 1 else (i : ℚ) * (1 / ((40 : Nat) : ℚ)))
        0 := (congrArg Prod.fst (Option.some.inj h)).symm
    have hb : ∀ u : ℚ, bernsteinSpec [1, 0, 0, 1, 1, 0] 1 u 0 = 1 := by
      intro u
      simp [bernsteinSpec, Finset.sum_range_succ]
    rw [hr, hb]
    exact one_ne_zero
  · exact ((unguarded_inverse_radius (fun x : ℚ => x) (fun x : ℚ => x) 40 20
      [0, 0, 0, 1, 1, 0] 1 (Or.inr (by decide))).2 (by decide) rfl).2.1

end CheckedFacts

section ConvexHull
variable {α : Type} [LinearOrderedField α]

theorem bernsteinWeight_nonneg (L i : Nat) (t : α) (h0 : 0 ≤ t) (h1 : t ≤ 1) :
    0 ≤ bernsteinWeight L i t := by
  unfold bernsteinWeight
  have : 0 ≤ 1 - t := by linarith
  positivity

/-- The Bernstein weights of degree `L` sum to `1` (binomial theorem). -/
theorem bernsteinWeight_sum (L : Nat) (t : α) :
    ∑ i in Finset.range (L + 1), bernsteinWeight L i t = 1 := by
  have h := add_pow t (1 - t) L
  have e : t + (1 - t) = 1 := by ring
  rw [e, one_pow] at h
  rw [h]
  refine Finset.sum_congr rfl ?_
  intro i _
  unfold bernsteinWeight
  ring

theorem bernsteinSpec_eq_weights (cp : List α) (L : Nat) (t : α) (c : Nat) :
    bernsteinSpec cp L t c
      = ∑ i in Finset.range (L + 1), bernsteinWeight L i t * cp.getD (3 * i + c) 0 := rfl

/-- A Bernstein combination of values in `[lo, hi]` lies in `[lo, hi]`. -/
theorem bernsteinSpec_bounds (cp : List α) (L : Nat) (t : α) (c : Nat) (h0 : 0 ≤ t)
    (h1 : t ≤ 1) (lo hi : α)
    (h : ∀ i : Nat, i ≤ L → lo ≤ cp.getD (3 * i + c) 0 ∧ cp.getD (3 * i + c) 0 ≤ hi) :
    lo ≤ bernsteinSpec cp L t c ∧ bernsteinSpec cp L t c ≤ hi := by
  rw [bernsteinSpec_eq_weights]
  have hlo : ∑ i in Finset.range (L + 1), bernsteinWeight L i t * lo = lo := by
    rw [← Finset.sum_mul, bernsteinWeight_sum, one_mul]
  have hhi : ∑ i in Finset.range (L + 1), bernsteinWeight L i t * hi = hi := by
    rw [← Finset.sum_mul, bernsteinWeight_sum, one_mul]
  constructor
  · calc lo = ∑ i in Finset.range (L + 1), bernsteinWeight L i t * lo := hlo.symm
      _ ≤ _ := Finset.sum_le_sum fun i hi =>
          mul_le_mul_of_nonneg_left (h i (by have := Finset.mem_range.mp hi; omega)).1
            (bernsteinWeight_nonneg L i t h0 h1)
  · calc _ ≤ ∑ i in Finset.range (L + 1), bernsteinWeight L i t * hi :=
          Finset.sum_le_sum fun i hi =>
            mul_le_mul_of_nonneg_left (h i (by have := Finset.mem_range.mp hi; omega)).2
              (bernsteinWeight_nonneg L i t h0 h1)
      _ = hi := hhi

/-- A Bernstein combination of equal values is that value, for every parameter. -/
theorem bernsteinSpec_const (cp : List α) (L : Nat) (t : α) (c : Nat) (v : α)
    (h : ∀ i : Nat, i ≤ L → cp.getD (3 * i + c) 0 = v) : bernsteinSpec cp L t c = v := by
  rw [bernsteinSpec_eq_weights]
  have e : ∑ i in Finset.range (L + 1), bernsteinWeight L i t * cp.getD (3 * i + c) 0
      = ∑ i in Finset.range (L + 1), bernsteinWeight L i t * v := by
    refine Finset.sum_congr rfl ?_
    intro i hi
    rw [h i (by have := Finset.mem_range.mp hi; omega)]
  rw [e, ← Finset.sum_mul, bernsteinWeight_sum, one_mul]

/-- A Bernstein combination of positive values is positive. -/
theorem bernsteinSpec_pos (cp : List α) (L : Nat) (t : α) (c : Nat) (h0 : 0 ≤ t) (h1 : t ≤ 1)
    (h : ∀ i : Nat, i ≤ L → 0 < cp.getD (3 * i + c) 0) : 0 < bernsteinSpec cp L t c := by
  rw [bernsteinSpec_eq_weights]
  have hnn : ∀ i ∈ Finset.range (L + 1),
      0 ≤ bernsteinWeight L i t * cp.getD (3 * i + c) 0 := fun i hi =>
    mul_nonneg (bernsteinWeight_nonneg L i t h0 h1)
      (le_of_lt (h i (by have := Finset.mem_range.mp hi; omega)))
  by_contra hcon
  have hz : ∑ i in Finset.range (L + 1), bernsteinWeight L i t * cp.getD (3 * i + c) 0 = 0 :=
    le_antisymm (not_lt.mp hcon) (Finset.sum_nonneg hnn)
  have hall := (Finset.sum_eq_zero_iff_of_nonneg hnn).mp hz
  have hw : ∀ i ∈ Finset.range (L + 1), bernsteinWeight L i t = 0 := by
    intro i hi
    have hp := h i (by have := Finset.mem_range.mp hi; omega)
    rcases mul_eq_zero.mp (hall i hi) with hw | hx
    · exact hw
    · exact absurd hx (ne_of_gt hp)
  have hs := bernsteinWeight_sum L t
  rw [Finset.sum_eq_zero hw] at hs
  exact zero_ne_one hs

/-- The clamped parameter of the evaluator lies in `[0, 1]` for every `t ≥ 0`. -/
theorem clamp_mem (t : α) (h0 : 0 ≤ t) :
    0 ≤ (if t > 1 then 1 else t) ∧ (if t > 1 then 1 else t) ≤ 1 := by
  by_cases h : t > 1
  · simp [h]
  · simp only [h, if_false]
    exact ⟨h0, not_lt.mp h⟩

/-- The sampled radius of every ring is non-zero when the evaluator returns a positive radius at
every parameter `t ≥ 0`; then the builders with the division observed return a mesh. -/
theorem hollowBezierChecked_total (sin cos : α → α) (nt ntheta : Nat) (cp : List α) (L : Int)
    (hev : L < 0 ∨ 3 * L.toNat + 1 < cp.length)
    (hr : ∀ i, i < nt + 1 → (revProfile cp L (1 / (nt : α)) i).1 ≠ 0) :
    (∃ m, BezierCurve.hollowBezierChecked sin cos nt ntheta cp L = some m) ∧
    (∃ m, Bezier.hollowBezierChecked sin cos nt ntheta cp L = some m) ∧
    (∃ m, Bezier3.generateFanChecked sin cos nt ntheta cp L = some m) := by
  have h1 : BezierCurve.hollowBezierChecked sin cos nt ntheta cp L
      = BezierCurve.hollowBezier sin cos nt ntheta cp L := by
    unfold BezierCurve.hollowBezierChecked BezierCurve.hollowBezier
    simp only [BezierCurve_ringLoopChecked_eq sin cos nt ntheta cp L _ _ hev (nt + 1) hr]
  have h2 : Bezier.hollowBezierChecked sin cos nt ntheta cp L
      = Bezier.hollowBezier sin cos nt ntheta cp L := by
    unfold Bezier.hollowBezierChecked Bezier.hollowBezier
    simp only [Bezier_ringLoopChecked_eq sin cos ntheta cp L _ _ hev (nt + 1) hr]
  have c1 := BezierCurve_hollowBezier_closed sin cos nt ntheta cp L hev
  have c2 := Bezier_hollowBezier_closed sin cos nt ntheta cp L hev
  rw [← h1] at c1
  rw [← h2] at c2
  have c3 := c2
  rw [← Bezier3_generateFanChecked_eq] at c3
  exact ⟨⟨_, c1⟩, ⟨_, c2⟩, ⟨_, c3⟩⟩

end ConvexHull

section SeamPositions
variable {α : Type} [LinearOrderedField α]

/-- The positions of the two side vertices of the rim position `j` of `CylinderTree`. -/
theorem CylinderTree_rim_position (sin cos : α → α) (self : CylinderParams α) (r h : α)
    (sectorCount : Int) (hr : 0 < r) (h3 : 3 ≤ sectorCount) (j : Nat)
    (hj : j ≤ sectorCount.toNat) :
    (CylinderTree.construct sin cos self r h sectorCount).position (2 * j)
      = some ⟨r * cos ((j : α) * (2 * PI_31416 / (sectorCount : α))), -h / 2,
              r * sin ((j : α) * (2 * PI_31416 / (sectorCount : α)))⟩ ∧
    (CylinderTree.construct sin cos self r h sectorCount).position (2 * j + 1)
      = some ⟨r * cos ((j : α) * (2 * PI_31416 / (sectorCount : α))), h / 2,
              r * sin ((j : α) * (2 * PI_31416 / (sectorCount : α)))⟩ := by
  obtain ⟨eS, eH, eR⟩ := CylinderTree_set_eq self r h sectorCount
  rw [if_pos hr] at eR
  have hmax : max sectorCount 3 = sectorCount := max_eq_left h3
  rw [hmax] at eS
  obtain ⟨hc, _⟩ := CylinderTree_construct_arrays sin cos self r h sectorCount
  rw [hmax] at hc
  unfold Mesh.position
  rw [hc]
  exact readVec3_chunk6 _ _ _ j (by omega) _ _ _ _ _ _ (fun _ => rfl)
    (by simp only [cylRimCoordinates, cylSectorAngle, eS, eH, eR])

/-- The positions of the two side vertices of the rim position `j` of `CylinderNoTex`. -/
theorem CylinderNoTex_rim_position (sin cos : α → α) (self : CylinderParams α) (r h : α)
    (sectorCount : Int) (hr : 0 < r) (h3 : 3 ≤ sectorCount) (j : Nat)
    (hj : j ≤ sectorCount.toNat) :
    (CylinderNoTex.construct sin cos self r h sectorCount).position (2 * j)
      = some ⟨r * cos ((j : α) * (2 * PI_31416 / (sectorCount : α))), -h / 2,
              r * sin ((j : α) * (2 * PI_31416 / (sectorCount : α)))⟩ ∧
    (CylinderNoTex.construct sin cos self r h sectorCount).position (2 * j + 1)
      = some ⟨r * cos ((j : α) * (2 * PI_31416 / (sectorCount : α))), h / 2,
              r * sin ((j : α) * (2 * PI_31416 / (sectorCount : α)))⟩ := by
  obtain ⟨eS, eH, eR⟩ := CylinderNoTex_set_eq self r h sectorCount
  rw [if_pos hr] at eR
  have hmax : max sectorCount 3 = sectorCount := max_eq_left h3
  rw [hmax] at eS
  obtain ⟨hc, _⟩ := CylinderNoTex_construct_arrays sin cos self r h sectorCount
  rw [hmax] at hc
  unfold Mesh.position
  rw [hc]
  exact readVec3_chunk6 _ _ _ j (by omega) _ _ _ _ _ _ (fun _ => rfl)
    (by simp only [cylRimCoordinates, cylSectorAngle, eS, eH, eR])

end SeamPositions

section SeamReal

/-- The angle `2·3.1416` of the last rim position exceeds `2π` by between `14·10⁻⁶` and
`16·10⁻⁶`; its sine and cosine are close to, and different from, `0` and `1`. -/
theorem seam_trig :
    0 < Real.sin (2 * PI_31416) ∧ Real.sin (2 * PI_31416) < 2 / 100000 ∧
    1 - 2 / 10 ^ 10 < Real.cos (2 * PI_31416) ∧ Real.cos (2 * PI_31416) < 1 := by
  have hP : (PI_31416 : ℝ) = 31416 / 10000 := rfl
  have hlo := Real.pi_gt_d6
  have hhi := Real.pi_lt_d6
  set d : ℝ := 2 * PI_31416 - 2 * Real.pi with hd
  have hd0 : 14 / 1000000 < d := by rw [hd, hP]; linarith
  have hd1 : d < 16 / 1000000 := by rw [hd, hP]; linarith
  have e : 2 * (PI_31416 : ℝ) = d + 2 * Real.pi := by rw [hd]; ring
  have hs : Real.sin (2 * PI_31416) = Real.sin d := by rw [e, Real.sin_add_two_pi]
  have hc : Real.cos (2 * PI_31416) = Real.cos d := by rw [e, Real.cos_add_two_pi]
  have hdpos : 0 < d := by linarith
  have hspos : 0 < Real.sin d := Real.sin_pos_of_pos_of_lt_pi hdpos (by linarith)
  have hslt : Real.sin d < d := Real.sin_lt hdpos
  have hclow : 1 - d ^ 2 / 2 ≤ Real.cos d := Real.one_sub_sq_div_two_le_cos
  have hsq := Real.sin_sq_add_cos_sq d
  have hcle : Real.cos d ≤ 1 := Real.cos_le_one d
  have hcne : Real.cos d < 1 := by
    rcases lt_or_eq_of_le hcle with h | h
    · exact h
    · rw [h] at hsq
      have : Real.sin d ^ 2 = 0 := by linarith
      have : Real.sin d = 0 := pow_eq_zero_iff (by norm_num) |>.mp this
      linarith
  rw [hs, hc]
  refine ⟨hspos, by linarith, ?_, hcne⟩
  have : d ^ 2 < (16 / 1000000) ^ 2 := by
    nlinarith
  have h2 : ((16 : ℝ) / 1000000) ^ 2 / 2 < 2 / 10 ^ 10 := by norm_num
  linarith

/-- The last rim position is at the angle `2·PI`. -/
theorem seam_angle (sectorCount : Int) (h3 : 3 ≤ sectorCount) :
    ((sectorCount.toNat : Nat) : ℝ) * (2 * PI_31416 / (sectorCount : ℝ)) = 2 * PI_31416 := by
  have e : ((sectorCount.toNat : Nat) : ℝ) = (sectorCount : ℝ) := by
    have : ((sectorCount.toNat : Nat) : Int) = sectorCount := by omega
    exact_mod_cast this
  have hne : (sectorCount : ℝ) ≠ 0 := by
    have : (3 : ℝ) ≤ (sectorCount : ℝ) := by exact_mod_cast h3
    linarith
  rw [e]
  field_simp

/-- C27 (as amended): in exact real arithmetic with the constant `PI = 3.1416` of the code, the
seam of the cylinder closes only approximately.  For `CylinderTree` and `CylinderNoTex` with
radius `r > 0` and `sectorCount ≥ 3`, the side vertices `0` and `1` are `(r, ∓h/2, 0)`, while the
side vertices `2·sectorCount` and `2·sectorCount + 1` of the last angular position are
`(x, ∓h/2, z)` with `x = r·cos(2·PI)`, `z = r·sin(2·PI)`; since `2·PI = 6.2832 > 2π`,
`0 < z < 2·10⁻⁵·r` and `(1 − 2·10⁻¹⁰)·r < x < r`: the `y` coordinates agree and `x`, `z` differ
from those of the first position. -/
theorem cylinder_seam_closes_approximately (self : CylinderParams ℝ) (r h : ℝ)
    (sectorCount : Int) (hr : 0 < r) (h3 : 3 ≤ sectorCount) :
    ((CylinderTree.construct Real.sin Real.cos self r h sectorCount).position 0
        = some ⟨r, -h / 2, 0⟩ ∧
     (CylinderTree.construct Real.sin Real.cos self r h sectorCount).position 1
        = some ⟨r, h / 2, 0⟩ ∧
     (CylinderTree.construct Real.sin Real.cos self r h sectorCount).position
        (2 * sectorCount.toNat)
        = some ⟨r * Real.cos (2 * PI_31416), -h / 2, r * Real.sin (2 * PI_31416)⟩ ∧
     (CylinderTree.construct Real.sin Real.cos self r h sectorCount).position
        (2 * sectorCount.toNat + 1)
        = some ⟨r * Real.cos (2 * PI_31416), h / 2, r * Real.sin (2 * PI_31416)⟩) ∧
    ((CylinderNoTex.construct Real.sin Real.cos self r h sectorCount).position 0
        = some ⟨r, -h / 2, 0⟩ ∧
     (CylinderNoTex.construct Real.sin Real.cos self r h sectorCount).position 1
        = some ⟨r, h / 2, 0⟩ ∧
     (CylinderNoTex.construct Real.sin Real.cos self r h sectorCount).position
        (2 * sectorCount.toNat)
        = some ⟨r * Real.cos (2 * PI_31416), -h / 2, r * Real.sin (2 * PI_31416)⟩ ∧
     (CylinderNoTex.construct Real.sin Real.cos self r h sectorCount).position
        (2 * sectorCount.toNat + 1)
        = some ⟨r * Real.cos (2 * PI_31416), h / 2, r * Real.sin (2 * PI_31416)⟩) ∧
    (0 < r * Real.sin (2 * PI_31416) ∧ r * Real.sin (2 * PI_31416) < 2 / 100000 * r) ∧
    ((1 - 2 / 10 ^ 10) * r < r * Real.cos (2 * PI_31416) ∧ r * Real.cos (2 * PI_31416) < r) := by
  obtain ⟨s0, s1, c0, c1⟩ := seam_trig
  have a0 := CylinderTree_rim_position Real.sin Real.cos self r h sectorCount hr h3 0 (by omega)
  have aS := CylinderTree_rim_position Real.sin Real.cos self r h sectorCount hr h3
    sectorCount.toNat (le_refl _)
  have b0 := CylinderNoTex_rim_position Real.sin Real.cos self r h sectorCount hr h3 0 (by omega)
  have bS := CylinderNoTex_rim_position Real.sin Real.cos self r h sectorCount hr h3
    sectorCount.toNat (le_refl _)
  rw [seam_angle sectorCount h3] at aS bS
  simp only [Nat.cast_zero, zero_mul, Real.cos_zero, Real.sin_zero, mul_one, mul_zero,
    Nat.mul_zero, Nat.zero_add] at a0 b0
  refine ⟨⟨a0.1, a0.2, aS.1, aS.2⟩, ⟨b0.1, b0.2, bS.1, bS.2⟩, ⟨by positivity, ?_⟩, ?_, ?_⟩
  · nlinarith
  · nlinarith
  · nlinarith

/-- Witness for the amended C27: radius `1`, height `2`, four sectors. -/
theorem cylinder_seam_closes_approximately_witness :
    (CylinderTree.construct Real.sin Real.cos ⟨0, 0, 0⟩ 1 2 4).position (2 * (4 : Int).toNat)
      = some ⟨1 * Real.cos (2 * PI_31416), -2 / 2, 1 * Real.sin (2 * PI_31416)⟩ ∧
    0 < 1 * Real.sin (2 * PI_31416) :=
  ⟨(cylinder_seam_closes_approximately ⟨0, 0, 0⟩ 1 2 4 (by norm_num) (by decide)).1.2.2.1,
   (cylinder_seam_closes_approximately ⟨0, 0, 0⟩ 1 2 4 (by norm_num) (by decide)).2.2.1.1⟩

/-- C27 (counterexample): `CylinderTree` and `CylinderNoTex` built with radius `1`, height `2`
and four sectors in real arithmetic: side vertex `8 = 2·sectorCount` does not have the position
of side vertex `0`, and side vertex `9` does not have the position of side vertex `1`. -/
theorem cylinder_seam_not_closed :
    (CylinderTree.construct Real.sin Real.cos ⟨0, 0, 0⟩ 1 2 4).position 8
      ≠ (CylinderTree.construct Real.sin Real.cos ⟨0, 0, 0⟩ 1 2 4).position 0 ∧
    (CylinderTree.construct Real.sin Real.cos ⟨0, 0, 0⟩ 1 2 4).position 9
      ≠ (CylinderTree.construct Real.sin Real.cos ⟨0, 0, 0⟩ 1 2 4).position 1 ∧
    (CylinderNoTex.construct Real.sin Real.cos ⟨0, 0, 0⟩ 1 2 4).position 8
      ≠ (CylinderNoTex.construct Real.sin Real.cos ⟨0, 0, 0⟩ 1 2 4).position 0 ∧
    (CylinderNoTex.construct Real.sin Real.cos ⟨0, 0, 0⟩ 1 2 4).position 9
      ≠ (CylinderNoTex.construct Real.sin Real.cos ⟨0, 0, 0⟩ 1 2 4).position 1 := by
  obtain ⟨s0, _, _, _⟩ := seam_trig
  have a0 := CylinderTree_rim_position Real.sin Real.cos ⟨0, 0, 0⟩ 1 2 4 (by norm_num)
    (by decide) 0 (by decide)
  have aS := CylinderTree_rim_position Real.sin Real.cos ⟨0, 0, 0⟩ 1 2 4 (by norm_num)
    (by decide) 4 (by decide)
  have b0 := CylinderNoTex_rim_position Real.sin Real.cos ⟨0, 0, 0⟩ 1 2 4 (by norm_num)
    (by decide) 0 (by decide)
  have bS := CylinderNoTex_rim_position Real.sin Real.cos ⟨0, 0, 0⟩ 1 2 4 (by norm_num)
    (by decide) 4 (by decide)
  have ang : ((4 : Nat) : ℝ) * (2 * PI_31416 / ((4 : Int) : ℝ)) = 2 * PI_31416 := by
    push_cast; ring
  rw [ang] at aS bS
  have hne : ∀ y : ℝ, (some (⟨1 * Real.cos (2 * PI_31416), y, 1 * Real.sin (2 * PI_31416)⟩
      : Vec3 ℝ) : Option (Vec3 ℝ))
      ≠ some ⟨1 * Real.cos (((0 : Nat) : ℝ) * (2 * PI_31416 / ((4 : Int) : ℝ))), y,
              1 * Real.sin (((0 : Nat) : ℝ) * (2 * PI_31416 / ((4 : Int) : ℝ)))⟩ := by
    intro y hEq
    have hz := congrArg Vec3.z (Option.some.inj hEq)
    simp at hz
    linarith
  refine ⟨?_, ?_, ?_, ?_⟩
  · exact fun hEq => hne _ (aS.1.symm.trans (hEq.trans a0.1))
  · exact fun hEq => hne _ (aS.2.symm.trans (hEq.trans a0.2))
  · exact fun hEq => hne _ (bS.1.symm.trans (hEq.trans b0.1))
  · exact fun hEq => hne _ (bS.2.symm.trans (hEq.trans b0.2))

end SeamReal

section SegmentReads
variable {α : Type}

/-- The segment stored right after `6 p` floats. -/
theorem segmentAt_located (pre rest : List α) (p : Nat) (hp : pre.length = 6 * p)
    (a0 a1 a2 b0 b1 b2 : α) :
    segmentAt (pre ++ ([a0, a1, a2, b0, b1, b2] ++ rest)) p
      = some (⟨a0, a1, a2⟩, ⟨b0, b1, b2⟩) := by
  have look : ∀ k : Nat, (pre ++ ([a0, a1, a2, b0, b1, b2] ++ rest))[6 * p + k]?
      = ([a0, a1, a2, b0, b1, b2] ++ rest)[k]? := by
    intro k
    rw [List.getElem?_append_right (by omega)]
    congr 1
    omega
  have e0 : 3 * (2 * p) = 6 * p + 0 := by ring
  have e1 : 3 * (2 * p) + 1 = 6 * p + 1 := by ring
  have e2 : 3 * (2 * p) + 2 = 6 * p + 2 := by ring
  have e3 : 3 * (2 * p + 1) = 6 * p + 3 := by ring
  have e4 : 3 * (2 * p + 1) + 1 = 6 * p + 4 := by ring
  have e5 : 3 * (2 * p + 1) + 2 = 6 * p + 5 := by ring
  have ha : readVec3 (pre ++ ([a0, a1, a2, b0, b1, b2] ++ rest)) (2 * p) = some ⟨a0, a1, a2⟩ := by
    refine readVec3_of _ _ _ _ _ ?_ ?_ ?_
    · rw [e0, look]; simp
    · rw [e1, look]; simp
    · rw [e2, look]; simp
  have hb : readVec3 (pre ++ ([a0, a1, a2, b0, b1, b2] ++ rest)) (2 * p + 1)
      = some ⟨b0, b1, b2⟩ := by
    refine readVec3_of _ _ _ _ _ ?_ ?_ ?_
    · rw [e3, look]; simp
    · rw [e4, look]; simp
    · rw [e5, look]; simp
  simp only [segmentAt, ha, hb]

end SegmentReads

section FractalLayout
variable {α : Type} [LinearOrderedField α]

theorem FractalTree_layout_length (sin cos radians : α → α) (branchAngle : α) (d : Nat) :
    ∀ start direction : Vec3 α,
      (FractalTree.layout sin cos radians branchAngle d start direction).length
        = 6 * (2 ^ d - 1) := by
  induction d with
  | zero => intro _ _; rfl
  | succ d ih =>
    intro start direction
    simp only [FractalTree.layout, List.length_append, List.length_cons, List.length_nil, ih]
    have hp : 1 ≤ 2 ^ d := Nat.one_le_two_pow
    have e : 2 ^ (d + 1) = 2 * 2 ^ d := by ring
    omega

/-- A call of `generateBranches` at depth `d ≥ 0` returns as soon as the call stack may hold
`d + 1` frames, and appends the pre-order layout. -/
theorem FractalTree_generateBranches_closed (sin cos radians : α → α) (branchAngle : α)
    (d : Nat) : ∀ (fuel : Nat) (start direction : Vec3 α) (vertices : List α), d < fuel →
      FractalTree.generateBranches sin cos radians branchAngle fuel start direction
          (d : Int) vertices
        = some (vertices ++ FractalTree.layout sin cos radians branchAngle d start direction) := by
  induction d with
  | zero =>
    intro fuel start direction vertices hf
    obtain ⟨f, rfl⟩ : ∃ f, fuel = f + 1 := ⟨fuel - 1, by omega⟩
    simp [FractalTree.generateBranches, FractalTree.layout]
  | succ d ih =>
    intro fuel start direction vertices hf
    obtain ⟨f, rfl⟩ : ∃ f, fuel = f + 1 := ⟨fuel - 1, by omega⟩
    have hd : ((d + 1 : Nat) : Int) ≠ 0 := by omega
    have hd1 : ((d + 1 : Nat) : Int) - 1 = (d : Int) := by omega
    have hfd : d < f := by omega
    rw [FractalTree.generateBranches]
    simp only [hd, if_false, hd1, ih f _ _ _ hfd, Option.some_bind, FractalTree.layout,
      List.append_assoc]

/-- Where the layout of a call sits in the layout of the whole run. -/
theorem FractalTree_call_located (sin cos radians : α → α) (branchAngle : α) (D : Nat)
    (s0 v0 : Vec3 α) (d p : Nat) (s v : Vec3 α)
    (h : FractalTree.Call sin cos radians branchAngle D s0 v0 d p s v) :
    ∃ pre post, FractalTree.layout sin cos radians branchAngle D s0 v0
        = pre ++ (FractalTree.layout sin cos radians branchAngle d s v ++ post) ∧
      pre.length = 6 * p := by
  induction h with
  | root => exact ⟨[], [], by simp, rfl⟩
  | left d p s v _ ih =>
    obtain ⟨pre, post, he, hl⟩ := ih
    refine ⟨pre ++ [s.x, s.y, s.z, (Vec3.add s v).x, (Vec3.add s v).y, (Vec3.add s v).z],
      FractalTree.layout sin cos radians branchAngle d (Vec3.add s v)
        (rotateZ sin cos (-radians branchAngle) (Vec3.scale v (7 / 10))) ++ post, ?_, ?_⟩
    · rw [he]
      simp only [FractalTree.layout, List.append_assoc]
    · simp only [List.length_append, hl, List.length_cons, List.length_nil]
      ring
  | right d p s v _ ih =>
    obtain ⟨pre, post, he, hl⟩ := ih
    refine ⟨pre ++ ([s.x, s.y, s.z, (Vec3.add s v).x, (Vec3.add s v).y, (Vec3.add s v).z]
      ++ FractalTree.layout sin cos radians branchAngle d (Vec3.add s v)
        (rotateZ sin cos (radians branchAngle) (Vec3.scale v (7 / 10)))), post, ?_, ?_⟩
    · rw [he]
      simp only [FractalTree.layout, List.append_assoc]
    · simp only [List.length_append, hl, List.length_cons, List.length_nil,
        FractalTree_layout_length]
      have hp : 1 ≤ 2 ^ d := Nat.one_le_two_pow
      omega

/-- The own segment of a call of depth `d ≥ 1` is where the pre-order layout says. -/
theorem FractalTree_call_segment (sin cos radians : α → α) (branchAngle : α) (D : Nat)
    (s0 v0 : Vec3 α) (d p : Nat) (s v : Vec3 α)
    (h : FractalTree.Call sin cos radians branchAngle D s0 v0 d p s v) (hd : 1 ≤ d) :
    segmentAt (FractalTree.layout sin cos radians branchAngle D s0 v0) p
      = some (s, Vec3.add s v) := by
  obtain ⟨pre, post, he, hl⟩ := FractalTree_call_located sin cos radians branchAngle D s0 v0
    d p s v h
  obtain ⟨e, rfl⟩ : ∃ e, d = e + 1 := ⟨d - 1, by omega⟩
  rw [he]
  simp only [FractalTree.layout, List.append_assoc]
  exact segmentAt_located pre _ p hl _ _ _ _ _ _

theorem ZFlat_append (l1 l2 : List α) (n : Nat) (h : l1.length = 3 * n) (h1 : ZFlat l1)
    (h2 : ZFlat l2) : ZFlat (l1 ++ l2) := by
  intro k z hz
  by_cases hk : k < n
  · rw [List.getElem?_append_left (by omega)] at hz
    exact h1 k z hz
  · rw [List.getElem?_append_right (by omega)] at hz
    have e : 3 * k + 2 - l1.length = 3 * (k - n) + 2 := by omega
    rw [e] at hz
    exact h2 (k - n) z hz

theorem ZFlat_segment (a b : Vec3 α) (ha : a.z = 0) (hb : b.z = 0) :
    ZFlat [a.x, a.y, a.z, b.x, b.y, b.z] := by
  intro k z hz
  match k with
  | 0 => simp at hz; rw [← hz]; exact ha
  | 1 => simp at hz; rw [← hz]; exact hb
  | k + 2 =>
    have e : 3 * (k + 2) + 2 = (3 * k + 2) + 6 := by ring
    rw [e] at hz
    simp at hz

/-- Every vertex of the tree of a call that starts in the plane `z = 0` with a direction in
that plane has `z = 0`. -/
theorem FractalTree_layout_flat (sin cos radians : α → α) (branchAngle : α) (d : Nat) :
    ∀ start direction : Vec3 α, start.z = 0 → direction.z = 0 →
      ZFlat (FractalTree.layout sin cos radians branchAngle d start direction) := by
  induction d with
  | zero =>
    intro _ _ _ _ k z hz
    simp [FractalTree.layout] at hz
  | succ d ih =>
    intro start direction hs hv
    have he : (Vec3.add start direction).z = 0 := by simp [Vec3.add, hs, hv]
    have hl : ∀ angle : α, (rotateZ sin cos angle (Vec3.scale direction (7 / 10))).z = 0 := by
      intro angle
      simp [rotateZ, Vec3.scale, hv]
    simp only [FractalTree.layout]
    refine ZFlat_append _ _ (2 + 2 * (2 ^ d - 1)) ?_
      (ZFlat_append _ _ 2 rfl (ZFlat_segment _ _ hs he) (ih _ _ he (hl _))) (ih _ _ he (hl _))
    simp only [List.length_append, List.length_cons, List.length_nil, FractalTree_layout_length]
    omega

end FractalLayout

section FractalReal

/-- In real arithmetic a child direction is `0.7` times as long as the direction of its
parent. -/
theorem rotateZ_scale_normSq (angle : ℝ) (v : Vec3 ℝ) :
    Vec3.normSq (rotateZ Real.sin Real.cos angle (Vec3.scale v (7 / 10)))
      = (7 / 10) ^ 2 * Vec3.normSq v := by
  have h := Real.sin_sq_add_cos_sq angle
  simp only [Vec3.normSq, rotateZ, Vec3.scale]
  have e : (Real.cos angle * (v.x * (7 / 10)) - Real.sin angle * (v.y * (7 / 10))) ^ 2
      + (Real.sin angle * (v.x * (7 / 10)) + Real.cos angle * (v.y * (7 / 10))) ^ 2
      = (Real.sin angle ^ 2 + Real.cos angle ^ 2) * ((7 / 10) ^ 2 * (v.x ^ 2 + v.y ^ 2)) := by
    ring
  rw [e, h]
  ring

/-- C28: in exact real arithmetic, for `depth ≥ 1` the fractal tree is laid out in pre-order with
connected, geometrically decaying branches.  `buildTree` returns the pre-order layout; segment
`0` is `(0,0,0) → (0, branchLength, 0)`; every vertex has `z = 0`; and for every call of the run
at remaining depth `d ≥ 2` with start `s` and direction `v` whose own segment is segment `p`
(`s → s + v`), the segments `p + 1` and `p + 2^(d−1)` are its two children: both start at the end
point `s + v`, their directions are `v` scaled by `0.7` and rotated about the z axis by
`+branchAngle` and `−branchAngle`, and the squared length of each is `0.7²` times that of `v`. -/
theorem fractal_preorder_layout (radians : ℝ → ℝ) (branchLength branchAngle : ℝ) (D fuel : Nat)
    (hD : 1 ≤ D) (hfuel : D < fuel) :
    ∃ out, FractalTree.buildTree Real.sin Real.cos radians branchLength branchAngle (D : Int) fuel
        = some out ∧
      out = FractalTree.layout Real.sin Real.cos radians branchAngle D ⟨0, 0, 0⟩
        ⟨0, branchLength, 0⟩ ∧
      segmentAt out 0 = some (⟨0, 0, 0⟩, ⟨0, branchLength, 0⟩) ∧
      ZFlat out ∧
      ∀ (d p : Nat) (s v : Vec3 ℝ),
        FractalTree.Call Real.sin Real.cos radians branchAngle D ⟨0, 0, 0⟩ ⟨0, branchLength, 0⟩
          d p s v → 2 ≤ d →
        segmentAt out p = some (s, Vec3.add s v) ∧
        segmentAt out (p + 1) = some (Vec3.add s v, Vec3.add (Vec3.add s v)
          (rotateZ Real.sin Real.cos (radians branchAngle) (Vec3.scale v (7 / 10)))) ∧
        segmentAt out (p + 2 ^ (d - 1)) = some (Vec3.add s v, Vec3.add (Vec3.add s v)
          (rotateZ Real.sin Real.cos (-radians branchAngle) (Vec3.scale v (7 / 10)))) ∧
        Vec3.normSq (rotateZ Real.sin Real.cos (radians branchAngle) (Vec3.scale v (7 / 10)))
          = (7 / 10) ^ 2 * Vec3.normSq v ∧
        Vec3.normSq (rotateZ Real.sin Real.cos (-radians branchAngle) (Vec3.scale v (7 / 10)))
          = (7 / 10) ^ 2 * Vec3.normSq v := by
  have hb := FractalTree_generateBranches_closed Real.sin Real.cos radians branchAngle D fuel
    ⟨0, 0, 0⟩ ⟨0, branchLength, 0⟩ [] hfuel
  rw [List.nil_append] at hb
  refine ⟨_, hb, rfl, ?_, ?_, ?_⟩
  · have h0 := FractalTree_call_segment Real.sin Real.cos radians branchAngle D ⟨0, 0, 0⟩
      ⟨0, branchLength, 0⟩ D 0 _ _ FractalTree.Call.root hD
    rw [h0]
    simp [Vec3.add]
  · exact FractalTree_layout_flat Real.sin Real.cos radians branchAngle D _ _ rfl rfl
  · intro d p s v hc hd
    obtain ⟨e, rfl⟩ : ∃ e, d = e + 2 := ⟨d - 2, by omega⟩
    have hl := FractalTree.Call.left (e + 1) p s v hc
    have hr := FractalTree.Call.right (e + 1) p s v hc
    have e1 : e + 2 - 1 = e + 1 := by omega
    rw [e1]
    exact ⟨FractalTree_call_segment _ _ _ _ _ _ _ _ _ _ _ hc (by omega),
      FractalTree_call_segment _ _ _ _ _ _ _ _ _ _ _ hl (by omega),
      FractalTree_call_segment _ _ _ _ _ _ _ _ _ _ _ hr (by omega),
      rotateZ_scale_normSq _ v, rotateZ_scale_normSq _ v⟩

/-- Witness for C28: depth `2`, branch length `1`, branch angle `30` degrees; the root call has
its segment at index `0` and its children at the indices `1` and `2`. -/
theorem fractal_preorder_layout_witness :
    ∃ out, FractalTree.buildTree Real.sin Real.cos (fun a => a * (Real.pi / 180)) 1 30
        ((2 : Nat) : Int) 3 = some out ∧
      segmentAt out 0 = some (⟨0, 0, 0⟩, ⟨0, 1, 0⟩) ∧
      segmentAt out (0 + 1) = some (Vec3.add ⟨0, 0, 0⟩ ⟨0, 1, 0⟩,
        Vec3.add (Vec3.add ⟨0, 0, 0⟩ ⟨0, 1, 0⟩)
          (rotateZ Real.sin Real.cos ((30 : ℝ) * (Real.pi / 180))
            (Vec3.scale ⟨0, 1, 0⟩ (7 / 10)))) :=
  let ⟨out, h, _, h0, _, hc⟩ := fractal_preorder_layout (fun a => a * (Real.pi / 180)) 1 30 2 3
    (by decide) (by decide)
  ⟨out, h, h0, (hc 2 0 ⟨0, 0, 0⟩ ⟨0, 1, 0⟩ FractalTree.Call.root (le_refl 2)).2.1⟩

end FractalReal

end Hospital
